import Mathlib

/-!
# Group Centric Networking: the per-node GCN service

A shallow embedding of `GcnService` (src/gcn/src/gcnService.cpp) and theorems about
its handlers.

Conventions of the embedding.
* `uint32_t` fields are natural numbers; arithmetic that can wrap is written with an
  explicit `% 4294967296` (`% 65536` for the `uint16_t` packet count).
* `std::map` / `std::unordered_map` are association lists with at most one entry per key;
  `std::multimap` is a list in insertion order (entries of equal key keep their
  insertion order, which is the order `equal_range` walks them in).
* `shared_ptr<ClientSession>` is a session identifier; pointer equality is equality of
  identifiers.
* `getTime()` in seconds and `rand()` are arguments of the handlers that use them.
* Every handler returns the new state together with the list of calls it made to
  `forwardToApp`, `forwardToOTA`, `setAdvTimer`, `setDataTimer` and `setAckTimer`.
  A reached `LOG_FATAL` / failed `LOG_ASSERT` (which ends the process with `exit(1)`)
  is the result `none`.
* The protobuf messages of `GCNMessage.proto` are records; a field whose presence the
  service tests or clears (`has_srcttl`, `has_nottlregen`, `has_uheader`,
  `clear_resilience`, `has_interval`) is an `Option`.
-/

namespace GCN

abbrev GroupId := Nat
abbrev NodeId := Nat
abbrev HashValue := Nat
abbrev SessionId := Nat
abbrev Bytes := List Nat

/-- The key `GIDKey` of Common.h: group id and group source node. -/
structure GIDKey where
  gid : GroupId
  gidSrc : NodeId
deriving DecidableEq, Repr

/-- The key `AdvKey` of gcnService.h: group id, group source node and sequence number. -/
structure AdvKey where
  gid : GroupId
  gidSrc : NodeId
  seq : Nat
deriving DecidableEq, Repr

/-- The enum `AdvertiseType` of the `Advertise` message. -/
inductive AdvertiseType where
  | REGISTER
  | DEREGISTER
deriving DecidableEq, Repr

/-- The message `UnicastHeader`; `resilience` is present or cleared. -/
structure UnicastHeader where
  unicastdest : NodeId
  relaydistance : Nat
  resilience : Option Nat
deriving DecidableEq, Repr

/-- The message `Data`. -/
structure Data where
  gid : GroupId
  srcnode : NodeId
  sequence : Nat
  srcttl : Option Nat
  ttl : Nat
  distance : Nat
  nottlregen : Option Bool
  data : Bytes
  uheader : Option UnicastHeader
deriving DecidableEq, Repr

/-- The message `Advertise`, used over the air and on the client channel. -/
structure Advertise where
  gid : GroupId
  srcnode : NodeId
  sequence : Nat
  srcttl : Nat
  ttl : Nat
  distance : Nat
  probrelay : Nat
  nottlregen : Option Bool
  type : AdvertiseType
  interval : Option Int
deriving DecidableEq, Repr

/-- The message `Ack`. -/
structure Ack where
  gid : GroupId
  srcnode : NodeId
  sequence : Nat
  obligatoryrelay : NodeId
  probabilityofrelay : Nat
deriving DecidableEq, Repr

/-- The message `OTAMessage`: producer node id and the repeated sub-records. -/
structure OTAMessage where
  src : NodeId
  advertise : List Advertise
  ack : List Ack
  data : List Data
deriving DecidableEq, Repr

/-- The message `AppMessage` of the client channel. -/
structure AppMessage where
  pull : List GroupId
  unpull : List GroupId
  data : List Data
  advertise : List Advertise
deriving DecidableEq, Repr

/-- The protobuf `SerializeToString` of the two hashed messages and the service's
`hash<string> make_hash`; neither is part of the sources, so they are arguments. -/
structure Codec where
  serializeData : Data → Bytes
  serializeAdvertise : Advertise → Bytes
  make_hash : Bytes → HashValue

structure RemotePullInfo where
  nodeId : NodeId
  timestamp : Int
deriving DecidableEq, Repr

structure RevPathInfo where
  srcNode : NodeId
  seqNum : Nat
  timestamp : Int
  probRelay : Nat
deriving DecidableEq, Repr

structure DistanceInfo where
  distance : Nat
  latestPacketHash : HashValue
  packetCount : Nat
  packetSrcs : List NodeId
deriving DecidableEq, Repr

/-- The struct `AnnounceInfo`; `pTimer` records whether the announce timer is armed. -/
structure AnnounceInfo where
  pSession : SessionId
  pTimer : Bool
  interval : Int
  probRelay : Nat
  srcTtl : Nat
  seqNum : Nat
  pullSentToApp : Bool
  noTtlRegen : Bool
deriving DecidableEq, Repr

/-- The calls a handler makes to the outside and to the timer setters. -/
inductive Event where
  | appData (pSession : SessionId) (dataMsg : Data)
  | appPull (pSession : SessionId) (gid : GroupId)
  | appUnpull (pSession : SessionId) (gid : GroupId)
  | ota (msg : OTAMessage)
  | advTimer (advertiseMsg : Advertise) (ttl : Nat)
  | dataTimer (dataMsg : Data) (ttl : Nat) (hashVal : HashValue)
  | ackTimer (ackMsg : Ack)
deriving DecidableEq, Repr

/-- The tables and configuration of `class GcnService`. A timer table holds, per key,
the arguments bound to the pending handler. -/
structure GcnService where
  mNodeId : NodeId
  mAlwaysRebroadcast : Bool
  mHashExpireTime : Int
  mReversePathExpireTime : Int
  mRemotePullExpireTime : Int
  mLocalPullTable : List (GroupId × SessionId)
  mRemotePullTable : List (GroupId × RemotePullInfo)
  mAnnounceTable : List (GroupId × AnnounceInfo)
  mReversePathTable : List (GIDKey × RevPathInfo)
  mCoinFlipTable : List (GIDKey × Nat)
  mAckSentTable : List (GIDKey × Nat)
  mDistanceTable : List (GIDKey × DistanceInfo)
  mAckTimerTable : List (GIDKey × Ack)
  mAdvTimerTable : List (GIDKey × (Advertise × Nat))
  mDataTimerTable : List (HashValue × (Data × Nat))
  mAdvSeenSet : List AdvKey
  mHashTable : List (HashValue × Nat)
  mHashTimeTable : List (Int × HashValue)
  mSeqNumByGID : List (GroupId × Nat)
deriving DecidableEq, Repr

/-- The state right after construction: every table empty. -/
def GcnService.init (nodeId : NodeId) (alwaysRebroadcast : Bool)
    (hashExpire pathExpire pullExpire : Int) : GcnService :=
  { mNodeId := nodeId, mAlwaysRebroadcast := alwaysRebroadcast,
    mHashExpireTime := hashExpire, mReversePathExpireTime := pathExpire,
    mRemotePullExpireTime := pullExpire,
    mLocalPullTable := [], mRemotePullTable := [], mAnnounceTable := [],
    mReversePathTable := [], mCoinFlipTable := [], mAckSentTable := [],
    mDistanceTable := [], mAckTimerTable := [], mAdvTimerTable := [],
    mDataTimerTable := [], mAdvSeenSet := [], mHashTable := [], mHashTimeTable := [],
    mSeqNumByGID := [] }

/-! ## Association lists -/

/-- The lookup `find` of a map: the value stored under `k`. -/
def tfind {κ ν : Type} [DecidableEq κ] (k : κ) : List (κ × ν) → Option ν
  | [] => none
  | (k', v) :: t => if k' = k then some v else tfind k t

/-- Assignment through an iterator or `insert` on an absent key: the value under `k`
becomes `v`. -/
def tset {κ ν : Type} [DecidableEq κ] (k : κ) (v : ν) : List (κ × ν) → List (κ × ν)
  | [] => [(k, v)]
  | (k', v') :: t => if k' = k then (k', v) :: t else (k', v') :: tset k v t

/-- The `erase` of a map entry. -/
def terase {κ ν : Type} [DecidableEq κ] (k : κ) : List (κ × ν) → List (κ × ν)
  | [] => []
  | (k', v') :: t => if k' = k then terase k t else (k', v') :: terase k t

/-- The `count(k)` of a multimap. -/
def mcount {κ ν : Type} [DecidableEq κ] (k : κ) (t : List (κ × ν)) : Nat :=
  (t.filter (fun e => decide (e.1 = k))).length

/-- The values of `equal_range(k)` of a multimap, in iteration order. -/
def mrange {κ ν : Type} [DecidableEq κ] (k : κ) (t : List (κ × ν)) : List ν :=
  (t.filter (fun e => decide (e.1 = k))).map Prod.snd

/-- Insert into the time-ordered multimap `HashTimeMap`: after every entry whose key
is not greater. -/
def timeInsert (t : Int) (h : HashValue) : List (Int × HashValue) → List (Int × HashValue)
  | [] => [(t, h)]
  | (t', h') :: rest => if t' ≤ t then (t', h') :: timeInsert t h rest else (t, h) :: (t', h') :: rest

/-! ## Hash table -/

/-- `GcnService::addToHash(string, HashValue&, uint32_t)`: returns the state, the hash
value and whether the value was new. -/
def addToHash (C : Codec) (now : Int) (s : GcnService) (data : Bytes) (ttl : Nat) :
    GcnService × HashValue × Bool :=
  let hashValue := C.make_hash data
  match tfind hashValue s.mHashTable with
  | some _ => (s, hashValue, false)
  | none =>
    ({ s with mHashTable := tset hashValue ttl s.mHashTable,
              mHashTimeTable := timeInsert now hashValue s.mHashTimeTable }, hashValue, true)

/-- The copy that `addToHash(Data&, HashValue&)` serializes: ttl and distance set to 0,
and the relay distance set to 0 when there is a unicast header. -/
def hashedData (dataMsg : Data) : Data :=
  { dataMsg with
    ttl := 0, distance := 0,
    uheader := dataMsg.uheader.map (fun u => { u with relaydistance := 0 }) }

/-- The copy that `addToHash(Advertise&, HashValue&)` serializes. -/
def hashedAdvertise (advMsg : Advertise) : Advertise :=
  { advMsg with ttl := 0, distance := 0 }

/-- `GcnService::addToHash(Data&, HashValue&)`. -/
def addToHashData (C : Codec) (now : Int) (s : GcnService) (dataMsg : Data) :
    GcnService × HashValue × Bool :=
  let ttl := dataMsg.ttl
  addToHash C now s (C.serializeData (hashedData dataMsg)) ttl

/-- `GcnService::addToHash(Advertise&, HashValue&)`. -/
def addToHashAdvertise (C : Codec) (now : Int) (s : GcnService) (advMsg : Advertise) :
    GcnService × HashValue × Bool :=
  let ttl := advMsg.ttl
  addToHash C now s (C.serializeAdvertise (hashedAdvertise advMsg)) ttl

/-- `GcnService::getMaxTTLfromHash`; a missing entry is fatal. -/
def getMaxTTLfromHash (s : GcnService) (hashValue : HashValue) : Option Nat :=
  tfind hashValue s.mHashTable

/-- `GcnService::changeMaxTTL`; a missing entry is fatal. -/
def changeMaxTTL (s : GcnService) (hashValue : HashValue) (ttl : Nat) : Option GcnService :=
  match tfind hashValue s.mHashTable with
  | some _ => some { s with mHashTable := tset hashValue ttl s.mHashTable }
  | none => none

/-! ## Distance table -/

/-- The effect of `GcnService::updateDistanceTable` on `mDistanceTable`; `self` is
`mNodeId`. -/
def distanceUpdate (self : NodeId) (t : List (GIDKey × DistanceInfo)) (gid : GroupId)
    (gidsrc : NodeId) (hashValue : HashValue) (distance : Nat) (otaSrc : NodeId)
    (newToHash AdvMsg : Bool) : List (GIDKey × DistanceInfo) :=
  let key := GIDKey.mk gid gidsrc
  let fresh : DistanceInfo :=
    { distance := distance, latestPacketHash := hashValue, packetCount := 1,
      packetSrcs := [otaSrc] }
  match tfind key t with
  | some info =>
    if info.latestPacketHash = hashValue then
      if otaSrc ∉ info.packetSrcs ∧ gidsrc ≠ self then
        let counted : DistanceInfo :=
          { info with packetCount := (info.packetCount + 1) % 65536,
                      packetSrcs := info.packetSrcs ++ [otaSrc] }
        tset key counted t
      else t
    else if newToHash then
      if AdvMsg then tset key fresh t
      else tset key { info with distance := distance } t
    else t
  | none => tset key fresh t

/-- `GcnService::updateDistanceTable`. -/
def updateDistanceTable (s : GcnService) (gid : GroupId) (gidsrc : NodeId)
    (hashValue : HashValue) (distance : Nat) (otaSrc : NodeId) (newToHash AdvMsg : Bool) :
    GcnService :=
  { s with mDistanceTable :=
      distanceUpdate s.mNodeId s.mDistanceTable gid gidsrc hashValue distance otaSrc newToHash AdvMsg }

/-! ## Transmission and the forwarding timers -/

/-- `GcnService::forwardToOTA(Data&, uint32_t)`: the frame handed to the link carries
`ttl - 1` in 32-bit arithmetic. The event is the message passed to
`forwardToOTA(GroupId, OTAMessage&)`; the drop there of a message whose serialized size
plus the 14 byte header exceeds `MAX_BUFFER_SIZE` is not modelled. -/
def forwardToOTAData (s : GcnService) (dataMsg : Data) (ttl : Nat) : Event :=
  Event.ota { src := s.mNodeId, advertise := [], ack := [],
              data := [{ dataMsg with ttl := (ttl + 4294967295) % 4294967296 }] }

/-- `GcnService::forwardToOTA(Advertise&, uint32_t)`. -/
def forwardToOTAAdvertise (s : GcnService) (advMsg : Advertise) (ttl : Nat) : Event :=
  Event.ota { src := s.mNodeId,
              advertise := [{ advMsg with ttl := (ttl + 4294967295) % 4294967296 }],
              ack := [], data := [] }

/-- `GcnService::forwardToOTA(Ack&)`. -/
def forwardToOTAAck (s : GcnService) (ackMsg : Ack) : Event :=
  Event.ota { src := s.mNodeId, advertise := [], ack := [ackMsg], data := [] }

/-- `GcnService::setAdvTimer`: a pending timer of the same key is deleted first. -/
def setAdvTimer (s : GcnService) (advertiseMsg : Advertise) (ttl : Nat) :
    GcnService × List Event :=
  let key := GIDKey.mk advertiseMsg.gid advertiseMsg.srcnode
  ({ s with mAdvTimerTable := tset key (advertiseMsg, ttl) (terase key s.mAdvTimerTable) },
   [Event.advTimer advertiseMsg ttl])

/-- `GcnService::OnAdvTimeout` for a timer that was not cancelled. -/
def OnAdvTimeout (s : GcnService) (advertiseMsg : Advertise) (ttl : Nat) :
    Option (GcnService × List Event) :=
  let key := GIDKey.mk advertiseMsg.gid advertiseMsg.srcnode
  match tfind key s.mAdvTimerTable with
  | none => none
  | some _ =>
    some ({ s with mAdvTimerTable := terase key s.mAdvTimerTable },
          [forwardToOTAAdvertise s advertiseMsg ttl])

/-- `GcnService::setDataTimer`: a pending timer of the same hash is deleted first. -/
def setDataTimer (s : GcnService) (dataMsg : Data) (ttl : Nat) (hashVal : HashValue) :
    GcnService × List Event :=
  ({ s with mDataTimerTable := tset hashVal (dataMsg, ttl) (terase hashVal s.mDataTimerTable) },
   [Event.dataTimer dataMsg ttl hashVal])

/-- `GcnService::OnDataTimeout` for a timer that was not cancelled. -/
def OnDataTimeout (s : GcnService) (dataMsg : Data) (ttl : Nat) (hashVal : HashValue) :
    Option (GcnService × List Event) :=
  match tfind hashVal s.mDataTimerTable with
  | none => none
  | some _ =>
    some ({ s with mDataTimerTable := terase hashVal s.mDataTimerTable },
          [forwardToOTAData s dataMsg ttl])

/-- `GcnService::setAckTimer`: nothing is done when a timer of the key is pending. -/
def setAckTimer (s : GcnService) (ackMsg : Ack) : GcnService × List Event :=
  let key := GIDKey.mk ackMsg.gid ackMsg.srcnode
  ({ s with mAckTimerTable :=
       match tfind key s.mAckTimerTable with
       | none => tset key ackMsg s.mAckTimerTable
       | some _ => s.mAckTimerTable },
   [Event.ackTimer ackMsg])

/-- `GcnService::OnAckTimeout` for a timer that was not cancelled. The division by the
number of advertising neighbours has no result when that number is 0. -/
def OnAckTimeout (s : GcnService) (ackMsg : Ack) : Option (GcnService × List Event) :=
  let key := GIDKey.mk ackMsg.gid ackMsg.srcnode
  match tfind key s.mAckTimerTable with
  | none => none
  | some _ =>
    match tfind key s.mReversePathTable with
    | none => none
    | some rev =>
      let probRelay := rev.probRelay
      if probRelay > 100 then
        match tfind key s.mDistanceTable with
        | none => none
        | some info =>
          let numNodes := info.packetSrcs.length % 4294967296
          if numNodes = 0 then none
          else
            let prob := probRelay / numNodes
            let ackMsg := { ackMsg with probabilityofrelay := prob }
            some ({ s with mAckTimerTable := terase key s.mAckTimerTable },
                  [forwardToOTAAck s ackMsg])
      else
        let ackMsg := { ackMsg with probabilityofrelay := probRelay }
        some ({ s with mAckTimerTable := terase key s.mAckTimerTable },
              [forwardToOTAAck s ackMsg])

/-- The pending advertise timer of `key` expires (no effect when none is pending). -/
def advTimerExpires (s : GcnService) (key : GIDKey) : Option (GcnService × List Event) :=
  match tfind key s.mAdvTimerTable with
  | none => some (s, [])
  | some (advertiseMsg, ttl) => OnAdvTimeout s advertiseMsg ttl

/-- The pending data timer of `hashVal` expires (no effect when none is pending). -/
def dataTimerExpires (s : GcnService) (hashVal : HashValue) : Option (GcnService × List Event) :=
  match tfind hashVal s.mDataTimerTable with
  | none => some (s, [])
  | some (dataMsg, ttl) => OnDataTimeout s dataMsg ttl hashVal

/-- The pending ACK timer of `key` expires (no effect when none is pending). -/
def ackTimerExpires (s : GcnService) (key : GIDKey) : Option (GcnService × List Event) :=
  match tfind key s.mAckTimerTable with
  | none => some (s, [])
  | some ackMsg => OnAckTimeout s ackMsg

/-! ## ADVERTISE from the network -/

/-- The test `groupNode` of the three network handlers: a local subscriber or an
announce entry for the group. -/
def groupNode (s : GcnService) (gid : GroupId) : Bool :=
  decide (mcount gid s.mLocalPullTable > 0) || decide (mcount gid s.mAnnounceTable > 0)

/-- The `insert` of `set<AdvKey>`. -/
def advSeenInsert (k : AdvKey) (set : List AdvKey) : List AdvKey :=
  if k ∈ set then set else set ++ [k]

/-- The effect on `mReversePathTable` of the reverse-path update of
`processNetworkAdvertise` for a frame new to the hash. The timestamp is the integer of
the clock; the source keeps it in an `int`. -/
def reversePathUpdate (now : Int) (t : List (GIDKey × RevPathInfo)) (gid : GroupId)
    (gidsrc : NodeId) (seq : Nat) (msgOtaSrc : NodeId) (probRelay : Nat) :
    List (GIDKey × RevPathInfo) :=
  let key := GIDKey.mk gid gidsrc
  let mInfo : RevPathInfo :=
    { srcNode := msgOtaSrc, seqNum := seq, timestamp := now, probRelay := probRelay }
  match tfind key t with
  | some info => if seq > info.seqNum then tset key mInfo t else t
  | none => tset key mInfo t

/-- The reverse-path update of `processNetworkAdvertise` for a frame new to the hash. -/
def updateReversePath (now : Int) (s : GcnService) (gid : GroupId) (gidsrc : NodeId)
    (seq : Nat) (msgOtaSrc : NodeId) (probRelay : Nat) : GcnService :=
  { s with mReversePathTable :=
      reversePathUpdate now s.mReversePathTable gid gidsrc seq msgOtaSrc probRelay }

/-- The advertise-override branch of `processNetworkAdvertise`: push PULL to the source
session once when the announce interval is 0. -/
def overridePull (s : GcnService) (gid : GroupId) : GcnService × List Event :=
  match tfind gid s.mAnnounceTable with
  | some annc =>
    if annc.interval = 0 ∧ annc.pullSentToApp = false then
      ({ s with mAnnounceTable := tset gid { annc with pullSentToApp := true } s.mAnnounceTable },
       [Event.appPull annc.pSession gid])
    else (s, [])
  | none => (s, [])

/-- `GcnService::processNetworkAdvertise`. -/
def processNetworkAdvertise (C : Codec) (now : Int) (s : GcnService) (advertiseMsg : Advertise)
    (msgOtaSrc : NodeId) : Option (GcnService × List Event) :=
  let advertiseMsg := { advertiseMsg with distance := (advertiseMsg.distance + 1) % 4294967296 }
  let hashed := addToHashAdvertise C now s advertiseMsg
  let s := hashed.1
  let hashValue := hashed.2.1
  let newToHash := hashed.2.2
  let gid := advertiseMsg.gid
  let srcTtl := advertiseMsg.srcttl
  let gidsrc := advertiseMsg.srcnode
  let ttl := advertiseMsg.ttl
  let seq := advertiseMsg.sequence
  let distance := advertiseMsg.distance
  let probRelay := advertiseMsg.probrelay
  let isGroup := groupNode s gid
  let s :=
    if !isGroup then
      if ttl ≠ 0 then { s with mAdvSeenSet := advSeenInsert (AdvKey.mk gid gidsrc seq) s.mAdvSeenSet }
      else s
    else { s with mAdvSeenSet := advSeenInsert (AdvKey.mk gid gidsrc seq) s.mAdvSeenSet }
  let s := updateDistanceTable s gid gidsrc hashValue distance msgOtaSrc newToHash true
  let s := if newToHash then updateReversePath now s gid gidsrc seq msgOtaSrc probRelay else s
  if isGroup then
    if newToHash then
      let fwd :=
        if advertiseMsg.nottlregen.isNone then setAdvTimer s advertiseMsg srcTtl
        else if ttl ≠ 0 then setAdvTimer s advertiseMsg ttl
        else (s, [])
      let ackMsg : Ack :=
        { gid := gid, srcnode := gidsrc, sequence := seq, obligatoryrelay := msgOtaSrc,
          probabilityofrelay := 0 }
      let acked := setAckTimer fwd.1 ackMsg
      let pulled := overridePull acked.1 gid
      some (pulled.1, fwd.2 ++ acked.2 ++ pulled.2)
    else some (s, [])
  else
    if ttl ≠ 0 then
      if newToHash then some (setAdvTimer s advertiseMsg ttl)
      else
        match getMaxTTLfromHash s hashValue with
        | none => none
        | some maxTTL =>
          if ttl > maxTTL then
            match changeMaxTTL s hashValue ttl with
            | none => none
            | some s =>
              match tfind (GIDKey.mk gid gidsrc) s.mDistanceTable with
              | none => none
              | some info =>
                let advertiseMsg := { advertiseMsg with distance := info.distance }
                some (setAdvTimer s advertiseMsg ttl)
          else some (s, [])
    else some (s, [])

/-! ## DATA from the network -/

/-- `GcnService::preProcessData`: hash, distance table and local delivery. `pSession` is
the client session a record came from, `none` for a frame received over the air. -/
def preProcessData (C : Codec) (now : Int) (s : GcnService) (dataMsg : Data)
    (msgOtaSrc : NodeId) (pSession : Option SessionId) :
    GcnService × HashValue × Bool × List Event :=
  let hashed := addToHashData C now s dataMsg
  let s := hashed.1
  let hashValue := hashed.2.1
  let newToHash := hashed.2.2
  let gid := dataMsg.gid
  let gidsrc := dataMsg.srcnode
  let distance := dataMsg.distance
  let s := updateDistanceTable s gid gidsrc hashValue distance msgOtaSrc newToHash false
  let evs : List Event :=
    if newToHash then
      match dataMsg.uheader with
      | some uheader =>
        if uheader.unicastdest = s.mNodeId then
          (match tfind gid s.mAnnounceTable with
           | some annc => [Event.appData annc.pSession dataMsg]
           | none => [])
          ++ (mrange gid s.mLocalPullTable).map (fun sub => Event.appData sub dataMsg)
        else []
      | none =>
        ((mrange gid s.mLocalPullTable).filter (fun sub => decide (pSession ≠ some sub))).map
          (fun sub => Event.appData sub dataMsg)
    else []
  (s, hashValue, newToHash, evs)

/-- The unicast branch of `processNetworkData`, entered for a frame with a unicast
header `uheader`. -/
def forwardUnicast (s : GcnService) (dataMsg : Data) (uheader : UnicastHeader)
    (hashValue : HashValue) (newToHash isGroup usingAck : Bool) : GcnService × List Event :=
  let gid := dataMsg.gid
  let ttl := dataMsg.ttl
  if newToHash ∧ uheader.unicastdest ≠ s.mNodeId then
    let relayDistance := uheader.relaydistance
    let myDistance :=
      match tfind (GIDKey.mk gid uheader.unicastdest) s.mDistanceTable with
      | some info => info.distance
      | none => 0
    let relayed : Data :=
      { dataMsg with uheader := some { uheader with relaydistance := myDistance - 1 } }
    if myDistance ≠ 0 ∧ myDistance ≤ relayDistance then
      if usingAck ∧ ((isGroup ∧ s.mAlwaysRebroadcast) ∨ mcount gid s.mRemotePullTable ≠ 0) then
        setDataTimer s relayed 1 hashValue
      else if !usingAck then
        if ttl ≠ 0 ∧ (!isGroup ∨ dataMsg.nottlregen.isSome) then
          setDataTimer s relayed ttl hashValue
        else if isGroup then
          setDataTimer s relayed (dataMsg.srcttl.getD 0) hashValue
        else (s, [])
      else (s, [])
    else (s, [])
  else (s, [])

/-- The broadcast branch of `processNetworkData`, entered for a frame without unicast
header whose source node is not this node. -/
def forwardBroadcast (s : GcnService) (dataMsg : Data) (hashValue : HashValue)
    (newToHash isGroup usingAck : Bool) : Option (GcnService × List Event) :=
  let gid := dataMsg.gid
  let gidsrc := dataMsg.srcnode
  let ttl := dataMsg.ttl
  if usingAck then
    if newToHash ∧ ((isGroup ∧ s.mAlwaysRebroadcast) ∨ mcount gid s.mRemotePullTable ≠ 0) then
      some (setDataTimer s dataMsg 1 hashValue)
    else some (s, [])
  else
    let srcTtl := dataMsg.srcttl.getD 0
    if isGroup then
      if newToHash then
        if dataMsg.nottlregen.isNone then some (setDataTimer s dataMsg srcTtl hashValue)
        else if ttl ≠ 0 then some (setDataTimer s dataMsg ttl hashValue)
        else some (s, [])
      else some (s, [])
    else if ttl ≠ 0 then
      if newToHash then some (setDataTimer s dataMsg ttl hashValue)
      else
        match getMaxTTLfromHash s hashValue with
        | none => none
        | some maxTTL =>
          if dataMsg.ttl > maxTTL then
            match changeMaxTTL s hashValue ttl with
            | none => none
            | some s =>
              match tfind (GIDKey.mk gid gidsrc) s.mDistanceTable with
              | none => none
              | some info =>
                some (setDataTimer s { dataMsg with distance := info.distance } ttl hashValue)
          else some (s, [])
    else some (s, [])

/-- `GcnService::processNetworkData`. -/
def processNetworkData (C : Codec) (now : Int) (s : GcnService) (dataMsg : Data)
    (msgOtaSrc : NodeId) : Option (GcnService × List Event) :=
  let dataMsg := { dataMsg with distance := (dataMsg.distance + 1) % 4294967296 }
  let pre := preProcessData C now s dataMsg msgOtaSrc none
  let s := pre.1
  let hashValue := pre.2.1
  let newToHash := pre.2.2.1
  let evs := pre.2.2.2
  let isGroup := groupNode s dataMsg.gid
  let usingAck := dataMsg.srcttl.isNone
  match dataMsg.uheader with
  | some uheader =>
    let fwd := forwardUnicast s dataMsg uheader hashValue newToHash isGroup usingAck
    some (fwd.1, evs ++ fwd.2)
  | none =>
    if dataMsg.srcnode ≠ s.mNodeId then
      match forwardBroadcast s dataMsg hashValue newToHash isGroup usingAck with
      | none => none
      | some fwd => some (fwd.1, evs ++ fwd.2)
    else some (s, evs)

/-! ## ACK from the network -/

/-- `GcnService::coinFlip`, with the value of `rand()` as argument. -/
def coinFlip (rand : Nat) (prob : Nat) : Bool :=
  decide (rand % 100 < prob)

/-- The update of `mCoinFlipTable` / `mAckSentTable` in `processNetworkAck`: insert when
absent, raise when the sequence number is greater. -/
def recordSeq (key : GIDKey) (seq : Nat) (t : List (GIDKey × Nat)) : List (GIDKey × Nat) :=
  match tfind key t with
  | none => tset key seq t
  | some old => if seq > old then tset key seq t else t

/-- The search loop over `equal_range(gid)` at the end of `processNetworkAck`: the first
entry naming `node` gets its time stamp reset; `none` when there is no such entry. -/
def refreshRemotePull (gid : GroupId) (node : NodeId) (currTime : Int) :
    List (GroupId × RemotePullInfo) → Option (List (GroupId × RemotePullInfo))
  | [] => none
  | e :: t =>
    if e.1 = gid ∧ e.2.nodeId = node then some ((e.1, { e.2 with timestamp := currTime }) :: t)
    else (refreshRemotePull gid node currTime t).map (fun t' => e :: t')

/-- The final block of `processNetworkAck`: refresh or add the remote pull entry. -/
def addRemotePullEntry (s : GcnService) (gid : GroupId) (msgOtaSrc : NodeId) (currTime : Int) :
    GcnService :=
  match refreshRemotePull gid msgOtaSrc currTime s.mRemotePullTable with
  | some t => { s with mRemotePullTable := t }
  | none =>
    { s with mRemotePullTable :=
        s.mRemotePullTable ++ [(gid, { nodeId := msgOtaSrc, timestamp := currTime })] }

/-- The body shared by the obligatory-relay and the coin-flip branch of
`processNetworkAck`: forward the ACK up the reverse path unless this node is a group
node or already sent an ACK for the sequence number. -/
def relayAck (s : GcnService) (ackMsg : Ack) (rev : RevPathInfo) (isGroup ackSent : Bool) :
    GcnService × List Event :=
  let key := GIDKey.mk ackMsg.gid ackMsg.srcnode
  if !isGroup ∧ !ackSent then
    let timed := setAckTimer s { ackMsg with obligatoryrelay := rev.srcNode }
    ({ timed.1 with mAckSentTable := recordSeq key ackMsg.sequence timed.1.mAckSentTable }, timed.2)
  else (s, [])

/-- `GcnService::processNetworkAck`; `rand` is the value `rand()` returns if the coin is
flipped. -/
def processNetworkAck (now : Int) (rand : Nat) (s : GcnService) (ackMsg : Ack)
    (msgOtaSrc : NodeId) : Option (GcnService × List Event) :=
  let currTime := now
  let gid := ackMsg.gid
  let seq := ackMsg.sequence
  let gidsrc := ackMsg.srcnode
  let obligRelay := ackMsg.obligatoryrelay
  let probRelay := ackMsg.probabilityofrelay
  let key := GIDKey.mk gid gidsrc
  let isGroup := groupNode s gid
  let seenAdv := decide (AdvKey.mk gid gidsrc seq ∈ s.mAdvSeenSet)
  let coinFlipped :=
    match tfind key s.mCoinFlipTable with
    | none => false
    | some old => !decide (seq > old)
  let ackSent :=
    match tfind key s.mAckSentTable with
    | none => false
    | some old => !decide (seq > old)
  if gidsrc = s.mNodeId then
    match tfind gid s.mAnnounceTable with
    | some annc =>
      if annc.pullSentToApp = false then
        let sent : AnnounceInfo := { annc with pullSentToApp := true }
        let s := { s with mAnnounceTable := tset gid sent s.mAnnounceTable }
        some (addRemotePullEntry s gid msgOtaSrc currTime, [Event.appPull annc.pSession gid])
      else some (addRemotePullEntry s gid msgOtaSrc currTime, [])
    | none => some (s, [])
  else if obligRelay = s.mNodeId then
    match tfind key s.mReversePathTable with
    | none => none
    | some rev =>
      let relayed := relayAck s ackMsg rev isGroup ackSent
      some (addRemotePullEntry relayed.1 gid msgOtaSrc currTime, relayed.2)
  else if seenAdv ∧ !coinFlipped ∧ probRelay ≠ 0 ∧ coinFlip rand probRelay then
    match tfind key s.mReversePathTable with
    | none => none
    | some rev =>
      let relayed := relayAck s ackMsg rev isGroup ackSent
      let s := { relayed.1 with mCoinFlipTable := recordSeq key seq relayed.1.mCoinFlipTable }
      some (addRemotePullEntry s gid msgOtaSrc currTime, relayed.2)
  else
    if !seenAdv then some (s, [])
    else if coinFlipped then some (s, [])
    else some ({ s with mCoinFlipTable := recordSeq key seq s.mCoinFlipTable }, [])

/-- `GcnService::OnNetworkReceive` on a parsed message: a frame produced by this node is
ignored; otherwise the ACKs, then the ADVERTISEs, then the DATA records are processed.
`rand` is used for every coin flip of the message. -/
def OnNetworkReceive (C : Codec) (now : Int) (rand : Nat) (s : GcnService) (message : OTAMessage) :
    Option (GcnService × List Event) :=
  if message.src ≠ s.mNodeId then
    let step (f : GcnService → Option (GcnService × List Event))
        (acc : Option (GcnService × List Event)) : Option (GcnService × List Event) :=
      match acc with
      | none => none
      | some (s, evs) =>
        match f s with
        | none => none
        | some (s', evs') => some (s', evs ++ evs')
    let acc := message.ack.foldl
      (fun acc ack => step (fun s => processNetworkAck now rand s ack message.src) acc) (some (s, []))
    let acc := message.advertise.foldl
      (fun acc adv => step (fun s => processNetworkAdvertise C now s adv message.src) acc) acc
    message.data.foldl
      (fun acc d => step (fun s => processNetworkData C now s d message.src) acc) acc
  else some (s, [])

/-! ## Origination: the announce timer and the client channel -/

/-- `GcnService::OnAnnounceTimeout` for the announce entry of `gid`. A cancelled timer
(no entry, or no armed timer) runs no handler body. -/
def OnAnnounceTimeout (C : Codec) (now : Int) (s : GcnService) (gid : GroupId) :
    GcnService × List Event :=
  match tfind gid s.mAnnounceTable with
  | none => (s, [])
  | some annc =>
    if annc.pTimer = false then (s, [])
    else
      let seq := (annc.seqNum + 1) % 4294967296
      let ticked : AnnounceInfo :=
        { annc with seqNum := seq, pTimer := decide (annc.interval > 0) }
      let s := { s with mAnnounceTable := tset gid ticked s.mAnnounceTable }
      let message : Advertise :=
        { gid := gid, srcttl := annc.srcTtl, srcnode := s.mNodeId, ttl := annc.srcTtl,
          probrelay := annc.probRelay, distance := 0, sequence := seq,
          nottlregen := if annc.noTtlRegen then some true else none,
          type := AdvertiseType.REGISTER, interval := none }
      let hashed := addToHashAdvertise C now s message
      let s := hashed.1
      let tempHash := hashed.2.1
      let s := updateDistanceTable s gid s.mNodeId tempHash 0 s.mNodeId true true
      (s, [forwardToOTAAdvertise s message annc.srcTtl])

/-- The PULL loop body of `OnClientReceive`. -/
def clientPull (s : GcnService) (pSession : SessionId) (gid : GroupId) : GcnService :=
  { s with mLocalPullTable := s.mLocalPullTable ++ [(gid, pSession)] }

/-- Erase the first entry `(gid, pSession)` of the local pull table. -/
def eraseFirst (gid : GroupId) (pSession : SessionId) :
    List (GroupId × SessionId) → List (GroupId × SessionId)
  | [] => []
  | e :: t => if e.1 = gid ∧ e.2 = pSession then t else e :: eraseFirst gid pSession t

/-- The UNPULL loop body of `OnClientReceive`. -/
def clientUnpull (s : GcnService) (pSession : SessionId) (gid : GroupId) : GcnService :=
  { s with mLocalPullTable := eraseFirst gid pSession s.mLocalPullTable }

/-- The relay distance a unicast record starts with, from the stored distance and the
resilience (`switch (resil)` of `OnClientReceive`), in 32-bit arithmetic. -/
def initialRelayDistance (distance : Nat) (resil : Nat) : Nat :=
  match resil with
  | 0 => (distance + 4294967295) % 4294967296
  | 1 => distance
  | 2 => (distance + 1) % 4294967296
  | _ => (distance + 4294967295) % 4294967296

/-- The DATA loop body of `OnClientReceive`. -/
def clientData (C : Codec) (now : Int) (s : GcnService) (pSession : SessionId) (data : Data) :
    Option (GcnService × List Event) :=
  let data := { data with distance := 0, srcnode := s.mNodeId }
  let gid := data.gid
  let count := (tfind gid s.mSeqNumByGID).getD 0
  let count := (count + 1) % 18446744073709551616
  let s := { s with mSeqNumByGID := tset gid count s.mSeqNumByGID }
  let data := { data with sequence := count % 4294967296 }
  let pre := preProcessData C now s data s.mNodeId (some pSession)
  let s := pre.1
  let evs := pre.2.2.2
  match data.uheader with
  | some uheader =>
    match tfind (GIDKey.mk gid uheader.unicastdest) s.mDistanceTable with
    | none => some (s, evs)
    | some info =>
      if info.distance > 0 then
        let tempRelayDist := initialRelayDistance info.distance (uheader.resilience.getD 0)
        let data : Data :=
          { data with uheader := some { uheader with relaydistance := tempRelayDist,
                                                     resilience := none } }
        match data.srcttl with
        | some srcttl => some (s, evs ++ [forwardToOTAData s data srcttl])
        | none => some (s, evs ++ [forwardToOTAData s data 1])
      else some (s, evs)
  | none =>
    match tfind gid s.mAnnounceTable with
    | none => none
    | some annc =>
      let advertiseOverride := !decide (annc.interval > 0)
      match data.srcttl with
      | some srcttl => some (s, evs ++ [forwardToOTAData s data srcttl])
      | none =>
        if mcount gid s.mRemotePullTable ≠ 0 ∨ advertiseOverride then
          some (s, evs ++ [forwardToOTAData s data 1])
        else some (s, evs)

/-- The ADVERTISE loop body of `OnClientReceive`. A DEREGISTER without entry is fatal,
and so is a first REGISTER whose positive interval is not below the remote pull expire
time. -/
def clientAdvertise (s : GcnService) (pSession : SessionId) (advertise : Advertise) :
    Option GcnService :=
  let gid := advertise.gid
  let srcTtl := advertise.srcttl
  let interval : Int := match advertise.interval with | some i => i | none => -1
  let probRelay : Nat := match advertise.interval with | some _ => advertise.probrelay | none => 0
  match advertise.type with
  | AdvertiseType.DEREGISTER =>
    match tfind gid s.mAnnounceTable with
    | none => none
    | some _ => some { s with mAnnounceTable := terase gid s.mAnnounceTable }
  | AdvertiseType.REGISTER =>
    match tfind gid s.mAnnounceTable with
    | none =>
      let info : AnnounceInfo :=
        { pSession := pSession, pTimer := decide (interval > 0), interval := interval,
          probRelay := probRelay, srcTtl := srcTtl, seqNum := 0, pullSentToApp := false,
          noTtlRegen := decide (interval > 0) && advertise.nottlregen.isSome }
      if interval > 0 ∧ ¬ interval < s.mRemotePullExpireTime then none
      else some { s with mAnnounceTable := tset gid info s.mAnnounceTable }
    | some old =>
      let info : AnnounceInfo :=
        if old.interval ≠ interval then
          { old with pTimer := decide (interval > 0), interval := interval }
        else old
      let info : AnnounceInfo :=
        { info with srcTtl := advertise.srcttl, probRelay := advertise.probrelay,
                    noTtlRegen := advertise.nottlregen.isSome }
      some { s with mAnnounceTable := tset gid info s.mAnnounceTable }

/-- `GcnService::OnClientReceive` on a parsed message: the PULLs, then the UNPULLs, then
the DATA records, then the ADVERTISEs. -/
def OnClientReceive (C : Codec) (now : Int) (s : GcnService) (pSession : SessionId)
    (message : AppMessage) : Option (GcnService × List Event) :=
  let s := message.pull.foldl (fun s gid => clientPull s pSession gid) s
  let s := message.unpull.foldl (fun s gid => clientUnpull s pSession gid) s
  let acc : Option (GcnService × List Event) :=
    message.data.foldl
      (fun acc d =>
        match acc with
        | none => none
        | some (s, evs) =>
          match clientData C now s pSession d with
          | none => none
          | some (s', evs') => some (s', evs ++ evs'))
      (some (s, []))
  message.advertise.foldl
    (fun acc a =>
      match acc with
      | none => none
      | some (s, evs) =>
        match clientAdvertise s pSession a with
        | none => none
        | some s' => some (s', evs))
    acc

/-- `GcnService::closeClientConnection`: every local pull entry and every announce entry
of the session is removed (the announce timer of a removed entry is cancelled with it). -/
def closeClientConnection (s : GcnService) (pSession : SessionId) : GcnService :=
  { s with
    mLocalPullTable := s.mLocalPullTable.filter (fun e => decide (e.2 ≠ pSession)),
    mAnnounceTable := s.mAnnounceTable.filter (fun e => decide (e.2.pSession ≠ pSession)) }

/-- The ADVERTISE as `processNetworkAdvertise` works on it: the distance field counts
this hop (32-bit increment). -/
def Advertise.hop (a : Advertise) : Advertise :=
  { a with distance := (a.distance + 1) % 4294967296 }

/-- The DATA record as `processNetworkData` works on it: the distance field counts this
hop (32-bit increment). -/
def Data.hop (d : Data) : Data :=
  { d with distance := (d.distance + 1) % 4294967296 }

/-- The DATA record with the relay distance of its unicast header `uh` set to `rd`. -/
def Data.withRelayDistance (d : Data) (uh : UnicastHeader) (rd : Nat) : Data :=
  { d with uheader := some { uh with relaydistance := rd } }

/-- The distance stored in a distance table for `key`, 0 when there is no entry
(`myDistance` of `processNetworkData`). -/
def storedDistance (t : List (GIDKey × DistanceInfo)) (key : GIDKey) : Nat :=
  match tfind key t with
  | some info => info.distance
  | none => 0

/-! ## Observations on the calls of a handler -/

/-- The `setAdvTimer` calls among the events: frame and ttl argument. -/
def advSchedules : List Event → List (Advertise × Nat)
  | [] => []
  | Event.advTimer a t :: r => (a, t) :: advSchedules r
  | _ :: r => advSchedules r

/-- The `setDataTimer` calls among the events: frame and ttl argument. -/
def dataSchedules : List Event → List (Data × Nat)
  | [] => []
  | Event.dataTimer d t _ :: r => (d, t) :: dataSchedules r
  | _ :: r => dataSchedules r

/-- The frames handed to the link among the events. -/
def transmissions : List Event → List OTAMessage
  | [] => []
  | Event.ota m :: r => m :: transmissions r
  | _ :: r => transmissions r

/-- The DATA records forwarded to the client session `sub` among the events. -/
def deliveriesTo (sub : SessionId) : List Event → List Data
  | [] => []
  | Event.appData p d :: r => if p = sub then d :: deliveriesTo sub r else deliveriesTo sub r
  | _ :: r => deliveriesTo sub r

/-- The hash value `addToHash` computes for an ADVERTISE. -/
def hashOfAdvertise (C : Codec) (advMsg : Advertise) : HashValue :=
  C.make_hash (C.serializeAdvertise (hashedAdvertise advMsg))

/-- The hash value `addToHash` computes for a DATA record. -/
def hashOfData (C : Codec) (dataMsg : Data) : HashValue :=
  C.make_hash (C.serializeData (hashedData dataMsg))

/-- The number of entries of session `sub` in `LocalSubs[gid]`. -/
def subscriptions (s : GcnService) (gid : GroupId) (sub : SessionId) : Nat :=
  (mrange gid s.mLocalPullTable).count sub

/-- 1 when `sub` is the session of `Announce[gid]`, else 0. -/
def announcements (s : GcnService) (gid : GroupId) (sub : SessionId) : Nat :=
  match tfind gid s.mAnnounceTable with
  | some annc => if annc.pSession = sub then 1 else 0
  | none => 0

/-- The bytes of an optional number: a presence tag, then the value. -/
def optNatBytes : Option Nat → Bytes
  | none => [0]
  | some n => [1, n]

/-- A codec to evaluate the handlers with: every field of the message in order
(optional fields with a presence tag), hashed by a polynomial in 64 bits. -/
def fieldCodec : Codec :=
  { serializeData := fun d =>
      [1, d.gid, d.srcnode, d.sequence] ++ optNatBytes d.srcttl ++ [d.ttl, d.distance]
        ++ optNatBytes (d.nottlregen.map (fun b => if b then 1 else 0))
        ++ (d.data.length :: d.data)
        ++ (match d.uheader with
            | none => [0]
            | some u => [1, u.unicastdest, u.relaydistance] ++ optNatBytes u.resilience),
    serializeAdvertise := fun a =>
      [2, a.gid, a.srcnode, a.sequence, a.srcttl, a.ttl, a.distance, a.probrelay]
        ++ optNatBytes (a.nottlregen.map (fun b => if b then 1 else 0))
        ++ [match a.type with | AdvertiseType.REGISTER => 0 | AdvertiseType.DEREGISTER => 1]
        ++ optNatBytes (a.interval.map Int.toNat),
    make_hash := fun b =>
      b.foldl (fun acc x => (acc * 1000003 + x + 1) % 18446744073709551616) 0 }

/-- A node with id `nodeId`, default expiry times, nothing in its tables. -/
def freshNode (nodeId : NodeId) : GcnService :=
  GcnService.init nodeId false 30 3600 3600

/-- A client message with one PULL. -/
def pullMessage (gid : GroupId) : AppMessage :=
  { pull := [gid], unpull := [], data := [], advertise := [] }

/-- A client message with one ADVERTISE of the given type for group 7: source ttl 2,
interval 1 s, probability of relay 0. -/
def announceMessage (type : AdvertiseType) : AppMessage :=
  { pull := [], unpull := [], data := [],
    advertise := [{ gid := 7, srcnode := 0, sequence := 0, srcttl := 2, ttl := 0, distance := 0,
                    probrelay := 0, nottlregen := none, type := type, interval := some 1 }] }

/-- An ADVERTISE of node 1 for group 7, sequence 1, as a neighbour sends it with the
given ttl. -/
def advertiseOf (ttl : Nat) : Advertise :=
  { gid := 7, srcnode := 1, sequence := 1, srcttl := 2, ttl := ttl, distance := 0,
    probrelay := 0, nottlregen := none, type := AdvertiseType.REGISTER, interval := none }

/-- An ACK-mode broadcast DATA frame of node 1 for group 7, sequence 1. -/
def helloFrame : Data :=
  { gid := 7, srcnode := 1, sequence := 1, srcttl := none, ttl := 0, distance := 0,
    nottlregen := none, data := [104, 101, 108, 108, 111], uheader := none }

/-- Sequential composition of two fallible handler steps, keeping the events of both. -/
def andThen (r : Option (GcnService × List Event))
    (f : GcnService → Option (GcnService × List Event)) : Option (GcnService × List Event) :=
  match r with
  | none => none
  | some (s, evs) =>
    match f s with
    | none => none
    | some (s', evs') => some (s', evs ++ evs')

/-- The ADVERTISE node 1 puts on the wire for group 7 with sequence number 1 after
`announceMessage`: source ttl 2, sent with ttl 1. -/
def originAdvertise : Advertise :=
  { gid := 7, srcnode := 1, sequence := 1, srcttl := 2, ttl := 1, distance := 0,
    probrelay := 0, nottlregen := none, type := AdvertiseType.REGISTER, interval := none }

/-- Node 1 after a client registered as source of group 7 and the announce timer fired
once. -/
def firstTick : Option (GcnService × List Event) :=
  (OnClientReceive fieldCodec 0 (freshNode 1) 1 (announceMessage AdvertiseType.REGISTER)).map
    (fun r => OnAnnounceTimeout fieldCodec 10 r.1 7)

/-- Node 1 after `firstTick`, a DEREGISTER and a new REGISTER of the client. -/
def reRegistered : Option (GcnService × List Event) :=
  andThen (andThen firstTick
      (fun s => OnClientReceive fieldCodec 11 s 1 (announceMessage AdvertiseType.DEREGISTER)))
    (fun s => OnClientReceive fieldCodec 12 s 1 (announceMessage AdvertiseType.REGISTER))

/-- The client message of the source: one DATA record "hello" for group 7 without
source ttl. -/
def helloMessage : AppMessage :=
  { pull := [], unpull := [], advertise := [],
    data := [{ gid := 7, srcnode := 0, sequence := 0, srcttl := none, ttl := 0, distance := 0,
               nottlregen := none, data := [104, 101, 108, 108, 111], uheader := none }] }

/-- The first frame a handler step handed to the link. -/
def sent (r : Option (GcnService × List Event)) : Option OTAMessage :=
  r.bind (fun x => (transmissions x.2).head?)

/-- A node receives a frame from the link (`OnNetworkReceive`); the result holds the
events of this step only. -/
def deliver (C : Codec) (now : Int) (rand : Nat) (node : Option (GcnService × List Event))
    (frame : Option OTAMessage) : Option (GcnService × List Event) :=
  match node, frame with
  | some n, some m => OnNetworkReceive C now rand n.1 m
  | _, _ => none

/-- Scenario S1, node A = node 1: a client (session 1) registered as source of group 7
with source ttl 2, interval 1 s and probability of relay 0. -/
def lineA0 (C : Codec) : Option (GcnService × List Event) :=
  OnClientReceive C 0 (freshNode 1) 1 (announceMessage AdvertiseType.REGISTER)

/-- Scenario S1, node C = node 3: a client (session 1) subscribed to group 7. -/
def lineC0 (C : Codec) : Option (GcnService × List Event) :=
  OnClientReceive C 0 (freshNode 3) 1 (pullMessage 7)

/-- A's announce timer fires. -/
def lineA1 (C : Codec) : Option (GcnService × List Event) :=
  (lineA0 C).map (fun r => OnAnnounceTimeout C 10 r.1 7)

/-- B = node 2, with empty tables, receives A's ADVERTISE. -/
def lineB1 (C : Codec) (rand : Nat) : Option (GcnService × List Event) :=
  deliver C 10 rand (some (freshNode 2, [])) (sent (lineA1 C))

/-- B's advertise timer expires. -/
def lineB2 (C : Codec) (rand : Nat) : Option (GcnService × List Event) :=
  (lineB1 C rand).bind (fun r => advTimerExpires r.1 (GIDKey.mk 7 1))

/-- C receives the ADVERTISE forwarded by B. -/
def lineC1 (C : Codec) (rand : Nat) : Option (GcnService × List Event) :=
  deliver C 10 rand (lineC0 C) (sent (lineB2 C rand))

/-- C's ACK timer expires. -/
def lineC2 (C : Codec) (rand : Nat) : Option (GcnService × List Event) :=
  (lineC1 C rand).bind (fun r => ackTimerExpires r.1 (GIDKey.mk 7 1))

/-- B receives C's ACK. -/
def lineB3 (C : Codec) (rand : Nat) : Option (GcnService × List Event) :=
  deliver C 10 rand (lineB2 C rand) (sent (lineC2 C rand))

/-- B's ACK timer expires. -/
def lineB4 (C : Codec) (rand : Nat) : Option (GcnService × List Event) :=
  (lineB3 C rand).bind (fun r => ackTimerExpires r.1 (GIDKey.mk 7 1))

/-- A receives B's ACK. -/
def lineA2 (C : Codec) (rand : Nat) : Option (GcnService × List Event) :=
  deliver C 10 rand (lineA1 C) (sent (lineB4 C rand))

/-- A's client sends the DATA record. -/
def lineA3 (C : Codec) (rand : Nat) : Option (GcnService × List Event) :=
  (lineA2 C rand).bind (fun r => OnClientReceive C 11 r.1 1 helloMessage)

/-- B receives A's DATA frame. -/
def lineB5 (C : Codec) (rand : Nat) : Option (GcnService × List Event) :=
  deliver C 11 rand (lineB4 C rand) (sent (lineA3 C rand))

/-- B's pending data timer expires. -/
def lineB6 (C : Codec) (rand : Nat) : Option (GcnService × List Event) :=
  (lineB5 C rand).bind (fun r =>
    (r.1.mDataTimerTable.map Prod.fst).head?.bind (fun key => dataTimerExpires r.1 key))

/-- C receives the DATA frame forwarded by B. -/
def lineC3 (C : Codec) (rand : Nat) : Option (GcnService × List Event) :=
  deliver C 11 rand (lineC2 C rand) (sent (lineB6 C rand))

/-- The DATA record of scenario S1 as A stamps it. -/
def helloStamped : Data :=
  { gid := 7, srcnode := 1, sequence := 1, srcttl := none, ttl := 0, distance := 0,
    nottlregen := none, data := [104, 101, 108, 108, 111], uheader := none }

/-- The client message of the subscriber at node C: one unicast DATA record for group 7
addressed to the source node 1, resilience 0 set as the client library does, no source
ttl. -/
def replyMessage : AppMessage :=
  { pull := [], unpull := [], advertise := [],
    data := [{ gid := 7, srcnode := 0, sequence := 0, srcttl := none, ttl := 0, distance := 0,
               nottlregen := none, data := [111, 107],
               uheader := some { unicastdest := 1, relaydistance := 0, resilience := some 0 } }] }

/-- Node C after scenario S1 up to its ACK; its client sends the unicast record. -/
def lineC4 (C : Codec) (rand : Nat) : Option (GcnService × List Event) :=
  (lineC2 C rand).bind (fun r => OnClientReceive C 11 r.1 1 replyMessage)

/-- B receives the unicast frame of C. -/
def lineB7 (C : Codec) (rand : Nat) : Option (GcnService × List Event) :=
  deliver C 11 rand (lineB4 C rand) (sent (lineC4 C rand))

/-- B's pending data timer expires. -/
def lineB8 (C : Codec) (rand : Nat) : Option (GcnService × List Event) :=
  (lineB7 C rand).bind (fun r =>
    (r.1.mDataTimerTable.map Prod.fst).head?.bind (fun key => dataTimerExpires r.1 key))

/-- C receives the frame forwarded by B: the echo of its own record. -/
def lineC5 (C : Codec) (rand : Nat) : Option (GcnService × List Event) :=
  deliver C 11 rand (lineC4 C rand) (sent (lineB8 C rand))

/-- The unicast record as node C stamps it before `preProcessData` hashes it. -/
def replyStamped : Data :=
  { gid := 7, srcnode := 3, sequence := 1, srcttl := none, ttl := 0, distance := 0,
    nottlregen := none, data := [111, 107],
    uheader := some { unicastdest := 1, relaydistance := 0, resilience := some 0 } }

/-- The unicast record as node C hands it to the link: relay distance set, resilience
cleared. -/
def replyWire : Data :=
  { replyStamped with
    uheader := some { unicastdest := 1, relaydistance := 1, resilience := none } }

/-- The frame of C as the neighbour B forwards it: only distance and relay distance
differ from `replyWire`. -/
def replyEcho : Data :=
  { replyStamped with
    distance := 1,
    uheader := some { unicastdest := 1, relaydistance := 0, resilience := none } }

/-- A relay: node 2 with one remote pull entry for group 7 (neighbour 3) and distance 1
to the source node 1 of group 7. -/
def relayNode : GcnService :=
  { freshNode 2 with
    mRemotePullTable := [(7, { nodeId := 3, timestamp := 10 })],
    mDistanceTable := [(GIDKey.mk 7 1, { distance := 1, latestPacketHash := 0, packetCount := 1,
                                         packetSrcs := [1] })] }

/-- Node 2 with the hashes of `advertiseOf 1` and `replyWire` in Hash. -/
def seenBoth : GcnService :=
  { freshNode 2 with
    mHashTable := [(hashOfAdvertise fieldCodec (advertiseOf 1), 1),
                   (hashOfData fieldCodec replyWire, 0)] }

/-- The delay in milliseconds of the timer that `setAckTimer` arms, `rand` being the
value of `rand()`: 100 plus a value from 0 to 99. No timer is armed, and `rand()` is not
called, when a timer of the key is pending. -/
def ackTimerDelay (s : GcnService) (ackMsg : Ack) (rand : Nat) : Option Nat :=
  match tfind (GIDKey.mk ackMsg.gid ackMsg.srcnode) s.mAckTimerTable with
  | none => some (100 + rand % 100)
  | some _ => none

/-- The loop of `hashCleanup` over the time-ordered `mHashTimeTable`: expired entries
are removed from both tables until the first entry that is not expired; an expired entry
without entry in `mHashTable` is fatal. -/
def hashSweep (now expire : Int) :
    List (Int × HashValue) → List (HashValue × Nat) →
      Option (List (Int × HashValue) × List (HashValue × Nat))
  | [], h => some ([], h)
  | (t, hv) :: rest, h =>
    if now - t > expire then
      match tfind hv h with
      | none => none
      | some _ => hashSweep now expire rest (terase hv h)
    else some ((t, hv) :: rest, h)

/-- `GcnService::hashCleanup`. -/
def hashCleanup (now : Int) (s : GcnService) : Option GcnService :=
  match hashSweep now s.mHashExpireTime s.mHashTimeTable s.mHashTable with
  | none => none
  | some r => some { s with mHashTimeTable := r.1, mHashTable := r.2 }

/-- `GcnService::reversePathCleanup`: expired entries are removed. -/
def reversePathCleanup (now : Int) (s : GcnService) : GcnService :=
  let kept :=
    s.mReversePathTable.filter (fun e => !decide (now - e.2.timestamp > s.mReversePathExpireTime))
  { s with mReversePathTable := kept }

/-- The second loop of `remotePullCleanup`, over the announce table: an entry whose PULL
was sent to the application, with neither remote nor local pull entries for its group
and with a positive interval, gets UNPULL pushed to its session and the flag reset. The
events are listed in the order of the table, which keeps the order of insertion; the
`std::map` of the source is walked in the order of the group ids. -/
def unpullSweep (remote : List (GroupId × RemotePullInfo)) (local_ : List (GroupId × SessionId)) :
    List (GroupId × AnnounceInfo) → List (GroupId × AnnounceInfo) × List Event
  | [] => ([], [])
  | (gid, annc) :: t =>
    let rest := unpullSweep remote local_ t
    if annc.pullSentToApp ∧ mcount gid remote = 0 ∧ mcount gid local_ = 0 ∧ annc.interval > 0 then
      ((gid, { annc with pullSentToApp := false }) :: rest.1,
       Event.appUnpull annc.pSession gid :: rest.2)
    else ((gid, annc) :: rest.1, rest.2)

/-- `GcnService::remotePullCleanup`: the expired remote pull entries are removed, then
the announce table is swept. -/
def remotePullCleanup (now : Int) (s : GcnService) : GcnService × List Event :=
  let remote :=
    s.mRemotePullTable.filter (fun e => !decide (now - e.2.timestamp > s.mRemotePullExpireTime))
  let swept := unpullSweep remote s.mLocalPullTable s.mAnnounceTable
  ({ s with mRemotePullTable := remote, mAnnounceTable := swept.1 }, swept.2)

/-- The events that drive the service: a frame from the link (with the value `rand()`
returns for its coin flips), a message or the close of a client session, the expiry of
a timer, and the three periodic clean-ups. -/
inductive Input where
  | network (message : OTAMessage) (rand : Nat)
  | client (pSession : SessionId) (message : AppMessage)
  | close (pSession : SessionId)
  | announce (gid : GroupId)
  | advTimer (key : GIDKey)
  | dataTimer (hashVal : HashValue)
  | ackTimer (key : GIDKey)
  | hashClean
  | pathClean
  | pullClean
deriving DecidableEq, Repr

/-- One handler step of the service at time `now`; `none` when the handler ends in a
fatal log. -/
def handle (C : Codec) (now : Int) (s : GcnService) : Input → Option (GcnService × List Event)
  | Input.network message rand => OnNetworkReceive C now rand s message
  | Input.client pSession message => OnClientReceive C now s pSession message
  | Input.close pSession => some (closeClientConnection s pSession, [])
  | Input.announce gid => some (OnAnnounceTimeout C now s gid)
  | Input.advTimer key => advTimerExpires s key
  | Input.dataTimer hashVal => dataTimerExpires s hashVal
  | Input.ackTimer key => ackTimerExpires s key
  | Input.hashClean => (hashCleanup now s).map (fun s' => (s', []))
  | Input.pathClean => some (reversePathCleanup now s, [])
  | Input.pullClean => some (remotePullCleanup now s)

/-- A run of the service: the inputs with their times, handled in order; the events of
all steps are collected. -/
def run (C : Codec) (s : GcnService) : List (Int × Input) → Option (GcnService × List Event)
  | [] => some (s, [])
  | (now, i) :: rest =>
    match handle C now s i with
    | none => none
    | some (s', evs) =>
      match run C s' rest with
      | none => none
      | some (s'', evs') => some (s'', evs ++ evs')

/-- The `setAckTimer` calls among the events. -/
def ackSchedules : List Event → List Ack
  | [] => []
  | Event.ackTimer a :: r => a :: ackSchedules r
  | _ :: r => ackSchedules r

/-- The PULL messages pushed to client sessions among the events. -/
def pullsPushed : List Event → List (SessionId × GroupId)
  | [] => []
  | Event.appPull p g :: r => (p, g) :: pullsPushed r
  | _ :: r => pullsPushed r

/-- The UNPULL messages pushed to client sessions among the events. -/
def unpullsPushed : List Event → List (SessionId × GroupId)
  | [] => []
  | Event.appUnpull p g :: r => (p, g) :: unpullsPushed r
  | _ :: r => unpullsPushed r

/-- The ACK `processNetworkAdvertise` synthesizes for a received ADVERTISE: group, source
node and sequence number of the frame, the neighbour it came from as obligatory relay. -/
def ackFor (a : Advertise) (ota : NodeId) : Ack :=
  { gid := a.gid, srcnode := a.srcnode, sequence := a.sequence, obligatoryrelay := ota,
    probabilityofrelay := 0 }

/-- Node 3 with a subscriber of group 7 after it received the ADVERTISE (7, 1, seq 1)
from neighbour 2. -/
def oneAdvertise : Option (GcnService × List Event) :=
  andThen (OnClientReceive fieldCodec 0 (freshNode 3) 1 (pullMessage 7))
    (fun s => processNetworkAdvertise fieldCodec 10 s (advertiseOf 1) 2)

/-- The ADVERTISE of node 1 for group 7 with sequence number 2. -/
def secondAdvertise : Advertise :=
  { advertiseOf 1 with sequence := 2 }

/-- Node 3 after `oneAdvertise` and, before the ACK timer expired, the ADVERTISE
(7, 1, seq 2) from neighbour 4. -/
def twoAdvertises : Option (GcnService × List Event) :=
  andThen oneAdvertise (fun s => processNetworkAdvertise fieldCodec 10 s secondAdvertise 4)

/-- The flag `seenAdv` of `processNetworkAck`. -/
def seenAdv (s : GcnService) (ackMsg : Ack) : Bool :=
  decide (AdvKey.mk ackMsg.gid ackMsg.srcnode ackMsg.sequence ∈ s.mAdvSeenSet)

/-- The flag `coinFlipped` of `processNetworkAck`. -/
def coinFlipped (s : GcnService) (ackMsg : Ack) : Bool :=
  match tfind (GIDKey.mk ackMsg.gid ackMsg.srcnode) s.mCoinFlipTable with
  | none => false
  | some old => !decide (ackMsg.sequence > old)

/-- The flag `ackSent` of `processNetworkAck`. -/
def ackSent (s : GcnService) (ackMsg : Ack) : Bool :=
  match tfind (GIDKey.mk ackMsg.gid ackMsg.srcnode) s.mAckSentTable with
  | none => false
  | some old => !decide (ackMsg.sequence > old)

/-- Node 2, not a group participant, after: the ADVERTISE (7, 1, seq 1) from neighbour
1; the ACK for it from neighbour 3 naming node 2 as obligatory relay (its forward to
node 1 is pending); the ADVERTISE (7, 1, seq 2) from neighbour 4. -/
def relayBeforeSecondAck : Option (GcnService × List Event) :=
  andThen (andThen (processNetworkAdvertise fieldCodec 10 (freshNode 2) (advertiseOf 1) 1)
      (fun s => processNetworkAck 10 0 s (ackFor (advertiseOf 1) 2) 3))
    (fun s => processNetworkAdvertise fieldCodec 10 s secondAdvertise 4)

/-- The relay `relayNode` with a reverse path for (7, 1) through neighbour 1. -/
def relayWithPath : GcnService :=
  { relayNode with
    mReversePathTable :=
      [(GIDKey.mk 7 1, { srcNode := 1, seqNum := 1, timestamp := 10, probRelay := 0 })] }

/-- The ADVERTISE of node 1 for group 7, sequence 1, with probability of relay 200. -/
def perNeighbourAdvertise : Advertise :=
  { advertiseOf 1 with probrelay := 200 }

/-- Node 2, not a group participant, after it received `perNeighbourAdvertise` from the
four neighbours 1, 4, 5 and 6. -/
def fourNeighbours : Option (GcnService × List Event) :=
  andThen (andThen (andThen
      (processNetworkAdvertise fieldCodec 10 (freshNode 2) perNeighbourAdvertise 1)
      (fun s => processNetworkAdvertise fieldCodec 10 s perNeighbourAdvertise 4))
      (fun s => processNetworkAdvertise fieldCodec 10 s perNeighbourAdvertise 5))
    (fun s => processNetworkAdvertise fieldCodec 10 s perNeighbourAdvertise 6)

/-- An ACK for (7, 1, seq 1) that names node 9 as obligatory relay and carries
probability of relay 200. -/
def perNeighbourAck : Ack :=
  { gid := 7, srcnode := 1, sequence := 1, obligatoryrelay := 9, probabilityofrelay := 200 }

/-- Node 2 with a subscriber of group 7 after it received the ADVERTISE (7, 1, seq 1)
from neighbour 1. -/
def groupRelay : Option (GcnService × List Event) :=
  processNetworkAdvertise fieldCodec 10 (clientPull (freshNode 2) 1 7) (advertiseOf 1) 1

/-- The relay `relayWithPath` after it has seen the ADVERTISE (7, 1, seq 1). -/
def advertisedRelay : GcnService :=
  { relayWithPath with mAdvSeenSet := [AdvKey.mk 7 1 1] }

/-- The order on sequence tables: every key of `t` is a key of `u`, with a value that is
not smaller. -/
def seqTableLe (t u : List (GIDKey × Nat)) : Prop :=
  ∀ k old, tfind k t = some old → ∃ new, tfind k u = some new ∧ old ≤ new

/-- The relay `relayWithPath` after it forwarded the ACK for sequence number 1. -/
def forwardedRelay : GcnService :=
  { relayWithPath with mAckSentTable := [(GIDKey.mk 7 1, 1)] }

/-- A frame of neighbour `src` that carries the one ACK `a`. -/
def ackFrame (src : NodeId) (a : Ack) : OTAMessage :=
  { src := src, advertise := [], ack := [a], data := [] }

/-- A frame of neighbour `src` that carries the one ADVERTISE `a`. -/
def advertiseFrame (src : NodeId) (a : Advertise) : OTAMessage :=
  { src := src, advertise := [a], ack := [], data := [] }

/-- The inputs of claim C17 for group `g` at node `self`: a frame of a neighbour with
one ACK for group `g` whose source node is `self`, or with one ADVERTISE for group
`g`. -/
def pullEvent (g : GroupId) (self : NodeId) (x : Input) : Prop :=
  (∃ a ota rand, x = Input.network (ackFrame ota a) rand ∧ ota ≠ self ∧ a.gid = g ∧
    a.srcnode = self) ∨
  (∃ a ota rand, x = Input.network (advertiseFrame ota a) rand ∧ ota ≠ self ∧ a.gid = g)

/-- The inputs that make the service push PULL for group `g` in state `s`, where the
announce entry of `g` is `annc`: an ACK frame as in `pullEvent`, or, when the announce
interval is 0, an ADVERTISE frame whose ADVERTISE is new to the hash. -/
def pullTrigger (C : Codec) (g : GroupId) (s : GcnService) (annc : AnnounceInfo)
    (x : Input) : Prop :=
  (∃ a ota rand, x = Input.network (ackFrame ota a) rand ∧ ota ≠ s.mNodeId ∧ a.gid = g ∧
    a.srcnode = s.mNodeId) ∨
  (annc.interval = 0 ∧
    ∃ a ota rand, x = Input.network (advertiseFrame ota a) rand ∧ ota ≠ s.mNodeId ∧
      a.gid = g ∧ tfind (hashOfAdvertise C a.hop) s.mHashTable = none)

/-- Node 1 with an announce entry of session 1 for group 7 (interval 1 s, no PULL pushed
yet). -/
def sourceNode : GcnService :=
  { freshNode 1 with
    mAnnounceTable := [(7, { pSession := 1, pTimer := true, interval := 1, probRelay := 0,
                             srcTtl := 2, seqNum := 1, pullSentToApp := false,
                             noTtlRegen := false })] }

/-- The test of the second loop of `remotePullCleanup` for an announce entry, with the
remote pull table as the first loop left it. -/
def unpullDue (remote : List (GroupId × RemotePullInfo)) (local_ : List (GroupId × SessionId))
    (e : GroupId × AnnounceInfo) : Bool :=
  e.2.pullSentToApp && decide (mcount e.1 remote = 0) && decide (mcount e.1 local_ = 0) &&
    decide (e.2.interval > 0)

/-- Node 1: session 1 registers as source of group 7, session 2 subscribes to group 7,
the announce timer fires, the ACK of neighbour 2 arrives at time 10, and the remote pull
clean-up runs at time 5000, when the remote pull entry has expired. -/
def sourceWithLocalSubscriber : List (Int × Input) :=
  [(0, Input.client 1 (announceMessage AdvertiseType.REGISTER)),
   (0, Input.client 2 (pullMessage 7)),
   (10, Input.announce 7),
   (10, Input.network (ackFrame 2 (ackFor originAdvertise 1)) 0)]

/-- Node 1: sessions 1 and 2 both register as source of group 7, then session 1
deregisters. -/
def twoSources : List (Int × Input) :=
  [(0, Input.client 1 (announceMessage AdvertiseType.REGISTER)),
   (1, Input.client 2 (announceMessage AdvertiseType.REGISTER)),
   (2, Input.client 1 (announceMessage AdvertiseType.DEREGISTER))]

/-- The shape every entry of `mDistanceTable` keeps at node `self`: the neighbour list
`packetSrcs` has no repetition and is not empty, `packetCount` is its size as `uint16_t`,
an entry whose group source is `self` has one neighbour, and `self` is no neighbour in
an entry of another source. -/
def distanceInv (self : NodeId) (t : List (GIDKey × DistanceInfo)) : Prop :=
  ∀ k info, tfind k t = some info →
    info.packetSrcs.Nodup ∧ info.packetSrcs ≠ [] ∧
    info.packetCount = info.packetSrcs.length % 65536 ∧
    (k.gidSrc = self → info.packetSrcs.length = 1 ∧ info.packetCount = 1) ∧
    (k.gidSrc ≠ self → self ∉ info.packetSrcs)

/-- Every neighbour recorded in `mDistanceTable` is below `bound`. -/
def srcsBelow (bound : Nat) (t : List (GIDKey × DistanceInfo)) : Prop :=
  ∀ k info, tfind k t = some info → ∀ x ∈ info.packetSrcs, x < bound

/-- A client message with one UNPULL. -/
def unpullMessage (gid : GroupId) : AppMessage :=
  { pull := [], unpull := [gid], data := [], advertise := [] }

/-- The value of `mSeqNumByGID[gid]`: the number of DATA records of clients counted for
the group, 0 when the map has no entry. -/
def dataCount (s : GcnService) (gid : GroupId) : Nat :=
  (tfind gid s.mSeqNumByGID).getD 0

/-- The number of DATA records for group `gid` in the client messages of the inputs. -/
def recordsFor (gid : GroupId) : List (Int × Input) → Nat
  | [] => 0
  | (_, Input.client _ m) :: rest =>
    (m.data.filter (fun d => decide (d.gid = gid))).length + recordsFor gid rest
  | _ :: rest => recordsFor gid rest

/-- The DATA record of a client as `OnClientReceive` stamps it when the counter of its
group is `count`. -/
def stamped (s : GcnService) (d : Data) (count : Nat) : Data :=
  { d with distance := 0, srcnode := s.mNodeId,
           sequence := (count + 1) % 18446744073709551616 % 4294967296 }

/-- A unicast DATA record of a client for group 7 addressed to node `dest`, without
source ttl, resilience 0. -/
def unicastRecord (dest : NodeId) : Data :=
  { gid := 7, srcnode := 0, sequence := 0, srcttl := none, ttl := 0, distance := 0,
    nottlregen := none, data := [111, 107],
    uheader := some { unicastdest := dest, relaydistance := 0, resilience := some 0 } }

/-- Node 1 hears an ADVERTISE of node 4 for group 7 from node 4; then its client sends
three unicast records for group 7: to node 4, to node 9, of which node 1 has no distance
entry, and to node 4 again. -/
def threeRecords : List (Int × Input) :=
  [(0, Input.network (advertiseFrame 4 { advertiseOf 0 with srcnode := 4 }) 0),
   (1, Input.client 1 { pull := [], unpull := [], advertise := [], data := [unicastRecord 4] }),
   (2, Input.client 1 { pull := [], unpull := [], advertise := [], data := [unicastRecord 9] }),
   (3, Input.client 1 { pull := [], unpull := [], advertise := [], data := [unicastRecord 4] })]

/-- The sequence numbers of the ADVERTISE frames for group `gid` with source node `self`
among the frames handed to the link, in order. -/
def advertisedSeqs (gid : GroupId) (self : NodeId) (evs : List Event) : List Nat :=
  (((transmissions evs).map (fun m => m.advertise)).flatten.filter
      (fun a => decide (a.gid = gid ∧ a.srcnode = self))).map (fun a => a.sequence)

/-- The stored sequence number of the announce entry of `gid`, 0 without entry. -/
def announceSeq (s : GcnService) (gid : GroupId) : Nat :=
  match tfind gid s.mAnnounceTable with
  | some annc => annc.seqNum
  | none => 0

/-- The inputs that keep an announce entry: a tick of an announce timer, or a client
message that carries REGISTER records only. -/
def registerOrTick (x : Input) : Prop :=
  (∃ g, x = Input.announce g) ∨
  (∃ p advs, x = Input.client p { pull := [], unpull := [], data := [], advertise := advs } ∧
    ∀ a ∈ advs, a.type = AdvertiseType.REGISTER)

/-- The client of node 1 registers as source of group 7, the announce timer fires, the
client deregisters and registers again, and the timer fires again. -/
def deregisterBetweenTicks : List (Int × Input) :=
  [(0, Input.client 1 (announceMessage AdvertiseType.REGISTER)), (10, Input.announce 7),
   (11, Input.client 1 (announceMessage AdvertiseType.DEREGISTER)),
   (12, Input.client 1 (announceMessage AdvertiseType.REGISTER)), (22, Input.announce 7)]

/-- As `deregisterBetweenTicks`, with the session closed and opened again in place of the
DEREGISTER. -/
def closeBetweenTicks : List (Int × Input) :=
  [(0, Input.client 1 (announceMessage AdvertiseType.REGISTER)), (10, Input.announce 7),
   (11, Input.close 1),
   (12, Input.client 1 (announceMessage AdvertiseType.REGISTER)), (22, Input.announce 7)]

/-- A client of node 1 registers as source of group 7, then the announce timer fires. -/
def registerAndTick : List (Int × Input) :=
  [(0, Input.client 1 (announceMessage AdvertiseType.REGISTER)), (10, Input.announce 7)]

/-- The consistency of a hash time table `tt` with a hash table `ht`: every entry of the
time table has its hash as a key of the hash table, and every key of the hash table has
exactly one entry in the time table. -/
def hashTwin (tt : List (Int × HashValue)) (ht : List (HashValue × Nat)) : Prop :=
  (∀ e ∈ tt, ∃ m, tfind e.2 ht = some m) ∧
  (∀ h m, tfind h ht = some m → (tt.filter (fun e => decide (e.2 = h))).length = 1)

/-- The consistency of `mHashTimeTable` with `mHashTable`. -/
def hashConsistent (s : GcnService) : Prop :=
  hashTwin s.mHashTimeTable s.mHashTable

/-- The order of the multimap `mHashTimeTable`: by time. -/
def timeSorted (s : GcnService) : Prop :=
  s.mHashTimeTable.Pairwise (fun a b => a.1 ≤ b.1)

/-- Node 3 hears the ADVERTISE of node 1 (group 7, sequence 1) from neighbour 2 at time 0,
sweeps its hash table at time 100, and then hears the same ADVERTISE, with distance 5,
from neighbour 4. -/
def evictedThenRepeated : List (Int × Input) :=
  [(0, Input.network (advertiseFrame 2 (advertiseOf 1)) 0),
   (100, Input.hashClean),
   (100, Input.network (advertiseFrame 4 { advertiseOf 1 with distance := 5 }) 0)]

/-- A node 3 whose distance table has one entry, for group 7 of source 1, with latest hash
5 heard from neighbour 2. -/
def countingNode : GcnService :=
  { freshNode 3 with
    mDistanceTable :=
      [(GIDKey.mk 7 1, { distance := 2, latestPacketHash := 5, packetCount := 1,
                         packetSrcs := [2] })] }

/-- A client of node 5 subscribes to group 7; then the ADVERTISE of node 1 with probability
of relay 200 arrives from neighbour 2 and from neighbour 3. -/
def twoNeighbourRun : List (Int × Input) :=
  [(0, Input.client 1 (pullMessage 7)),
   (1, Input.network (advertiseFrame 2 perNeighbourAdvertise) 0),
   (1, Input.network (advertiseFrame 3 perNeighbourAdvertise) 0)]

/-- A client message with one REGISTER for group 7 with source ttl 0, interval 1 s. -/
def zeroTtlRegister : AppMessage :=
  { pull := [], unpull := [], data := [],
    advertise := [{ gid := 7, srcnode := 0, sequence := 0, srcttl := 0, ttl := 0, distance := 0,
                    probrelay := 0, nottlregen := none, type := AdvertiseType.REGISTER,
                    interval := some 1 }] }

/-- The client of node 1 registers as source of group 7 with source ttl 0, and the
announce timer fires. -/
def zeroTtlSource : List (Int × Input) :=
  [(0, Input.client 1 zeroTtlRegister), (10, Input.announce 7)]

/-- Node 3 has a subscriber of group 7 and receives from neighbour 2 an ADVERTISE of node
1 with source ttl 0 and ttl 5; then its advertise timer for (7, 1) expires. -/
def zeroTtlRelay : List (Int × Input) :=
  [(0, Input.client 1 (pullMessage 7)),
   (1, Input.network (advertiseFrame 2 { advertiseOf 5 with srcttl := 0 }) 0),
   (2, Input.advTimer (GIDKey.mk 7 1))]

/-- The ttl fields of the ADVERTISE and DATA frames handed to the link, in order. -/
def sentTtls (evs : List Event) : List Nat :=
  ((transmissions evs).map
    (fun m => m.advertise.map (fun a => a.ttl) ++ m.data.map (fun d => d.ttl))).flatten

/-- The two look-ups `OnAckTimeout` asserts, for every pending ACK timer, and the
distance entry behind every reverse path entry: an ACK timer is stored under the key of
its ACK, and its key has a reverse path entry and a distance entry. -/
def ackTimerBacked (s : GcnService) : Prop :=
  (∀ k ack, tfind k s.mAckTimerTable = some ack →
    GIDKey.mk ack.gid ack.srcnode = k ∧
    (∃ rev, tfind k s.mReversePathTable = some rev) ∧
    (∃ info, tfind k s.mDistanceTable = some info)) ∧
  (∀ k rev, tfind k s.mReversePathTable = some rev →
    ∃ info, tfind k s.mDistanceTable = some info)

/-- Node 3 has a subscriber of group 7. It hears the ADVERTISE of node 1 with sequence
number 5 at second 1 and sends its ACK. At second 3601 it hears an ADVERTISE of node 1
with sequence number 1 (the source registered again), which arms the ACK timer and does
not refresh the reverse path entry. At second 3602 the reverse path clean-up runs, then
the ACK timer expires. -/
def staleReversePath : List (Int × Input) :=
  [(0, Input.client 1 (pullMessage 7)),
   (1, Input.network (advertiseFrame 2 { advertiseOf 1 with sequence := 5 }) 0),
   (1, Input.ackTimer (GIDKey.mk 7 1)),
   (3601, Input.network (advertiseFrame 2 (advertiseOf 1)) 0),
   (3602, Input.pathClean),
   (3602, Input.ackTimer (GIDKey.mk 7 1))]

/-! ## Lemmas on the tables -/

theorem tfind_tset_self {κ ν : Type} [DecidableEq κ] (k : κ) (v : ν) (t : List (κ × ν)) :
    tfind k (tset k v t) = some v := by
  induction t with
  | nil => simp [tset, tfind]
  | cons e t ih =>
    obtain ⟨k', v'⟩ := e
    by_cases h : k' = k
    · simp [tset, tfind, h]
    · simp [tset, tfind, h, ih]

theorem tfind_tset_ne {κ ν : Type} [DecidableEq κ] (k k' : κ) (v : ν) (t : List (κ × ν))
    (h : k ≠ k') : tfind k' (tset k v t) = tfind k' t := by
  induction t with
  | nil => simp [tset, tfind, h]
  | cons e t ih =>
    obtain ⟨k₀, v₀⟩ := e
    by_cases h0 : k₀ = k
    · subst h0
      simp [tset, tfind, h]
    · by_cases h1 : k₀ = k'
      · subst h1
        simp [tset, tfind, h0]
      · simp [tset, tfind, h0, h1, ih]

theorem mcount_append {κ ν : Type} [DecidableEq κ] (k : κ) (t u : List (κ × ν)) :
    mcount k (t ++ u) = mcount k t + mcount k u := by
  simp [mcount]

theorem advSchedules_append (xs ys : List Event) :
    advSchedules (xs ++ ys) = advSchedules xs ++ advSchedules ys := by
  induction xs with
  | nil => rfl
  | cons e r ih => cases e <;> simp [advSchedules, ih]

theorem dataSchedules_append (xs ys : List Event) :
    dataSchedules (xs ++ ys) = dataSchedules xs ++ dataSchedules ys := by
  induction xs with
  | nil => rfl
  | cons e r ih => cases e <;> simp [dataSchedules, ih]

theorem transmissions_append (xs ys : List Event) :
    transmissions (xs ++ ys) = transmissions xs ++ transmissions ys := by
  induction xs with
  | nil => rfl
  | cons e r ih => cases e <;> simp [transmissions, ih]

theorem deliveriesTo_append (sub : SessionId) (xs ys : List Event) :
    deliveriesTo sub (xs ++ ys) = deliveriesTo sub xs ++ deliveriesTo sub ys := by
  induction xs with
  | nil => rfl
  | cons e r ih =>
    cases e <;> simp [deliveriesTo, ih]
    split <;> simp

/-- What `addToHash` returns, by whether the hash value is in the table. -/
theorem addToHash_eq (C : Codec) (now : Int) (s : GcnService) (data : Bytes) (ttl : Nat) :
    addToHash C now s data ttl =
      if tfind (C.make_hash data) s.mHashTable = none then
        ({ s with mHashTable := tset (C.make_hash data) ttl s.mHashTable,
                  mHashTimeTable := timeInsert now (C.make_hash data) s.mHashTimeTable },
         C.make_hash data, true)
      else (s, C.make_hash data, false) := by
  unfold addToHash
  simp only
  split <;> rename_i h <;> simp [h]

/-- The distance table has an entry for the key after `updateDistanceTable`. -/
theorem distanceUpdate_find (self : NodeId) (t : List (GIDKey × DistanceInfo)) (gid : GroupId)
    (gidsrc : NodeId) (hashValue : HashValue) (distance : Nat) (otaSrc : NodeId)
    (newToHash AdvMsg : Bool) :
    ∃ info, tfind (GIDKey.mk gid gidsrc)
      (distanceUpdate self t gid gidsrc hashValue distance otaSrc newToHash AdvMsg) = some info := by
  simp only [distanceUpdate]
  split
  · rename_i info h
    split_ifs <;> first | exact ⟨_, tfind_tset_self _ _ _⟩ | exact ⟨_, h⟩
  · exact ⟨_, tfind_tset_self _ _ _⟩

theorem addToHashAdvertise_new (C : Codec) (now : Int) (s : GcnService) (a : Advertise)
    (h : tfind (hashOfAdvertise C a) s.mHashTable = none) :
    addToHashAdvertise C now s a =
      ({ s with mHashTable := tset (hashOfAdvertise C a) a.ttl s.mHashTable,
                mHashTimeTable := timeInsert now (hashOfAdvertise C a) s.mHashTimeTable },
       hashOfAdvertise C a, true) := by
  simp only [hashOfAdvertise] at h
  simp [addToHashAdvertise, addToHash_eq, hashOfAdvertise, h]

theorem addToHashAdvertise_seen (C : Codec) (now : Int) (s : GcnService) (a : Advertise)
    (m : Nat) (h : tfind (hashOfAdvertise C a) s.mHashTable = some m) :
    addToHashAdvertise C now s a = (s, hashOfAdvertise C a, false) := by
  simp only [hashOfAdvertise] at h
  simp [addToHashAdvertise, addToHash_eq, hashOfAdvertise, h]

theorem addToHashData_new (C : Codec) (now : Int) (s : GcnService) (d : Data)
    (h : tfind (hashOfData C d) s.mHashTable = none) :
    addToHashData C now s d =
      ({ s with mHashTable := tset (hashOfData C d) d.ttl s.mHashTable,
                mHashTimeTable := timeInsert now (hashOfData C d) s.mHashTimeTable },
       hashOfData C d, true) := by
  simp only [hashOfData] at h
  simp [addToHashData, addToHash_eq, hashOfData, h]

theorem addToHashData_seen (C : Codec) (now : Int) (s : GcnService) (d : Data)
    (m : Nat) (h : tfind (hashOfData C d) s.mHashTable = some m) :
    addToHashData C now s d = (s, hashOfData C d, false) := by
  simp only [hashOfData] at h
  simp [addToHashData, addToHash_eq, hashOfData, h]

theorem overridePull_advSchedules (s : GcnService) (gid : GroupId) :
    advSchedules (overridePull s gid).2 = [] := by
  simp only [overridePull]
  split
  · split_ifs <;> rfl
  · rfl


/-! ## Forwarding decisions -/

/-- The calls of `setAdvTimer` in the ADVERTISE forwarding decision of
`processNetworkAdvertise`: the handler always returns, and with `new` = "the hash of the frame is not in Hash" it calls `setAdvTimer`
exactly as follows: (a) group participant, new, no `nottlregen` field: once, with ttl
argument `srcttl`; (b) group participant, new, `nottlregen` present, ttl > 0: once, with
the received ttl; (c) non-group, new, ttl > 0: once, with the received ttl; in (a)-(c)
the outgoing frame is the received one with distance plus one (32-bit); (d) non-group,
hash present with stored maximum `m < ttl`: once, with the received ttl, the outgoing
distance being the distance stored for `(gid, srcnode)` and the stored maximum being
`ttl` afterwards; and whenever a call is made, one of (a)-(d) is the case. -/
theorem advertise_forwarding_events (C : Codec) (now : Int) (s : GcnService) (a : Advertise)
    (ota : NodeId) :
    ∃ s' evs, processNetworkAdvertise C now s a ota = some (s', evs) ∧
      (groupNode s a.gid = true → tfind (hashOfAdvertise C a.hop) s.mHashTable = none →
        a.nottlregen = none → advSchedules evs = [(a.hop, a.srcttl)]) ∧
      (groupNode s a.gid = true → tfind (hashOfAdvertise C a.hop) s.mHashTable = none →
        a.nottlregen ≠ none → 0 < a.ttl → advSchedules evs = [(a.hop, a.ttl)]) ∧
      (groupNode s a.gid = false → tfind (hashOfAdvertise C a.hop) s.mHashTable = none →
        0 < a.ttl → advSchedules evs = [(a.hop, a.ttl)]) ∧
      (groupNode s a.gid = false → ∀ m, tfind (hashOfAdvertise C a.hop) s.mHashTable = some m →
        m < a.ttl →
        ∃ info, tfind (GIDKey.mk a.gid a.srcnode) s'.mDistanceTable = some info ∧
          advSchedules evs = [({ a.hop with distance := info.distance }, a.ttl)] ∧
          tfind (hashOfAdvertise C a.hop) s'.mHashTable = some a.ttl) ∧
      (advSchedules evs ≠ [] →
        (groupNode s a.gid = true ∧ tfind (hashOfAdvertise C a.hop) s.mHashTable = none ∧
          (a.nottlregen = none ∨ 0 < a.ttl)) ∨
        (groupNode s a.gid = false ∧ tfind (hashOfAdvertise C a.hop) s.mHashTable = none ∧
          0 < a.ttl) ∨
        (groupNode s a.gid = false ∧
          ∃ m, tfind (hashOfAdvertise C a.hop) s.mHashTable = some m ∧ m < a.ttl)) := by
  rcases hh : tfind (hashOfAdvertise C a.hop) s.mHashTable with _ | m
  · have e := addToHashAdvertise_new C now s a.hop hh
    simp only [Advertise.hop] at e
    cases hg : groupNode s a.gid
    · have hg' := hg
      simp [groupNode] at hg'
      by_cases ht : a.ttl = 0
      · have hp : ∃ r, processNetworkAdvertise C now s a ota = some r := by
          simp only [processNetworkAdvertise, e]
          simp [groupNode, hg', updateDistanceTable, updateReversePath, ht]
        obtain ⟨⟨s', evs⟩, hp⟩ := hp
        refine ⟨s', evs, hp, ?_⟩
        simp only [processNetworkAdvertise, e] at hp
        simp [groupNode, hg', updateDistanceTable, updateReversePath, ht] at hp
        obtain ⟨rfl, rfl⟩ := hp
        simp [advSchedules, advSchedules_append, overridePull_advSchedules, setAdvTimer,
          setAckTimer, Advertise.hop, updateDistanceTable, updateReversePath, tfind_tset_self, ht]
      · have hp : ∃ r, processNetworkAdvertise C now s a ota = some r := by
          simp only [processNetworkAdvertise, e]
          simp [groupNode, hg', updateDistanceTable, updateReversePath, ht]
        obtain ⟨⟨s', evs⟩, hp⟩ := hp
        refine ⟨s', evs, hp, ?_⟩
        simp only [processNetworkAdvertise, e] at hp
        simp [groupNode, hg', updateDistanceTable, updateReversePath, ht] at hp
        obtain ⟨rfl, rfl⟩ := hp
        simp [advSchedules, advSchedules_append, overridePull_advSchedules, setAdvTimer,
          setAckTimer, Advertise.hop, updateDistanceTable, updateReversePath, tfind_tset_self, ht]
        omega
    · have hg' := hg
      simp [groupNode] at hg'
      by_cases hr : a.nottlregen = none
      · have hp : ∃ r, processNetworkAdvertise C now s a ota = some r := by
          simp only [processNetworkAdvertise, e]
          simp [groupNode, hg', updateDistanceTable, updateReversePath, hr]
        obtain ⟨⟨s', evs⟩, hp⟩ := hp
        refine ⟨s', evs, hp, ?_⟩
        simp only [processNetworkAdvertise, e] at hp
        simp [groupNode, hg', updateDistanceTable, updateReversePath, hr] at hp
        obtain ⟨rfl, rfl⟩ := hp
        simp [advSchedules, advSchedules_append, overridePull_advSchedules, setAdvTimer,
          setAckTimer, Advertise.hop, updateDistanceTable, updateReversePath, tfind_tset_self, hr]
      · by_cases ht : a.ttl = 0
        · have hp : ∃ r, processNetworkAdvertise C now s a ota = some r := by
            simp only [processNetworkAdvertise, e]
            simp [groupNode, hg', updateDistanceTable, updateReversePath, hr, ht]
          obtain ⟨⟨s', evs⟩, hp⟩ := hp
          refine ⟨s', evs, hp, ?_⟩
          simp only [processNetworkAdvertise, e] at hp
          simp [groupNode, hg', updateDistanceTable, updateReversePath, hr, ht] at hp
          obtain ⟨rfl, rfl⟩ := hp
          simp [advSchedules, advSchedules_append, overridePull_advSchedules, setAdvTimer,
            setAckTimer, Advertise.hop, updateDistanceTable, updateReversePath, tfind_tset_self, hr, ht]
        · have hp : ∃ r, processNetworkAdvertise C now s a ota = some r := by
            simp only [processNetworkAdvertise, e]
            simp [groupNode, hg', updateDistanceTable, updateReversePath, hr, ht]
          obtain ⟨⟨s', evs⟩, hp⟩ := hp
          refine ⟨s', evs, hp, ?_⟩
          simp only [processNetworkAdvertise, e] at hp
          simp [groupNode, hg', updateDistanceTable, updateReversePath, hr, ht] at hp
          obtain ⟨rfl, rfl⟩ := hp
          simp [advSchedules, advSchedules_append, overridePull_advSchedules, setAdvTimer,
            setAckTimer, Advertise.hop, updateDistanceTable, updateReversePath, tfind_tset_self, hr, ht]
          omega
  · have e := addToHashAdvertise_seen C now s a.hop m hh
    have hh' := hh
    simp only [Advertise.hop] at e hh'
    obtain ⟨info, hinfo⟩ := distanceUpdate_find s.mNodeId s.mDistanceTable a.gid a.srcnode
      (hashOfAdvertise C a.hop) ((a.distance + 1) % 4294967296) ota false true
    simp only [Advertise.hop] at hinfo
    cases hg : groupNode s a.gid
    · have hg' := hg
      simp [groupNode] at hg'
      by_cases ht : a.ttl = 0
      · have hp : ∃ r, processNetworkAdvertise C now s a ota = some r := by
          simp only [processNetworkAdvertise, e]
          simp [groupNode, hg', updateDistanceTable, updateReversePath, ht, hh']
        obtain ⟨⟨s', evs⟩, hp⟩ := hp
        refine ⟨s', evs, hp, ?_⟩
        simp only [processNetworkAdvertise, e] at hp
        simp [groupNode, hg', updateDistanceTable, updateReversePath, ht, hh'] at hp
        obtain ⟨rfl, rfl⟩ := hp
        simp [advSchedules, advSchedules_append, overridePull_advSchedules, setAdvTimer,
          setAckTimer, Advertise.hop, updateDistanceTable, updateReversePath, tfind_tset_self, ht, hh']
      · by_cases hm : m < a.ttl
        · have hp : ∃ r, processNetworkAdvertise C now s a ota = some r := by
            simp only [processNetworkAdvertise, e]
            simp [groupNode, hg', updateDistanceTable, updateReversePath, ht, hm, getMaxTTLfromHash, changeMaxTTL, hh', hinfo]
          obtain ⟨⟨s', evs⟩, hp⟩ := hp
          refine ⟨s', evs, hp, ?_⟩
          simp only [processNetworkAdvertise, e] at hp
          simp [groupNode, hg', updateDistanceTable, updateReversePath, ht, hm, getMaxTTLfromHash, changeMaxTTL, hh', hinfo] at hp
          obtain ⟨rfl, rfl⟩ := hp
          simp [advSchedules, advSchedules_append, overridePull_advSchedules, setAdvTimer,
            setAckTimer, Advertise.hop, updateDistanceTable, updateReversePath, tfind_tset_self, ht, hm, getMaxTTLfromHash, changeMaxTTL, hh', hinfo]
        · have hp : ∃ r, processNetworkAdvertise C now s a ota = some r := by
            simp only [processNetworkAdvertise, e]
            simp [groupNode, hg', updateDistanceTable, updateReversePath, ht, hm, getMaxTTLfromHash, hh']
          obtain ⟨⟨s', evs⟩, hp⟩ := hp
          refine ⟨s', evs, hp, ?_⟩
          simp only [processNetworkAdvertise, e] at hp
          simp [groupNode, hg', updateDistanceTable, updateReversePath, ht, hm, getMaxTTLfromHash, hh'] at hp
          obtain ⟨rfl, rfl⟩ := hp
          simp [advSchedules, advSchedules_append, overridePull_advSchedules, setAdvTimer,
            setAckTimer, Advertise.hop, updateDistanceTable, updateReversePath, tfind_tset_self, ht, hm, getMaxTTLfromHash, hh']
          omega
    · have hg' := hg
      simp [groupNode] at hg'
      have hp : ∃ r, processNetworkAdvertise C now s a ota = some r := by
        simp only [processNetworkAdvertise, e]
        simp [groupNode, hg', updateDistanceTable, updateReversePath, hh']
      obtain ⟨⟨s', evs⟩, hp⟩ := hp
      refine ⟨s', evs, hp, ?_⟩
      simp only [processNetworkAdvertise, e] at hp
      simp [groupNode, hg', updateDistanceTable, updateReversePath, hh'] at hp
      obtain ⟨rfl, rfl⟩ := hp
      simp [advSchedules, advSchedules_append, overridePull_advSchedules, setAdvTimer,
        setAckTimer, Advertise.hop, updateDistanceTable, updateReversePath, tfind_tset_self, hh']


theorem dataSchedules_appData (f : SessionId → Event) (hf : ∀ x, ∃ p d, f x = Event.appData p d)
    (l : List SessionId) : dataSchedules (l.map f) = [] := by
  induction l with
  | nil => rfl
  | cons x r ih =>
    obtain ⟨p, d, h⟩ := hf x
    simp [dataSchedules, h, ih]

/-- The calls of `setDataTimer` in the broadcast DATA forwarding decision of
`processNetworkData`, for a frame without unicast header whose source node is not this node: the handler always returns, and with
`new` = "the hash of the frame is not in Hash" it calls `setDataTimer` exactly as follows:
ACK mode (no `srcttl`), new, and (group participant with always-rebroadcast, or a remote
pull entry for the group): once, ttl argument 1; flood mode, group participant, new, no
`nottlregen` field: once, ttl argument `srcttl`; flood mode, group participant, new,
`nottlregen` present, ttl > 0: once, the received ttl; flood mode, non-group, new, ttl > 0:
once, the received ttl; in these cases the outgoing frame is the received one with
distance plus one (32-bit); flood mode, non-group, hash present with stored maximum
`m < ttl`: once, the received ttl, the outgoing distance being the distance stored for
`(gid, srcnode)` and the stored maximum being `ttl` afterwards; and whenever a call is
made, one of these is the case. -/
theorem broadcast_data_forwarding_events (C : Codec) (now : Int) (s : GcnService) (d : Data)
    (ota : NodeId) (hu : d.uheader = none) (hsrc : d.srcnode ≠ s.mNodeId) :
    ∃ s' evs, processNetworkData C now s d ota = some (s', evs) ∧
      (d.srcttl = none → tfind (hashOfData C d.hop) s.mHashTable = none →
        ((groupNode s d.gid = true ∧ s.mAlwaysRebroadcast = true) ∨
          mcount d.gid s.mRemotePullTable ≠ 0) →
        dataSchedules evs = [(d.hop, 1)]) ∧
      (∀ st, d.srcttl = some st → groupNode s d.gid = true →
        tfind (hashOfData C d.hop) s.mHashTable = none → d.nottlregen = none →
        dataSchedules evs = [(d.hop, st)]) ∧
      (d.srcttl ≠ none → groupNode s d.gid = true →
        tfind (hashOfData C d.hop) s.mHashTable = none → d.nottlregen ≠ none → 0 < d.ttl →
        dataSchedules evs = [(d.hop, d.ttl)]) ∧
      (d.srcttl ≠ none → groupNode s d.gid = false →
        tfind (hashOfData C d.hop) s.mHashTable = none → 0 < d.ttl →
        dataSchedules evs = [(d.hop, d.ttl)]) ∧
      (d.srcttl ≠ none → groupNode s d.gid = false →
        ∀ m, tfind (hashOfData C d.hop) s.mHashTable = some m → m < d.ttl →
        ∃ info, tfind (GIDKey.mk d.gid d.srcnode) s'.mDistanceTable = some info ∧
          dataSchedules evs = [({ d.hop with distance := info.distance }, d.ttl)] ∧
          tfind (hashOfData C d.hop) s'.mHashTable = some d.ttl) ∧
      (dataSchedules evs ≠ [] →
        (d.srcttl = none ∧ tfind (hashOfData C d.hop) s.mHashTable = none ∧
          ((groupNode s d.gid = true ∧ s.mAlwaysRebroadcast = true) ∨
            mcount d.gid s.mRemotePullTable ≠ 0)) ∨
        (d.srcttl ≠ none ∧ groupNode s d.gid = true ∧
          tfind (hashOfData C d.hop) s.mHashTable = none ∧
          (d.nottlregen = none ∨ 0 < d.ttl)) ∨
        (d.srcttl ≠ none ∧ groupNode s d.gid = false ∧
          tfind (hashOfData C d.hop) s.mHashTable = none ∧ 0 < d.ttl) ∨
        (d.srcttl ≠ none ∧ groupNode s d.gid = false ∧
          ∃ m, tfind (hashOfData C d.hop) s.mHashTable = some m ∧ m < d.ttl)) := by
  have happ : ∀ x : SessionId, ∃ p d', (fun sub => Event.appData sub d.hop) x = Event.appData p d' :=
    fun x => ⟨x, d.hop, rfl⟩
  have hdel := dataSchedules_appData _ happ
  obtain ⟨info, hinfo⟩ := distanceUpdate_find s.mNodeId s.mDistanceTable d.gid d.srcnode
    (hashOfData C d.hop) ((d.distance + 1) % 4294967296) ota false false
  rcases hh : tfind (hashOfData C d.hop) s.mHashTable with _ | m
  · have e := addToHashData_new C now s d.hop hh
    obtain ⟨gid, srcnode, sequence, srcttl, ttl, distance, nottlregen, payload, uheader⟩ := d
    simp only [Data.hop] at e hh hinfo hdel
    simp only at hu hsrc
    subst hu
    cases hg : groupNode s gid
    · have hg' := hg
      simp [groupNode] at hg'
      rcases srcttl with _ | st
      · by_cases hc : mcount gid s.mRemotePullTable = 0
        · have hp : ∃ r, processNetworkData C now s { gid := gid, srcnode := srcnode, sequence := sequence, srcttl := none, ttl := ttl, distance := distance, nottlregen := nottlregen, data := payload, uheader := none } ota = some r := by
            simp only [processNetworkData, preProcessData, e]
            simp [forwardBroadcast, groupNode, updateDistanceTable, hdel, hsrc, hg', hc]
          obtain ⟨⟨s', evs⟩, hp⟩ := hp
          refine ⟨s', evs, hp, ?_⟩
          simp only [processNetworkData, preProcessData, e] at hp
          simp [forwardBroadcast, groupNode, updateDistanceTable, hdel, hsrc, hg', hc] at hp
          obtain ⟨rfl, rfl⟩ := hp
          simp [dataSchedules, dataSchedules_append, dataSchedules_appData, setDataTimer, Data.hop,
            groupNode, updateDistanceTable, tfind_tset_self, hdel, hsrc, hg', hc]
        · have hp : ∃ r, processNetworkData C now s { gid := gid, srcnode := srcnode, sequence := sequence, srcttl := none, ttl := ttl, distance := distance, nottlregen := nottlregen, data := payload, uheader := none } ota = some r := by
            simp only [processNetworkData, preProcessData, e]
            simp [forwardBroadcast, groupNode, updateDistanceTable, hdel, hsrc, hg', hc]
          obtain ⟨⟨s', evs⟩, hp⟩ := hp
          refine ⟨s', evs, hp, ?_⟩
          simp only [processNetworkData, preProcessData, e] at hp
          simp [forwardBroadcast, groupNode, updateDistanceTable, hdel, hsrc, hg', hc] at hp
          obtain ⟨rfl, rfl⟩ := hp
          simp [dataSchedules, dataSchedules_append, dataSchedules_appData, setDataTimer, Data.hop,
            groupNode, updateDistanceTable, tfind_tset_self, hdel, hsrc, hg', hc]
      · by_cases ht : ttl = 0
        · have hp : ∃ r, processNetworkData C now s { gid := gid, srcnode := srcnode, sequence := sequence, srcttl := some st, ttl := ttl, distance := distance, nottlregen := nottlregen, data := payload, uheader := none } ota = some r := by
            simp only [processNetworkData, preProcessData, e]
            simp [forwardBroadcast, groupNode, updateDistanceTable, hdel, hsrc, hg', ht]
          obtain ⟨⟨s', evs⟩, hp⟩ := hp
          refine ⟨s', evs, hp, ?_⟩
          simp only [processNetworkData, preProcessData, e] at hp
          simp [forwardBroadcast, groupNode, updateDistanceTable, hdel, hsrc, hg', ht] at hp
          obtain ⟨rfl, rfl⟩ := hp
          simp [dataSchedules, dataSchedules_append, dataSchedules_appData, setDataTimer, Data.hop,
            groupNode, updateDistanceTable, tfind_tset_self, hdel, hsrc, hg', ht]
        · have hp : ∃ r, processNetworkData C now s { gid := gid, srcnode := srcnode, sequence := sequence, srcttl := some st, ttl := ttl, distance := distance, nottlregen := nottlregen, data := payload, uheader := none } ota = some r := by
            simp only [processNetworkData, preProcessData, e]
            simp [forwardBroadcast, groupNode, updateDistanceTable, hdel, hsrc, hg', ht]
          obtain ⟨⟨s', evs⟩, hp⟩ := hp
          refine ⟨s', evs, hp, ?_⟩
          simp only [processNetworkData, preProcessData, e] at hp
          simp [forwardBroadcast, groupNode, updateDistanceTable, hdel, hsrc, hg', ht] at hp
          obtain ⟨rfl, rfl⟩ := hp
          simp [dataSchedules, dataSchedules_append, dataSchedules_appData, setDataTimer, Data.hop,
            groupNode, updateDistanceTable, tfind_tset_self, hdel, hsrc, hg', ht]
          omega
    · have hg' := hg
      simp [groupNode] at hg'
      rcases srcttl with _ | st
      · by_cases hc : s.mAlwaysRebroadcast = true ∨ mcount gid s.mRemotePullTable ≠ 0
        · have hp : ∃ r, processNetworkData C now s { gid := gid, srcnode := srcnode, sequence := sequence, srcttl := none, ttl := ttl, distance := distance, nottlregen := nottlregen, data := payload, uheader := none } ota = some r := by
            simp only [processNetworkData, preProcessData, e]
            simp [forwardBroadcast, groupNode, updateDistanceTable, hdel, hsrc, hg', hc]
          obtain ⟨⟨s', evs⟩, hp⟩ := hp
          refine ⟨s', evs, hp, ?_⟩
          simp only [processNetworkData, preProcessData, e] at hp
          simp [forwardBroadcast, groupNode, updateDistanceTable, hdel, hsrc, hg', hc] at hp
          obtain ⟨rfl, rfl⟩ := hp
          simp [dataSchedules, dataSchedules_append, dataSchedules_appData, setDataTimer, Data.hop,
            groupNode, updateDistanceTable, tfind_tset_self, hdel, hsrc, hg', hc]
          try tauto
        · have hp : ∃ r, processNetworkData C now s { gid := gid, srcnode := srcnode, sequence := sequence, srcttl := none, ttl := ttl, distance := distance, nottlregen := nottlregen, data := payload, uheader := none } ota = some r := by
            simp only [processNetworkData, preProcessData, e]
            simp [forwardBroadcast, groupNode, updateDistanceTable, hdel, hsrc, hg', hc]
          obtain ⟨⟨s', evs⟩, hp⟩ := hp
          refine ⟨s', evs, hp, ?_⟩
          simp only [processNetworkData, preProcessData, e] at hp
          simp [forwardBroadcast, groupNode, updateDistanceTable, hdel, hsrc, hg', hc] at hp
          obtain ⟨rfl, rfl⟩ := hp
          simp [dataSchedules, dataSchedules_append, dataSchedules_appData, setDataTimer, Data.hop,
            groupNode, updateDistanceTable, tfind_tset_self, hdel, hsrc, hg', hc]
          try tauto
      · rcases nottlregen with _ | nr
        · have hp : ∃ r, processNetworkData C now s { gid := gid, srcnode := srcnode, sequence := sequence, srcttl := some st, ttl := ttl, distance := distance, nottlregen := none, data := payload, uheader := none } ota = some r := by
            simp only [processNetworkData, preProcessData, e]
            simp [forwardBroadcast, groupNode, updateDistanceTable, hdel, hsrc, hg']
          obtain ⟨⟨s', evs⟩, hp⟩ := hp
          refine ⟨s', evs, hp, ?_⟩
          simp only [processNetworkData, preProcessData, e] at hp
          simp [forwardBroadcast, groupNode, updateDistanceTable, hdel, hsrc, hg'] at hp
          obtain ⟨rfl, rfl⟩ := hp
          simp [dataSchedules, dataSchedules_append, dataSchedules_appData, setDataTimer, Data.hop,
            groupNode, updateDistanceTable, tfind_tset_self, hdel, hsrc, hg']
        · by_cases ht : ttl = 0
          · have hp : ∃ r, processNetworkData C now s { gid := gid, srcnode := srcnode, sequence := sequence, srcttl := some st, ttl := ttl, distance := distance, nottlregen := some nr, data := payload, uheader := none } ota = some r := by
              simp only [processNetworkData, preProcessData, e]
              simp [forwardBroadcast, groupNode, updateDistanceTable, hdel, hsrc, hg', ht]
            obtain ⟨⟨s', evs⟩, hp⟩ := hp
            refine ⟨s', evs, hp, ?_⟩
            simp only [processNetworkData, preProcessData, e] at hp
            simp [forwardBroadcast, groupNode, updateDistanceTable, hdel, hsrc, hg', ht] at hp
            obtain ⟨rfl, rfl⟩ := hp
            simp [dataSchedules, dataSchedules_append, dataSchedules_appData, setDataTimer, Data.hop,
              groupNode, updateDistanceTable, tfind_tset_self, hdel, hsrc, hg', ht]
          · have hp : ∃ r, processNetworkData C now s { gid := gid, srcnode := srcnode, sequence := sequence, srcttl := some st, ttl := ttl, distance := distance, nottlregen := some nr, data := payload, uheader := none } ota = some r := by
              simp only [processNetworkData, preProcessData, e]
              simp [forwardBroadcast, groupNode, updateDistanceTable, hdel, hsrc, hg', ht]
            obtain ⟨⟨s', evs⟩, hp⟩ := hp
            refine ⟨s', evs, hp, ?_⟩
            simp only [processNetworkData, preProcessData, e] at hp
            simp [forwardBroadcast, groupNode, updateDistanceTable, hdel, hsrc, hg', ht] at hp
            obtain ⟨rfl, rfl⟩ := hp
            simp [dataSchedules, dataSchedules_append, dataSchedules_appData, setDataTimer, Data.hop,
              groupNode, updateDistanceTable, tfind_tset_self, hdel, hsrc, hg', ht]
            omega
  · have e := addToHashData_seen C now s d.hop m hh
    obtain ⟨gid, srcnode, sequence, srcttl, ttl, distance, nottlregen, payload, uheader⟩ := d
    simp only [Data.hop] at e hh hinfo hdel
    simp only at hu hsrc
    subst hu
    cases hg : groupNode s gid
    · have hg' := hg
      simp [groupNode] at hg'
      rcases srcttl with _ | st
      · have hp : ∃ r, processNetworkData C now s { gid := gid, srcnode := srcnode, sequence := sequence, srcttl := none, ttl := ttl, distance := distance, nottlregen := nottlregen, data := payload, uheader := none } ota = some r := by
          simp only [processNetworkData, preProcessData, e]
          simp [forwardBroadcast, groupNode, updateDistanceTable, hdel, hsrc, hg', hh]
        obtain ⟨⟨s', evs⟩, hp⟩ := hp
        refine ⟨s', evs, hp, ?_⟩
        simp only [processNetworkData, preProcessData, e] at hp
        simp [forwardBroadcast, groupNode, updateDistanceTable, hdel, hsrc, hg', hh] at hp
        obtain ⟨rfl, rfl⟩ := hp
        simp [dataSchedules, dataSchedules_append, dataSchedules_appData, setDataTimer, Data.hop,
          groupNode, updateDistanceTable, tfind_tset_self, hdel, hsrc, hg', hh]
      · by_cases ht : ttl = 0
        · have hp : ∃ r, processNetworkData C now s { gid := gid, srcnode := srcnode, sequence := sequence, srcttl := some st, ttl := ttl, distance := distance, nottlregen := nottlregen, data := payload, uheader := none } ota = some r := by
            simp only [processNetworkData, preProcessData, e]
            simp [forwardBroadcast, groupNode, updateDistanceTable, hdel, hsrc, hg', hh, ht]
          obtain ⟨⟨s', evs⟩, hp⟩ := hp
          refine ⟨s', evs, hp, ?_⟩
          simp only [processNetworkData, preProcessData, e] at hp
          simp [forwardBroadcast, groupNode, updateDistanceTable, hdel, hsrc, hg', hh, ht] at hp
          obtain ⟨rfl, rfl⟩ := hp
          simp [dataSchedules, dataSchedules_append, dataSchedules_appData, setDataTimer, Data.hop,
            groupNode, updateDistanceTable, tfind_tset_self, hdel, hsrc, hg', hh, ht]
        · by_cases hm : m < ttl
          · have hp : ∃ r, processNetworkData C now s { gid := gid, srcnode := srcnode, sequence := sequence, srcttl := some st, ttl := ttl, distance := distance, nottlregen := nottlregen, data := payload, uheader := none } ota = some r := by
              simp only [processNetworkData, preProcessData, e]
              simp [forwardBroadcast, groupNode, updateDistanceTable, hdel, hsrc, hg', hh, ht, hm, getMaxTTLfromHash, changeMaxTTL, hinfo]
            obtain ⟨⟨s', evs⟩, hp⟩ := hp
            refine ⟨s', evs, hp, ?_⟩
            simp only [processNetworkData, preProcessData, e] at hp
            simp [forwardBroadcast, groupNode, updateDistanceTable, hdel, hsrc, hg', hh, ht, hm, getMaxTTLfromHash, changeMaxTTL, hinfo] at hp
            obtain ⟨rfl, rfl⟩ := hp
            simp [dataSchedules, dataSchedules_append, dataSchedules_appData, setDataTimer, Data.hop,
              groupNode, updateDistanceTable, tfind_tset_self, hdel, hsrc, hg', hh, ht, hm, getMaxTTLfromHash, changeMaxTTL, hinfo]
          · have hp : ∃ r, processNetworkData C now s { gid := gid, srcnode := srcnode, sequence := sequence, srcttl := some st, ttl := ttl, distance := distance, nottlregen := nottlregen, data := payload, uheader := none } ota = some r := by
              simp only [processNetworkData, preProcessData, e]
              simp [forwardBroadcast, groupNode, updateDistanceTable, hdel, hsrc, hg', hh, ht, hm, getMaxTTLfromHash]
            obtain ⟨⟨s', evs⟩, hp⟩ := hp
            refine ⟨s', evs, hp, ?_⟩
            simp only [processNetworkData, preProcessData, e] at hp
            simp [forwardBroadcast, groupNode, updateDistanceTable, hdel, hsrc, hg', hh, ht, hm, getMaxTTLfromHash] at hp
            obtain ⟨rfl, rfl⟩ := hp
            simp [dataSchedules, dataSchedules_append, dataSchedules_appData, setDataTimer, Data.hop,
              groupNode, updateDistanceTable, tfind_tset_self, hdel, hsrc, hg', hh, ht, hm, getMaxTTLfromHash]
            omega
    · have hg' := hg
      simp [groupNode] at hg'
      rcases srcttl with _ | st
      · have hp : ∃ r, processNetworkData C now s { gid := gid, srcnode := srcnode, sequence := sequence, srcttl := none, ttl := ttl, distance := distance, nottlregen := nottlregen, data := payload, uheader := none } ota = some r := by
          simp only [processNetworkData, preProcessData, e]
          simp [forwardBroadcast, groupNode, updateDistanceTable, hdel, hsrc, hg', hh]
        obtain ⟨⟨s', evs⟩, hp⟩ := hp
        refine ⟨s', evs, hp, ?_⟩
        simp only [processNetworkData, preProcessData, e] at hp
        simp [forwardBroadcast, groupNode, updateDistanceTable, hdel, hsrc, hg', hh] at hp
        obtain ⟨rfl, rfl⟩ := hp
        simp [dataSchedules, dataSchedules_append, dataSchedules_appData, setDataTimer, Data.hop,
          groupNode, updateDistanceTable, tfind_tset_self, hdel, hsrc, hg', hh]
      · have hp : ∃ r, processNetworkData C now s { gid := gid, srcnode := srcnode, sequence := sequence, srcttl := some st, ttl := ttl, distance := distance, nottlregen := nottlregen, data := payload, uheader := none } ota = some r := by
          simp only [processNetworkData, preProcessData, e]
          simp [forwardBroadcast, groupNode, updateDistanceTable, hdel, hsrc, hg', hh]
        obtain ⟨⟨s', evs⟩, hp⟩ := hp
        refine ⟨s', evs, hp, ?_⟩
        simp only [processNetworkData, preProcessData, e] at hp
        simp [forwardBroadcast, groupNode, updateDistanceTable, hdel, hsrc, hg', hh] at hp
        obtain ⟨rfl, rfl⟩ := hp
        simp [dataSchedules, dataSchedules_append, dataSchedules_appData, setDataTimer, Data.hop,
          groupNode, updateDistanceTable, tfind_tset_self, hdel, hsrc, hg', hh]

theorem forwardUnicast_schedules (s : GcnService) (d : Data) (uh : UnicastHeader)
    (h : HashValue) (new grp ack : Bool) :
    dataSchedules (forwardUnicast s d uh h new grp ack).2 =
      if new = true ∧ uh.unicastdest ≠ s.mNodeId ∧
          storedDistance s.mDistanceTable (GIDKey.mk d.gid uh.unicastdest) ≠ 0 ∧
          storedDistance s.mDistanceTable (GIDKey.mk d.gid uh.unicastdest) ≤ uh.relaydistance ∧
          ((ack = true ∧ ((grp = true ∧ s.mAlwaysRebroadcast = true) ∨
              mcount d.gid s.mRemotePullTable ≠ 0)) ∨
           (ack = false ∧ d.ttl ≠ 0 ∧ (grp = false ∨ d.nottlregen.isSome = true)) ∨
           (ack = false ∧ grp = true))
      then [(d.withRelayDistance uh
               (storedDistance s.mDistanceTable (GIDKey.mk d.gid uh.unicastdest) - 1),
             if ack = true then 1
             else if d.ttl ≠ 0 ∧ (grp = false ∨ d.nottlregen.isSome = true) then d.ttl
             else d.srcttl.getD 0)]
      else [] := by
  have hs : ∀ (x : GcnService) (m : Data) (t : Nat),
      (setDataTimer x m t h).2 = [Event.dataTimer m t h] := fun _ _ _ => rfl
  have hm : (match tfind (GIDKey.mk d.gid uh.unicastdest) s.mDistanceTable with
      | some info => info.distance
      | none => 0) = storedDistance s.mDistanceTable (GIDKey.mk d.gid uh.unicastdest) := rfl
  simp only [forwardUnicast, hm]
  generalize storedDistance s.mDistanceTable (GIDKey.mk d.gid uh.unicastdest) = myD
  generalize mcount d.gid s.mRemotePullTable = cnt
  generalize s.mAlwaysRebroadcast = always
  generalize s.mNodeId = self
  simp only [apply_ite Prod.snd, hs]
  cases new <;> cases grp <;> cases ack <;>
    by_cases c1 : uh.unicastdest = self <;>
    by_cases c2 : myD = 0 <;>
    by_cases c3 : myD ≤ uh.relaydistance <;>
    by_cases c4 : always = true <;>
    by_cases c5 : cnt = 0 <;>
    by_cases c6 : d.ttl = 0 <;>
    by_cases c7 : d.nottlregen.isSome = true <;>
    simp [c1, c2, c3, c4, c5, c6, c7, dataSchedules, Data.withRelayDistance]

theorem forwardUnicast_state (s : GcnService) (d : Data) (uh : UnicastHeader)
    (h : HashValue) (new grp ack : Bool) :
    ∃ t, (forwardUnicast s d uh h new grp ack).1 = { s with mDataTimerTable := t } := by
  simp only [forwardUnicast, setDataTimer]
  split_ifs <;> exact ⟨_, rfl⟩

theorem distanceUpdate_other (self : NodeId) (t : List (GIDKey × DistanceInfo)) (gid : GroupId)
    (gidsrc : NodeId) (hashValue : HashValue) (distance : Nat) (otaSrc : NodeId)
    (newToHash AdvMsg : Bool) (key : GIDKey) (hk : GIDKey.mk gid gidsrc ≠ key) :
    tfind key (distanceUpdate self t gid gidsrc hashValue distance otaSrc newToHash AdvMsg)
      = tfind key t := by
  simp only [distanceUpdate]
  split
  · split_ifs <;> first | exact tfind_tset_ne _ _ _ _ hk | rfl
  · exact tfind_tset_ne _ _ _ _ hk

theorem dataSchedules_map_appData (d : Data) (l : List SessionId) :
    dataSchedules (l.map (fun sub => Event.appData sub d)) = [] :=
  dataSchedules_appData _ (fun x => ⟨x, d, rfl⟩) l

theorem transmissions_map_appData (d : Data) (l : List SessionId) :
    transmissions (l.map (fun sub => Event.appData sub d)) = [] := by
  induction l with
  | nil => rfl
  | cons x r ih => simp [transmissions, ih]

/-- What `preProcessData` leaves behind: the hash value and the new flag, the tables it
does not touch, the distance table, and no timer or link call among its events. -/
theorem preProcessData_spec (C : Codec) (now : Int) (s : GcnService) (d : Data)
    (ota : NodeId) (p : Option SessionId) :
    (preProcessData C now s d ota p).2.1 = hashOfData C d ∧
    ((preProcessData C now s d ota p).2.2.1 = true ↔ tfind (hashOfData C d) s.mHashTable = none) ∧
    (preProcessData C now s d ota p).1.mNodeId = s.mNodeId ∧
    (preProcessData C now s d ota p).1.mAlwaysRebroadcast = s.mAlwaysRebroadcast ∧
    (preProcessData C now s d ota p).1.mLocalPullTable = s.mLocalPullTable ∧
    (preProcessData C now s d ota p).1.mAnnounceTable = s.mAnnounceTable ∧
    (preProcessData C now s d ota p).1.mRemotePullTable = s.mRemotePullTable ∧
    (preProcessData C now s d ota p).1.mDistanceTable =
      distanceUpdate s.mNodeId s.mDistanceTable d.gid d.srcnode (hashOfData C d) d.distance ota
        (preProcessData C now s d ota p).2.2.1 false ∧
    dataSchedules (preProcessData C now s d ota p).2.2.2 = [] ∧
    transmissions (preProcessData C now s d ota p).2.2.2 = [] := by
  have hev : ∀ (b : Bool) (self : NodeId) (ann : List (GroupId × AnnounceInfo))
      (loc : List (GroupId × SessionId)),
      dataSchedules (if b = true then
          match d.uheader with
          | some uheader =>
            if uheader.unicastdest = self then
              (match tfind d.gid ann with
               | some annc => [Event.appData annc.pSession d]
               | none => [])
              ++ (mrange d.gid loc).map (fun sub => Event.appData sub d)
            else []
          | none =>
            ((mrange d.gid loc).filter (fun sub => decide (p ≠ some sub))).map
              (fun sub => Event.appData sub d)
        else []) = [] ∧
      transmissions (if b = true then
          match d.uheader with
          | some uheader =>
            if uheader.unicastdest = self then
              (match tfind d.gid ann with
               | some annc => [Event.appData annc.pSession d]
               | none => [])
              ++ (mrange d.gid loc).map (fun sub => Event.appData sub d)
            else []
          | none =>
            ((mrange d.gid loc).filter (fun sub => decide (p ≠ some sub))).map
              (fun sub => Event.appData sub d)
        else []) = [] := by
    intro b self ann loc
    cases b
    · exact ⟨rfl, rfl⟩
    · simp only [if_true]
      rcases d.uheader with _ | u
      · exact ⟨dataSchedules_map_appData _ _, transmissions_map_appData _ _⟩
      · simp only
        split_ifs
        · rcases tfind d.gid ann with _ | annc
          · exact ⟨dataSchedules_map_appData _ _, transmissions_map_appData _ _⟩
          · simp [dataSchedules, transmissions, dataSchedules_map_appData,
              transmissions_map_appData]
        · exact ⟨rfl, rfl⟩
  rcases hh : tfind (hashOfData C d) s.mHashTable with _ | m
  · have e := addToHashData_new C now s d hh
    refine ⟨?_, ?_, ?_, ?_, ?_, ?_, ?_, ?_, ?_, ?_⟩ <;>
      first
      | exact (hev _ _ _ _).1
      | exact (hev _ _ _ _).2
      | (simp only [preProcessData, e]; done)
      | (simp only [preProcessData, e]; rfl)
  · have e := addToHashData_seen C now s d m hh
    refine ⟨?_, ?_, ?_, ?_, ?_, ?_, ?_, ?_, ?_, ?_⟩ <;>
      first
      | exact (hev _ _ _ _).1
      | exact (hev _ _ _ _).2
      | (simp only [preProcessData, e]; done)
      | (simp only [preProcessData, e]; rfl)
      | simp [preProcessData, e, updateDistanceTable]


theorem processNetworkData_unicast (C : Codec) (now : Int) (s : GcnService) (d : Data)
    (ota : NodeId) (uh : UnicastHeader) (hu : d.uheader = some uh) :
    processNetworkData C now s d ota =
      some ((forwardUnicast (preProcessData C now s d.hop ota none).1 d.hop uh
              (preProcessData C now s d.hop ota none).2.1
              (preProcessData C now s d.hop ota none).2.2.1
              (groupNode (preProcessData C now s d.hop ota none).1 d.gid) d.srcttl.isNone).1,
            (preProcessData C now s d.hop ota none).2.2.2 ++
            (forwardUnicast (preProcessData C now s d.hop ota none).1 d.hop uh
              (preProcessData C now s d.hop ota none).2.1
              (preProcessData C now s d.hop ota none).2.2.1
              (groupNode (preProcessData C now s d.hop ota none).1 d.gid) d.srcttl.isNone).2) := by
  simp only [processNetworkData, hu, Data.hop]

/-- The calls of `setDataTimer` in the unicast DATA forwarding decision of
`processNetworkData`, for a frame with a unicast header: the handler always returns. With `myDistance` the distance stored for
`(gid, unicastdest)` at the time of the decision (0 when absent; the entry is the one
the node had before the call whenever `srcnode ≠ unicastdest`): when the frame is new
to the hash and the destination is not this node, `setDataTimer` is called iff
`0 < myDistance ≤ relaydistance` and one of: ACK mode and (group participant with
always-rebroadcast, or a remote pull entry for the group); flood mode with ttl > 0 and
(non-group or `nottlregen` present); flood mode and group participant. A call is made
once, with outgoing relay distance `myDistance - 1` and ttl argument 1 (ACK mode), the
received ttl (second case) or `srcttl` (third case). When the frame is not new or the
destination is this node, no call is made. -/
theorem unicast_data_forwarding_events (C : Codec) (now : Int) (s : GcnService) (d : Data)
    (ota : NodeId) (uh : UnicastHeader) (hu : d.uheader = some uh) :
    ∃ s' evs, processNetworkData C now s d ota = some (s', evs) ∧
      (tfind (hashOfData C d.hop) s.mHashTable = none → uh.unicastdest ≠ s.mNodeId →
        (dataSchedules evs ≠ [] ↔
          0 < storedDistance s'.mDistanceTable (GIDKey.mk d.gid uh.unicastdest) ∧
          storedDistance s'.mDistanceTable (GIDKey.mk d.gid uh.unicastdest) ≤ uh.relaydistance ∧
          ((d.srcttl = none ∧ ((groupNode s d.gid = true ∧ s.mAlwaysRebroadcast = true) ∨
              mcount d.gid s.mRemotePullTable ≠ 0)) ∨
           (d.srcttl ≠ none ∧ 0 < d.ttl ∧ (groupNode s d.gid = false ∨ d.nottlregen ≠ none)) ∨
           (d.srcttl ≠ none ∧ groupNode s d.gid = true))) ∧
        (dataSchedules evs ≠ [] →
          dataSchedules evs =
            [(d.hop.withRelayDistance uh
                (storedDistance s'.mDistanceTable (GIDKey.mk d.gid uh.unicastdest) - 1),
              if d.srcttl = none then 1
              else if 0 < d.ttl ∧ (groupNode s d.gid = false ∨ d.nottlregen ≠ none) then d.ttl
              else d.srcttl.getD 0)])) ∧
      (tfind (hashOfData C d.hop) s.mHashTable ≠ none ∨ uh.unicastdest = s.mNodeId →
        dataSchedules evs = []) ∧
      (d.srcnode ≠ uh.unicastdest →
        storedDistance s'.mDistanceTable (GIDKey.mk d.gid uh.unicastdest) =
          storedDistance s.mDistanceTable (GIDKey.mk d.gid uh.unicastdest)) := by
  refine ⟨_, _, processNetworkData_unicast C now s d ota uh hu, ?_⟩
  obtain ⟨h1, h2, h3, h4, h5, h6, h7, h8, h9, -⟩ := preProcessData_spec C now s d.hop ota none
  obtain ⟨t, ht⟩ := forwardUnicast_state (preProcessData C now s d.hop ota none).1 d.hop uh
              (preProcessData C now s d.hop ota none).2.1
              (preProcessData C now s d.hop ota none).2.2.1
              (groupNode (preProcessData C now s d.hop ota none).1 d.gid) d.srcttl.isNone
  have hg : groupNode (preProcessData C now s d.hop ota none).1 d.gid = groupNode s d.gid := by
    simp only [groupNode, h5, h6]
  have hsched := forwardUnicast_schedules (preProcessData C now s d.hop ota none).1 d.hop uh
              (preProcessData C now s d.hop ota none).2.1
              (preProcessData C now s d.hop ota none).2.2.1
              (groupNode (preProcessData C now s d.hop ota none).1 d.gid) d.srcttl.isNone
  rw [dataSchedules_append, h9, List.nil_append, hsched, ht]
  simp only [hg, h3, h4, h7]
  have hgid : d.hop.gid = d.gid := rfl
  have httl : d.hop.ttl = d.ttl := rfl
  have hsrcttl : d.hop.srcttl = d.srcttl := rfl
  have hreg : d.hop.nottlregen = d.nottlregen := rfl
  simp only [hgid, httl, hsrcttl, hreg]
  have hlast : d.srcnode ≠ uh.unicastdest →
      storedDistance (preProcessData C now s d.hop ota none).1.mDistanceTable
        (GIDKey.mk d.gid uh.unicastdest) =
      storedDistance s.mDistanceTable (GIDKey.mk d.gid uh.unicastdest) := by
    intro hne
    have hk : GIDKey.mk d.hop.gid d.hop.srcnode ≠ GIDKey.mk d.gid uh.unicastdest := by
      intro hc
      injection hc with _ h2'
      exact hne h2'
    simp only [storedDistance, h8, distanceUpdate_other _ _ _ _ _ _ _ _ _ _ hk]
  refine ⟨?_, ?_, hlast⟩
  · generalize storedDistance (preProcessData C now s d.hop ota none).1.mDistanceTable
      (GIDKey.mk d.gid uh.unicastdest) = myD
    intro hnew hdest
    have hb := h2.mpr hnew
    rw [hb]
    rcases d.srcttl with _ | st <;> rcases d.nottlregen with _ | r <;>
      cases groupNode s d.gid <;>
      by_cases c1 : myD = 0 <;>
      by_cases c2 : myD ≤ uh.relaydistance <;>
      by_cases c3 : s.mAlwaysRebroadcast = true <;>
      by_cases c4 : mcount d.gid s.mRemotePullTable = 0 <;>
      by_cases c5 : d.ttl = 0 <;>
      simp [hdest, c1, c2, c3, c4, c5, Nat.pos_iff_ne_zero]
  · intro hcase
    have hneg : ¬ ((preProcessData C now s d.hop ota none).2.2.1 = true ∧
        uh.unicastdest ≠ s.mNodeId) := by
      rintro ⟨hb, hdest⟩
      rcases hcase with hseen | hself
      · exact hseen (h2.mp hb)
      · exact hdest hself
    rw [if_neg]
    rintro ⟨hb, hdest, -⟩
    exact hneg ⟨hb, hdest⟩


theorem forwardUnicast_transmissions (s : GcnService) (d : Data) (uh : UnicastHeader)
    (h : HashValue) (new grp ack : Bool) :
    transmissions (forwardUnicast s d uh h new grp ack).2 = [] := by
  have hs : ∀ (x : GcnService) (m : Data) (t : Nat),
      (setDataTimer x m t h).2 = [Event.dataTimer m t h] := fun _ _ _ => rfl
  simp only [forwardUnicast, apply_ite Prod.snd, hs]
  split_ifs <;> rfl

theorem processNetworkData_broadcast (C : Codec) (now : Int) (s : GcnService) (d : Data)
    (ota : NodeId) (hu : d.uheader = none) (hsrc : d.srcnode ≠ s.mNodeId) :
    processNetworkData C now s d ota =
      match forwardBroadcast (preProcessData C now s d.hop ota none).1 d.hop
              (preProcessData C now s d.hop ota none).2.1
              (preProcessData C now s d.hop ota none).2.2.1
              (groupNode (preProcessData C now s d.hop ota none).1 d.gid) d.srcttl.isNone with
      | none => none
      | some fwd => some (fwd.1, (preProcessData C now s d.hop ota none).2.2.2 ++ fwd.2) := by
  obtain ⟨gid, srcnode, sequence, srcttl, ttl, distance, nottlregen, payload, uheader⟩ := d
  simp only at hu hsrc
  subst hu
  have h3 := (preProcessData_spec C now s
    (Data.hop ⟨gid, srcnode, sequence, srcttl, ttl, distance, nottlregen, payload, none⟩)
    ota none).2.2.1
  simp only [Data.hop] at h3
  simp only [processNetworkData, Data.hop, h3, ne_eq, hsrc, not_false_eq_true, if_true]

theorem forwardBroadcast_ack (s : GcnService) (d : Data) (h : HashValue) (new grp : Bool) :
    forwardBroadcast s d h new grp true =
      some (if new = true ∧ ((grp = true ∧ s.mAlwaysRebroadcast = true) ∨
                mcount d.gid s.mRemotePullTable ≠ 0)
            then setDataTimer s d 1 h else (s, [])) := by
  simp only [forwardBroadcast, if_true]
  split_ifs <;> rfl

/-- C3. Tree safety: for a DATA frame without `srcttl` (ACK mode) whose source node is
not this node, `processNetworkData` returns, hands nothing to the link itself, and calls
`setDataTimer` (on the broadcast or the unicast path) only if the remote pull table has
an entry for the group or always-rebroadcast is on. -/
theorem tree_safety (C : Codec) (now : Int) (s : GcnService) (d : Data) (ota : NodeId)
    (hack : d.srcttl = none) (hsrc : d.srcnode ≠ s.mNodeId) :
    ∃ s' evs, processNetworkData C now s d ota = some (s', evs) ∧
      transmissions evs = [] ∧
      (dataSchedules evs ≠ [] →
        mcount d.gid s.mRemotePullTable ≠ 0 ∨ s.mAlwaysRebroadcast = true) := by
  obtain ⟨-, -, h3, h4, h5, h6, h7, -, h9, h10⟩ := preProcessData_spec C now s d.hop ota none
  have hg : groupNode (preProcessData C now s d.hop ota none).1 d.gid = groupNode s d.gid := by
    simp only [groupNode, h5, h6]
  have hisn : d.srcttl.isNone = true := by rw [hack]; rfl
  have hgid : d.hop.gid = d.gid := rfl
  rcases hu : d.uheader with _ | uh
  · rw [processNetworkData_broadcast C now s d ota hu hsrc, hisn, forwardBroadcast_ack]
    refine ⟨_, _, rfl, ?_, ?_⟩
    · rw [transmissions_append, h10]
      split_ifs <;> rfl
    · rw [dataSchedules_append, h9, hg, h4, h7, hgid]
      split_ifs with hc
      · intro _
        rcases hc.2 with hc' | hc'
        · exact Or.inr hc'.2
        · exact Or.inl hc'
      · intro hne
        exact absurd rfl hne
  · rw [processNetworkData_unicast C now s d ota uh hu]
    refine ⟨_, _, rfl, ?_, ?_⟩
    · rw [transmissions_append, h10, forwardUnicast_transmissions]
      rfl
    · rw [dataSchedules_append, h9, forwardUnicast_schedules, hisn, hg, h4, h7, hgid,
        List.nil_append]
      intro hne
      by_contra hcon
      apply hne
      rw [if_neg]
      rintro ⟨-, -, -, -, hc' | hc' | hc'⟩
      · rcases hc'.2 with h' | h'
        · exact hcon (Or.inr h'.2)
        · exact hcon (Or.inl h')
      · exact absurd hc'.1 (by simp)
      · exact absurd hc'.1 (by simp)


theorem hashedAdvertise_congr (a1 a2 : Advertise)
    (hgid : a1.gid = a2.gid) (hsrc : a1.srcnode = a2.srcnode) (hseq : a1.sequence = a2.sequence)
    (hsrcttl : a1.srcttl = a2.srcttl) (hprob : a1.probrelay = a2.probrelay)
    (hregen : a1.nottlregen = a2.nottlregen) (htype : a1.type = a2.type)
    (hint : a1.interval = a2.interval) : hashedAdvertise a1 = hashedAdvertise a2 := by
  cases a1; cases a2
  simp only at hgid hsrc hseq hsrcttl hprob hregen htype hint
  simp [hashedAdvertise, hgid, hsrc, hseq, hsrcttl, hprob, hregen, htype, hint]

theorem hashedData_congr (d1 d2 : Data)
    (hgid : d1.gid = d2.gid) (hsrc : d1.srcnode = d2.srcnode) (hseq : d1.sequence = d2.sequence)
    (hsrcttl : d1.srcttl = d2.srcttl) (hregen : d1.nottlregen = d2.nottlregen)
    (hdata : d1.data = d2.data)
    (hhdr : d1.uheader.map (fun u => (u.unicastdest, u.resilience)) =
            d2.uheader.map (fun u => (u.unicastdest, u.resilience))) :
    hashedData d1 = hashedData d2 := by
  obtain ⟨g1, s1, q1, st1, t1, di1, r1, p1, u1⟩ := d1
  obtain ⟨g2, s2, q2, st2, t2, di2, r2, p2, u2⟩ := d2
  simp only at hgid hsrc hseq hsrcttl hregen hdata hhdr
  subst hgid hsrc hseq hsrcttl hregen hdata
  rcases u1 with _ | ⟨dst1, rd1, rs1⟩ <;> rcases u2 with _ | ⟨dst2, rd2, rs2⟩ <;>
    simp [hashedData] at hhdr ⊢
  exact hhdr

/-- C5. Hash invariance: two ADVERTISE frames that agree on every field except ttl and
distance, and two DATA frames that agree on every field except ttl, distance and the
relay distance of a unicast header, get the same hash value from `addToHash`; the first
one's hash is in Hash after it was added, and as long as it is in Hash, `addToHash`
reports the second not new and leaves the state as it is. -/
theorem hash_invariance (C : Codec) (now1 now2 : Int) (s s2 : GcnService)
    (a1 a2 : Advertise) (d1 d2 : Data)
    (hgid : a1.gid = a2.gid) (hsrc : a1.srcnode = a2.srcnode) (hseq : a1.sequence = a2.sequence)
    (hsrcttl : a1.srcttl = a2.srcttl) (hprob : a1.probrelay = a2.probrelay)
    (hregen : a1.nottlregen = a2.nottlregen) (htype : a1.type = a2.type)
    (hint : a1.interval = a2.interval)
    (dgid : d1.gid = d2.gid) (dsrc : d1.srcnode = d2.srcnode) (dseq : d1.sequence = d2.sequence)
    (dsrcttl : d1.srcttl = d2.srcttl) (dregen : d1.nottlregen = d2.nottlregen)
    (ddata : d1.data = d2.data)
    (dhdr : d1.uheader.map (fun u => (u.unicastdest, u.resilience)) =
            d2.uheader.map (fun u => (u.unicastdest, u.resilience))) :
    (addToHashAdvertise C now2 s2 a2).2.1 = (addToHashAdvertise C now1 s a1).2.1 ∧
    (addToHashData C now2 s2 d2).2.1 = (addToHashData C now1 s d1).2.1 ∧
    tfind (addToHashAdvertise C now1 s a1).2.1 (addToHashAdvertise C now1 s a1).1.mHashTable ≠ none ∧
    tfind (addToHashData C now1 s d1).2.1 (addToHashData C now1 s d1).1.mHashTable ≠ none ∧
    (tfind (addToHashAdvertise C now1 s a1).2.1 s2.mHashTable ≠ none →
      (addToHashAdvertise C now2 s2 a2).2.2 = false ∧ (addToHashAdvertise C now2 s2 a2).1 = s2) ∧
    (tfind (addToHashData C now1 s d1).2.1 s2.mHashTable ≠ none →
      (addToHashData C now2 s2 d2).2.2 = false ∧ (addToHashData C now2 s2 d2).1 = s2) := by
  have ha := hashedAdvertise_congr a1 a2 hgid hsrc hseq hsrcttl hprob hregen htype hint
  have hd := hashedData_congr d1 d2 dgid dsrc dseq dsrcttl dregen ddata dhdr
  have e1 : ∀ (n : Int) (x : GcnService) (a : Advertise),
      (addToHashAdvertise C n x a).2.1 = hashOfAdvertise C a := by
    intro n x a
    simp only [addToHashAdvertise, addToHash_eq, hashOfAdvertise]
    split_ifs <;> rfl
  have e2 : ∀ (n : Int) (x : GcnService) (d : Data),
      (addToHashData C n x d).2.1 = hashOfData C d := by
    intro n x d
    simp only [addToHashData, addToHash_eq, hashOfData]
    split_ifs <;> rfl
  have ha' : hashOfAdvertise C a2 = hashOfAdvertise C a1 := by
    simp only [hashOfAdvertise, ha]
  have hd' : hashOfData C d2 = hashOfData C d1 := by
    simp only [hashOfData, hd]
  refine ⟨by rw [e1, e1, ha'], by rw [e2, e2, hd'], ?_, ?_, ?_, ?_⟩
  · rw [e1]
    rcases hh : tfind (hashOfAdvertise C a1) s.mHashTable with _ | m
    · rw [addToHashAdvertise_new C now1 s a1 hh]
      simp [tfind_tset_self]
    · rw [addToHashAdvertise_seen C now1 s a1 m hh]
      simp [hh]
  · rw [e2]
    rcases hh : tfind (hashOfData C d1) s.mHashTable with _ | m
    · rw [addToHashData_new C now1 s d1 hh]
      simp [tfind_tset_self]
    · rw [addToHashData_seen C now1 s d1 m hh]
      simp [hh]
  · rw [e1, ← ha']
    intro hin
    rcases hh : tfind (hashOfAdvertise C a2) s2.mHashTable with _ | m
    · exact absurd hh hin
    · rw [addToHashAdvertise_seen C now2 s2 a2 m hh]
      exact ⟨rfl, rfl⟩
  · rw [e2, ← hd']
    intro hin
    rcases hh : tfind (hashOfData C d2) s2.mHashTable with _ | m
    · exact absurd hh hin
    · rw [addToHashData_seen C now2 s2 d2 m hh]
      exact ⟨rfl, rfl⟩

theorem deliveriesTo_map_appData (sub : SessionId) (d : Data) (l : List SessionId) :
    deliveriesTo sub (l.map (fun x => Event.appData x d)) = List.replicate (l.count sub) d := by
  induction l with
  | nil => rfl
  | cons x r ih =>
    by_cases hx : x = sub
    · subst hx
      simp [deliveriesTo, ih, List.replicate_succ]
    · have hx' : ¬ (x == sub) = true := by simpa using hx
      simp [deliveriesTo, ih, hx, List.count_cons, hx']

theorem count_filter_ne (sub : SessionId) (p : Option SessionId) (l : List SessionId) :
    (l.filter (fun x => decide (p ≠ some x))).count sub =
      if p = some sub then 0 else l.count sub := by
  by_cases hp : p = some sub
  · rw [if_pos hp]
    apply List.count_eq_zero.mpr
    intro hmem
    have h := List.of_mem_filter hmem
    simp [hp] at h
  · rw [if_neg hp]
    exact List.count_filter (by simpa using hp)

/-- C2 (amended). Local delivery is once per table entry: `preProcessData`, the only
place where a DATA record is forwarded to a client session, forwards nothing for a frame
whose hash is in Hash; for a frame new to the hash it forwards the record to session
`sub` once for each entry of `sub` in `LocalSubs[gid]` (none of them when the record is a
broadcast that came from `sub` itself), and once more as the `Announce[gid]` session when
the frame is a unicast addressed to this node; a unicast for another node is not
delivered. -/
theorem local_delivery_per_entry (C : Codec) (now : Int) (s : GcnService) (d : Data)
    (ota : NodeId) (p : Option SessionId) (sub : SessionId) :
    deliveriesTo sub (preProcessData C now s d ota p).2.2.2 =
      List.replicate
        (if tfind (hashOfData C d) s.mHashTable = none then
          match d.uheader with
          | some uheader =>
            if uheader.unicastdest = s.mNodeId then
              announcements s d.gid sub + subscriptions s d.gid sub
            else 0
          | none => if p = some sub then 0 else subscriptions s d.gid sub
        else 0) d := by
  rcases hh : tfind (hashOfData C d) s.mHashTable with _ | m
  · have e := addToHashData_new C now s d hh
    simp only [preProcessData, e, updateDistanceTable, if_true]
    rcases d.uheader with _ | uh
    · simp only [deliveriesTo_map_appData, count_filter_ne, subscriptions]
    · simp only
      split_ifs
      · simp only [deliveriesTo_append, deliveriesTo_map_appData, announcements, subscriptions]
        rcases tfind d.gid s.mAnnounceTable with _ | annc
        · simp [deliveriesTo]
        · simp only [deliveriesTo]
          split_ifs <;> simp [deliveriesTo, List.replicate_succ, Nat.add_comm]
      · rfl
  · have e := addToHashData_seen C now s d m hh
    simp [preProcessData, e, deliveriesTo]

/-- C2, counterexample. Session 1 of node 3 sends PULL for group 7 twice; the DATA frame
(7, 1, 1) then received from neighbour 2 is forwarded to session 1 twice. -/
theorem local_delivery_twice :
    (andThen (andThen (OnClientReceive fieldCodec 0 (freshNode 3) 1 (pullMessage 7))
        (fun s => OnClientReceive fieldCodec 0 s 1 (pullMessage 7)))
        (fun s => processNetworkData fieldCodec 1 s helloFrame 2)).map
      (fun r => deliveriesTo 1 r.2) = some [helloFrame.hop, helloFrame.hop] := by
  decide

/-- C1, counterexample. A client of node 1 registers as source of group 7; the announce
timer fires; the client deregisters and registers again; the timer fires again. Nothing
is received from the network and Hash is never swept. Both ticks hand the same ADVERTISE
to the link, and its hash is in Hash from the first tick on, with the stored maximum 2
unchanged. -/
theorem origin_transmits_same_hash_twice :
    firstTick.map (fun r => transmissions r.2)
      = some [{ src := 1, advertise := [originAdvertise], ack := [], data := [] }] ∧
    reRegistered.map (fun r => transmissions (OnAnnounceTimeout fieldCodec 22 r.1 7).2)
      = some [{ src := 1, advertise := [originAdvertise], ack := [], data := [] }] ∧
    firstTick.map (fun r => getMaxTTLfromHash r.1 (hashOfAdvertise fieldCodec originAdvertise))
      = some (some 2) ∧
    reRegistered.map (fun r => getMaxTTLfromHash r.1 (hashOfAdvertise fieldCodec originAdvertise))
      = some (some 2) ∧
    reRegistered.map (fun r => getMaxTTLfromHash (OnAnnounceTimeout fieldCodec 22 r.1 7).1
        (hashOfAdvertise fieldCodec originAdvertise))
      = some (some 2) := by
  decide

theorem advSchedules_map_appData (d : Data) (l : List SessionId) :
    advSchedules (l.map (fun sub => Event.appData sub d)) = [] := by
  induction l with
  | nil => rfl
  | cons x r ih => simp [advSchedules, ih]

theorem preProcessData_advSchedules (C : Codec) (now : Int) (s : GcnService) (d : Data)
    (ota : NodeId) (p : Option SessionId) :
    advSchedules (preProcessData C now s d ota p).2.2.2 = [] := by
  simp only [preProcessData]
  split_ifs
  · rcases d.uheader with _ | u
    · exact advSchedules_map_appData _ _
    · simp only
      split_ifs
      · rcases tfind d.gid _ with _ | annc
        · exact advSchedules_map_appData _ _
        · simp [advSchedules, advSchedules_map_appData]
      · rfl
  · rfl

theorem preProcessData_hashTable_seen (C : Codec) (now : Int) (s : GcnService) (d : Data)
    (ota : NodeId) (p : Option SessionId) (m : Nat)
    (h : tfind (hashOfData C d) s.mHashTable = some m) :
    (preProcessData C now s d ota p).1.mHashTable = s.mHashTable := by
  simp only [preProcessData, addToHashData_seen C now s d m h, updateDistanceTable]

theorem hashedData_withRelayDistance (d : Data) (uh : UnicastHeader) (rd : Nat)
    (hu : d.uheader = some uh) : hashedData (d.withRelayDistance uh rd) = hashedData d := by
  cases d
  simp only at hu
  subst hu
  simp [hashedData, Data.withRelayDistance]

theorem forwardUnicast_advSchedules (s : GcnService) (d : Data) (uh : UnicastHeader)
    (h : HashValue) (new grp ack : Bool) :
    advSchedules (forwardUnicast s d uh h new grp ack).2 = [] := by
  have hs : ∀ (x : GcnService) (m : Data) (t : Nat),
      (setDataTimer x m t h).2 = [Event.dataTimer m t h] := fun _ _ _ => rfl
  simp only [forwardUnicast, apply_ite Prod.snd, hs]
  split_ifs <;> rfl

/-- The broadcast branch of `processNetworkData` returns when the distance table has an
entry for the flow and a frame that is not new has its hash in Hash; it makes at most
one `setDataTimer` call, for a frame with the hash of the received one, and only when
the frame is new or its ttl exceeds the stored maximum, which is then raised. -/
theorem forwardBroadcast_spec (s : GcnService) (d : Data) (h : HashValue) (new grp ack : Bool)
    (hd : ∃ info, tfind (GIDKey.mk d.gid d.srcnode) s.mDistanceTable = some info)
    (hseen : new = false → ∃ m, tfind h s.mHashTable = some m) :
    ∃ fwd, forwardBroadcast s d h new grp ack = some fwd ∧
      transmissions fwd.2 = [] ∧ advSchedules fwd.2 = [] ∧
      (dataSchedules fwd.2).length ≤ 1 ∧
      ∀ p ∈ dataSchedules fwd.2, hashedData p.1 = hashedData d ∧
        (new = true ∨ ∃ m, tfind h s.mHashTable = some m ∧ m < d.ttl ∧
          tfind h fwd.1.mHashTable = some d.ttl) := by
  obtain ⟨info, hinfo⟩ := hd
  cases new
  · obtain ⟨m, hm⟩ := hseen rfl
    by_cases hraise : ack = false ∧ grp = false ∧ d.ttl ≠ 0 ∧ m < d.ttl
    · obtain ⟨ha, hg, ht, hlt⟩ := hraise
      subst ha hg
      have hp : forwardBroadcast s d h false false false =
          some (setDataTimer { s with mHashTable := tset h d.ttl s.mHashTable }
            { d with distance := info.distance } d.ttl h) := by
        simp [forwardBroadcast, getMaxTTLfromHash, changeMaxTTL, hm, hinfo, ht, hlt]
      refine ⟨_, hp, ?_⟩
      simp [setDataTimer, transmissions, advSchedules, dataSchedules, hashedData, hlt,
        tfind_tset_self]
      exact ⟨m, hm, hlt⟩
    · refine ⟨(s, []), ?_, rfl, rfl, by simp [dataSchedules], by simp [dataSchedules]⟩
      cases ack <;> cases grp <;>
        simp only [forwardBroadcast, getMaxTTLfromHash, hm] <;> simp
      intro ht hlt
      exact absurd ⟨rfl, rfl, ht, hlt⟩ hraise
  · simp only [forwardBroadcast]
    cases ack <;> cases grp <;> simp only [Bool.false_eq_true, if_true, if_false, true_and] <;>
      split_ifs <;>
      exact ⟨_, rfl, by simp [setDataTimer, transmissions], by simp [setDataTimer, advSchedules],
        by simp [setDataTimer, dataSchedules], by simp [setDataTimer, dataSchedules]⟩

theorem overridePull_transmissions (s : GcnService) (gid : GroupId) :
    transmissions (overridePull s gid).2 = [] := by
  simp only [overridePull]
  split
  · split_ifs <;> rfl
  · rfl

theorem overridePull_dataSchedules (s : GcnService) (gid : GroupId) :
    dataSchedules (overridePull s gid).2 = [] := by
  simp only [overridePull]
  split
  · split_ifs <;> rfl
  · rfl

/-- The ADVERTISE handler returns, hands nothing to the link itself and makes at most
one `setAdvTimer` call, for a frame with the hash of the received one, and only when
the received frame is new to the hash or its ttl exceeds the stored maximum, which is
then raised to it. -/
theorem processNetworkAdvertise_suppression (C : Codec) (now : Int) (s : GcnService)
    (a : Advertise) (ota : NodeId) :
    ∃ s' evs, processNetworkAdvertise C now s a ota = some (s', evs) ∧
      transmissions evs = [] ∧ dataSchedules evs = [] ∧ (advSchedules evs).length ≤ 1 ∧
      ∀ p ∈ advSchedules evs, hashOfAdvertise C p.1 = hashOfAdvertise C a.hop ∧
        (tfind (hashOfAdvertise C a.hop) s.mHashTable = none ∨
          ∃ m, tfind (hashOfAdvertise C a.hop) s.mHashTable = some m ∧ m < a.ttl ∧
            tfind (hashOfAdvertise C a.hop) s'.mHashTable = some a.ttl) := by
  rcases hh : tfind (hashOfAdvertise C a.hop) s.mHashTable with _ | m
  · have e := addToHashAdvertise_new C now s a.hop hh
    simp only [Advertise.hop] at e
    cases hg : groupNode s a.gid
    · have hg' := hg
      simp [groupNode] at hg'
      by_cases ht : a.ttl = 0
      · have hp : ∃ r, processNetworkAdvertise C now s a ota = some r := by
          simp only [processNetworkAdvertise, e]
          simp [groupNode, hg', updateDistanceTable, updateReversePath, ht]
        obtain ⟨⟨s', evs⟩, hp⟩ := hp
        refine ⟨s', evs, hp, ?_⟩
        simp only [processNetworkAdvertise, e] at hp
        simp [groupNode, hg', updateDistanceTable, updateReversePath, ht] at hp
        obtain ⟨rfl, rfl⟩ := hp
        simp [advSchedules, advSchedules_append, overridePull_advSchedules, transmissions,
          transmissions_append, overridePull_transmissions, dataSchedules, dataSchedules_append,
          overridePull_dataSchedules, setAdvTimer, setAckTimer, Advertise.hop, hashOfAdvertise,
          hashedAdvertise, updateDistanceTable, updateReversePath, tfind_tset_self, ht]
      · have hp : ∃ r, processNetworkAdvertise C now s a ota = some r := by
          simp only [processNetworkAdvertise, e]
          simp [groupNode, hg', updateDistanceTable, updateReversePath, ht]
        obtain ⟨⟨s', evs⟩, hp⟩ := hp
        refine ⟨s', evs, hp, ?_⟩
        simp only [processNetworkAdvertise, e] at hp
        simp [groupNode, hg', updateDistanceTable, updateReversePath, ht] at hp
        obtain ⟨rfl, rfl⟩ := hp
        simp [advSchedules, advSchedules_append, overridePull_advSchedules, transmissions,
          transmissions_append, overridePull_transmissions, dataSchedules, dataSchedules_append,
          overridePull_dataSchedules, setAdvTimer, setAckTimer, Advertise.hop, hashOfAdvertise,
          hashedAdvertise, updateDistanceTable, updateReversePath, tfind_tset_self, ht]
    · have hg' := hg
      simp [groupNode] at hg'
      by_cases hr : a.nottlregen = none
      · have hp : ∃ r, processNetworkAdvertise C now s a ota = some r := by
          simp only [processNetworkAdvertise, e]
          simp [groupNode, hg', updateDistanceTable, updateReversePath, hr]
        obtain ⟨⟨s', evs⟩, hp⟩ := hp
        refine ⟨s', evs, hp, ?_⟩
        simp only [processNetworkAdvertise, e] at hp
        simp [groupNode, hg', updateDistanceTable, updateReversePath, hr] at hp
        obtain ⟨rfl, rfl⟩ := hp
        simp [advSchedules, advSchedules_append, overridePull_advSchedules, transmissions,
          transmissions_append, overridePull_transmissions, dataSchedules, dataSchedules_append,
          overridePull_dataSchedules, setAdvTimer, setAckTimer, Advertise.hop, hashOfAdvertise,
          hashedAdvertise, updateDistanceTable, updateReversePath, tfind_tset_self, hr]
      · by_cases ht : a.ttl = 0
        · have hp : ∃ r, processNetworkAdvertise C now s a ota = some r := by
            simp only [processNetworkAdvertise, e]
            simp [groupNode, hg', updateDistanceTable, updateReversePath, hr, ht]
          obtain ⟨⟨s', evs⟩, hp⟩ := hp
          refine ⟨s', evs, hp, ?_⟩
          simp only [processNetworkAdvertise, e] at hp
          simp [groupNode, hg', updateDistanceTable, updateReversePath, hr, ht] at hp
          obtain ⟨rfl, rfl⟩ := hp
          simp [advSchedules, advSchedules_append, overridePull_advSchedules, transmissions,
            transmissions_append, overridePull_transmissions, dataSchedules, dataSchedules_append,
            overridePull_dataSchedules, setAdvTimer, setAckTimer, Advertise.hop, hashOfAdvertise,
            hashedAdvertise, updateDistanceTable, updateReversePath, tfind_tset_self, hr, ht]
        · have hp : ∃ r, processNetworkAdvertise C now s a ota = some r := by
            simp only [processNetworkAdvertise, e]
            simp [groupNode, hg', updateDistanceTable, updateReversePath, hr, ht]
          obtain ⟨⟨s', evs⟩, hp⟩ := hp
          refine ⟨s', evs, hp, ?_⟩
          simp only [processNetworkAdvertise, e] at hp
          simp [groupNode, hg', updateDistanceTable, updateReversePath, hr, ht] at hp
          obtain ⟨rfl, rfl⟩ := hp
          simp [advSchedules, advSchedules_append, overridePull_advSchedules, transmissions,
            transmissions_append, overridePull_transmissions, dataSchedules, dataSchedules_append,
            overridePull_dataSchedules, setAdvTimer, setAckTimer, Advertise.hop, hashOfAdvertise,
            hashedAdvertise, updateDistanceTable, updateReversePath, tfind_tset_self, hr, ht]
  · have e := addToHashAdvertise_seen C now s a.hop m hh
    have hh' := hh
    simp only [Advertise.hop] at e hh'
    obtain ⟨info, hinfo⟩ := distanceUpdate_find s.mNodeId s.mDistanceTable a.gid a.srcnode
      (hashOfAdvertise C a.hop) ((a.distance + 1) % 4294967296) ota false true
    simp only [Advertise.hop] at hinfo
    cases hg : groupNode s a.gid
    · have hg' := hg
      simp [groupNode] at hg'
      by_cases ht : a.ttl = 0
      · have hp : ∃ r, processNetworkAdvertise C now s a ota = some r := by
          simp only [processNetworkAdvertise, e]
          simp [groupNode, hg', updateDistanceTable, updateReversePath, ht, hh']
        obtain ⟨⟨s', evs⟩, hp⟩ := hp
        refine ⟨s', evs, hp, ?_⟩
        simp only [processNetworkAdvertise, e] at hp
        simp [groupNode, hg', updateDistanceTable, updateReversePath, ht, hh'] at hp
        obtain ⟨rfl, rfl⟩ := hp
        simp [advSchedules, advSchedules_append, overridePull_advSchedules, transmissions,
          transmissions_append, overridePull_transmissions, dataSchedules, dataSchedules_append,
          overridePull_dataSchedules, setAdvTimer, setAckTimer, Advertise.hop, hashOfAdvertise,
          hashedAdvertise, updateDistanceTable, updateReversePath, tfind_tset_self, ht, hh']
      · by_cases hm : m < a.ttl
        · have hp : ∃ r, processNetworkAdvertise C now s a ota = some r := by
            simp only [processNetworkAdvertise, e]
            simp [groupNode, hg', updateDistanceTable, updateReversePath, ht, hm, getMaxTTLfromHash, changeMaxTTL, hh', hinfo]
          obtain ⟨⟨s', evs⟩, hp⟩ := hp
          refine ⟨s', evs, hp, ?_⟩
          simp only [processNetworkAdvertise, e] at hp
          simp [groupNode, hg', updateDistanceTable, updateReversePath, ht, hm, getMaxTTLfromHash, changeMaxTTL, hh', hinfo] at hp
          obtain ⟨rfl, rfl⟩ := hp
          simp [advSchedules, advSchedules_append, overridePull_advSchedules, transmissions,
            transmissions_append, overridePull_transmissions, dataSchedules, dataSchedules_append,
            overridePull_dataSchedules, setAdvTimer, setAckTimer, Advertise.hop, hashOfAdvertise,
            hashedAdvertise, updateDistanceTable, updateReversePath, tfind_tset_self, ht, hm, getMaxTTLfromHash, changeMaxTTL, hh', hinfo]
        · have hp : ∃ r, processNetworkAdvertise C now s a ota = some r := by
            simp only [processNetworkAdvertise, e]
            simp [groupNode, hg', updateDistanceTable, updateReversePath, ht, hm, getMaxTTLfromHash, hh']
          obtain ⟨⟨s', evs⟩, hp⟩ := hp
          refine ⟨s', evs, hp, ?_⟩
          simp only [processNetworkAdvertise, e] at hp
          simp [groupNode, hg', updateDistanceTable, updateReversePath, ht, hm, getMaxTTLfromHash, hh'] at hp
          obtain ⟨rfl, rfl⟩ := hp
          simp [advSchedules, advSchedules_append, overridePull_advSchedules, transmissions,
            transmissions_append, overridePull_transmissions, dataSchedules, dataSchedules_append,
            overridePull_dataSchedules, setAdvTimer, setAckTimer, Advertise.hop, hashOfAdvertise,
            hashedAdvertise, updateDistanceTable, updateReversePath, tfind_tset_self, ht, hm, getMaxTTLfromHash, hh']
    · have hg' := hg
      simp [groupNode] at hg'
      have hp : ∃ r, processNetworkAdvertise C now s a ota = some r := by
        simp only [processNetworkAdvertise, e]
        simp [groupNode, hg', updateDistanceTable, updateReversePath, hh']
      obtain ⟨⟨s', evs⟩, hp⟩ := hp
      refine ⟨s', evs, hp, ?_⟩
      simp only [processNetworkAdvertise, e] at hp
      simp [groupNode, hg', updateDistanceTable, updateReversePath, hh'] at hp
      obtain ⟨rfl, rfl⟩ := hp
      simp [advSchedules, advSchedules_append, overridePull_advSchedules, transmissions,
        transmissions_append, overridePull_transmissions, dataSchedules, dataSchedules_append,
        overridePull_dataSchedules, setAdvTimer, setAckTimer, Advertise.hop, hashOfAdvertise,
        hashedAdvertise, updateDistanceTable, updateReversePath, tfind_tset_self, hh']

theorem processNetworkData_own (C : Codec) (now : Int) (s : GcnService) (d : Data)
    (ota : NodeId) (hu : d.uheader = none) (hsrc : d.srcnode = s.mNodeId) :
    processNetworkData C now s d ota =
      some ((preProcessData C now s d.hop ota none).1,
            (preProcessData C now s d.hop ota none).2.2.2) := by
  obtain ⟨gid, srcnode, sequence, srcttl, ttl, distance, nottlregen, payload, uheader⟩ := d
  simp only at hu hsrc
  subst hu hsrc
  have h3 := (preProcessData_spec C now s
    (Data.hop ⟨gid, s.mNodeId, sequence, srcttl, ttl, distance, nottlregen, payload, none⟩)
    ota none).2.2.1
  simp only [Data.hop] at h3
  simp only [processNetworkData, Data.hop, h3, ne_eq, not_true_eq_false, if_false]

theorem mem_ite_singleton {α : Type} {c : Prop} [Decidable c] {x p : α}
    (h : p ∈ (if c then [x] else [])) : c ∧ p = x := by
  split_ifs at h with hc
  · exact ⟨hc, by simpa using h⟩
  · simp at h

theorem length_ite_singleton {α : Type} (c : Prop) [Decidable c] (x : α) :
    (if c then [x] else []).length ≤ 1 := by
  split_ifs <;> simp

/-- The DATA handler returns, hands nothing to the link itself and makes at most one
`setDataTimer` call, for a frame with the hash of the received one, and only when the
received frame is new to the hash or its ttl exceeds the stored maximum, which is then
raised to it. -/
theorem processNetworkData_suppression (C : Codec) (now : Int) (s : GcnService)
    (d : Data) (ota : NodeId) :
    ∃ s' evs, processNetworkData C now s d ota = some (s', evs) ∧
      transmissions evs = [] ∧ advSchedules evs = [] ∧ (dataSchedules evs).length ≤ 1 ∧
      ∀ p ∈ dataSchedules evs, hashOfData C p.1 = hashOfData C d.hop ∧
        (tfind (hashOfData C d.hop) s.mHashTable = none ∨
          ∃ m, tfind (hashOfData C d.hop) s.mHashTable = some m ∧ m < d.ttl ∧
            tfind (hashOfData C d.hop) s'.mHashTable = some d.ttl) := by
  obtain ⟨h1, h2, h3, h4, h5, h6, h7, h8, h9, h10⟩ := preProcessData_spec C now s d.hop ota none
  have h11 := preProcessData_advSchedules C now s d.hop ota none
  rcases hu : d.uheader with _ | uh
  · by_cases hsrc : d.srcnode = s.mNodeId
    · rw [processNetworkData_own C now s d ota hu hsrc]
      exact ⟨_, _, rfl, h10, h11, by simp [h9], by simp [h9]⟩
    · rw [processNetworkData_broadcast C now s d ota hu hsrc]
      have hd : ∃ info, tfind (GIDKey.mk d.hop.gid d.hop.srcnode)
          (preProcessData C now s d.hop ota none).1.mDistanceTable = some info := by
        rw [h8]
        exact distanceUpdate_find _ _ _ _ _ _ _ _ _
      have hseen : (preProcessData C now s d.hop ota none).2.2.1 = false →
          ∃ m, tfind (preProcessData C now s d.hop ota none).2.1
            (preProcessData C now s d.hop ota none).1.mHashTable = some m := by
        intro hf
        rcases hh : tfind (hashOfData C d.hop) s.mHashTable with _ | m
        · rw [h2.mpr hh] at hf
          exact absurd hf (by simp)
        · exact ⟨m, by rw [h1, preProcessData_hashTable_seen C now s d.hop ota none m hh, hh]⟩
      obtain ⟨fwd, hf, f1, f2, f3, f4⟩ := forwardBroadcast_spec
        (preProcessData C now s d.hop ota none).1 d.hop
        (preProcessData C now s d.hop ota none).2.1
        (preProcessData C now s d.hop ota none).2.2.1
        (groupNode (preProcessData C now s d.hop ota none).1 d.gid) d.srcttl.isNone hd hseen
      rw [hf]
      refine ⟨_, _, rfl, ?_, ?_, ?_, ?_⟩
      · rw [transmissions_append, h10, f1]; rfl
      · rw [advSchedules_append, h11, f2]; rfl
      · rw [dataSchedules_append, h9]; exact f3
      · rw [dataSchedules_append, h9]
        intro p hp
        obtain ⟨q1, q2⟩ := f4 p hp
        refine ⟨by simp only [hashOfData, q1], ?_⟩
        rcases q2 with q2 | ⟨m, qm, qlt, qafter⟩
        · exact Or.inl (h2.mp q2)
        · rcases hh : tfind (hashOfData C d.hop) s.mHashTable with _ | m'
          · exact Or.inl rfl
          · right
            rw [h1, preProcessData_hashTable_seen C now s d.hop ota none m' hh] at qm
            rw [h1] at qafter
            rw [hh] at qm
            injection qm with qm
            subst qm
            exact ⟨_, rfl, qlt, qafter⟩
  · rw [processNetworkData_unicast C now s d ota uh hu]
    refine ⟨_, _, rfl, ?_, ?_, ?_, ?_⟩
    · rw [transmissions_append, h10, forwardUnicast_transmissions]; rfl
    · rw [advSchedules_append, h11, forwardUnicast_advSchedules]; rfl
    · rw [dataSchedules_append, h9, forwardUnicast_schedules]
      exact length_ite_singleton _ _
    · rw [dataSchedules_append, h9, forwardUnicast_schedules]
      intro p hp
      obtain ⟨hc, rfl⟩ := mem_ite_singleton hp
      refine ⟨?_, Or.inl (h2.mp hc.1)⟩
      simp only [hashOfData]
      rw [hashedData_withRelayDistance]
      exact hu

theorem tfind_terase_self {κ ν : Type} [DecidableEq κ] (k : κ) (t : List (κ × ν)) :
    tfind k (terase k t) = none := by
  induction t with
  | nil => rfl
  | cons e t ih =>
    obtain ⟨k', v'⟩ := e
    by_cases h : k' = k
    · simp [terase, h, ih]
    · simp [terase, tfind, h, ih]

/-- C1 (amended). Duplicate suppression on the forwarding paths. For every node state:
`processNetworkAdvertise` and `processNetworkData` return, hand nothing to the link
themselves and schedule at most one frame, which has the hash of the received frame,
and they schedule it only if the received frame's hash was not in Hash (it is inserted
by this call) or its ttl is strictly greater than the stored maximum, which the call
raises to that ttl. A pending forwarding timer hands its frame to the link once and is
removed. Origination is not gated by Hash: every tick of an armed announce timer hands
one ADVERTISE to the link. -/
theorem duplicate_suppression_forwarding (C : Codec) (now : Int) (s : GcnService)
    (a : Advertise) (d : Data) (ota : NodeId) (gid : GroupId) (h : HashValue) :
    (∃ s' evs, processNetworkAdvertise C now s a ota = some (s', evs) ∧
      transmissions evs = [] ∧ dataSchedules evs = [] ∧ (advSchedules evs).length ≤ 1 ∧
      ∀ p ∈ advSchedules evs, hashOfAdvertise C p.1 = hashOfAdvertise C a.hop ∧
        (tfind (hashOfAdvertise C a.hop) s.mHashTable = none ∨
          ∃ m, tfind (hashOfAdvertise C a.hop) s.mHashTable = some m ∧ m < a.ttl ∧
            tfind (hashOfAdvertise C a.hop) s'.mHashTable = some a.ttl)) ∧
    (∃ s' evs, processNetworkData C now s d ota = some (s', evs) ∧
      transmissions evs = [] ∧ advSchedules evs = [] ∧ (dataSchedules evs).length ≤ 1 ∧
      ∀ p ∈ dataSchedules evs, hashOfData C p.1 = hashOfData C d.hop ∧
        (tfind (hashOfData C d.hop) s.mHashTable = none ∨
          ∃ m, tfind (hashOfData C d.hop) s.mHashTable = some m ∧ m < d.ttl ∧
            tfind (hashOfData C d.hop) s'.mHashTable = some d.ttl)) ∧
    (∀ m t, tfind (GIDKey.mk m.gid m.srcnode) s.mAdvTimerTable = some (m, t) →
      ∃ s', advTimerExpires s (GIDKey.mk m.gid m.srcnode)
          = some (s', [forwardToOTAAdvertise s m t]) ∧
        tfind (GIDKey.mk m.gid m.srcnode) s'.mAdvTimerTable = none) ∧
    (∀ m t, tfind h s.mDataTimerTable = some (m, t) →
      ∃ s', dataTimerExpires s h = some (s', [forwardToOTAData s m t]) ∧
        tfind h s'.mDataTimerTable = none) ∧
    (∀ annc, tfind gid s.mAnnounceTable = some annc → annc.pTimer = true →
      (transmissions (OnAnnounceTimeout C now s gid).2).length = 1) := by
  refine ⟨processNetworkAdvertise_suppression C now s a ota,
    processNetworkData_suppression C now s d ota, ?_, ?_, ?_⟩
  · intro m t hm
    refine ⟨{ s with mAdvTimerTable := terase (GIDKey.mk m.gid m.srcnode) s.mAdvTimerTable }, ?_,
      tfind_terase_self _ _⟩
    simp only [advTimerExpires, hm, OnAdvTimeout]
  · intro m t hm
    refine ⟨{ s with mDataTimerTable := terase h s.mDataTimerTable }, ?_,
      tfind_terase_self _ _⟩
    simp only [dataTimerExpires, hm, OnDataTimeout]
  · intro annc hannc harmed
    simp [OnAnnounceTimeout, hannc, harmed, transmissions, forwardToOTAAdvertise]

/-- Scenario S1: node A after its first announce tick. -/
theorem lineA1_eq (C : Codec) :
    lineA1 C = some
      ({ freshNode 1 with
        mAnnounceTable := [(7, { pSession := 1, pTimer := true, interval := 1, probRelay := 0, srcTtl := 2, seqNum := 1, pullSentToApp := false, noTtlRegen := false })],
        mDistanceTable := [(GIDKey.mk 7 1, { distance := 0, latestPacketHash := hashOfAdvertise C originAdvertise, packetCount := 1, packetSrcs := [1] })],
        mHashTable := [(hashOfAdvertise C originAdvertise, 2)],
        mHashTimeTable := [(10, hashOfAdvertise C originAdvertise)] },
       [Event.ota { src := 1, advertise := [originAdvertise], ack := [], data := [] }]) := by
  simp only [lineA1, lineA0]
  simp [deliver, sent, freshNode, GcnService.init, originAdvertise, helloStamped, hashOfAdvertise,
    hashOfData, hashedAdvertise, hashedData, addToHash, mcount, mrange, tfind, tset, terase,
    timeInsert, transmissions, groupNode, updateDistanceTable, distanceUpdate,
    OnClientReceive, clientAdvertise, announceMessage, OnAnnounceTimeout, addToHashAdvertise, forwardToOTAAdvertise]

/-- Scenario S1: node B after it forwarded the ADVERTISE of A. -/
theorem lineB2_eq (C : Codec) (rand : Nat) :
    lineB2 C rand = some
      ({ freshNode 2 with
        mReversePathTable := [(GIDKey.mk 7 1, { srcNode := 1, seqNum := 1, timestamp := 10, probRelay := 0 })],
        mDistanceTable := [(GIDKey.mk 7 1, { distance := 1, latestPacketHash := hashOfAdvertise C originAdvertise, packetCount := 1, packetSrcs := [1] })],
        mAdvSeenSet := [AdvKey.mk 7 1 1],
        mHashTable := [(hashOfAdvertise C originAdvertise, 1)],
        mHashTimeTable := [(10, hashOfAdvertise C originAdvertise)] },
       [Event.ota { src := 2, advertise := [{ originAdvertise with ttl := 0, distance := 1 }], ack := [], data := [] }]) := by
  simp only [lineB2, lineB1, lineA1_eq]
  simp [deliver, sent, freshNode, GcnService.init, originAdvertise, helloStamped, hashOfAdvertise,
    hashOfData, hashedAdvertise, hashedData, addToHash, mcount, mrange, tfind, tset, terase,
    timeInsert, transmissions, groupNode, updateDistanceTable, distanceUpdate,
    OnNetworkReceive, processNetworkAdvertise, addToHashAdvertise, updateReversePath,
    reversePathUpdate, setAdvTimer, setAckTimer, overridePull, advSeenInsert, advTimerExpires,
    OnAdvTimeout, forwardToOTAAdvertise, ackTimerExpires, OnAckTimeout, forwardToOTAAck]

/-- Scenario S1: node C after its ACK timer expired. -/
theorem lineC2_eq (C : Codec) (rand : Nat) :
    lineC2 C rand = some
      ({ freshNode 3 with
        mLocalPullTable := [(7, 1)],
        mReversePathTable := [(GIDKey.mk 7 1, { srcNode := 2, seqNum := 1, timestamp := 10, probRelay := 0 })],
        mDistanceTable := [(GIDKey.mk 7 1, { distance := 2, latestPacketHash := hashOfAdvertise C originAdvertise, packetCount := 1, packetSrcs := [2] })],
        mAdvTimerTable := [(GIDKey.mk 7 1, { originAdvertise with ttl := 0, distance := 2 }, 2)],
        mAdvSeenSet := [AdvKey.mk 7 1 1],
        mHashTable := [(hashOfAdvertise C originAdvertise, 0)],
        mHashTimeTable := [(10, hashOfAdvertise C originAdvertise)] },
       [Event.ota { src := 3, advertise := [], ack := [{ gid := 7, srcnode := 1, sequence := 1, obligatoryrelay := 2, probabilityofrelay := 0 }], data := [] }]) := by
  simp only [lineC2, lineC1, lineC0, lineB2_eq]
  simp [deliver, sent, freshNode, GcnService.init, originAdvertise, helloStamped, hashOfAdvertise,
    hashOfData, hashedAdvertise, hashedData, addToHash, mcount, mrange, tfind, tset, terase,
    timeInsert, transmissions, groupNode, updateDistanceTable, distanceUpdate,
    OnNetworkReceive, processNetworkAdvertise, addToHashAdvertise, updateReversePath,
    reversePathUpdate, setAdvTimer, setAckTimer, overridePull, advSeenInsert, advTimerExpires,
    OnAdvTimeout, forwardToOTAAdvertise, ackTimerExpires, OnAckTimeout, forwardToOTAAck, OnClientReceive, clientPull, pullMessage]

/-- Scenario S1: node B after it relayed the ACK of C. -/
theorem lineB4_eq (C : Codec) (rand : Nat) :
    lineB4 C rand = some
      ({ freshNode 2 with
        mRemotePullTable := [(7, { nodeId := 3, timestamp := 10 })],
        mReversePathTable := [(GIDKey.mk 7 1, { srcNode := 1, seqNum := 1, timestamp := 10, probRelay := 0 })],
        mAckSentTable := [(GIDKey.mk 7 1, 1)],
        mDistanceTable := [(GIDKey.mk 7 1, { distance := 1, latestPacketHash := hashOfAdvertise C originAdvertise, packetCount := 1, packetSrcs := [1] })],
        mAdvSeenSet := [AdvKey.mk 7 1 1],
        mHashTable := [(hashOfAdvertise C originAdvertise, 1)],
        mHashTimeTable := [(10, hashOfAdvertise C originAdvertise)] },
       [Event.ota { src := 2, advertise := [], ack := [{ gid := 7, srcnode := 1, sequence := 1, obligatoryrelay := 1, probabilityofrelay := 0 }], data := [] }]) := by
  simp only [lineB4, lineB3, lineB2_eq, lineC2_eq]
  simp [deliver, sent, freshNode, GcnService.init, originAdvertise, helloStamped, hashOfAdvertise,
    hashOfData, hashedAdvertise, hashedData, addToHash, mcount, mrange, tfind, tset, terase,
    timeInsert, transmissions, groupNode, updateDistanceTable, distanceUpdate,
    OnNetworkReceive, processNetworkAck, relayAck, recordSeq, addRemotePullEntry,
    refreshRemotePull, setAckTimer, ackTimerExpires, OnAckTimeout, forwardToOTAAck]

/-- Scenario S1: node A after it received the ACK relayed by B. -/
theorem lineA2_eq (C : Codec) (rand : Nat) :
    lineA2 C rand = some
      ({ freshNode 1 with
        mRemotePullTable := [(7, { nodeId := 2, timestamp := 10 })],
        mAnnounceTable := [(7, { pSession := 1, pTimer := true, interval := 1, probRelay := 0, srcTtl := 2, seqNum := 1, pullSentToApp := true, noTtlRegen := false })],
        mDistanceTable := [(GIDKey.mk 7 1, { distance := 0, latestPacketHash := hashOfAdvertise C originAdvertise, packetCount := 1, packetSrcs := [1] })],
        mHashTable := [(hashOfAdvertise C originAdvertise, 2)],
        mHashTimeTable := [(10, hashOfAdvertise C originAdvertise)] },
       [Event.appPull 1 7]) := by
  simp only [lineA2, lineA1_eq, lineB4_eq]
  simp [deliver, sent, freshNode, GcnService.init, originAdvertise, helloStamped, hashOfAdvertise,
    hashOfData, hashedAdvertise, hashedData, addToHash, mcount, mrange, tfind, tset, terase,
    timeInsert, transmissions, groupNode, updateDistanceTable, distanceUpdate,
    OnNetworkReceive, processNetworkAck, relayAck, recordSeq, addRemotePullEntry,
    refreshRemotePull, setAckTimer, ackTimerExpires, OnAckTimeout, forwardToOTAAck]

/-- Scenario S1: node A after its client sent the DATA record. -/
theorem lineA3_eq (C : Codec) (rand : Nat)
    (hne : hashOfAdvertise C originAdvertise ≠ hashOfData C helloStamped) :
    lineA3 C rand = some
      ({ freshNode 1 with
        mRemotePullTable := [(7, { nodeId := 2, timestamp := 10 })],
        mAnnounceTable := [(7, { pSession := 1, pTimer := true, interval := 1, probRelay := 0, srcTtl := 2, seqNum := 1, pullSentToApp := true, noTtlRegen := false })],
        mDistanceTable := [(GIDKey.mk 7 1, { distance := 0, latestPacketHash := hashOfAdvertise C originAdvertise, packetCount := 1, packetSrcs := [1] })],
        mHashTable := [(hashOfAdvertise C originAdvertise, 2), (hashOfData C helloStamped, 0)],
        mHashTimeTable := [(10, hashOfAdvertise C originAdvertise), (11, hashOfData C helloStamped)],
        mSeqNumByGID := [(7, 1)] },
       [Event.ota { src := 1, advertise := [], ack := [], data := [helloStamped] }]) := by
  simp only [hashOfAdvertise, hashOfData, hashedAdvertise, hashedData, originAdvertise,
    helloStamped, Option.map] at hne
  simp only [lineA3, lineA2_eq]
  simp [deliver, sent, freshNode, GcnService.init, originAdvertise, helloStamped, hashOfAdvertise,
    hashOfData, hashedAdvertise, hashedData, addToHash, mcount, mrange, tfind, tset, terase,
    timeInsert, transmissions, groupNode, updateDistanceTable, distanceUpdate,
    OnNetworkReceive, processNetworkData, preProcessData, forwardBroadcast, addToHashData,
    setDataTimer, dataTimerExpires, OnDataTimeout, forwardToOTAData, OnClientReceive, clientData, helloMessage, hne, Ne.symm hne]

/-- Scenario S1: node B after it received the DATA frame of A. -/
theorem lineB5_eq (C : Codec) (rand : Nat)
    (hne : hashOfAdvertise C originAdvertise ≠ hashOfData C helloStamped) :
    lineB5 C rand = some
      ({ freshNode 2 with
        mRemotePullTable := [(7, { nodeId := 3, timestamp := 10 })],
        mReversePathTable := [(GIDKey.mk 7 1, { srcNode := 1, seqNum := 1, timestamp := 10, probRelay := 0 })],
        mAckSentTable := [(GIDKey.mk 7 1, 1)],
        mDistanceTable := [(GIDKey.mk 7 1, { distance := 1, latestPacketHash := hashOfAdvertise C originAdvertise, packetCount := 1, packetSrcs := [1] })],
        mAdvSeenSet := [AdvKey.mk 7 1 1],
        mDataTimerTable := [(hashOfData C helloStamped, { helloStamped with distance := 1 }, 1)],
        mHashTable := [(hashOfAdvertise C originAdvertise, 1), (hashOfData C helloStamped, 0)],
        mHashTimeTable := [(10, hashOfAdvertise C originAdvertise), (11, hashOfData C helloStamped)] },
       [Event.dataTimer { helloStamped with distance := 1 } 1 (hashOfData C helloStamped)]) := by
  simp only [hashOfAdvertise, hashOfData, hashedAdvertise, hashedData, originAdvertise,
    helloStamped, Option.map] at hne
  simp only [lineB5, lineB4_eq, lineA3_eq C rand hne]
  simp [deliver, sent, freshNode, GcnService.init, originAdvertise, helloStamped, hashOfAdvertise,
    hashOfData, hashedAdvertise, hashedData, addToHash, mcount, mrange, tfind, tset, terase,
    timeInsert, transmissions, groupNode, updateDistanceTable, distanceUpdate,
    OnNetworkReceive, processNetworkData, preProcessData, forwardBroadcast, addToHashData,
    setDataTimer, dataTimerExpires, OnDataTimeout, forwardToOTAData, hne, Ne.symm hne]

/-- Scenario S1: node B after its data timer expired. -/
theorem lineB6_eq (C : Codec) (rand : Nat)
    (hne : hashOfAdvertise C originAdvertise ≠ hashOfData C helloStamped) :
    lineB6 C rand = some
      ({ freshNode 2 with
        mRemotePullTable := [(7, { nodeId := 3, timestamp := 10 })],
        mReversePathTable := [(GIDKey.mk 7 1, { srcNode := 1, seqNum := 1, timestamp := 10, probRelay := 0 })],
        mAckSentTable := [(GIDKey.mk 7 1, 1)],
        mDistanceTable := [(GIDKey.mk 7 1, { distance := 1, latestPacketHash := hashOfAdvertise C originAdvertise, packetCount := 1, packetSrcs := [1] })],
        mAdvSeenSet := [AdvKey.mk 7 1 1],
        mHashTable := [(hashOfAdvertise C originAdvertise, 1), (hashOfData C helloStamped, 0)],
        mHashTimeTable := [(10, hashOfAdvertise C originAdvertise), (11, hashOfData C helloStamped)] },
       [Event.ota { src := 2, advertise := [], ack := [], data := [{ helloStamped with distance := 1 }] }]) := by
  simp only [hashOfAdvertise, hashOfData, hashedAdvertise, hashedData, originAdvertise,
    helloStamped, Option.map] at hne
  simp only [lineB6, lineB5_eq C rand hne]
  simp [deliver, sent, freshNode, GcnService.init, originAdvertise, helloStamped, hashOfAdvertise,
    hashOfData, hashedAdvertise, hashedData, addToHash, mcount, mrange, tfind, tset, terase,
    timeInsert, transmissions, groupNode, updateDistanceTable, distanceUpdate,
    OnNetworkReceive, processNetworkData, preProcessData, forwardBroadcast, addToHashData,
    setDataTimer, dataTimerExpires, OnDataTimeout, forwardToOTAData, hne, Ne.symm hne]

/-- Scenario S1: node C after it received the DATA frame forwarded by B. -/
theorem lineC3_eq (C : Codec) (rand : Nat)
    (hne : hashOfAdvertise C originAdvertise ≠ hashOfData C helloStamped) :
    lineC3 C rand = some
      ({ freshNode 3 with
        mLocalPullTable := [(7, 1)],
        mReversePathTable := [(GIDKey.mk 7 1, { srcNode := 2, seqNum := 1, timestamp := 10, probRelay := 0 })],
        mDistanceTable := [(GIDKey.mk 7 1, { distance := 2, latestPacketHash := hashOfAdvertise C originAdvertise, packetCount := 1, packetSrcs := [2] })],
        mAdvTimerTable := [(GIDKey.mk 7 1, { originAdvertise with ttl := 0, distance := 2 }, 2)],
        mAdvSeenSet := [AdvKey.mk 7 1 1],
        mHashTable := [(hashOfAdvertise C originAdvertise, 0), (hashOfData C helloStamped, 0)],
        mHashTimeTable := [(10, hashOfAdvertise C originAdvertise), (11, hashOfData C helloStamped)] },
       [Event.appData 1 { helloStamped with distance := 2 }]) := by
  simp only [hashOfAdvertise, hashOfData, hashedAdvertise, hashedData, originAdvertise,
    helloStamped, Option.map] at hne
  simp only [lineC3, lineC2_eq, lineB6_eq C rand hne]
  simp [deliver, sent, freshNode, GcnService.init, originAdvertise, helloStamped, hashOfAdvertise,
    hashOfData, hashedAdvertise, hashedData, addToHash, mcount, mrange, tfind, tset, terase,
    timeInsert, transmissions, groupNode, updateDistanceTable, distanceUpdate,
    OnNetworkReceive, processNetworkData, preProcessData, forwardBroadcast, addToHashData,
    setDataTimer, dataTimerExpires, OnDataTimeout, forwardToOTAData, hne, Ne.symm hne]

/-- Claim C4 (scenario S1, line A - B - C). A (node 1) is source of group 7 with source
ttl 2, interval 1 s and probability of relay 0, C (node 3) has one subscriber, B (node 2)
has empty tables. For every codec whose hash separates the ADVERTISE from the DATA
record, and every value of the random draw: the handlers composed in the order announce
tick of A, B receives and forwards, C receives, ACK timer of C, B receives the ACK, ACK
timer of B, A receives the ACK, leave B with exactly one RemoteSubs entry for group 7,
naming C, A with the pull flag of Announce[7] set (its client got one PULL), and C with its
one LocalSubs entry; the DATA record the client of A then sends without source ttl is
transmitted by A, scheduled by B with ttl argument 1 and transmitted when the timer
expires, and C hands it to its subscriber exactly once. -/
theorem scenario_S1 (C : Codec) (rand : Nat)
    (hne : hashOfAdvertise C originAdvertise ≠ hashOfData C helloStamped) :
    lineA0 C = some
      ({ freshNode 1 with
          mAnnounceTable := [(7, { pSession := 1, pTimer := true, interval := 1, probRelay := 0,
                                   srcTtl := 2, seqNum := 0, pullSentToApp := false,
                                   noTtlRegen := false })] }, []) ∧
    lineC0 C = some ({ freshNode 3 with mLocalPullTable := [(7, 1)] }, []) ∧
    (lineB4 C rand).map (fun r => r.1.mRemotePullTable)
      = some [(7, { nodeId := 3, timestamp := 10 })] ∧
    (lineB4 C rand).map (fun r => (r.1.mLocalPullTable, r.1.mAnnounceTable)) = some ([], []) ∧
    (lineA2 C rand).map
        (fun r => ((tfind 7 r.1.mAnnounceTable).map AnnounceInfo.pullSentToApp, r.2))
      = some (some true, [Event.appPull 1 7]) ∧
    (lineC2 C rand).map (fun r => mrange 7 r.1.mLocalPullTable) = some [1] ∧
    (lineA3 C rand).map (fun r => transmissions r.2)
      = some [{ src := 1, advertise := [], ack := [], data := [helloStamped] }] ∧
    (lineB5 C rand).map (fun r => dataSchedules r.2) = some [(helloStamped.hop, 1)] ∧
    (lineB6 C rand).map (fun r => transmissions r.2)
      = some [{ src := 2, advertise := [], ack := [], data := [helloStamped.hop] }] ∧
    (lineC3 C rand).map (fun r => r.2) = some [Event.appData 1 helloStamped.hop.hop] ∧
    (lineC3 C rand).map (fun r => deliveriesTo 1 r.2) = some [helloStamped.hop.hop] := by
  refine ⟨?_, ?_, ?_, ?_, ?_, ?_, ?_, ?_, ?_, ?_, ?_⟩
  · simp [lineA0, OnClientReceive, clientAdvertise, announceMessage, freshNode,
      GcnService.init, tfind, tset]
  · simp [lineC0, OnClientReceive, clientPull, pullMessage, freshNode, GcnService.init]
  · simp [lineB4_eq, freshNode, GcnService.init]
  · simp [lineB4_eq, freshNode, GcnService.init]
  · simp [lineA2_eq, freshNode, GcnService.init, tfind]
  · simp [lineC2_eq, freshNode, GcnService.init, mrange]
  · simp [lineA3_eq C rand hne, transmissions]
  · simp [lineB5_eq C rand hne, dataSchedules, Data.hop, helloStamped]
  · simp [lineB6_eq C rand hne, transmissions, Data.hop, helloStamped]
  · simp [lineC3_eq C rand hne, Data.hop, helloStamped]
  · simp [lineC3_eq C rand hne, deliveriesTo, Data.hop, helloStamped]

/-- Scenario S1 with the sample codec `fieldCodec`, whose hash separates the two
records, and random draw 0. -/
theorem scenario_S1_witness :
    hashOfAdvertise fieldCodec originAdvertise ≠ hashOfData fieldCodec helloStamped ∧
    lineA0 fieldCodec = some
      ({ freshNode 1 with
          mAnnounceTable := [(7, { pSession := 1, pTimer := true, interval := 1, probRelay := 0,
                                   srcTtl := 2, seqNum := 0, pullSentToApp := false,
                                   noTtlRegen := false })] }, []) ∧
    lineC0 fieldCodec = some ({ freshNode 3 with mLocalPullTable := [(7, 1)] }, []) ∧
    (lineB4 fieldCodec 0).map (fun r => r.1.mRemotePullTable)
      = some [(7, { nodeId := 3, timestamp := 10 })] ∧
    (lineB4 fieldCodec 0).map (fun r => (r.1.mLocalPullTable, r.1.mAnnounceTable)) = some ([], []) ∧
    (lineA2 fieldCodec 0).map
        (fun r => ((tfind 7 r.1.mAnnounceTable).map AnnounceInfo.pullSentToApp, r.2))
      = some (some true, [Event.appPull 1 7]) ∧
    (lineC2 fieldCodec 0).map (fun r => mrange 7 r.1.mLocalPullTable) = some [1] ∧
    (lineA3 fieldCodec 0).map (fun r => transmissions r.2)
      = some [{ src := 1, advertise := [], ack := [], data := [helloStamped] }] ∧
    (lineB5 fieldCodec 0).map (fun r => dataSchedules r.2) = some [(helloStamped.hop, 1)] ∧
    (lineB6 fieldCodec 0).map (fun r => transmissions r.2)
      = some [{ src := 2, advertise := [], ack := [], data := [helloStamped.hop] }] ∧
    (lineC3 fieldCodec 0).map (fun r => r.2) = some [Event.appData 1 helloStamped.hop.hop] ∧
    (lineC3 fieldCodec 0).map (fun r => deliveriesTo 1 r.2) = some [helloStamped.hop.hop] :=
  ⟨by decide, scenario_S1 fieldCodec 0 (by decide)⟩

/-- Claim C6, divergence. Node 3 of scenario S1 (one subscriber of group 7, distance 2 to
the source node 1) gets a unicast DATA record for node 1 with resilience 0 from its
client. `OnClientReceive` stores the hash of the stamped record, which still carries the
resilience, and then hands the record to the link with the resilience cleared. The
neighbour forwards the frame with only distance and relay distance changed; the record
`addToHash` hashes for that echo differs from the one hashed at origination, the hash
values differ, and the origin reports its own echo as new while the stored hash is still
in Hash. -/
theorem unicast_origin_echo_is_new :
    (lineC4 fieldCodec 0).map (fun r => (r.1.mHashTable, transmissions r.2))
      = some ([(hashOfAdvertise fieldCodec originAdvertise, 0),
               (hashOfData fieldCodec replyStamped, 0)],
              [{ src := 3, advertise := [], ack := [], data := [replyWire] }]) ∧
    (lineB8 fieldCodec 0).map (fun r => transmissions r.2)
      = some [{ src := 2, advertise := [], ack := [], data := [replyEcho] }] ∧
    hashedData replyEcho.hop ≠ hashedData replyStamped ∧
    hashOfData fieldCodec replyEcho.hop ≠ hashOfData fieldCodec replyStamped ∧
    (lineC4 fieldCodec 0).map
        (fun r => (tfind (hashOfData fieldCodec replyStamped) r.1.mHashTable,
                   (preProcessData fieldCodec 11 r.1 replyEcho.hop 2 none).2.2.1))
      = some (some 0, true) ∧
    (lineC5 fieldCodec 0).map (fun r => r.1.mHashTable)
      = some [(hashOfAdvertise fieldCodec originAdvertise, 0),
              (hashOfData fieldCodec replyStamped, 0),
              (hashOfData fieldCodec replyEcho.hop, 0)] := by
  decide

/-- C3, witness: node 2 without remote pull entry and without always-rebroadcast
schedules nothing for the ACK-mode frame `helloFrame`. -/
theorem tree_safety_witness :
    helloFrame.srcttl = none ∧ helloFrame.srcnode ≠ (freshNode 2).mNodeId ∧
    ∃ s' evs, processNetworkData fieldCodec 11 (freshNode 2) helloFrame 1 = some (s', evs) ∧
      transmissions evs = [] ∧ dataSchedules evs = [] := by
  refine ⟨by decide, by decide, ?_⟩
  obtain ⟨s', evs, h, h1, h2⟩ :=
    tree_safety fieldCodec 11 (freshNode 2) helloFrame 1 (by decide) (by decide)
  refine ⟨s', evs, h, h1, ?_⟩
  by_contra hne
  rcases h2 hne with h3 | h3
  · exact h3 (by decide)
  · exact absurd h3 (by decide)

/-- C5, witness: `advertiseOf 1` and the same ADVERTISE one hop later (ttl 0, distance
1), `replyWire` and `replyEcho` (distance and relay distance changed) get the same hash,
and the second of each pair is not new for a node that has the hash of the first. -/
theorem hash_invariance_witness :
    hashOfAdvertise fieldCodec (advertiseOf 0).hop = hashOfAdvertise fieldCodec (advertiseOf 1) ∧
    hashOfData fieldCodec replyEcho = hashOfData fieldCodec replyWire ∧
    (addToHashAdvertise fieldCodec 2 seenBoth (advertiseOf 0).hop).2.2 = false ∧
    (addToHashData fieldCodec 2 seenBoth replyEcho).2.2 = false := by
  obtain ⟨h1, h2, -, -, h5, h6⟩ :=
    hash_invariance fieldCodec 1 2 (freshNode 2) seenBoth (advertiseOf 1) (advertiseOf 0).hop
      replyWire replyEcho rfl rfl rfl rfl rfl rfl rfl rfl rfl rfl rfl rfl rfl rfl rfl
  exact ⟨by decide, by decide, (h5 (by decide)).1, (h6 (by decide)).1⟩

theorem ackSchedules_append (l r : List Event) :
    ackSchedules (l ++ r) = ackSchedules l ++ ackSchedules r := by
  induction l with
  | nil => rfl
  | cons e t ih => cases e <;> simp [ackSchedules, ih]

theorem pullsPushed_append (l r : List Event) :
    pullsPushed (l ++ r) = pullsPushed l ++ pullsPushed r := by
  induction l with
  | nil => rfl
  | cons e t ih => cases e <;> simp [pullsPushed, ih]

theorem unpullsPushed_append (l r : List Event) :
    unpullsPushed (l ++ r) = unpullsPushed l ++ unpullsPushed r := by
  induction l with
  | nil => rfl
  | cons e t ih => cases e <;> simp [unpullsPushed, ih]

/-- What `processNetworkAdvertise` leaves alone and what it does to the reverse path
table, the ACK timer table and the announce table. -/
theorem processNetworkAdvertise_shape (C : Codec) (now : Int) (s : GcnService)
    (a : Advertise) (ota : NodeId) :
    ∃ s' evs, processNetworkAdvertise C now s a ota = some (s', evs) ∧
      s'.mNodeId = s.mNodeId ∧ s'.mLocalPullTable = s.mLocalPullTable ∧
      s'.mRemotePullTable = s.mRemotePullTable ∧ s'.mAckSentTable = s.mAckSentTable ∧
      s'.mCoinFlipTable = s.mCoinFlipTable ∧
      s'.mReversePathTable =
        (if tfind (hashOfAdvertise C a.hop) s.mHashTable = none then
          reversePathUpdate now s.mReversePathTable a.gid a.srcnode a.sequence ota a.probrelay
        else s.mReversePathTable) ∧
      s'.mAckTimerTable =
        (if groupNode s a.gid = true ∧ tfind (hashOfAdvertise C a.hop) s.mHashTable = none then
          (setAckTimer s (ackFor a ota)).1.mAckTimerTable
        else s.mAckTimerTable) ∧
      s'.mAnnounceTable =
        (if groupNode s a.gid = true ∧ tfind (hashOfAdvertise C a.hop) s.mHashTable = none then
          (overridePull s a.gid).1.mAnnounceTable
        else s.mAnnounceTable) ∧
      ackSchedules evs =
        (if groupNode s a.gid = true ∧ tfind (hashOfAdvertise C a.hop) s.mHashTable = none then
          [ackFor a ota]
        else []) ∧
      pullsPushed evs =
        (if groupNode s a.gid = true ∧ tfind (hashOfAdvertise C a.hop) s.mHashTable = none then
          pullsPushed (overridePull s a.gid).2
        else []) := by
  rcases hh : tfind (hashOfAdvertise C a.hop) s.mHashTable with _ | m
  · have e := addToHashAdvertise_new C now s a.hop hh
    simp only [Advertise.hop] at e
    cases hg : groupNode s a.gid
    · have hg' := hg
      simp [groupNode] at hg'
      by_cases ht : a.ttl = 0
      · have hp : ∃ r, processNetworkAdvertise C now s a ota = some r := by
          simp only [processNetworkAdvertise, e]
          simp [groupNode, hg', updateDistanceTable, updateReversePath, ht]
        obtain ⟨⟨s', evs⟩, hp⟩ := hp
        refine ⟨s', evs, hp, ?_⟩
        simp only [processNetworkAdvertise, e] at hp
        simp [groupNode, hg', updateDistanceTable, updateReversePath, ht] at hp
        obtain ⟨rfl, rfl⟩ := hp
        simp [ackSchedules, pullsPushed, setAdvTimer, setAckTimer, Advertise.hop,
          updateDistanceTable, updateReversePath, ackFor, ht]
      · have hp : ∃ r, processNetworkAdvertise C now s a ota = some r := by
          simp only [processNetworkAdvertise, e]
          simp [groupNode, hg', updateDistanceTable, updateReversePath, ht]
        obtain ⟨⟨s', evs⟩, hp⟩ := hp
        refine ⟨s', evs, hp, ?_⟩
        simp only [processNetworkAdvertise, e] at hp
        simp [groupNode, hg', updateDistanceTable, updateReversePath, ht] at hp
        obtain ⟨rfl, rfl⟩ := hp
        simp [ackSchedules, pullsPushed, setAdvTimer, setAckTimer, Advertise.hop,
          updateDistanceTable, updateReversePath, ackFor, ht]
    · have hg' := hg
      simp [groupNode] at hg'
      have hc : ¬ (mcount a.gid s.mLocalPullTable = 0 ∧ mcount a.gid s.mAnnounceTable = 0) := by
        omega
      by_cases hr : a.nottlregen = none
      · have hp : ∃ r, processNetworkAdvertise C now s a ota = some r := by
          simp only [processNetworkAdvertise, e]
          simp [groupNode, hg', updateDistanceTable, updateReversePath, hr, hc]
        obtain ⟨⟨s', evs⟩, hp⟩ := hp
        refine ⟨s', evs, hp, ?_⟩
        simp only [processNetworkAdvertise, e] at hp
        simp [groupNode, hg', updateDistanceTable, updateReversePath, hr, hc] at hp
        obtain ⟨rfl, rfl⟩ := hp
        simp only [overridePull]
        rcases hA : tfind a.gid s.mAnnounceTable with _ | annc
        · simp [ackSchedules, ackSchedules_append, pullsPushed, pullsPushed_append, setAdvTimer,
            setAckTimer, Advertise.hop, updateDistanceTable, updateReversePath, ackFor, hA]
        · by_cases hi : annc.interval = 0 ∧ annc.pullSentToApp = false
          · simp [ackSchedules, ackSchedules_append, pullsPushed, pullsPushed_append, setAdvTimer,
              setAckTimer, Advertise.hop, updateDistanceTable, updateReversePath, ackFor, hA, hi]
          · simp [ackSchedules, ackSchedules_append, pullsPushed, pullsPushed_append, setAdvTimer,
              setAckTimer, Advertise.hop, updateDistanceTable, updateReversePath, ackFor, hA, hi]
      · by_cases ht : a.ttl = 0
        · have hp : ∃ r, processNetworkAdvertise C now s a ota = some r := by
            simp only [processNetworkAdvertise, e]
            simp [groupNode, hg', updateDistanceTable, updateReversePath, hr, ht, hc]
          obtain ⟨⟨s', evs⟩, hp⟩ := hp
          refine ⟨s', evs, hp, ?_⟩
          simp only [processNetworkAdvertise, e] at hp
          simp [groupNode, hg', updateDistanceTable, updateReversePath, hr, ht, hc] at hp
          obtain ⟨rfl, rfl⟩ := hp
          simp only [overridePull]
          rcases hA : tfind a.gid s.mAnnounceTable with _ | annc
          · simp [ackSchedules, ackSchedules_append, pullsPushed, pullsPushed_append, setAdvTimer,
              setAckTimer, Advertise.hop, updateDistanceTable, updateReversePath, ackFor, hA]
          · by_cases hi : annc.interval = 0 ∧ annc.pullSentToApp = false
            · simp [ackSchedules, ackSchedules_append, pullsPushed, pullsPushed_append, setAdvTimer,
                setAckTimer, Advertise.hop, updateDistanceTable, updateReversePath, ackFor, hA, hi]
            · simp [ackSchedules, ackSchedules_append, pullsPushed, pullsPushed_append, setAdvTimer,
                setAckTimer, Advertise.hop, updateDistanceTable, updateReversePath, ackFor, hA, hi]
        · have hp : ∃ r, processNetworkAdvertise C now s a ota = some r := by
            simp only [processNetworkAdvertise, e]
            simp [groupNode, hg', updateDistanceTable, updateReversePath, hr, ht, hc]
          obtain ⟨⟨s', evs⟩, hp⟩ := hp
          refine ⟨s', evs, hp, ?_⟩
          simp only [processNetworkAdvertise, e] at hp
          simp [groupNode, hg', updateDistanceTable, updateReversePath, hr, ht, hc] at hp
          obtain ⟨rfl, rfl⟩ := hp
          simp only [overridePull]
          rcases hA : tfind a.gid s.mAnnounceTable with _ | annc
          · simp [ackSchedules, ackSchedules_append, pullsPushed, pullsPushed_append, setAdvTimer,
              setAckTimer, Advertise.hop, updateDistanceTable, updateReversePath, ackFor, hA]
          · by_cases hi : annc.interval = 0 ∧ annc.pullSentToApp = false
            · simp [ackSchedules, ackSchedules_append, pullsPushed, pullsPushed_append, setAdvTimer,
                setAckTimer, Advertise.hop, updateDistanceTable, updateReversePath, ackFor, hA, hi]
            · simp [ackSchedules, ackSchedules_append, pullsPushed, pullsPushed_append, setAdvTimer,
                setAckTimer, Advertise.hop, updateDistanceTable, updateReversePath, ackFor, hA, hi]
  · have e := addToHashAdvertise_seen C now s a.hop m hh
    have hh' := hh
    simp only [Advertise.hop] at e hh'
    obtain ⟨info, hinfo⟩ := distanceUpdate_find s.mNodeId s.mDistanceTable a.gid a.srcnode
      (hashOfAdvertise C a.hop) ((a.distance + 1) % 4294967296) ota false true
    simp only [Advertise.hop] at hinfo
    cases hg : groupNode s a.gid
    · have hg' := hg
      simp [groupNode] at hg'
      by_cases ht : a.ttl = 0
      · have hp : ∃ r, processNetworkAdvertise C now s a ota = some r := by
          simp only [processNetworkAdvertise, e]
          simp [groupNode, hg', updateDistanceTable, updateReversePath, ht, hh']
        obtain ⟨⟨s', evs⟩, hp⟩ := hp
        refine ⟨s', evs, hp, ?_⟩
        simp only [processNetworkAdvertise, e] at hp
        simp [groupNode, hg', updateDistanceTable, updateReversePath, ht, hh'] at hp
        obtain ⟨rfl, rfl⟩ := hp
        simp [ackSchedules, pullsPushed, setAdvTimer, setAckTimer, Advertise.hop,
          updateDistanceTable, updateReversePath, ackFor, ht, hh']
      · by_cases hm : m < a.ttl
        · have hp : ∃ r, processNetworkAdvertise C now s a ota = some r := by
            simp only [processNetworkAdvertise, e]
            simp [groupNode, hg', updateDistanceTable, updateReversePath, ht, hm, getMaxTTLfromHash, changeMaxTTL, hh', hinfo]
          obtain ⟨⟨s', evs⟩, hp⟩ := hp
          refine ⟨s', evs, hp, ?_⟩
          simp only [processNetworkAdvertise, e] at hp
          simp [groupNode, hg', updateDistanceTable, updateReversePath, ht, hm, getMaxTTLfromHash, changeMaxTTL, hh', hinfo] at hp
          obtain ⟨rfl, rfl⟩ := hp
          simp [ackSchedules, pullsPushed, setAdvTimer, setAckTimer, Advertise.hop,
            updateDistanceTable, updateReversePath, ackFor, ht, hm, getMaxTTLfromHash, changeMaxTTL, hh', hinfo]
        · have hp : ∃ r, processNetworkAdvertise C now s a ota = some r := by
            simp only [processNetworkAdvertise, e]
            simp [groupNode, hg', updateDistanceTable, updateReversePath, ht, hm, getMaxTTLfromHash, hh']
          obtain ⟨⟨s', evs⟩, hp⟩ := hp
          refine ⟨s', evs, hp, ?_⟩
          simp only [processNetworkAdvertise, e] at hp
          simp [groupNode, hg', updateDistanceTable, updateReversePath, ht, hm, getMaxTTLfromHash, hh'] at hp
          obtain ⟨rfl, rfl⟩ := hp
          simp [ackSchedules, pullsPushed, setAdvTimer, setAckTimer, Advertise.hop,
            updateDistanceTable, updateReversePath, ackFor, ht, hm, getMaxTTLfromHash, hh']
    · have hg' := hg
      simp [groupNode] at hg'
      have hc : ¬ (mcount a.gid s.mLocalPullTable = 0 ∧ mcount a.gid s.mAnnounceTable = 0) := by
        omega
      have hp : ∃ r, processNetworkAdvertise C now s a ota = some r := by
        simp only [processNetworkAdvertise, e]
        simp [groupNode, hg', updateDistanceTable, updateReversePath, hh', hc]
      obtain ⟨⟨s', evs⟩, hp⟩ := hp
      refine ⟨s', evs, hp, ?_⟩
      simp only [processNetworkAdvertise, e] at hp
      simp [groupNode, hg', updateDistanceTable, updateReversePath, hh', hc] at hp
      obtain ⟨rfl, rfl⟩ := hp
      simp [ackSchedules, pullsPushed, setAdvTimer, setAckTimer, Advertise.hop,
        updateDistanceTable, updateReversePath, ackFor, hh', hc]

/-- C11, counterexample. Node 3 is a group participant for group 7 and has the ACK for
(7, 1, seq 1) with obligatory relay 2 pending. The ADVERTISE (7, 1, seq 2) it then
receives from neighbour 4 is new to the hash, but afterwards the ACK timer table still
holds the ACK with sequence 1 and obligatory relay 2 under key (7, 1). -/
theorem pending_ack_not_replaced :
    oneAdvertise.map
        (fun r => (groupNode r.1 7, tfind (hashOfAdvertise fieldCodec secondAdvertise.hop) r.1.mHashTable,
                   tfind (GIDKey.mk 7 1) r.1.mAckTimerTable))
      = some (true, none, some (ackFor (advertiseOf 1) 2)) ∧
    twoAdvertises.map (fun r => tfind (GIDKey.mk 7 1) r.1.mAckTimerTable)
      = some (some { gid := 7, srcnode := 1, sequence := 1, obligatoryrelay := 2,
                     probabilityofrelay := 0 }) ∧
    ackFor secondAdvertise 4 = { gid := 7, srcnode := 1, sequence := 2, obligatoryrelay := 4,
                                 probabilityofrelay := 0 } := by
  decide

/-- C11 (amended). ACK generation: when a group participant for the group of a received
ADVERTISE handles a frame that is new to the hash, `processNetworkAdvertise` returns and
calls `setAckTimer` once, with the ACK of the frame's group, source node and sequence
number and the neighbour the frame came from as obligatory relay. If no ACK timer of the
key (gid, srcnode) was pending, the table holds that ACK afterwards and the timer is due
in 100 to 199 ms; if one was pending, the pending ACK stays and no timer is armed. (The
ACK timer table is the same when `setAckTimer` is called as on entry.) -/
theorem ack_generation (C : Codec) (now : Int) (s : GcnService) (a : Advertise) (ota : NodeId)
    (hg : groupNode s a.gid = true)
    (hnew : tfind (hashOfAdvertise C a.hop) s.mHashTable = none) :
    ∃ s' evs, processNetworkAdvertise C now s a ota = some (s', evs) ∧
      ackSchedules evs = [ackFor a ota] ∧
      (tfind (GIDKey.mk a.gid a.srcnode) s.mAckTimerTable = none →
        tfind (GIDKey.mk a.gid a.srcnode) s'.mAckTimerTable = some (ackFor a ota) ∧
        ∀ rand, ∃ d, ackTimerDelay s (ackFor a ota) rand = some d ∧ 100 ≤ d ∧ d ≤ 199) ∧
      (∀ p, tfind (GIDKey.mk a.gid a.srcnode) s.mAckTimerTable = some p →
        tfind (GIDKey.mk a.gid a.srcnode) s'.mAckTimerTable = some p ∧
        ∀ rand, ackTimerDelay s (ackFor a ota) rand = none) := by
  obtain ⟨s', evs, hp, -, -, -, -, -, -, ht, -, hs, -⟩ := processNetworkAdvertise_shape C now s a ota
  refine ⟨s', evs, hp, ?_, ?_, ?_⟩
  · rw [hs, if_pos ⟨hg, hnew⟩]
  · intro hnone
    rw [ht, if_pos ⟨hg, hnew⟩]
    refine ⟨?_, ?_⟩
    · simp [setAckTimer, ackFor, hnone, tfind_tset_self]
    · intro rand
      refine ⟨100 + rand % 100, ?_, ?_, ?_⟩
      · simp [ackTimerDelay, ackFor, hnone]
      · omega
      · have := Nat.mod_lt rand (show 100 > 0 by decide)
        omega
  · intro p hsome
    rw [ht, if_pos ⟨hg, hnew⟩]
    refine ⟨?_, ?_⟩
    · simp [setAckTimer, ackFor, hsome]
    · intro rand
      simp [ackTimerDelay, ackFor, hsome]

/-- C11, witness: node 3 with a subscriber of group 7 and no pending ACK gets the ACK of
the ADVERTISE (7, 1, seq 1) from neighbour 2 into its ACK timer table. -/
theorem ack_generation_witness :
    groupNode (clientPull (freshNode 3) 1 7) 7 = true ∧
    tfind (hashOfAdvertise fieldCodec (advertiseOf 1).hop)
      (clientPull (freshNode 3) 1 7).mHashTable = none ∧
    ∃ s' evs, processNetworkAdvertise fieldCodec 10 (clientPull (freshNode 3) 1 7)
        (advertiseOf 1) 2 = some (s', evs) ∧
      ackSchedules evs = [ackFor (advertiseOf 1) 2] ∧
      tfind (GIDKey.mk 7 1) s'.mAckTimerTable = some (ackFor (advertiseOf 1) 2) := by
  refine ⟨by decide, by decide, ?_⟩
  obtain ⟨s', evs, h, h1, h2, -⟩ :=
    ack_generation fieldCodec 10 (clientPull (freshNode 3) 1 7) (advertiseOf 1) 2
      (by decide) (by decide)
  exact ⟨s', evs, h, h1, (h2 (by decide)).1⟩

theorem refreshRemotePull_mem (gid : GroupId) (node : NodeId) (now : Int)
    (t t' : List (GroupId × RemotePullInfo))
    (h : refreshRemotePull gid node now t = some t') :
    (gid, { nodeId := node, timestamp := now }) ∈ t' := by
  induction t generalizing t' with
  | nil => simp [refreshRemotePull] at h
  | cons e r ih =>
    simp only [refreshRemotePull] at h
    split_ifs at h with hc
    · obtain ⟨h1, h2⟩ := hc
      simp only [Option.some.injEq] at h
      subst h
      obtain ⟨g, n, ts⟩ := e
      simp only at h1 h2
      subst h1 h2
      simp
    · rcases hr : refreshRemotePull gid node now r with _ | r'
      · simp [hr] at h
      · simp only [hr, Option.map_some', Option.some.injEq] at h
        subst h
        exact List.mem_cons_of_mem _ (ih r' hr)

theorem refreshRemotePull_other (gid : GroupId) (node : NodeId) (now : Int)
    (t t' : List (GroupId × RemotePullInfo))
    (h : refreshRemotePull gid node now t = some t') (e : GroupId × RemotePullInfo)
    (he : e.1 ≠ gid ∨ e.2.nodeId ≠ node) : e ∈ t' ↔ e ∈ t := by
  induction t generalizing t' with
  | nil => simp [refreshRemotePull] at h
  | cons x r ih =>
    simp only [refreshRemotePull] at h
    split_ifs at h with hc
    · obtain ⟨h1, h2⟩ := hc
      simp only [Option.some.injEq] at h
      subst h
      obtain ⟨g, n, ts⟩ := x
      obtain ⟨g', n', ts'⟩ := e
      simp only at h1 h2 he
      subst h1 h2
      simp only [List.mem_cons, Prod.mk.injEq, RemotePullInfo.mk.injEq]
      constructor
      · rintro (⟨h1, h2, -⟩ | h1)
        · rcases he with he | he
          · exact absurd h1 he
          · exact absurd h2 he
        · exact Or.inr h1
      · rintro (⟨h1, h2, -⟩ | h1)
        · rcases he with he | he
          · exact absurd h1 he
          · exact absurd h2 he
        · exact Or.inr h1
    · rcases hr : refreshRemotePull gid node now r with _ | r'
      · simp [hr] at h
      · simp only [hr, Option.map_some', Option.some.injEq] at h
        subst h
        simp only [List.mem_cons, ih r' hr]

/-- The final block of `processNetworkAck` leaves an entry of the group naming the
neighbour with the current time, and changes no entry of another group or neighbour. -/
theorem addRemotePullEntry_spec (s : GcnService) (gid : GroupId) (ota : NodeId) (now : Int) :
    (gid, { nodeId := ota, timestamp := now }) ∈ (addRemotePullEntry s gid ota now).mRemotePullTable ∧
    ∀ e : GroupId × RemotePullInfo, (e.1 ≠ gid ∨ e.2.nodeId ≠ ota) →
      (e ∈ (addRemotePullEntry s gid ota now).mRemotePullTable ↔ e ∈ s.mRemotePullTable) := by
  simp only [addRemotePullEntry]
  rcases hr : refreshRemotePull gid ota now s.mRemotePullTable with _ | t'
  · refine ⟨by simp, ?_⟩
    intro e he
    obtain ⟨g', n', ts'⟩ := e
    simp only at he
    simp only [List.mem_append, List.mem_singleton, Prod.mk.injEq, RemotePullInfo.mk.injEq]
    constructor
    · rintro (h | ⟨h1, h2, -⟩)
      · exact h
      · rcases he with he | he
        · exact absurd h1 he
        · exact absurd h2 he
    · intro h
      exact Or.inl h
  · exact ⟨refreshRemotePull_mem gid ota now _ _ hr, fun e he =>
      refreshRemotePull_other gid ota now _ _ hr e he⟩

/-- C12, counterexample. Node 2 is not a group participant for group 7, its reverse path
for (7, 1) names node 4 (sequence 2), it has ACK-forwarded sequence 1 only, and the ACK
it scheduled for sequence 1, with obligatory relay 1, is still pending. The ACK (7, 1,
seq 2) naming node 2 as obligatory relay then sets AckSent to 2 and records the sender,
but the only ACK scheduled for the key is still the one with obligatory relay 1: none
with obligatory relay 4 is scheduled. -/
theorem obligatory_relay_keeps_pending_ack :
    relayBeforeSecondAck.map (fun r => groupNode r.1 7) = some false ∧
    relayBeforeSecondAck.map
        (fun r => (tfind (GIDKey.mk 7 1) r.1.mReversePathTable).map RevPathInfo.srcNode)
      = some (some 4) ∧
    relayBeforeSecondAck.map (fun r => tfind (GIDKey.mk 7 1) r.1.mAckSentTable)
      = some (some 1) ∧
    relayBeforeSecondAck.map
        (fun r => (tfind (GIDKey.mk 7 1) r.1.mAckTimerTable).map Ack.obligatoryrelay)
      = some (some 1) ∧
    (relayBeforeSecondAck.bind
        (fun r => processNetworkAck 10 0 r.1 (ackFor secondAdvertise 2) 3)).map
        (fun r => tfind (GIDKey.mk 7 1) r.1.mAckSentTable) = some (some 2) ∧
    (relayBeforeSecondAck.bind
        (fun r => processNetworkAck 10 0 r.1 (ackFor secondAdvertise 2) 3)).map
        (fun r => r.1.mAckTimerTable.map (fun e => (e.2.sequence, e.2.obligatoryrelay)))
      = some [(1, 1)] ∧
    (relayBeforeSecondAck.bind
        (fun r => processNetworkAck 10 0 r.1 (ackFor secondAdvertise 2) 3)).map
        (fun r => r.1.mRemotePullTable.map (fun e => (e.1, e.2.nodeId))) = some [(7, 3)] := by
  decide

/-- C12 (amended). Obligatory relay election, for an ACK whose source node is not this
node, received by a node that is not a group participant for the group. If the ACK names
this node as obligatory relay, there is a reverse path entry for (gid, srcnode) and no
ACK was forwarded for this or a later sequence number, then `processNetworkAck` returns,
calls `setAckTimer` once with the ACK whose obligatory relay is the next hop of the
reverse path, sets AckSent to the sequence number and leaves an entry of the group naming
the sender, with the current time, in the remote pull table; the call arms a timer for
that ACK if none is pending for the key, and leaves a pending one as it is. If the ACK
names another node and its probability of relay is 0, the handler returns, calls no timer
setter and leaves the remote pull table, AckSent and the ACK timer table as they are. -/
theorem obligatory_relay_election (now : Int) (rand : Nat) (s : GcnService) (ack : Ack)
    (ota : NodeId) (hsrc : ack.srcnode ≠ s.mNodeId) (hgrp : groupNode s ack.gid = false) :
    (ack.obligatoryrelay = s.mNodeId →
      ∀ rev, tfind (GIDKey.mk ack.gid ack.srcnode) s.mReversePathTable = some rev →
      (∀ old, tfind (GIDKey.mk ack.gid ack.srcnode) s.mAckSentTable = some old →
        old < ack.sequence) →
      ∃ s', processNetworkAck now rand s ack ota
          = some (s', [Event.ackTimer { ack with obligatoryrelay := rev.srcNode }]) ∧
        tfind (GIDKey.mk ack.gid ack.srcnode) s'.mAckSentTable = some ack.sequence ∧
        (ack.gid, { nodeId := ota, timestamp := now }) ∈ s'.mRemotePullTable ∧
        (tfind (GIDKey.mk ack.gid ack.srcnode) s.mAckTimerTable = none →
          tfind (GIDKey.mk ack.gid ack.srcnode) s'.mAckTimerTable
            = some { ack with obligatoryrelay := rev.srcNode }) ∧
        (∀ p, tfind (GIDKey.mk ack.gid ack.srcnode) s.mAckTimerTable = some p →
          tfind (GIDKey.mk ack.gid ack.srcnode) s'.mAckTimerTable = some p)) ∧
    (ack.obligatoryrelay ≠ s.mNodeId → ack.probabilityofrelay = 0 →
      ∃ s', processNetworkAck now rand s ack ota = some (s', []) ∧
        s'.mRemotePullTable = s.mRemotePullTable ∧ s'.mAckSentTable = s.mAckSentTable ∧
        s'.mAckTimerTable = s.mAckTimerTable) := by
  constructor
  · intro hob rev hrev hold
    have hrec : tfind (GIDKey.mk ack.gid ack.srcnode)
        (recordSeq (GIDKey.mk ack.gid ack.srcnode) ack.sequence s.mAckSentTable)
          = some ack.sequence := by
      simp only [recordSeq]
      rcases hA : tfind (GIDKey.mk ack.gid ack.srcnode) s.mAckSentTable with _ | old
      · simp [tfind_tset_self]
      · simp [hold old hA, tfind_tset_self]
    have hp : processNetworkAck now rand s ack ota =
        some (addRemotePullEntry
          { (setAckTimer s { ack with obligatoryrelay := rev.srcNode }).1 with
            mAckSentTable := recordSeq (GIDKey.mk ack.gid ack.srcnode) ack.sequence s.mAckSentTable }
          ack.gid ota now, [Event.ackTimer { ack with obligatoryrelay := rev.srcNode }]) := by
      rcases hA : tfind (GIDKey.mk ack.gid ack.srcnode) s.mAckSentTable with _ | old
      · simp [processNetworkAck, hsrc, hob, hrev, relayAck, hgrp, setAckTimer, hA]
      · have hlt := hold old hA
        simp [processNetworkAck, hsrc, hob, hrev, relayAck, hgrp, setAckTimer, hA, hlt]
    refine ⟨_, hp, ?_, (addRemotePullEntry_spec _ _ _ _).1, ?_, ?_⟩
    · simp only [addRemotePullEntry]
      split <;> exact hrec
    · intro hnone
      simp only [addRemotePullEntry, setAckTimer]
      split <;> simp [hnone, tfind_tset_self]
    · intro p hsome
      simp only [addRemotePullEntry, setAckTimer]
      split <;> simp [hsome]
  · intro hob hp0
    simp only [processNetworkAck]
    simp only [hsrc, hob, hp0, if_false, ne_eq, not_true_eq_false, and_false, false_and]
    split_ifs <;> exact ⟨_, rfl, rfl, rfl, rfl⟩

/-- C12, witness: the relay with a reverse path through neighbour 1 forwards the ACK of
neighbour 3 that names it as obligatory relay, with obligatory relay 1. -/
theorem obligatory_relay_election_witness :
    (ackFor (advertiseOf 1) 2).srcnode ≠ relayWithPath.mNodeId ∧
    groupNode relayWithPath 7 = false ∧
    ∃ s', processNetworkAck 10 0 relayWithPath (ackFor (advertiseOf 1) 2) 3
        = some (s', [Event.ackTimer (ackFor (advertiseOf 1) 1)]) ∧
      tfind (GIDKey.mk 7 1) s'.mAckSentTable = some 1 := by
  refine ⟨by decide, by decide, ?_⟩
  obtain ⟨s', h, h1, -⟩ :=
    (obligatory_relay_election 10 0 relayWithPath (ackFor (advertiseOf 1) 2) 3
      (by decide) (by decide)).1 (by decide)
      { srcNode := 1, seqNum := 1, timestamp := 10, probRelay := 0 } (by decide)
      (fun old h => by simp [relayWithPath, relayNode, freshNode, GcnService.init, tfind] at h)
  exact ⟨s', h, h1⟩

/-- The body of `processNetworkAck` written with its flags `seenAdv`, `coinFlipped` and
`ackSent`. -/
theorem processNetworkAck_eq (now : Int) (rand : Nat) (s : GcnService) (ack : Ack)
    (ota : NodeId) :
    processNetworkAck now rand s ack ota =
      if ack.srcnode = s.mNodeId then
        match tfind ack.gid s.mAnnounceTable with
        | some annc =>
          if annc.pullSentToApp = false then
            some (addRemotePullEntry
                { s with
                  mAnnounceTable := tset ack.gid { annc with pullSentToApp := true } s.mAnnounceTable }
                ack.gid ota now,
              [Event.appPull annc.pSession ack.gid])
          else some (addRemotePullEntry s ack.gid ota now, [])
        | none => some (s, [])
      else if ack.obligatoryrelay = s.mNodeId then
        match tfind (GIDKey.mk ack.gid ack.srcnode) s.mReversePathTable with
        | none => none
        | some rev =>
          some (addRemotePullEntry
              (relayAck s ack rev (groupNode s ack.gid) (ackSent s ack)).1 ack.gid ota now,
            (relayAck s ack rev (groupNode s ack.gid) (ackSent s ack)).2)
      else if seenAdv s ack = true ∧ (!coinFlipped s ack) = true ∧
          ack.probabilityofrelay ≠ 0 ∧ coinFlip rand ack.probabilityofrelay = true then
        match tfind (GIDKey.mk ack.gid ack.srcnode) s.mReversePathTable with
        | none => none
        | some rev =>
          some (addRemotePullEntry
              { (relayAck s ack rev (groupNode s ack.gid) (ackSent s ack)).1 with
                mCoinFlipTable :=
                  recordSeq (GIDKey.mk ack.gid ack.srcnode) ack.sequence
                    (relayAck s ack rev (groupNode s ack.gid) (ackSent s ack)).1.mCoinFlipTable }
              ack.gid ota now,
            (relayAck s ack rev (groupNode s ack.gid) (ackSent s ack)).2)
      else if (!seenAdv s ack) = true then some (s, [])
      else if coinFlipped s ack = true then some (s, [])
      else
        some ({ s with
                mCoinFlipTable :=
                  recordSeq (GIDKey.mk ack.gid ack.srcnode) ack.sequence s.mCoinFlipTable },
              []) := by
  rfl

theorem relayAck_spec (s : GcnService) (ack : Ack) (rev : RevPathInfo) (grp sent : Bool) :
    relayAck s ack rev grp sent =
      if grp = false ∧ sent = false then
        ({ s with
            mAckTimerTable :=
              (setAckTimer s { ack with obligatoryrelay := rev.srcNode }).1.mAckTimerTable,
            mAckSentTable :=
              recordSeq (GIDKey.mk ack.gid ack.srcnode) ack.sequence s.mAckSentTable },
         [Event.ackTimer { ack with obligatoryrelay := rev.srcNode }])
      else (s, []) := by
  cases grp <;> cases sent <;> simp [relayAck, setAckTimer]

theorem addRemotePullEntry_frame (s : GcnService) (gid : GroupId) (ota : NodeId) (now : Int) :
    ∃ t, addRemotePullEntry s gid ota now = { s with mRemotePullTable := t } := by
  simp only [addRemotePullEntry]
  split <;> exact ⟨_, rfl⟩

theorem addRemotePullEntry_congr (s t : GcnService) (gid : GroupId) (ota : NodeId) (now : Int)
    (h : s.mRemotePullTable = t.mRemotePullTable) :
    (addRemotePullEntry s gid ota now).mRemotePullTable
      = (addRemotePullEntry t gid ota now).mRemotePullTable := by
  simp only [addRemotePullEntry, h]
  split <;> rfl

/-- C13, counterexample. Node 2 is neither source nor obligatory relay, has seen the
ADVERTISE (7, 1, seq 1) from four neighbours and has not flipped for sequence 1. The ACK
carries probability of relay 200 and the draw is 60: with the per-neighbour value
200 / 4 = 50 the node would lose, but `processNetworkAck` flips with 200 itself, so the
node wins, schedules the ACK for its reverse path and records the sender. -/
theorem ingress_coin_not_scaled :
    fourNeighbours.map
        (fun r => (tfind (GIDKey.mk 7 1) r.1.mDistanceTable).map (fun i => i.packetSrcs.length))
      = some (some 4) ∧
    fourNeighbours.map
        (fun r => (seenAdv r.1 perNeighbourAck, coinFlipped r.1 perNeighbourAck,
                   decide (perNeighbourAck.srcnode = r.1.mNodeId),
                   decide (perNeighbourAck.obligatoryrelay = r.1.mNodeId)))
      = some (true, false, false, false) ∧
    ¬ (60 < perNeighbourAck.probabilityofrelay / 4) ∧
    (fourNeighbours.bind (fun r => processNetworkAck 10 60 r.1 perNeighbourAck 3)).map
        (fun r => ackSchedules r.2)
      = some [{ perNeighbourAck with obligatoryrelay := 1 }] ∧
    (fourNeighbours.bind (fun r => processNetworkAck 10 60 r.1 perNeighbourAck 3)).map
        (fun r => r.1.mRemotePullTable)
      = some [(7, { nodeId := 3, timestamp := 10 })] := by
  decide

/-- C13 (amended). The coin of the third disposition is flipped with the probability of
relay as the ACK carries it, also when it is greater than 100: a node that is neither
the source node nor the obligatory relay, has seen the ADVERTISE, has not flipped for
the sequence number and has a reverse path entry wins iff the draw `rand % 100` is
smaller than the received value. Winning records the sender in the remote pull table
and, for a non-group node that sent no ACK for the sequence number, calls `setAckTimer`
with the next hop of the reverse path as obligatory relay; losing does neither; both
record the sequence number in CoinFlip. The division by the number of advertising
neighbours is done by the node that sends an ACK, in `OnAckTimeout`: when the
probability of relay of its reverse path entry is greater than 100, the ACK it hands to
the link carries that value divided by the number of `packetSrcs` of its distance entry,
otherwise the value itself. -/
theorem ack_coin_flip (now : Int) (rand : Nat) (s : GcnService) (ack : Ack) (ota : NodeId)
    (rev : RevPathInfo) (hsrc : ack.srcnode ≠ s.mNodeId) (hob : ack.obligatoryrelay ≠ s.mNodeId)
    (hseen : seenAdv s ack = true) (hflip : coinFlipped s ack = false)
    (hrev : tfind (GIDKey.mk ack.gid ack.srcnode) s.mReversePathTable = some rev) :
    (∃ s' evs, processNetworkAck now rand s ack ota = some (s', evs) ∧
      tfind (GIDKey.mk ack.gid ack.srcnode) s'.mCoinFlipTable = some ack.sequence ∧
      (rand % 100 < ack.probabilityofrelay →
        (ack.gid, { nodeId := ota, timestamp := now }) ∈ s'.mRemotePullTable ∧
        (groupNode s ack.gid = false → ackSent s ack = false →
          evs = [Event.ackTimer { ack with obligatoryrelay := rev.srcNode }])) ∧
      (¬ rand % 100 < ack.probabilityofrelay →
        evs = [] ∧ s'.mRemotePullTable = s.mRemotePullTable)) ∧
    (∀ pending info, tfind (GIDKey.mk ack.gid ack.srcnode) s.mAckTimerTable = some pending →
      tfind (GIDKey.mk ack.gid ack.srcnode) s.mDistanceTable = some info →
      (100 < rev.probRelay → info.packetSrcs.length % 4294967296 ≠ 0 →
        (OnAckTimeout s ack).map Prod.snd
          = some [forwardToOTAAck s
              { ack with probabilityofrelay :=
                  rev.probRelay / (info.packetSrcs.length % 4294967296) }]) ∧
      (rev.probRelay ≤ 100 →
        (OnAckTimeout s ack).map Prod.snd
          = some [forwardToOTAAck s { ack with probabilityofrelay := rev.probRelay }])) := by
  have hrec : tfind (GIDKey.mk ack.gid ack.srcnode)
      (recordSeq (GIDKey.mk ack.gid ack.srcnode) ack.sequence s.mCoinFlipTable)
        = some ack.sequence := by
    simp only [recordSeq]
    simp only [coinFlipped] at hflip
    rcases hA : tfind (GIDKey.mk ack.gid ack.srcnode) s.mCoinFlipTable with _ | old
    · simp [tfind_tset_self]
    · simp [hA] at hflip
      simp [hflip, tfind_tset_self]
  constructor
  · by_cases hwin : rand % 100 < ack.probabilityofrelay
    · have hcond : seenAdv s ack = true ∧ (!coinFlipped s ack) = true ∧
          ack.probabilityofrelay ≠ 0 ∧ coinFlip rand ack.probabilityofrelay = true :=
        ⟨hseen, by simp [hflip], by omega, by simp [coinFlip, hwin]⟩
      have hp := processNetworkAck_eq now rand s ack ota
      rw [if_neg hsrc, if_neg hob, if_pos hcond] at hp
      simp only [hrev] at hp
      refine ⟨_, _, hp, ?_, ?_, ?_⟩
      · obtain ⟨t, ht⟩ := addRemotePullEntry_frame
          { (relayAck s ack rev (groupNode s ack.gid) (ackSent s ack)).1 with
            mCoinFlipTable :=
              recordSeq (GIDKey.mk ack.gid ack.srcnode) ack.sequence
                (relayAck s ack rev (groupNode s ack.gid) (ackSent s ack)).1.mCoinFlipTable }
          ack.gid ota now
        rw [ht, relayAck_spec]
        split_ifs <;> exact hrec
      · intro _
        refine ⟨(addRemotePullEntry_spec _ _ _ _).1, ?_⟩
        intro hg hs
        rw [relayAck_spec, if_pos ⟨hg, hs⟩]
      · intro h
        exact absurd hwin h
    · have hcond : ¬ (seenAdv s ack = true ∧ (!coinFlipped s ack) = true ∧
          ack.probabilityofrelay ≠ 0 ∧ coinFlip rand ack.probabilityofrelay = true) := by
        rintro ⟨-, -, -, h⟩
        simp [coinFlip] at h
        exact hwin h
      have hp := processNetworkAck_eq now rand s ack ota
      rw [if_neg hsrc, if_neg hob, if_neg hcond, if_neg (by simp [hseen]),
        if_neg (by simp [hflip])] at hp
      refine ⟨_, _, hp, hrec, ?_, ?_⟩
      · intro h
        exact absurd h hwin
      · intro _
        exact ⟨rfl, rfl⟩
  · intro pending info hpend hinfo
    constructor
    · intro hbig hn
      simp [OnAckTimeout, hpend, hrev, hinfo, hbig, hn]
    · intro hsmall
      have hnb : ¬ 100 < rev.probRelay := by omega
      simp [OnAckTimeout, hpend, hrev, hnb]

/-- C13, witness: the relay that has seen the ADVERTISE wins with draw 60 against the
received probability of relay 200 and records the sender. -/
theorem ack_coin_flip_witness :
    perNeighbourAck.srcnode ≠ advertisedRelay.mNodeId ∧
    perNeighbourAck.obligatoryrelay ≠ advertisedRelay.mNodeId ∧
    seenAdv advertisedRelay perNeighbourAck = true ∧
    coinFlipped advertisedRelay perNeighbourAck = false ∧
    ∃ s' evs, processNetworkAck 10 60 advertisedRelay perNeighbourAck 3 = some (s', evs) ∧
      tfind (GIDKey.mk 7 1) s'.mCoinFlipTable = some 1 ∧
      (7, { nodeId := 3, timestamp := 10 }) ∈ s'.mRemotePullTable := by
  refine ⟨by decide, by decide, by decide, by decide, ?_⟩
  obtain ⟨⟨s', evs, h, h1, h2, -⟩, -⟩ :=
    ack_coin_flip 10 60 advertisedRelay perNeighbourAck 3
      { srcNode := 1, seqNum := 1, timestamp := 10, probRelay := 0 }
      (by decide) (by decide) (by decide) (by decide) (by decide)
  exact ⟨s', evs, h, h1, (h2 (by decide)).1⟩

/-- C14, counterexample. Node 2 has a subscriber of group 7, so it is a group
participant, and has a reverse path for (7, 1). The ACK of neighbour 3 that names node 2
as obligatory relay makes it schedule no ACK (its event list is empty), yet the sender is
added to the remote pull table, which was empty before. -/
theorem group_relay_joins_without_ack :
    groupRelay.map (fun r => (groupNode r.1 7, r.1.mRemotePullTable)) = some (true, []) ∧
    (groupRelay.bind (fun r => processNetworkAck 10 0 r.1 (ackFor (advertiseOf 1) 2) 3)).map
        (fun r => r.2) = some [] ∧
    (groupRelay.bind (fun r => processNetworkAck 10 0 r.1 (ackFor (advertiseOf 1) 2) 3)).map
        (fun r => r.1.mRemotePullTable) = some [(7, { nodeId := 3, timestamp := 10 })] := by
  decide

/-- C14 (amended). Relay-set membership in `processNetworkAck`. The sender of an ACK is
added to, or refreshed in, the remote pull table of the group exactly in these cases:
the source node of the ACK is this node and there is an announce entry for the group; or
the source node is another node and this node is named as obligatory relay or wins the
coin flip of the third disposition (with a reverse path entry; without one the handler
ends in a fatal log). In the last two cases `setAckTimer` is called only if the node is
not a group participant and sent no ACK for this or a later sequence number, so a group
participant and a node that already forwarded join the relay set without scheduling an
ACK in that call. In every other case the remote pull table is unchanged and no ACK is
scheduled. -/
theorem relay_set_membership (now : Int) (rand : Nat) (s : GcnService) (ack : Ack)
    (ota : NodeId) :
    (ack.srcnode = s.mNodeId →
      ∃ s' evs, processNetworkAck now rand s ack ota = some (s', evs) ∧
        ackSchedules evs = [] ∧
        s'.mRemotePullTable =
          if tfind ack.gid s.mAnnounceTable = none then s.mRemotePullTable
          else (addRemotePullEntry s ack.gid ota now).mRemotePullTable) ∧
    (ack.srcnode ≠ s.mNodeId →
      (ack.obligatoryrelay = s.mNodeId ∨
        (seenAdv s ack = true ∧ coinFlipped s ack = false ∧
          rand % 100 < ack.probabilityofrelay)) →
      (∀ rev, tfind (GIDKey.mk ack.gid ack.srcnode) s.mReversePathTable = some rev →
        ∃ s' evs, processNetworkAck now rand s ack ota = some (s', evs) ∧
          s'.mRemotePullTable = (addRemotePullEntry s ack.gid ota now).mRemotePullTable ∧
          ackSchedules evs =
            if groupNode s ack.gid = false ∧ ackSent s ack = false then
              [{ ack with obligatoryrelay := rev.srcNode }]
            else []) ∧
      (tfind (GIDKey.mk ack.gid ack.srcnode) s.mReversePathTable = none →
        processNetworkAck now rand s ack ota = none)) ∧
    (ack.srcnode ≠ s.mNodeId →
      ¬ (ack.obligatoryrelay = s.mNodeId ∨
        (seenAdv s ack = true ∧ coinFlipped s ack = false ∧
          rand % 100 < ack.probabilityofrelay)) →
      ∃ s' evs, processNetworkAck now rand s ack ota = some (s', evs) ∧
        s'.mRemotePullTable = s.mRemotePullTable ∧ ackSchedules evs = []) := by
  have hwin : (seenAdv s ack = true ∧ (!coinFlipped s ack) = true ∧
      ack.probabilityofrelay ≠ 0 ∧ coinFlip rand ack.probabilityofrelay = true) ↔
      (seenAdv s ack = true ∧ coinFlipped s ack = false ∧
        rand % 100 < ack.probabilityofrelay) := by
    simp only [coinFlip, Bool.not_eq_true', decide_eq_true_eq]
    constructor
    · rintro ⟨h1, h2, -, h4⟩
      exact ⟨h1, h2, h4⟩
    · rintro ⟨h1, h2, h4⟩
      exact ⟨h1, h2, by omega, h4⟩
  have hrelay : ∀ (rev : RevPathInfo) (t : GcnService),
      t.mRemotePullTable = s.mRemotePullTable →
      (addRemotePullEntry t ack.gid ota now).mRemotePullTable
        = (addRemotePullEntry s ack.gid ota now).mRemotePullTable :=
    fun _ t ht => addRemotePullEntry_congr t s ack.gid ota now ht
  have hrs : ∀ rev : RevPathInfo,
      (relayAck s ack rev (groupNode s ack.gid) (ackSent s ack)).1.mRemotePullTable
        = s.mRemotePullTable := by
    intro rev
    rw [relayAck_spec]
    split_ifs <;> rfl
  have hev : ∀ rev : RevPathInfo,
      ackSchedules (relayAck s ack rev (groupNode s ack.gid) (ackSent s ack)).2 =
        if groupNode s ack.gid = false ∧ ackSent s ack = false then
          [{ ack with obligatoryrelay := rev.srcNode }]
        else [] := by
    intro rev
    rw [relayAck_spec]
    split_ifs <;> rfl
  have hp := processNetworkAck_eq now rand s ack ota
  refine ⟨?_, ?_, ?_⟩
  · intro hsrc
    rw [if_pos hsrc] at hp
    rcases hA : tfind ack.gid s.mAnnounceTable with _ | annc
    · simp only [hA] at hp
      exact ⟨_, _, hp, rfl, by simp⟩
    · simp only [hA] at hp
      by_cases hsent : annc.pullSentToApp = false
      · rw [if_pos hsent] at hp
        refine ⟨_, _, hp, rfl, ?_⟩
        simp only [reduceCtorEq, if_false]
        exact addRemotePullEntry_congr _ _ _ _ _ rfl
      · rw [if_neg hsent] at hp
        exact ⟨_, _, hp, rfl, by simp⟩
  · intro hsrc hcond
    rw [if_neg hsrc] at hp
    constructor
    · intro rev hrev
      by_cases hob : ack.obligatoryrelay = s.mNodeId
      · rw [if_pos hob] at hp
        simp only [hrev] at hp
        exact ⟨_, _, hp, hrelay rev _ (hrs rev), hev rev⟩
      · rw [if_neg hob] at hp
        have hw := hwin.2 (hcond.resolve_left hob)
        rw [if_pos hw] at hp
        simp only [hrev] at hp
        refine ⟨_, _, hp, ?_, hev rev⟩
        exact hrelay rev _ (hrs rev)
    · intro hrev
      by_cases hob : ack.obligatoryrelay = s.mNodeId
      · rw [if_pos hob] at hp
        simp only [hrev] at hp
        exact hp
      · rw [if_neg hob] at hp
        have hw := hwin.2 (hcond.resolve_left hob)
        rw [if_pos hw] at hp
        simp only [hrev] at hp
        exact hp
  · intro hsrc hcond
    have hob : ¬ ack.obligatoryrelay = s.mNodeId := fun h => hcond (Or.inl h)
    have hw : ¬ (seenAdv s ack = true ∧ (!coinFlipped s ack) = true ∧
        ack.probabilityofrelay ≠ 0 ∧ coinFlip rand ack.probabilityofrelay = true) :=
      fun h => hcond (Or.inr (hwin.1 h))
    rw [if_neg hsrc, if_neg hob, if_neg hw] at hp
    split_ifs at hp <;> exact ⟨_, _, hp, rfl, rfl⟩

theorem reversePathUpdate_find (now : Int) (t : List (GIDKey × RevPathInfo)) (gid : GroupId)
    (gidsrc : NodeId) (seq : Nat) (ota : NodeId) (p : Nat) (k : GIDKey) :
    tfind k (reversePathUpdate now t gid gidsrc seq ota p) =
      if k = GIDKey.mk gid gidsrc then
        match tfind (GIDKey.mk gid gidsrc) t with
        | some info =>
          if seq > info.seqNum then
            some { srcNode := ota, seqNum := seq, timestamp := now, probRelay := p }
          else some info
        | none => some { srcNode := ota, seqNum := seq, timestamp := now, probRelay := p }
      else tfind k t := by
  by_cases hk : k = GIDKey.mk gid gidsrc
  · subst hk
    simp only [reversePathUpdate, if_true]
    rcases hA : tfind (GIDKey.mk gid gidsrc) t with _ | info
    · simp [tfind_tset_self]
    · by_cases hs : seq > info.seqNum
      · simp [hs, tfind_tset_self]
      · simp [hs, hA]
  · simp only [reversePathUpdate, if_neg hk]
    rcases hA : tfind (GIDKey.mk gid gidsrc) t with _ | info
    · simp only []
      exact tfind_tset_ne _ _ _ _ (Ne.symm hk)
    · by_cases hs : seq > info.seqNum
      · simp only [hs, if_true]
        exact tfind_tset_ne _ _ _ _ (Ne.symm hk)
      · simp only [hs, if_false]

/-- C15. Reverse-path monotonicity: `processNetworkAdvertise` returns; every key that has
a reverse path entry before the call has one afterwards, with a sequence number that is
not smaller; an entry differs from what it was only if it is the entry of the frame's
(gid, srcnode), the frame is new to the hash and its sequence number is strictly greater
than the stored one, and it then holds the neighbour the frame came from, the frame's
sequence number, the current time and the frame's probability of relay; whenever these
conditions hold the entry is rewritten so; the entries of all other keys are unchanged. -/
theorem reverse_path_monotone (C : Codec) (now : Int) (s : GcnService) (a : Advertise)
    (ota : NodeId) :
    ∃ s' evs, processNetworkAdvertise C now s a ota = some (s', evs) ∧
      (∀ k info, tfind k s.mReversePathTable = some info →
        ∃ info', tfind k s'.mReversePathTable = some info' ∧ info.seqNum ≤ info'.seqNum ∧
          (info' ≠ info →
            k = GIDKey.mk a.gid a.srcnode ∧
            tfind (hashOfAdvertise C a.hop) s.mHashTable = none ∧
            info.seqNum < a.sequence ∧
            info' = { srcNode := ota, seqNum := a.sequence, timestamp := now,
                      probRelay := a.probrelay })) ∧
      (∀ info, tfind (GIDKey.mk a.gid a.srcnode) s.mReversePathTable = some info →
        tfind (hashOfAdvertise C a.hop) s.mHashTable = none → info.seqNum < a.sequence →
        tfind (GIDKey.mk a.gid a.srcnode) s'.mReversePathTable
          = some { srcNode := ota, seqNum := a.sequence, timestamp := now,
                   probRelay := a.probrelay }) ∧
      (∀ k, k ≠ GIDKey.mk a.gid a.srcnode →
        tfind k s'.mReversePathTable = tfind k s.mReversePathTable) := by
  obtain ⟨s', evs, hp, -, -, -, -, -, hr, -⟩ := processNetworkAdvertise_shape C now s a ota
  refine ⟨s', evs, hp, ?_, ?_, ?_⟩
  · intro k info hk
    rw [hr]
    by_cases hnew : tfind (hashOfAdvertise C a.hop) s.mHashTable = none
    · rw [if_pos hnew, reversePathUpdate_find]
      by_cases hkey : k = GIDKey.mk a.gid a.srcnode
      · subst hkey
        rw [if_pos rfl]
        simp only [hk]
        by_cases hs : a.sequence > info.seqNum
        · rw [if_pos hs]
          exact ⟨_, rfl, Nat.le_of_lt hs, fun _ => ⟨trivial, hnew, hs, rfl⟩⟩
        · rw [if_neg hs]
          exact ⟨_, rfl, Nat.le_refl _, fun h => absurd rfl h⟩
      · rw [if_neg hkey]
        exact ⟨_, hk, Nat.le_refl _, fun h => absurd rfl h⟩
    · rw [if_neg hnew]
      exact ⟨_, hk, Nat.le_refl _, fun h => absurd rfl h⟩
  · intro info hk hnew hs
    rw [hr, if_pos hnew, reversePathUpdate_find, if_pos rfl]
    simp only [hk]
    rw [if_pos hs]
  · intro k hk
    rw [hr]
    split_ifs
    · rw [reversePathUpdate_find, if_neg hk]
    · rfl

theorem seqTableLe_refl (t : List (GIDKey × Nat)) : seqTableLe t t :=
  fun _ old h => ⟨old, h, Nat.le_refl _⟩

theorem seqTableLe_trans {t u v : List (GIDKey × Nat)} (h1 : seqTableLe t u)
    (h2 : seqTableLe u v) : seqTableLe t v := by
  intro k old h
  obtain ⟨m, hm, hle⟩ := h1 k old h
  obtain ⟨n, hn, hle'⟩ := h2 k m hm
  exact ⟨n, hn, Nat.le_trans hle hle'⟩

theorem seqTableLe_of_eq {t u : List (GIDKey × Nat)} (h : u = t) : seqTableLe t u := by
  subst h
  exact seqTableLe_refl _

theorem recordSeq_le (key : GIDKey) (seq : Nat) (t : List (GIDKey × Nat)) :
    seqTableLe t (recordSeq key seq t) := by
  intro k old h
  simp only [recordSeq]
  rcases hA : tfind key t with _ | cur
  · have hk : key ≠ k := by
      rintro rfl
      rw [hA] at h
      exact Option.noConfusion h
    exact ⟨old, by rw [tfind_tset_ne _ _ _ _ hk]; exact h, Nat.le_refl _⟩
  · by_cases hs : seq > cur
    · simp only [hs, if_true]
      by_cases hk : key = k
      · subst hk
        rw [hA] at h
        simp only [Option.some.injEq] at h
        subst h
        exact ⟨seq, tfind_tset_self _ _ _, Nat.le_of_lt hs⟩
      · exact ⟨old, by rw [tfind_tset_ne _ _ _ _ hk]; exact h, Nat.le_refl _⟩
    · simp only [hs, if_false]
      exact ⟨old, h, Nat.le_refl _⟩

/-- What `processNetworkAck` can change: the announce table, the remote pull table, the
two sequence tables and the ACK timer table; AckSent stays or gets the sequence number
recorded. -/
theorem processNetworkAck_frame (now : Int) (rand : Nat) (s : GcnService) (ack : Ack)
    (ota : NodeId) (r : GcnService × List Event)
    (h : processNetworkAck now rand s ack ota = some r) :
    (∃ an rp cf sent tm, r.1 =
      { s with
        mAnnounceTable := an, mRemotePullTable := rp, mCoinFlipTable := cf,
        mAckSentTable := sent, mAckTimerTable := tm }) ∧
    (r.1.mAckSentTable = s.mAckSentTable ∨
      r.1.mAckSentTable
        = recordSeq (GIDKey.mk ack.gid ack.srcnode) ack.sequence s.mAckSentTable) := by
  rw [processNetworkAck_eq] at h
  have hrel : ∀ rev : RevPathInfo,
      (∃ sent tm, (relayAck s ack rev (groupNode s ack.gid) (ackSent s ack)).1
          = { s with mAckSentTable := sent, mAckTimerTable := tm }) ∧
      ((relayAck s ack rev (groupNode s ack.gid) (ackSent s ack)).1.mAckSentTable
          = s.mAckSentTable ∨
        (relayAck s ack rev (groupNode s ack.gid) (ackSent s ack)).1.mAckSentTable
          = recordSeq (GIDKey.mk ack.gid ack.srcnode) ack.sequence s.mAckSentTable) := by
    intro rev
    rw [relayAck_spec]
    split_ifs
    · exact ⟨⟨_, _, rfl⟩, Or.inr rfl⟩
    · exact ⟨⟨_, _, rfl⟩, Or.inl rfl⟩
  split_ifs at h
  · split at h
    · split_ifs at h
      · simp only [Option.some.injEq] at h
        subst h
        obtain ⟨t, ht⟩ := addRemotePullEntry_frame
          { s with
            mAnnounceTable :=
              tset ack.gid { ‹AnnounceInfo› with pullSentToApp := true } s.mAnnounceTable }
          ack.gid ota now
        rw [ht]
        exact ⟨⟨_, _, _, _, _, rfl⟩, Or.inl rfl⟩
      · simp only [Option.some.injEq] at h
        subst h
        obtain ⟨t, ht⟩ := addRemotePullEntry_frame s ack.gid ota now
        rw [ht]
        exact ⟨⟨_, _, _, _, _, rfl⟩, Or.inl rfl⟩
    · simp only [Option.some.injEq] at h
      subst h
      exact ⟨⟨_, _, _, _, _, rfl⟩, Or.inl rfl⟩
  · split at h
    · exact Option.noConfusion h
    · rename_i rev _
      simp only [Option.some.injEq] at h
      subst h
      obtain ⟨⟨sent, tm, hr⟩, hs⟩ := hrel rev
      obtain ⟨t, ht⟩ := addRemotePullEntry_frame
        (relayAck s ack rev (groupNode s ack.gid) (ackSent s ack)).1 ack.gid ota now
      rw [ht]
      refine ⟨⟨s.mAnnounceTable, t, s.mCoinFlipTable, sent, tm, ?_⟩, hs⟩
      rw [hr]
  · split at h
    · exact Option.noConfusion h
    · rename_i rev _
      simp only [Option.some.injEq] at h
      subst h
      obtain ⟨⟨sent, tm, hr⟩, hs⟩ := hrel rev
      obtain ⟨t, ht⟩ := addRemotePullEntry_frame
        { (relayAck s ack rev (groupNode s ack.gid) (ackSent s ack)).1 with
          mCoinFlipTable :=
            recordSeq (GIDKey.mk ack.gid ack.srcnode) ack.sequence
              (relayAck s ack rev (groupNode s ack.gid) (ackSent s ack)).1.mCoinFlipTable }
        ack.gid ota now
      rw [ht]
      refine ⟨⟨s.mAnnounceTable, t,
        recordSeq (GIDKey.mk ack.gid ack.srcnode) ack.sequence s.mCoinFlipTable, sent, tm, ?_⟩,
        hs⟩
      rw [hr]
  · simp only [Option.some.injEq] at h
    subst h
    exact ⟨⟨_, _, _, _, _, rfl⟩, Or.inl rfl⟩
  · simp only [Option.some.injEq] at h
    subst h
    exact ⟨⟨_, _, _, _, _, rfl⟩, Or.inl rfl⟩
  · simp only [Option.some.injEq] at h
    subst h
    exact ⟨⟨_, _, _, _, _, rfl⟩, Or.inl rfl⟩

/-- What `preProcessData` can change: the hash tables and the distance table. -/
theorem preProcessData_frame (C : Codec) (now : Int) (s : GcnService) (d : Data)
    (ota : NodeId) (p : Option SessionId) :
    ∃ ht htt dt, (preProcessData C now s d ota p).1 =
      { s with mHashTable := ht, mHashTimeTable := htt, mDistanceTable := dt } := by
  simp only [preProcessData, addToHashData, addToHash, updateDistanceTable]
  split <;> exact ⟨_, _, _, rfl⟩

theorem changeMaxTTL_frame (s s2 : GcnService) (h : HashValue) (ttl : Nat)
    (hc : changeMaxTTL s h ttl = some s2) : ∃ ht, s2 = { s with mHashTable := ht } := by
  simp only [changeMaxTTL] at hc
  split at hc
  · simp only [Option.some.injEq] at hc
    exact ⟨_, hc.symm⟩
  · exact Option.noConfusion hc

/-- What `forwardBroadcast` can change: the hash table and the data timer table. -/
theorem forwardBroadcast_frame (s : GcnService) (d : Data) (h : HashValue)
    (new grp ack : Bool) (fwd : GcnService × List Event)
    (hf : forwardBroadcast s d h new grp ack = some fwd) :
    ∃ ht tt, fwd.1 = { s with mHashTable := ht, mDataTimerTable := tt } := by
  simp only [forwardBroadcast] at hf
  split_ifs at hf
  all_goals try (cases Option.some.inj hf; simp only [setDataTimer]; exact ⟨_, _, rfl⟩)
  rcases hm : getMaxTTLfromHash s h with _ | m
  · simp only [hm] at hf
    exact Option.noConfusion hf
  · simp only [hm] at hf
    split_ifs at hf
    · rcases hc : changeMaxTTL s h d.ttl with _ | s2
      · simp only [hc] at hf
        exact Option.noConfusion hf
      · simp only [hc] at hf
        obtain ⟨ht, hs2⟩ := changeMaxTTL_frame s s2 h d.ttl hc
        subst hs2
        split at hf
        · exact Option.noConfusion hf
        · cases Option.some.inj hf
          simp only [setDataTimer]
          exact ⟨_, _, rfl⟩
    · cases Option.some.inj hf
      exact ⟨_, _, rfl⟩

/-- What `processNetworkData` can change: the hash tables, the distance table and the
data timer table. -/
theorem processNetworkData_frame (C : Codec) (now : Int) (s : GcnService) (d : Data)
    (ota : NodeId) (r : GcnService × List Event)
    (h : processNetworkData C now s d ota = some r) :
    ∃ ht htt dt tt, r.1 =
      { s with mHashTable := ht, mHashTimeTable := htt, mDistanceTable := dt,
               mDataTimerTable := tt } := by
  obtain ⟨ht, htt, dt, hpre⟩ := preProcessData_frame C now s d.hop ota none
  rcases hu : d.uheader with _ | uh
  · by_cases hsrc : d.srcnode = s.mNodeId
    · rw [processNetworkData_own C now s d ota hu hsrc] at h
      simp only [Option.some.injEq] at h
      subst h
      exact ⟨ht, htt, dt, s.mDataTimerTable, hpre⟩
    · rw [processNetworkData_broadcast C now s d ota hu hsrc] at h
      split at h
      · exact Option.noConfusion h
      · rename_i fwd hf
        simp only [Option.some.injEq] at h
        subst h
        obtain ⟨ht', tt, hfwd⟩ := forwardBroadcast_frame _ _ _ _ _ _ _ hf
        refine ⟨ht', htt, dt, tt, ?_⟩
        rw [hfwd, hpre]
  · rw [processNetworkData_unicast C now s d ota uh hu] at h
    simp only [Option.some.injEq] at h
    subst h
    obtain ⟨tt, hfwd⟩ := forwardUnicast_state (preProcessData C now s d.hop ota none).1 d.hop uh
      (preProcessData C now s d.hop ota none).2.1 (preProcessData C now s d.hop ota none).2.2.1
      (groupNode (preProcessData C now s d.hop ota none).1 d.gid) d.srcttl.isNone
    refine ⟨ht, htt, dt, tt, ?_⟩
    rw [hfwd, hpre]

/-- What the DATA loop body of `OnClientReceive` can change. -/
theorem clientData_frame (C : Codec) (now : Int) (s : GcnService) (p : SessionId) (d : Data)
    (r : GcnService × List Event) (h : clientData C now s p d = some r) :
    ∃ sq ht htt dt, r.1 =
      { s with mSeqNumByGID := sq, mHashTable := ht, mHashTimeTable := htt,
               mDistanceTable := dt } := by
  simp only [clientData] at h
  obtain ⟨ht, htt, dt, hpre⟩ := preProcessData_frame C now
    { s with mSeqNumByGID := tset d.gid (((tfind d.gid s.mSeqNumByGID).getD 0 + 1) %
        18446744073709551616) s.mSeqNumByGID }
    { gid := d.gid, srcnode := s.mNodeId,
      sequence := ((tfind d.gid s.mSeqNumByGID).getD 0 + 1) % 18446744073709551616 % 4294967296,
      srcttl := d.srcttl, ttl := d.ttl, distance := 0, nottlregen := d.nottlregen,
      data := d.data, uheader := d.uheader } s.mNodeId (some p)
  have key : ∀ evs, r = ((preProcessData C now
      { s with mSeqNumByGID := tset d.gid (((tfind d.gid s.mSeqNumByGID).getD 0 + 1) %
          18446744073709551616) s.mSeqNumByGID }
      { gid := d.gid, srcnode := s.mNodeId,
        sequence := ((tfind d.gid s.mSeqNumByGID).getD 0 + 1) % 18446744073709551616 % 4294967296,
        srcttl := d.srcttl, ttl := d.ttl, distance := 0, nottlregen := d.nottlregen,
        data := d.data, uheader := d.uheader } s.mNodeId (some p)).1, evs) →
      ∃ sq ht htt dt, r.1 =
        { s with mSeqNumByGID := sq, mHashTable := ht, mHashTimeTable := htt,
                 mDistanceTable := dt } := by
    intro evs hr
    rw [hr, hpre]
    exact ⟨_, _, _, _, rfl⟩
  repeat' split at h
  all_goals first
    | exact Option.noConfusion h
    | (simp only [Option.some.injEq] at h; exact key _ h.symm)

/-- A relation that every step of a fallible fold establishes, and that is reflexive and
transitive, holds between the start state and the result of the fold. -/
theorem foldl_option_inv {α : Type} (R : GcnService → GcnService → Prop)
    (hrefl : ∀ s, R s s) (htrans : ∀ a b c, R a b → R b c → R a c)
    (g : Option (GcnService × List Event) → α → Option (GcnService × List Event))
    (hnone : ∀ x, g none x = none)
    (hstep : ∀ s evs x r, g (some (s, evs)) x = some r → R s r.1)
    (l : List α) (acc : Option (GcnService × List Event)) (r : GcnService × List Event)
    (h : l.foldl g acc = some r) : ∃ a, acc = some a ∧ R a.1 r.1 := by
  induction l generalizing acc with
  | nil =>
    simp only [List.foldl_nil] at h
    exact ⟨r, h, hrefl _⟩
  | cons x t ih =>
    simp only [List.foldl_cons] at h
    obtain ⟨b, hb, hR⟩ := ih _ h
    rcases acc with _ | ⟨s, evs⟩
    · rw [hnone] at hb
      exact Option.noConfusion hb
    · exact ⟨(s, evs), rfl, htrans _ _ _ (hstep s evs x b hb) hR⟩

theorem foldl_total_inv {α : Type} (R : GcnService → GcnService → Prop)
    (hrefl : ∀ s, R s s) (htrans : ∀ a b c, R a b → R b c → R a c)
    (g : GcnService → α → GcnService) (hstep : ∀ s x, R s (g s x))
    (l : List α) (s : GcnService) : R s (l.foldl g s) := by
  induction l generalizing s with
  | nil => exact hrefl _
  | cons x t ih => exact htrans _ _ _ (hstep s x) (ih _)

/-- A relation that the three network handlers establish, and that is reflexive and
transitive, holds between the state before and after `OnNetworkReceive`. -/
theorem OnNetworkReceive_inv (R : GcnService → GcnService → Prop)
    (hrefl : ∀ s, R s s) (htrans : ∀ a b c, R a b → R b c → R a c)
    (C : Codec) (now : Int) (rand : Nat)
    (hack : ∀ s ack ota r, processNetworkAck now rand s ack ota = some r → R s r.1)
    (hadv : ∀ s a ota r, processNetworkAdvertise C now s a ota = some r → R s r.1)
    (hdata : ∀ s d ota r, processNetworkData C now s d ota = some r → R s r.1)
    (s : GcnService) (message : OTAMessage) (r : GcnService × List Event)
    (h : OnNetworkReceive C now rand s message = some r) : R s r.1 := by
  simp only [OnNetworkReceive] at h
  split_ifs at h
  · obtain ⟨a3, h3, R3⟩ := foldl_option_inv R hrefl htrans _
      (fun x => rfl)
      (fun s evs x r hr => by
        simp only at hr
        split at hr
        · exact Option.noConfusion hr
        · rename_i s' evs' hp
          cases Option.some.inj hr
          exact hdata _ _ _ (s', evs') hp) _ _ _ h
    obtain ⟨a2, h2, R2⟩ := foldl_option_inv R hrefl htrans _
      (fun x => rfl)
      (fun s evs x r hr => by
        simp only at hr
        split at hr
        · exact Option.noConfusion hr
        · rename_i s' evs' hp
          cases Option.some.inj hr
          exact hadv _ _ _ (s', evs') hp) _ _ _ h3
    obtain ⟨a1, h1, R1⟩ := foldl_option_inv R hrefl htrans _
      (fun x => rfl)
      (fun s evs x r hr => by
        simp only at hr
        split at hr
        · exact Option.noConfusion hr
        · rename_i s' evs' hp
          cases Option.some.inj hr
          exact hack _ _ _ (s', evs') hp) _ _ _ h2
    cases Option.some.inj h1
    exact htrans _ _ _ (htrans _ _ _ R1 R2) R3
  · cases Option.some.inj h
    exact hrefl _

/-- A relation that the four loop bodies of `OnClientReceive` establish, and that is
reflexive and transitive, holds between the state before and after `OnClientReceive`. -/
theorem OnClientReceive_inv (R : GcnService → GcnService → Prop)
    (hrefl : ∀ s, R s s) (htrans : ∀ a b c, R a b → R b c → R a c)
    (C : Codec) (now : Int) (p : SessionId)
    (hpull : ∀ s gid, R s (clientPull s p gid))
    (hunpull : ∀ s gid, R s (clientUnpull s p gid))
    (hdata : ∀ s d r, clientData C now s p d = some r → R s r.1)
    (hadv : ∀ s a s', clientAdvertise s p a = some s' → R s s')
    (s : GcnService) (message : AppMessage) (r : GcnService × List Event)
    (h : OnClientReceive C now s p message = some r) : R s r.1 := by
  simp only [OnClientReceive] at h
  obtain ⟨a2, h2, R2⟩ := foldl_option_inv R hrefl htrans _
    (fun x => rfl)
    (fun s evs x r hr => by
      simp only at hr
      split at hr
      · exact Option.noConfusion hr
      · rename_i s' hp
        cases Option.some.inj hr
        exact hadv _ _ _ hp) _ _ _ h
  obtain ⟨a1, h1, R1⟩ := foldl_option_inv R hrefl htrans _
    (fun x => rfl)
    (fun s evs x r hr => by
      simp only at hr
      split at hr
      · exact Option.noConfusion hr
      · rename_i s' evs' hp
        cases Option.some.inj hr
        exact hdata _ _ (s', evs') hp) _ _ _ h2
  cases Option.some.inj h1
  have hp := foldl_total_inv R hrefl htrans (fun s gid => clientPull s p gid) hpull message.pull s
  have hu := foldl_total_inv R hrefl htrans (fun s gid => clientUnpull s p gid) hunpull
    message.unpull (message.pull.foldl (fun s gid => clientPull s p gid) s)
  exact htrans _ _ _ (htrans _ _ _ (htrans _ _ _ hp hu) R1) R2

theorem clientAdvertise_frame (s s' : GcnService) (p : SessionId) (a : Advertise)
    (h : clientAdvertise s p a = some s') : ∃ an, s' = { s with mAnnounceTable := an } := by
  simp only [clientAdvertise] at h
  split at h
  · split at h
    · exact Option.noConfusion h
    · cases Option.some.inj h
      exact ⟨_, rfl⟩
  · split at h
    · split_ifs at h
      cases Option.some.inj h
      exact ⟨_, rfl⟩
    · cases Option.some.inj h
      exact ⟨_, rfl⟩

theorem OnAnnounceTimeout_frame (C : Codec) (now : Int) (s : GcnService) (gid : GroupId) :
    ∃ an ht htt dt, (OnAnnounceTimeout C now s gid).1 =
      { s with mAnnounceTable := an, mHashTable := ht, mHashTimeTable := htt,
               mDistanceTable := dt } := by
  simp only [OnAnnounceTimeout, addToHashAdvertise, addToHash, updateDistanceTable]
  split
  · exact ⟨_, _, _, _, rfl⟩
  · split_ifs <;> first | exact ⟨_, _, _, _, rfl⟩ | (split <;> exact ⟨_, _, _, _, rfl⟩)

theorem advTimerExpires_frame (s : GcnService) (key : GIDKey) (r : GcnService × List Event)
    (h : advTimerExpires s key = some r) : ∃ t, r.1 = { s with mAdvTimerTable := t } := by
  simp only [advTimerExpires, OnAdvTimeout] at h
  split at h
  · cases Option.some.inj h
    exact ⟨_, rfl⟩
  · split at h
    · exact Option.noConfusion h
    · cases Option.some.inj h
      exact ⟨_, rfl⟩

theorem dataTimerExpires_frame (s : GcnService) (hv : HashValue) (r : GcnService × List Event)
    (h : dataTimerExpires s hv = some r) : ∃ t, r.1 = { s with mDataTimerTable := t } := by
  simp only [dataTimerExpires, OnDataTimeout] at h
  split at h
  · cases Option.some.inj h
    exact ⟨_, rfl⟩
  · split at h
    · exact Option.noConfusion h
    · cases Option.some.inj h
      exact ⟨_, rfl⟩

theorem ackTimerExpires_frame (s : GcnService) (key : GIDKey) (r : GcnService × List Event)
    (h : ackTimerExpires s key = some r) : ∃ t, r.1 = { s with mAckTimerTable := t } := by
  simp only [ackTimerExpires, OnAckTimeout] at h
  split at h
  · cases Option.some.inj h
    exact ⟨_, rfl⟩
  · split at h
    · exact Option.noConfusion h
    · split at h
      · exact Option.noConfusion h
      · split_ifs at h
        · split at h
          · exact Option.noConfusion h
          · split_ifs at h
            cases Option.some.inj h
            exact ⟨_, rfl⟩
        · cases Option.some.inj h
          exact ⟨_, rfl⟩

theorem hashCleanup_frame (now : Int) (s s' : GcnService) (h : hashCleanup now s = some s') :
    ∃ ht htt, s' = { s with mHashTable := ht, mHashTimeTable := htt } := by
  simp only [hashCleanup] at h
  split at h
  · exact Option.noConfusion h
  · cases Option.some.inj h
    exact ⟨_, _, rfl⟩

/-- No handler but `processNetworkAck` touches AckSent, and `processNetworkAck` only
records sequence numbers in it. -/
theorem handle_ackSent (C : Codec) (now : Int) (s : GcnService) (i : Input)
    (r : GcnService × List Event) (h : handle C now s i = some r) :
    seqTableLe s.mAckSentTable r.1.mAckSentTable := by
  cases i with
  | network message rand =>
    refine OnNetworkReceive_inv (fun a b => seqTableLe a.mAckSentTable b.mAckSentTable)
      (fun _ => seqTableLe_refl _) (fun _ _ _ => seqTableLe_trans) C now rand ?_ ?_ ?_
      s message r h
    · intro s ack ota r hr
      rcases (processNetworkAck_frame now rand s ack ota r hr).2 with h1 | h1
      · exact seqTableLe_of_eq h1
      · rw [h1]
        exact recordSeq_le _ _ _
    · intro s a ota r hr
      obtain ⟨s', evs, hp, -, -, -, h4, -⟩ := processNetworkAdvertise_shape C now s a ota
      rw [hp] at hr
      cases Option.some.inj hr
      exact seqTableLe_of_eq h4
    · intro s d ota r hr
      obtain ⟨_, _, _, _, hf⟩ := processNetworkData_frame C now s d ota r hr
      rw [hf]
      exact seqTableLe_refl _
  | client pSession message =>
    refine OnClientReceive_inv (fun a b => seqTableLe a.mAckSentTable b.mAckSentTable)
      (fun _ => seqTableLe_refl _) (fun _ _ _ => seqTableLe_trans) C now pSession ?_ ?_ ?_ ?_
      s message r h
    · intro s gid
      exact seqTableLe_refl _
    · intro s gid
      exact seqTableLe_refl _
    · intro s d r hr
      obtain ⟨_, _, _, _, hf⟩ := clientData_frame C now s pSession d r hr
      rw [hf]
      exact seqTableLe_refl _
    · intro s a s' hr
      obtain ⟨_, hf⟩ := clientAdvertise_frame s s' pSession a hr
      rw [hf]
      exact seqTableLe_refl _
  | close pSession =>
    cases Option.some.inj h
    exact seqTableLe_refl _
  | announce gid =>
    cases Option.some.inj h
    obtain ⟨_, _, _, _, hf⟩ := OnAnnounceTimeout_frame C now s gid
    rw [hf]
    exact seqTableLe_refl _
  | advTimer key =>
    obtain ⟨_, hf⟩ := advTimerExpires_frame s key r h
    rw [hf]
    exact seqTableLe_refl _
  | dataTimer hv =>
    obtain ⟨_, hf⟩ := dataTimerExpires_frame s hv r h
    rw [hf]
    exact seqTableLe_refl _
  | ackTimer key =>
    obtain ⟨_, hf⟩ := ackTimerExpires_frame s key r h
    rw [hf]
    exact seqTableLe_refl _
  | hashClean =>
    simp only [handle, Option.map_eq_some'] at h
    obtain ⟨s', hs', hr⟩ := h
    subst hr
    obtain ⟨_, _, hf⟩ := hashCleanup_frame now s s' hs'
    rw [hf]
    exact seqTableLe_refl _
  | pathClean =>
    cases Option.some.inj h
    exact seqTableLe_refl _
  | pullClean =>
    cases Option.some.inj h
    exact seqTableLe_refl _

theorem run_ackSent (C : Codec) (ins : List (Int × Input)) (s : GcnService)
    (r : GcnService × List Event) (h : run C s ins = some r) :
    seqTableLe s.mAckSentTable r.1.mAckSentTable := by
  induction ins generalizing s r with
  | nil =>
    cases Option.some.inj h
    exact seqTableLe_refl _
  | cons x t ih =>
    obtain ⟨now, i⟩ := x
    simp only [run] at h
    split at h
    · exact Option.noConfusion h
    · rename_i s' evs hs
      split at h
      · exact Option.noConfusion h
      · rename_i s'' evs' hrest
        cases Option.some.inj h
        exact seqTableLe_trans (handle_ackSent C now s i _ hs) (ih s' (s'', evs') hrest)

/-- C16. ACK monotonicity: over every handler step of the service, and so over every
run of handler steps (frames from the link, client messages, session closes, timer
expiries, clean-ups), each key that has an AckSent entry keeps one, with a value that is
greater or equal. -/
theorem ack_sent_monotone (C : Codec) (s : GcnService) (ins : List (Int × Input))
    (r : GcnService × List Event) (h : run C s ins = some r) :
    ∀ k old, tfind k s.mAckSentTable = some old →
      ∃ new, tfind k r.1.mAckSentTable = some new ∧ old ≤ new :=
  run_ackSent C ins s r h

/-- C16, witness: the relay that forwarded the ACK for sequence number 1 handles the ACK
for sequence number 2 that names it as obligatory relay; its AckSent entry for (7, 1)
goes from 1 to a value that is not smaller. -/
theorem ack_sent_monotone_witness :
    ∃ r, run fieldCodec forwardedRelay
        [(10, Input.network (ackFrame 3 (ackFor secondAdvertise 2)) 0)] = some r ∧
      tfind (GIDKey.mk 7 1) forwardedRelay.mAckSentTable = some 1 ∧
      ∃ new, tfind (GIDKey.mk 7 1) r.1.mAckSentTable = some new ∧ 1 ≤ new := by
  obtain ⟨r, hr⟩ := Option.isSome_iff_exists.mp
    (show (run fieldCodec forwardedRelay
      [(10, Input.network (ackFrame 3 (ackFor secondAdvertise 2)) 0)]).isSome = true by decide)
  exact ⟨r, hr, by decide,
    ack_sent_monotone fieldCodec forwardedRelay _ r hr (GIDKey.mk 7 1) 1 (by decide)⟩

theorem tfind_mcount_pos {ν : Type} (k : GroupId) (t : List (GroupId × ν)) (v : ν)
    (h : tfind k t = some v) : 0 < mcount k t := by
  induction t with
  | nil => simp [tfind] at h
  | cons e r ih =>
    obtain ⟨k', v'⟩ := e
    by_cases hk : k' = k
    · simp [mcount, hk]
    · simp only [tfind, hk, if_false] at h
      have := ih h
      simp only [mcount] at this ⊢
      simp [List.filter_cons, hk, this]

theorem OnNetworkReceive_ackFrame (C : Codec) (now : Int) (rand : Nat) (s : GcnService)
    (ota : NodeId) (a : Ack) (hota : ota ≠ s.mNodeId) :
    OnNetworkReceive C now rand s (ackFrame ota a) =
      (processNetworkAck now rand s a ota).map (fun r => (r.1, r.2)) := by
  simp only [OnNetworkReceive, ackFrame, ne_eq, hota, not_false_eq_true, if_true,
    List.foldl_cons, List.foldl_nil]
  rcases processNetworkAck now rand s a ota with _ | ⟨s', evs⟩
  · rfl
  · simp

theorem OnNetworkReceive_advertiseFrame (C : Codec) (now : Int) (rand : Nat) (s : GcnService)
    (ota : NodeId) (a : Advertise) (hota : ota ≠ s.mNodeId) :
    OnNetworkReceive C now rand s (advertiseFrame ota a) =
      (processNetworkAdvertise C now s a ota).map (fun r => (r.1, r.2)) := by
  simp only [OnNetworkReceive, advertiseFrame, ne_eq, hota, not_false_eq_true, if_true,
    List.foldl_cons, List.foldl_nil]
  rcases processNetworkAdvertise C now s a ota with _ | ⟨s', evs⟩
  · rfl
  · simp

/-- The GID-source branch of `processNetworkAck`: PULL is pushed iff the flag of the
announce entry was not set, and the flag is set afterwards. -/
theorem processNetworkAck_source (now : Int) (rand : Nat) (s : GcnService) (ack : Ack)
    (ota : NodeId) (annc : AnnounceInfo) (hsrc : ack.srcnode = s.mNodeId)
    (hs : tfind ack.gid s.mAnnounceTable = some annc) :
    ∃ s' evs, processNetworkAck now rand s ack ota = some (s', evs) ∧
      s'.mNodeId = s.mNodeId ∧
      tfind ack.gid s'.mAnnounceTable = some { annc with pullSentToApp := true } ∧
      pullsPushed evs =
        (if annc.pullSentToApp = false then [(annc.pSession, ack.gid)] else []) := by
  have hp := processNetworkAck_eq now rand s ack ota
  rw [if_pos hsrc] at hp
  simp only [hs] at hp
  by_cases hflag : annc.pullSentToApp = false
  · rw [if_pos hflag] at hp
    obtain ⟨t, ht⟩ := addRemotePullEntry_frame
      { s with
        mAnnounceTable := tset ack.gid { annc with pullSentToApp := true } s.mAnnounceTable }
      ack.gid ota now
    refine ⟨_, _, hp, ?_, ?_, ?_⟩
    · rw [ht]
    · rw [ht]
      exact tfind_tset_self _ _ _
    · rw [if_pos hflag]
      rfl
  · rw [if_neg hflag] at hp
    obtain ⟨t, ht⟩ := addRemotePullEntry_frame s ack.gid ota now
    refine ⟨_, _, hp, ?_, ?_, ?_⟩
    · rw [ht]
    · rw [ht]
      have : annc.pullSentToApp = true := by simpa using hflag
      have e : ({ annc with pullSentToApp := true } : AnnounceInfo) = annc := by
        cases annc
        simp only at this
        subst this
        rfl
      rw [e]
      exact hs
    · rw [if_neg hflag]
      rfl

/-- The advertise-override branch of `processNetworkAdvertise` at a node that has an
announce entry for the group: PULL is pushed iff the frame is new to the hash, the
interval is 0 and the flag was not set; the flag is set exactly then. -/
theorem processNetworkAdvertise_source (C : Codec) (now : Int) (s : GcnService)
    (a : Advertise) (ota : NodeId) (annc : AnnounceInfo)
    (hs : tfind a.gid s.mAnnounceTable = some annc) :
    ∃ s' evs, processNetworkAdvertise C now s a ota = some (s', evs) ∧
      s'.mNodeId = s.mNodeId ∧
      tfind a.gid s'.mAnnounceTable =
        some (if tfind (hashOfAdvertise C a.hop) s.mHashTable = none ∧ annc.interval = 0 ∧
                annc.pullSentToApp = false
              then { annc with pullSentToApp := true } else annc) ∧
      pullsPushed evs =
        (if tfind (hashOfAdvertise C a.hop) s.mHashTable = none ∧ annc.interval = 0 ∧
            annc.pullSentToApp = false
          then [(annc.pSession, a.gid)] else []) := by
  obtain ⟨s', evs, hp, hn, -, -, -, -, -, -, han, -, hpull⟩ :=
    processNetworkAdvertise_shape C now s a ota
  have hg : groupNode s a.gid = true := by
    have := tfind_mcount_pos a.gid s.mAnnounceTable annc hs
    simp [groupNode, this]
  refine ⟨s', evs, hp, hn, ?_, ?_⟩
  · rw [han]
    by_cases hnew : tfind (hashOfAdvertise C a.hop) s.mHashTable = none
    · rw [if_pos ⟨hg, hnew⟩]
      simp only [overridePull, hs]
      by_cases hc : annc.interval = 0 ∧ annc.pullSentToApp = false
      · rw [if_pos hc, if_pos ⟨hnew, hc⟩]
        exact tfind_tset_self _ _ _
      · rw [if_neg hc, if_neg (fun h => hc h.2)]
        exact hs
    · rw [if_neg (fun h => hnew h.2), if_neg (fun h => hnew h.1)]
      exact hs
  · rw [hpull]
    by_cases hnew : tfind (hashOfAdvertise C a.hop) s.mHashTable = none
    · rw [if_pos ⟨hg, hnew⟩]
      simp only [overridePull, hs]
      by_cases hc : annc.interval = 0 ∧ annc.pullSentToApp = false
      · rw [if_pos hc, if_pos ⟨hnew, hc⟩]
        rfl
      · rw [if_neg hc, if_neg (fun h => hc h.2)]
        rfl
    · rw [if_neg (fun h => hnew h.2), if_neg (fun h => hnew h.1)]

/-- One input of claim C17: the handler returns, keeps the announce entry up to its
flag, never resets the flag, pushes PULL to the owning session iff the flag goes from
unset to set, and sets the flag when the input is a trigger. -/
theorem pullEvent_step (C : Codec) (now : Int) (g : GroupId) (s : GcnService)
    (annc : AnnounceInfo) (hs : tfind g s.mAnnounceTable = some annc) (x : Input)
    (hx : pullEvent g s.mNodeId x) :
    ∃ s1 evs1 flag, handle C now s x = some (s1, evs1) ∧ s1.mNodeId = s.mNodeId ∧
      tfind g s1.mAnnounceTable = some { annc with pullSentToApp := flag } ∧
      (annc.pullSentToApp = true → flag = true) ∧
      pullsPushed evs1 =
        (if annc.pullSentToApp = false ∧ flag = true then [(annc.pSession, g)] else []) ∧
      (pullTrigger C g s annc x → flag = true) := by
  rcases hx with ⟨a, ota, rand, rfl, hota, hg, hsrc⟩ | ⟨a, ota, rand, rfl, hota, hg⟩
  · subst hg
    obtain ⟨s', evs, hp, hn, han, hpull⟩ := processNetworkAck_source now rand s a ota annc hsrc hs
    refine ⟨s', evs, true, ?_, hn, han, fun _ => rfl, ?_, fun _ => rfl⟩
    · simp only [handle]
      rw [OnNetworkReceive_ackFrame C now rand s ota a hota, hp]
      rfl
    · rw [hpull]
      simp
  · subst hg
    obtain ⟨s', evs, hp, hn, han, hpull⟩ := processNetworkAdvertise_source C now s a ota annc hs
    have hh : handle C now s (Input.network (advertiseFrame ota a) rand) = some (s', evs) := by
      simp only [handle]
      rw [OnNetworkReceive_advertiseFrame C now rand s ota a hota, hp]
      rfl
    by_cases hc : tfind (hashOfAdvertise C a.hop) s.mHashTable = none ∧ annc.interval = 0 ∧
        annc.pullSentToApp = false
    · rw [if_pos hc] at han hpull
      refine ⟨s', evs, true, hh, hn, han, fun _ => rfl, ?_, fun _ => rfl⟩
      rw [hpull]
      simp [hc.2.2]
    · rw [if_neg hc] at han hpull
      refine ⟨s', evs, annc.pullSentToApp, hh, hn, han, fun h => h, ?_, ?_⟩
      · rw [hpull]
        simp
      · rintro (⟨a', ota', rand', hx, -⟩ | ⟨hint, a', ota', rand', hx, -, -, hnew⟩)
        · simp [ackFrame, advertiseFrame] at hx
        · simp only [Input.network.injEq, advertiseFrame, OTAMessage.mk.injEq,
            List.cons.injEq, and_true, true_and] at hx
          obtain ⟨⟨-, ha⟩, -⟩ := hx
          subst ha
          by_contra hf
          exact hc ⟨hnew, hint, by simpa using hf⟩

theorem once_append {α : Type} (A B D : Bool) (x : α) (h1 : A = true → B = true)
    (h2 : B = true → D = true) :
    (if A = false ∧ B = true then [x] else []) ++ (if B = false ∧ D = true then [x] else [])
      = (if A = false ∧ D = true then [x] else []) := by
  cases A <;> cases B <;> cases D <;> simp at h1 h2 ⊢

/-- C17. PULL is pushed exactly once. Let the node have an announce entry for group `g`,
and let a sequence of frames from neighbours be handled in order, each carrying one ACK
for `g` whose source node is this node or one ADVERTISE for `g` (no client message,
session close or clean-up in between). Then every handler returns, the entry stays as it
is up to its flag `pullSentToApp`, a flag that is set stays set, and over the whole
sequence PULL for `g` is pushed to the owning session once if the flag goes from unset
to set and not at all otherwise; nothing else is pushed. If the first frame is an ACK,
or, with announce interval 0, an ADVERTISE new to the hash, then the flag is set from
that frame on and the push, if the flag was unset, is made by the handler of that first
frame, so none of the later frames pushes. -/
theorem pull_pushed_once (C : Codec) (g : GroupId) (ins : List (Int × Input))
    (s : GcnService) (annc : AnnounceInfo) (hs : tfind g s.mAnnounceTable = some annc)
    (hins : ∀ x ∈ ins, pullEvent g s.mNodeId x.2) :
    ∃ s' evs flag, run C s ins = some (s', evs) ∧
      tfind g s'.mAnnounceTable = some { annc with pullSentToApp := flag } ∧
      (annc.pullSentToApp = true → flag = true) ∧
      pullsPushed evs =
        (if annc.pullSentToApp = false ∧ flag = true then [(annc.pSession, g)] else []) ∧
      (∀ now x rest, ins = (now, x) :: rest → pullTrigger C g s annc x →
        flag = true ∧
        ∃ s1 evs1, handle C now s x = some (s1, evs1) ∧
          pullsPushed evs1 =
            (if annc.pullSentToApp = false then [(annc.pSession, g)] else [])) := by
  induction ins generalizing s annc with
  | nil =>
    refine ⟨s, [], annc.pullSentToApp, rfl, hs, fun h => h, ?_, ?_⟩
    · cases annc.pullSentToApp <;> simp [pullsPushed]
    · intro now x rest h
      exact absurd h (by simp)
  | cons y t ih =>
    obtain ⟨now, x⟩ := y
    obtain ⟨s1, evs1, flag1, hh, hn, han, hmono, hpull, htrig⟩ :=
      pullEvent_step C now g s annc hs x (hins (now, x) (List.mem_cons_self _ _))
    obtain ⟨s', evs', flag', hrun, han', hmono', hpull', -⟩ :=
      ih s1 { annc with pullSentToApp := flag1 } han
        (fun z hz => by rw [hn]; exact hins z (List.mem_cons_of_mem _ hz))
    refine ⟨s', evs1 ++ evs', flag', ?_, han', fun h => hmono' (hmono h), ?_, ?_⟩
    · simp only [run, hh, hrun]
    · rw [pullsPushed_append, hpull, hpull']
      exact once_append annc.pullSentToApp flag1 flag' (annc.pSession, g) hmono hmono'
    · intro now' x' rest hcons htr
      simp only [List.cons.injEq, Prod.mk.injEq] at hcons
      obtain ⟨⟨rfl, rfl⟩, -⟩ := hcons
      have h1 := htrig htr
      refine ⟨hmono' h1, s1, evs1, hh, ?_⟩
      rw [hpull, h1]
      simp

/-- C17, witness: node 1 with an announce entry for group 7 gets the ACK of neighbour 2
twice; PULL for group 7 is pushed to session 1 once. -/
theorem pull_pushed_once_witness :
    tfind 7 sourceNode.mAnnounceTable
      = some { pSession := 1, pTimer := true, interval := 1, probRelay := 0, srcTtl := 2,
               seqNum := 1, pullSentToApp := false, noTtlRegen := false } ∧
    ∃ s' evs, run fieldCodec sourceNode
        [(10, Input.network (ackFrame 2 (ackFor originAdvertise 1)) 0),
         (11, Input.network (ackFrame 2 (ackFor originAdvertise 1)) 0)] = some (s', evs) ∧
      pullsPushed evs = [(1, 7)] := by
  refine ⟨by decide, ?_⟩
  obtain ⟨s', evs, flag, hrun, -, -, hpull, hfirst⟩ :=
    pull_pushed_once fieldCodec 7
      [(10, Input.network (ackFrame 2 (ackFor originAdvertise 1)) 0),
       (11, Input.network (ackFrame 2 (ackFor originAdvertise 1)) 0)]
      sourceNode
      { pSession := 1, pTimer := true, interval := 1, probRelay := 0, srcTtl := 2,
        seqNum := 1, pullSentToApp := false, noTtlRegen := false }
      (by decide)
      (by
        intro x hx
        simp only [List.mem_cons, List.mem_singleton, List.not_mem_nil, or_false] at hx
        rcases hx with rfl | rfl
        · exact Or.inl ⟨_, _, _, rfl, by decide, rfl, rfl⟩
        · exact Or.inl ⟨_, _, _, rfl, by decide, rfl, rfl⟩)
  have hflag := (hfirst _ _ _ rfl (Or.inl ⟨_, _, _, rfl, by decide, rfl, rfl⟩)).1
  refine ⟨s', evs, hrun, ?_⟩
  rw [hpull, hflag]
  rfl

/-- C18, counterexample. Node 1 has an announce entry for group 7 with interval 1 and
the PULL pushed, a remote pull entry of time 10 and a local subscriber of group 7. The remote pull clean-up at time
5000 removes the expired remote pull entry, so that the group has none left, but pushes
no UNPULL and leaves the flag set. -/
theorem no_unpull_with_local_subscriber :
    (run fieldCodec (freshNode 1) sourceWithLocalSubscriber).map
        (fun r => (tfind 7 r.1.mAnnounceTable).map
          (fun a => (a.pullSentToApp, decide (a.interval > 0))))
      = some (some (true, true)) ∧
    (run fieldCodec (freshNode 1) sourceWithLocalSubscriber).map
        (fun r => r.1.mRemotePullTable) = some [(7, { nodeId := 2, timestamp := 10 })] ∧
    (run fieldCodec (freshNode 1) sourceWithLocalSubscriber).map
        (fun r => r.1.mLocalPullTable) = some [(7, 2)] ∧
    (run fieldCodec (freshNode 1) sourceWithLocalSubscriber).map
        (fun r => (remotePullCleanup 5000 r.1).1.mRemotePullTable) = some [] ∧
    (run fieldCodec (freshNode 1) sourceWithLocalSubscriber).map
        (fun r => (remotePullCleanup 5000 r.1).2) = some [] ∧
    (run fieldCodec (freshNode 1) sourceWithLocalSubscriber).map
        (fun r => (tfind 7 (remotePullCleanup 5000 r.1).1.mAnnounceTable).map
          AnnounceInfo.pullSentToApp) = some (some true) := by
  decide

theorem unpullSweep_spec (remote : List (GroupId × RemotePullInfo))
    (local_ : List (GroupId × SessionId)) (t : List (GroupId × AnnounceInfo)) :
    (unpullSweep remote local_ t).1 =
      t.map (fun e => if unpullDue remote local_ e = true
                      then (e.1, { e.2 with pullSentToApp := false }) else e) ∧
    (unpullSweep remote local_ t).2 =
      (t.filter (unpullDue remote local_)).map (fun e => Event.appUnpull e.2.pSession e.1) := by
  induction t with
  | nil => exact ⟨rfl, rfl⟩
  | cons e r ih =>
    obtain ⟨gid, annc⟩ := e
    obtain ⟨ih1, ih2⟩ := ih
    by_cases hc : annc.pullSentToApp = true ∧ mcount gid remote = 0 ∧ mcount gid local_ = 0 ∧
        annc.interval > 0
    · have hd : unpullDue remote local_ (gid, annc) = true := by
        simp [unpullDue, hc.1, hc.2.1, hc.2.2.1, hc.2.2.2]
      refine ⟨?_, ?_⟩ <;> simp [unpullSweep, hc, hd, ih1, ih2]
    · have hd : unpullDue remote local_ (gid, annc) = false := by
        simp only [unpullDue, Bool.and_eq_false_iff, decide_eq_false_iff_not]
        by_contra hn
        push_neg at hn
        exact hc ⟨by simpa using hn.1.1.1, hn.1.1.2, hn.1.2, hn.2⟩
      refine ⟨?_, ?_⟩ <;> simp [unpullSweep, hc, hd, ih1, ih2]

theorem tfind_map_snd {ν : Type} (f : GroupId × ν → ν) (g : GroupId)
    (t : List (GroupId × ν)) :
    tfind g (t.map (fun e => (e.1, f e))) = (t.find? (fun e => decide (e.1 = g))).map f := by
  induction t with
  | nil => rfl
  | cons e r ih =>
    obtain ⟨k, v⟩ := e
    by_cases hk : k = g
    · simp [tfind, hk]
    · simp [tfind, hk, ih]

theorem tfind_map_keep {ν : Type} (F : GroupId × ν → GroupId × ν) (hF : ∀ e, (F e).1 = e.1)
    (g : GroupId) (t : List (GroupId × ν)) (v : ν) (h : tfind g t = some v) :
    tfind g (t.map F) = some (F (g, v)).2 := by
  induction t with
  | nil => simp [tfind] at h
  | cons e r ih =>
    obtain ⟨k, w⟩ := e
    have hk := hF (k, w)
    simp only [List.map_cons]
    rcases hfe : F (k, w) with ⟨k', w'⟩
    rw [hfe] at hk
    simp only at hk
    subst hk
    by_cases hkg : k' = g
    · subst hkg
      simp only [tfind, if_true, Option.some.injEq] at h ⊢
      subst h
      rw [hfe]
    · simp only [tfind, hkg, if_false] at h ⊢
      exact ih h

theorem tfind_mem {ν : Type} (g : GroupId) (t : List (GroupId × ν)) (v : ν)
    (h : tfind g t = some v) : (g, v) ∈ t := by
  induction t with
  | nil => simp [tfind] at h
  | cons e r ih =>
    obtain ⟨k, w⟩ := e
    by_cases hkg : k = g
    · subst hkg
      simp only [tfind, if_true, Option.some.injEq] at h
      subst h
      exact List.mem_cons_self _ _
    · simp only [tfind, hkg, if_false] at h
      exact List.mem_cons_of_mem _ (ih h)

theorem unpullsPushed_map (l : List (GroupId × AnnounceInfo)) :
    unpullsPushed (l.map (fun e => Event.appUnpull e.2.pSession e.1))
      = l.map (fun e => (e.2.pSession, e.1)) := by
  induction l with
  | nil => rfl
  | cons e r ih => simp [unpullsPushed, ih]

theorem pullsPushed_map_unpull (l : List (GroupId × AnnounceInfo)) :
    pullsPushed (l.map (fun e => Event.appUnpull e.2.pSession e.1)) = [] := by
  induction l with
  | nil => rfl
  | cons e r ih => simp [pullsPushed, ih]

/-- C18 (amended). UNPULL on loss of all subscribers. `remotePullCleanup` removes the
expired remote pull entries and then, for every announce entry, pushes UNPULL for its
group to the owning session and resets the flag `pullSentToApp` exactly when the flag is
set, the group has no remote pull entry left, the group has no local pull entry either
and the interval is positive. For every other entry it pushes nothing and leaves the
entry as it is; the handler pushes no PULL. -/
theorem unpull_on_loss (now : Int) (s : GcnService) :
    (remotePullCleanup now s).1.mRemotePullTable =
      s.mRemotePullTable.filter
        (fun e => !decide (now - e.2.timestamp > s.mRemotePullExpireTime)) ∧
    (∀ e : GroupId × AnnounceInfo,
      unpullDue (remotePullCleanup now s).1.mRemotePullTable s.mLocalPullTable e = true ↔
        e.2.pullSentToApp = true ∧ mcount e.1 (remotePullCleanup now s).1.mRemotePullTable = 0 ∧
        mcount e.1 s.mLocalPullTable = 0 ∧ e.2.interval > 0) ∧
    unpullsPushed (remotePullCleanup now s).2 =
      (s.mAnnounceTable.filter
          (unpullDue (remotePullCleanup now s).1.mRemotePullTable s.mLocalPullTable)).map
        (fun e => (e.2.pSession, e.1)) ∧
    pullsPushed (remotePullCleanup now s).2 = [] ∧
    (∀ g annc, tfind g s.mAnnounceTable = some annc →
      tfind g (remotePullCleanup now s).1.mAnnounceTable =
        some (if unpullDue (remotePullCleanup now s).1.mRemotePullTable s.mLocalPullTable
                  (g, annc) = true
              then { annc with pullSentToApp := false } else annc) ∧
      (unpullDue (remotePullCleanup now s).1.mRemotePullTable s.mLocalPullTable (g, annc) = true →
        (annc.pSession, g) ∈ unpullsPushed (remotePullCleanup now s).2)) := by
  have hsw := unpullSweep_spec
    (s.mRemotePullTable.filter (fun e => !decide (now - e.2.timestamp > s.mRemotePullExpireTime)))
    s.mLocalPullTable s.mAnnounceTable
  obtain ⟨h1, h2⟩ := hsw
  have hev : unpullsPushed (remotePullCleanup now s).2 =
      (s.mAnnounceTable.filter
          (unpullDue (remotePullCleanup now s).1.mRemotePullTable s.mLocalPullTable)).map
        (fun e => (e.2.pSession, e.1)) := by
    simp only [remotePullCleanup, h2]
    exact unpullsPushed_map _
  refine ⟨rfl, ?_, hev, ?_, ?_⟩
  · intro e
    simp [unpullDue, and_assoc]
  · simp only [remotePullCleanup, h2]
    exact pullsPushed_map_unpull _
  · intro g annc hg
    constructor
    · simp only [remotePullCleanup, h1]
      have := tfind_map_keep
        (fun e : GroupId × AnnounceInfo =>
          if unpullDue (s.mRemotePullTable.filter
              (fun e => !decide (now - e.2.timestamp > s.mRemotePullExpireTime)))
            s.mLocalPullTable e = true
          then (e.1, { e.2 with pullSentToApp := false }) else e)
        (fun e => by dsimp only; split_ifs <;> rfl) g s.mAnnounceTable annc hg
      rw [this]
      dsimp only
      split_ifs <;> rfl
    · intro hd
      rw [hev]
      exact List.mem_map.mpr ⟨(g, annc), List.mem_filter.mpr ⟨tfind_mem g _ annc hg, hd⟩, rfl⟩

theorem tfind_terase_ne {κ ν : Type} [DecidableEq κ] (k k' : κ) (t : List (κ × ν))
    (h : k ≠ k') : tfind k' (terase k t) = tfind k' t := by
  induction t with
  | nil => rfl
  | cons e t ih =>
    obtain ⟨x, v⟩ := e
    by_cases hx : x = k
    · subst hx
      simp [terase, tfind, h, ih]
    · by_cases hx' : x = k'
      · subst hx'
        simp [terase, tfind, hx]
      · simp [terase, tfind, hx, hx', ih]

/-- C19, counterexample. Sessions 1 and 2 of node 1 both send ADVERTISE(REGISTER) for
group 7; the entry belongs to session 1. Session 1 then sends ADVERTISE(DEREGISTER):
the entry is gone, although session 2 is open, registered for group 7 and has not
deregistered. -/
theorem announce_gone_with_registered_session :
    (run fieldCodec (freshNode 1) (twoSources.take 2)).map
        (fun r => (tfind 7 r.1.mAnnounceTable).map AnnounceInfo.pSession) = some (some 1) ∧
    (run fieldCodec (freshNode 1) twoSources).map
        (fun r => tfind 7 r.1.mAnnounceTable) = some none := by
  decide

/-- C19 (amended). The announce table has one entry per group, owned by the session
whose REGISTER created it. ADVERTISE(REGISTER) for a group without entry creates the
entry for the sending session (the handler is fatal when the interval is positive but
not below the remote pull expire time); for a group with an entry it keeps the entry and
its owner, whichever session sends it. ADVERTISE(DEREGISTER) removes the entry of the
group, whichever session sends it, and is fatal without entry. Neither touches the entry
of another group. Closing a session removes exactly the entries it owns. -/
theorem announce_entry_transitions (s : GcnService) (p : SessionId) (a : Advertise) :
    (a.type = AdvertiseType.REGISTER →
      (tfind a.gid s.mAnnounceTable = none →
        (∀ i, a.interval = some i → 0 < i → i < s.mRemotePullExpireTime) →
        ∃ s' info, clientAdvertise s p a = some s' ∧
          tfind a.gid s'.mAnnounceTable = some info ∧ info.pSession = p) ∧
      (∀ old, tfind a.gid s.mAnnounceTable = some old →
        ∃ s' info, clientAdvertise s p a = some s' ∧
          tfind a.gid s'.mAnnounceTable = some info ∧ info.pSession = old.pSession)) ∧
    (a.type = AdvertiseType.DEREGISTER →
      (tfind a.gid s.mAnnounceTable = none → clientAdvertise s p a = none) ∧
      (∀ old, tfind a.gid s.mAnnounceTable = some old →
        ∃ s', clientAdvertise s p a = some s' ∧ tfind a.gid s'.mAnnounceTable = none)) ∧
    (∀ s', clientAdvertise s p a = some s' →
      ∀ g, g ≠ a.gid → tfind g s'.mAnnounceTable = tfind g s.mAnnounceTable) ∧
    (∀ e, e ∈ (closeClientConnection s p).mAnnounceTable ↔
      e ∈ s.mAnnounceTable ∧ e.2.pSession ≠ p) := by
  refine ⟨?_, ?_, ?_, ?_⟩
  · intro hreg
    constructor
    · intro hnone hint
      simp only [clientAdvertise, hreg, hnone]
      split_ifs with hc
      · exfalso
        rcases hi : a.interval with _ | i
        · simp [hi] at hc
        · simp only [hi] at hc
          exact hc.2 (hint i hi hc.1)
      · exact ⟨_, _, rfl, tfind_tset_self _ _ _, rfl⟩
    · intro old hold
      simp only [clientAdvertise, hreg, hold]
      refine ⟨_, _, rfl, tfind_tset_self _ _ _, ?_⟩
      split_ifs <;> rfl
  · intro hde
    constructor
    · intro hnone
      simp only [clientAdvertise, hde, hnone]
    · intro old hold
      simp only [clientAdvertise, hde, hold]
      exact ⟨_, rfl, tfind_terase_self _ _⟩
  · intro s' hs' g hg
    simp only [clientAdvertise] at hs'
    split at hs'
    · split at hs'
      · exact Option.noConfusion hs'
      · cases Option.some.inj hs'
        exact tfind_terase_ne _ _ _ (Ne.symm hg)
    · split at hs'
      · split_ifs at hs'
        cases Option.some.inj hs'
        exact tfind_tset_ne _ _ _ _ (Ne.symm hg)
      · cases Option.some.inj hs'
        exact tfind_tset_ne _ _ _ _ (Ne.symm hg)
  · intro e
    simp [closeClientConnection, List.mem_filter]

theorem tfind_filter_none {ν : Type} (g : GroupId) (q : GroupId × ν → Bool)
    (t : List (GroupId × ν)) (h : ∀ e ∈ t, e.1 = g → q e = false) :
    tfind g (t.filter q) = none := by
  induction t with
  | nil => rfl
  | cons e r ih =>
    obtain ⟨k, v⟩ := e
    have ih' := ih (fun e he => h e (List.mem_cons_of_mem _ he))
    by_cases hq : q (k, v) = true
    · have hk : k ≠ g := by
        intro hk
        have := h (k, v) (List.mem_cons_self _ _) hk
        rw [this] at hq
        exact Bool.noConfusion hq
      simp [List.filter_cons, hq, tfind, hk, ih']
    · simp [List.filter_cons, hq, ih']

theorem tfind_filter_keep {ν : Type} (g : GroupId) (q : GroupId × ν → Bool)
    (t : List (GroupId × ν)) (v : ν) (h : tfind g t = some v) (hq : q (g, v) = true) :
    tfind g (t.filter q) = some v := by
  induction t with
  | nil => simp [tfind] at h
  | cons e r ih =>
    obtain ⟨k, w⟩ := e
    by_cases hk : k = g
    · subst hk
      simp only [tfind, if_true, Option.some.injEq] at h
      subst h
      simp [List.filter_cons, hq, tfind]
    · simp only [tfind, hk, if_false] at h
      by_cases hqe : q (k, w) = true
      · simp [List.filter_cons, hqe, tfind, hk, ih h]
      · simp [List.filter_cons, hqe, ih h]

/-- C20. Session close unwinds: after `closeClientConnection` for session `p` no local
pull entry and no announce entry refers to `p`; every entry of another session is kept,
as often as it occurred, and an announce entry that `tfind` gave for a group and that
belongs to another session is still the one it gives; nothing but the two tables
changes; and the announce timer of a removed entry is cancelled: for a group all of
whose entries belonged to `p` there is no entry left, and an announce timeout for a group
without entry does nothing. -/
theorem session_close_unwinds (C : Codec) (now : Int) (s : GcnService) (p : SessionId) :
    (∀ e ∈ (closeClientConnection s p).mLocalPullTable, e.2 ≠ p) ∧
    (∀ e ∈ (closeClientConnection s p).mAnnounceTable, e.2.pSession ≠ p) ∧
    (∀ e : GroupId × SessionId, e.2 ≠ p →
      (closeClientConnection s p).mLocalPullTable.count e = s.mLocalPullTable.count e) ∧
    (∀ e : GroupId × AnnounceInfo, e.2.pSession ≠ p →
      (closeClientConnection s p).mAnnounceTable.count e = s.mAnnounceTable.count e) ∧
    (∀ g annc, tfind g s.mAnnounceTable = some annc → annc.pSession ≠ p →
      tfind g (closeClientConnection s p).mAnnounceTable = some annc) ∧
    (∃ l a, closeClientConnection s p = { s with mLocalPullTable := l, mAnnounceTable := a }) ∧
    (∀ g, (∀ e ∈ s.mAnnounceTable, e.1 = g → e.2.pSession = p) →
      tfind g (closeClientConnection s p).mAnnounceTable = none) ∧
    (∀ g, tfind g (closeClientConnection s p).mAnnounceTable = none →
      OnAnnounceTimeout C now (closeClientConnection s p) g = (closeClientConnection s p, [])) := by
  refine ⟨?_, ?_, ?_, ?_, ?_, ⟨_, _, rfl⟩, ?_, ?_⟩
  · intro e he
    simp only [closeClientConnection, List.mem_filter, decide_eq_true_eq] at he
    exact he.2
  · intro e he
    simp only [closeClientConnection, List.mem_filter, decide_eq_true_eq] at he
    exact he.2
  · intro e he
    simp only [closeClientConnection]
    exact List.count_filter (by simpa using he)
  · intro e he
    simp only [closeClientConnection]
    exact List.count_filter (by simpa using he)
  · intro g annc hg hp
    simp only [closeClientConnection]
    exact tfind_filter_keep g _ _ annc hg (by simpa using hp)
  · intro g hall
    simp only [closeClientConnection]
    exact tfind_filter_none g _ _ (fun e he hk => by simpa using hall e he hk)
  · intro g hnone
    simp only [OnAnnounceTimeout, hnone]

theorem distanceUpdate_key (self : NodeId) (t : List (GIDKey × DistanceInfo)) (gid : GroupId)
    (gidsrc : NodeId) (hashValue : HashValue) (distance : Nat) (otaSrc : NodeId)
    (newToHash AdvMsg : Bool) :
    tfind (GIDKey.mk gid gidsrc)
        (distanceUpdate self t gid gidsrc hashValue distance otaSrc newToHash AdvMsg) =
      some
        (match tfind (GIDKey.mk gid gidsrc) t with
         | some info =>
           if info.latestPacketHash = hashValue then
             if otaSrc ∉ info.packetSrcs ∧ gidsrc ≠ self then
               { info with packetCount := (info.packetCount + 1) % 65536,
                           packetSrcs := info.packetSrcs ++ [otaSrc] }
             else info
           else if newToHash = true then
             if AdvMsg = true then
               { distance := distance, latestPacketHash := hashValue, packetCount := 1,
                 packetSrcs := [otaSrc] }
             else { info with distance := distance }
           else info
         | none =>
           { distance := distance, latestPacketHash := hashValue, packetCount := 1,
             packetSrcs := [otaSrc] }) := by
  simp only [distanceUpdate]
  rcases h : tfind (GIDKey.mk gid gidsrc) t with _ | info
  · exact tfind_tset_self _ _ _
  · simp only
    split_ifs <;> first | exact tfind_tset_self _ _ _ | exact h

theorem processNetworkAdvertise_distance (C : Codec) (now : Int) (s : GcnService)
    (a : Advertise) (ota : NodeId) (r : GcnService × List Event)
    (h : processNetworkAdvertise C now s a ota = some r) :
    ∃ n, r.1.mDistanceTable =
      distanceUpdate s.mNodeId s.mDistanceTable a.gid a.srcnode (hashOfAdvertise C a.hop)
        ((a.distance + 1) % 4294967296) ota n true := by
  have hov : ∀ x : GcnService, (overridePull x a.gid).1.mDistanceTable = x.mDistanceTable := by
    intro x
    simp only [overridePull]
    split
    · split_ifs <;> rfl
    · rfl
  rcases hh : tfind (hashOfAdvertise C a.hop) s.mHashTable with _ | m
  · have e := addToHashAdvertise_new C now s a.hop hh
    simp only [Advertise.hop] at e
    refine ⟨true, ?_⟩
    simp only [processNetworkAdvertise, e] at h
    simp only [if_true] at h
    split_ifs at h <;> cases Option.some.inj h <;>
      simp [hov, setAckTimer, setAdvTimer, updateDistanceTable, updateReversePath, Advertise.hop]
  · have e := addToHashAdvertise_seen C now s a.hop m hh
    simp only [Advertise.hop] at e
    refine ⟨false, ?_⟩
    simp only [processNetworkAdvertise, e] at h
    simp only [Bool.false_eq_true, if_false] at h
    split_ifs at h
    all_goals try (cases Option.some.inj h; simp [updateDistanceTable, Advertise.hop])
    all_goals
      split at h
      · exact Option.noConfusion h
      · split_ifs at h
        · split at h
          · exact Option.noConfusion h
          · rename_i s2 hc
            obtain ⟨ht, hf⟩ := changeMaxTTL_frame _ _ _ _ hc
            split at h
            · exact Option.noConfusion h
            · cases Option.some.inj h
              simp [hf, setAdvTimer, updateDistanceTable, Advertise.hop]
        · cases Option.some.inj h
          simp [updateDistanceTable, Advertise.hop]

theorem processNetworkAdvertise_config (C : Codec) (now : Int) (s : GcnService)
    (a : Advertise) (ota : NodeId) (r : GcnService × List Event)
    (h : processNetworkAdvertise C now s a ota = some r) :
    r.1.mSeqNumByGID = s.mSeqNumByGID ∧ r.1.mDataTimerTable = s.mDataTimerTable ∧
    r.1.mAlwaysRebroadcast = s.mAlwaysRebroadcast ∧ r.1.mHashExpireTime = s.mHashExpireTime ∧
    r.1.mReversePathExpireTime = s.mReversePathExpireTime ∧
    r.1.mRemotePullExpireTime = s.mRemotePullExpireTime := by
  have hov : ∀ x : GcnService,
      (overridePull x a.gid).1.mSeqNumByGID = x.mSeqNumByGID ∧
      (overridePull x a.gid).1.mDataTimerTable = x.mDataTimerTable ∧
      (overridePull x a.gid).1.mAlwaysRebroadcast = x.mAlwaysRebroadcast ∧
      (overridePull x a.gid).1.mHashExpireTime = x.mHashExpireTime ∧
      (overridePull x a.gid).1.mReversePathExpireTime = x.mReversePathExpireTime ∧
      (overridePull x a.gid).1.mRemotePullExpireTime = x.mRemotePullExpireTime := by
    intro x
    simp only [overridePull]
    split
    · split_ifs <;> exact ⟨rfl, rfl, rfl, rfl, rfl, rfl⟩
    · exact ⟨rfl, rfl, rfl, rfl, rfl, rfl⟩
  rcases hh : tfind (hashOfAdvertise C a.hop) s.mHashTable with _ | m
  · have e := addToHashAdvertise_new C now s a.hop hh
    simp only [Advertise.hop] at e
    simp only [processNetworkAdvertise, e] at h
    simp only [if_true] at h
    split_ifs at h <;> cases Option.some.inj h <;>
      simp [hov, setAckTimer, setAdvTimer, updateDistanceTable, updateReversePath, Advertise.hop]
  · have e := addToHashAdvertise_seen C now s a.hop m hh
    simp only [Advertise.hop] at e
    simp only [processNetworkAdvertise, e] at h
    simp only [Bool.false_eq_true, if_false] at h
    split_ifs at h
    all_goals try (cases Option.some.inj h; simp [updateDistanceTable, Advertise.hop])
    all_goals
      split at h
      · exact Option.noConfusion h
      · split_ifs at h
        · split at h
          · exact Option.noConfusion h
          · rename_i s2 hc
            obtain ⟨ht, hf⟩ := changeMaxTTL_frame _ _ _ _ hc
            split at h
            · exact Option.noConfusion h
            · cases Option.some.inj h
              simp [hf, setAdvTimer, updateDistanceTable, Advertise.hop]
        · cases Option.some.inj h
          simp [updateDistanceTable, Advertise.hop]

theorem processNetworkData_distance (C : Codec) (now : Int) (s : GcnService)
    (d : Data) (ota : NodeId) (r : GcnService × List Event)
    (h : processNetworkData C now s d ota = some r) :
    ∃ n, r.1.mDistanceTable =
      distanceUpdate s.mNodeId s.mDistanceTable d.gid d.srcnode (hashOfData C d.hop)
        ((d.distance + 1) % 4294967296) ota n false := by
  have hpre := (preProcessData_spec C now s d.hop ota none).2.2.2.2.2.2.2.1
  simp only [Data.hop] at hpre
  simp only [processNetworkData] at h
  split at h
  · rename_i uh hu
    obtain ⟨t, hf⟩ := forwardUnicast_state (preProcessData C now s d.hop ota none).1 d.hop uh
      (preProcessData C now s d.hop ota none).2.1 (preProcessData C now s d.hop ota none).2.2.1
      (groupNode (preProcessData C now s d.hop ota none).1 d.gid) d.srcttl.isNone
    simp only [Data.hop] at hf
    cases Option.some.inj h
    exact ⟨_, (congrArg GcnService.mDistanceTable hf).trans hpre⟩
  · split_ifs at h
    · split at h
      · exact Option.noConfusion h
      · rename_i fwd hfw
        obtain ⟨ht, tt, hf⟩ := forwardBroadcast_frame _ _ _ _ _ _ _ hfw
        cases Option.some.inj h
        exact ⟨_, (congrArg GcnService.mDistanceTable hf).trans hpre⟩
    · cases Option.some.inj h
      exact ⟨_, hpre⟩

theorem clientData_distance (C : Codec) (now : Int) (s : GcnService) (p : SessionId)
    (d : Data) (r : GcnService × List Event) (h : clientData C now s p d = some r) :
    ∃ hv n, r.1.mDistanceTable =
      distanceUpdate s.mNodeId s.mDistanceTable d.gid s.mNodeId hv 0 s.mNodeId n false := by
  simp only [clientData] at h
  have hpre := fun x => (preProcessData_spec C now
    { s with mSeqNumByGID := x }
    { d with distance := 0, srcnode := s.mNodeId,
             sequence := (((tfind d.gid s.mSeqNumByGID).getD 0 + 1) % 18446744073709551616)
               % 4294967296 }
    s.mNodeId (some p)).2.2.2.2.2.2.2.1
  simp only at hpre
  repeat' split at h
  all_goals first
    | exact Option.noConfusion h
    | (cases Option.some.inj h; exact ⟨_, _, hpre _⟩)

theorem addToHash_distance (C : Codec) (now : Int) (s : GcnService) (data : Bytes) (ttl : Nat) :
    (addToHash C now s data ttl).1.mDistanceTable = s.mDistanceTable ∧
    (addToHash C now s data ttl).1.mNodeId = s.mNodeId := by
  rw [addToHash_eq]
  split_ifs <;> exact ⟨rfl, rfl⟩

theorem OnAnnounceTimeout_distance (C : Codec) (now : Int) (s : GcnService) (gid : GroupId) :
    (OnAnnounceTimeout C now s gid).1.mDistanceTable = s.mDistanceTable ∨
    ∃ hv, (OnAnnounceTimeout C now s gid).1.mDistanceTable =
      distanceUpdate s.mNodeId s.mDistanceTable gid s.mNodeId hv 0 s.mNodeId true true := by
  rcases hA : tfind gid s.mAnnounceTable with _ | annc
  · left
    simp only [OnAnnounceTimeout, hA]
  · by_cases hp : annc.pTimer = false
    · left
      simp only [OnAnnounceTimeout, hA, hp, if_true]
    · right
      simp only [OnAnnounceTimeout, hA, hp, if_false, updateDistanceTable, addToHashAdvertise,
        addToHash_distance]
      exact ⟨_, rfl⟩

theorem OnAnnounceTimeout_distance_armed (C : Codec) (now : Int) (s : GcnService)
    (gid : GroupId) (annc : AnnounceInfo) (hA : tfind gid s.mAnnounceTable = some annc)
    (hp : annc.pTimer = true) :
    ∃ hv, (OnAnnounceTimeout C now s gid).1.mDistanceTable =
      distanceUpdate s.mNodeId s.mDistanceTable gid s.mNodeId hv 0 s.mNodeId true true := by
  have hp' : ¬ annc.pTimer = false := by simp [hp]
  simp only [OnAnnounceTimeout, hA, hp', if_false, updateDistanceTable, addToHashAdvertise,
    addToHash_distance]
  exact ⟨_, rfl⟩

theorem OnNetworkReceive_inv_src (R : GcnService → GcnService → Prop)
    (hrefl : ∀ s, R s s) (htrans : ∀ a b c, R a b → R b c → R a c)
    (C : Codec) (now : Int) (rand : Nat) (s : GcnService) (message : OTAMessage)
    (hack : ∀ s' ack r, message.src ≠ s.mNodeId →
      processNetworkAck now rand s' ack message.src = some r → R s' r.1)
    (hadv : ∀ s' a r, message.src ≠ s.mNodeId →
      processNetworkAdvertise C now s' a message.src = some r → R s' r.1)
    (hdata : ∀ s' d r, message.src ≠ s.mNodeId →
      processNetworkData C now s' d message.src = some r → R s' r.1)
    (r : GcnService × List Event)
    (h : OnNetworkReceive C now rand s message = some r) : R s r.1 := by
  simp only [OnNetworkReceive] at h
  split_ifs at h with hsrc
  · obtain ⟨a3, h3, R3⟩ := foldl_option_inv R hrefl htrans _
      (fun x => rfl)
      (fun s evs x r hr => by
        simp only at hr
        split at hr
        · exact Option.noConfusion hr
        · rename_i s' evs' hp
          cases Option.some.inj hr
          exact hdata _ _ (s', evs') hsrc hp) _ _ _ h
    obtain ⟨a2, h2, R2⟩ := foldl_option_inv R hrefl htrans _
      (fun x => rfl)
      (fun s evs x r hr => by
        simp only at hr
        split at hr
        · exact Option.noConfusion hr
        · rename_i s' evs' hp
          cases Option.some.inj hr
          exact hadv _ _ (s', evs') hsrc hp) _ _ _ h3
    obtain ⟨a1, h1, R1⟩ := foldl_option_inv R hrefl htrans _
      (fun x => rfl)
      (fun s evs x r hr => by
        simp only at hr
        split at hr
        · exact Option.noConfusion hr
        · rename_i s' evs' hp
          cases Option.some.inj hr
          exact hack _ _ (s', evs') hsrc hp) _ _ _ h2
    cases Option.some.inj h1
    exact htrans _ _ _ (htrans _ _ _ R1 R2) R3
  · cases Option.some.inj h
    exact hrefl _

theorem handle_distance (B : NodeId → Prop) (P : List (GIDKey × DistanceInfo) → Prop)
    (C : Codec) (now : Int) (s : GcnService) (i : Input) (r : GcnService × List Event)
    (hB : ∀ m rand, i = Input.network m rand → B m.src)
    (hP : ∀ t g src h d o n a,
      ((o = s.mNodeId ∧ src = s.mNodeId) ∨ (o ≠ s.mNodeId ∧ B o)) → P t →
        P (distanceUpdate s.mNodeId t g src h d o n a))
    (h : handle C now s i = some r) (h0 : P s.mDistanceTable) :
    r.1.mNodeId = s.mNodeId ∧ P r.1.mDistanceTable := by
  have key : ∀ (R : GcnService → GcnService → Prop),
      R = (fun a b => a.mNodeId = s.mNodeId → P a.mDistanceTable →
        (b.mNodeId = s.mNodeId ∧ P b.mDistanceTable)) →
      (∀ x, R x x) ∧ (∀ a b c, R a b → R b c → R a c) := by
    intro R hR
    subst hR
    exact ⟨fun x h1 h2 => ⟨h1, h2⟩, fun a b c hab hbc h1 h2 =>
      hbc (hab h1 h2).1 (hab h1 h2).2⟩
  obtain ⟨hrefl, htrans⟩ := key _ rfl
  cases i with
  | network message rand =>
    have hBm := hB message rand rfl
    refine OnNetworkReceive_inv_src _ hrefl htrans C now rand s message ?_ ?_ ?_ r h rfl h0
    · intro s' ack r hsrc hr h1 h2
      obtain ⟨⟨_, _, _, _, _, hf⟩, -⟩ := processNetworkAck_frame now rand s' ack _ r hr
      rw [hf]
      exact ⟨h1, h2⟩
    · intro s' a r hsrc hr h1 h2
      obtain ⟨n, hd⟩ := processNetworkAdvertise_distance C now s' a _ r hr
      obtain ⟨s2, evs, hp, hid, -⟩ := processNetworkAdvertise_shape C now s' a message.src
      rw [hp] at hr
      cases Option.some.inj hr
      refine ⟨hid.trans h1, ?_⟩
      rw [hd, h1]
      exact hP _ _ _ _ _ _ _ _ (Or.inr ⟨hsrc, hBm⟩) h2
    · intro s' d r hsrc hr h1 h2
      obtain ⟨n, hd⟩ := processNetworkData_distance C now s' d _ r hr
      obtain ⟨_, _, _, _, hf⟩ := processNetworkData_frame C now s' d _ r hr
      refine ⟨by rw [hf]; exact h1, ?_⟩
      rw [hd, h1]
      exact hP _ _ _ _ _ _ _ _ (Or.inr ⟨hsrc, hBm⟩) h2
  | client pSession message =>
    refine OnClientReceive_inv _ hrefl htrans C now pSession ?_ ?_ ?_ ?_ s message r h rfl h0
    · intro s' gid h1 h2
      exact ⟨h1, h2⟩
    · intro s' gid h1 h2
      exact ⟨h1, h2⟩
    · intro s' d r hr h1 h2
      obtain ⟨hv, n, hd⟩ := clientData_distance C now s' pSession d r hr
      obtain ⟨_, _, _, _, hf⟩ := clientData_frame C now s' pSession d r hr
      refine ⟨by rw [hf]; exact h1, ?_⟩
      rw [hd, h1]
      exact hP _ _ _ _ _ _ _ _ (Or.inl ⟨rfl, rfl⟩) h2
    · intro s' a s2 hr h1 h2
      obtain ⟨_, hf⟩ := clientAdvertise_frame s' s2 pSession a hr
      rw [hf]
      exact ⟨h1, h2⟩
  | close pSession =>
    cases Option.some.inj h
    exact ⟨rfl, h0⟩
  | announce gid =>
    cases Option.some.inj h
    obtain ⟨_, _, _, _, hf⟩ := OnAnnounceTimeout_frame C now s gid
    refine ⟨by rw [hf], ?_⟩
    rcases OnAnnounceTimeout_distance C now s gid with hd | ⟨hv, hd⟩
    · rw [hd]
      exact h0
    · rw [hd]
      exact hP _ _ _ _ _ _ _ _ (Or.inl ⟨rfl, rfl⟩) h0
  | advTimer key =>
    obtain ⟨_, hf⟩ := advTimerExpires_frame s key r h
    rw [hf]
    exact ⟨rfl, h0⟩
  | dataTimer hashVal =>
    obtain ⟨_, hf⟩ := dataTimerExpires_frame s hashVal r h
    rw [hf]
    exact ⟨rfl, h0⟩
  | ackTimer key =>
    obtain ⟨_, hf⟩ := ackTimerExpires_frame s key r h
    rw [hf]
    exact ⟨rfl, h0⟩
  | hashClean =>
    simp only [handle, Option.map_eq_some'] at h
    obtain ⟨s2, hs2, hr⟩ := h
    obtain ⟨_, _, hf⟩ := hashCleanup_frame now s s2 hs2
    subst hr
    rw [hf]
    exact ⟨rfl, h0⟩
  | pathClean =>
    cases Option.some.inj h
    exact ⟨rfl, h0⟩
  | pullClean =>
    cases Option.some.inj h
    simp only [remotePullCleanup]
    exact ⟨trivial, h0⟩

theorem run_distance (B : NodeId → Prop) (P : List (GIDKey × DistanceInfo) → Prop)
    (C : Codec) (ins : List (Int × Input)) (s : GcnService) (r : GcnService × List Event)
    (hB : ∀ x ∈ ins, ∀ m rand, x.2 = Input.network m rand → B m.src)
    (hP : ∀ t g src h d o n a,
      ((o = s.mNodeId ∧ src = s.mNodeId) ∨ (o ≠ s.mNodeId ∧ B o)) → P t →
        P (distanceUpdate s.mNodeId t g src h d o n a))
    (h : run C s ins = some r) (h0 : P s.mDistanceTable) :
    r.1.mNodeId = s.mNodeId ∧ P r.1.mDistanceTable := by
  induction ins generalizing s r with
  | nil =>
    cases Option.some.inj h
    exact ⟨rfl, h0⟩
  | cons x t ih =>
    obtain ⟨now, i⟩ := x
    simp only [run] at h
    split at h
    · exact Option.noConfusion h
    · rename_i s' evs hs
      split at h
      · exact Option.noConfusion h
      · rename_i s'' evs' hrest
        cases Option.some.inj h
        obtain ⟨hid, hP1⟩ := handle_distance B P C now s i _
          (hB (now, i) (List.mem_cons_self _ _)) hP hs h0
        simp only at hid hP1
        obtain ⟨hid2, hP2⟩ := ih s' (s'', evs')
          (fun x hx => hB x (List.mem_cons_of_mem _ hx))
          (by rw [hid]; exact hP) hrest hP1
        exact ⟨hid2.trans hid, hP2⟩

theorem distanceInv_update (self : NodeId) (t : List (GIDKey × DistanceInfo)) (g : GroupId)
    (src : NodeId) (h : HashValue) (d : Nat) (o : NodeId) (n a : Bool)
    (hc : (o = self ∧ src = self) ∨ (o ≠ self ∧ True)) (ht : distanceInv self t) :
    distanceInv self (distanceUpdate self t g src h d o n a) := by
  intro k info hk
  by_cases hkey : GIDKey.mk g src = k
  · subst hkey
    rw [distanceUpdate_key] at hk
    have hk := Option.some.inj hk
    have hfresh : ∀ i : DistanceInfo, i.packetSrcs = [o] → i.packetCount = 1 →
        i.packetSrcs.Nodup ∧ i.packetSrcs ≠ [] ∧
        i.packetCount = i.packetSrcs.length % 65536 ∧
        (src = self → i.packetSrcs.length = 1 ∧ i.packetCount = 1) ∧
        (src ≠ self → self ∉ i.packetSrcs) := by
      intro i h1 h2
      rw [h1, h2]
      refine ⟨List.nodup_singleton _, by simp, by simp, fun _ => ⟨rfl, rfl⟩, ?_⟩
      intro hs
      rcases hc with ⟨-, h3⟩ | ⟨h3, -⟩
      · exact absurd h3 hs
      · simp only [List.mem_singleton]
        exact fun e => h3 e.symm
    rcases h0 : tfind (GIDKey.mk g src) t with _ | i0
    · rw [h0] at hk
      subst hk
      exact hfresh _ rfl rfl
    · rw [h0] at hk
      obtain ⟨i1, i2, i3, i4, i5⟩ := ht _ _ h0
      simp only at hk i4 i5
      split_ifs at hk with c1 c2 c3 c4
      · subst hk
        simp only
        obtain ⟨c2a, c2b⟩ := c2
        refine ⟨?_, by simp, ?_, fun e => absurd e c2b, ?_⟩
        · rw [List.nodup_append]
          refine ⟨i1, List.nodup_singleton _, ?_⟩
          intro x hx hx'
          rw [List.mem_singleton] at hx'
          subst hx'
          exact c2a hx
        · rw [i3]
          simp [Nat.add_mod]
        · intro hs
          rcases hc with ⟨-, h3⟩ | ⟨h3, -⟩
          · exact absurd h3 hs
          · simp only [List.mem_append, List.mem_singleton, not_or]
            exact ⟨i5 hs, fun e => h3 e.symm⟩
      · subst hk
        exact ⟨i1, i2, i3, i4, i5⟩
      · subst hk
        exact hfresh _ rfl rfl
      · subst hk
        exact ⟨i1, i2, i3, i4, i5⟩
      · subst hk
        exact ⟨i1, i2, i3, i4, i5⟩
  · rw [distanceUpdate_other _ _ _ _ _ _ _ _ _ _ hkey] at hk
    exact ht k info hk

theorem srcsBelow_update (bound : Nat) (self : NodeId) (t : List (GIDKey × DistanceInfo))
    (g : GroupId) (src : NodeId) (h : HashValue) (d : Nat) (o : NodeId) (n a : Bool)
    (ho : o < bound) (ht : srcsBelow bound t) :
    srcsBelow bound (distanceUpdate self t g src h d o n a) := by
  intro k info hk
  by_cases hkey : GIDKey.mk g src = k
  · subst hkey
    rw [distanceUpdate_key] at hk
    have hk := Option.some.inj hk
    rcases h0 : tfind (GIDKey.mk g src) t with _ | i0
    · rw [h0] at hk
      subst hk
      intro x hx
      simp only [List.mem_singleton] at hx
      exact hx ▸ ho
    · rw [h0] at hk
      have i1 := ht _ _ h0
      simp only at hk
      split_ifs at hk <;> subst hk <;> intro x hx
      · simp only [List.mem_append, List.mem_singleton] at hx
        rcases hx with hx | hx
        · exact i1 x hx
        · exact hx ▸ ho
      · exact i1 x hx
      · simp only [List.mem_singleton] at hx
        exact hx ▸ ho
      · exact i1 x hx
      · exact i1 x hx
  · rw [distanceUpdate_other _ _ _ _ _ _ _ _ _ _ hkey] at hk
    exact ht k info hk

theorem run_distanceInv (C : Codec) (ins : List (Int × Input)) (s : GcnService)
    (r : GcnService × List Event) (h : run C s ins = some r)
    (h0 : distanceInv s.mNodeId s.mDistanceTable) :
    r.1.mNodeId = s.mNodeId ∧ distanceInv s.mNodeId r.1.mDistanceTable :=
  run_distance (fun _ => True) (distanceInv s.mNodeId) C ins s r (fun _ _ _ _ _ => trivial)
    (fun t g src hv d o n a hc ht => distanceInv_update s.mNodeId t g src hv d o n a hc ht) h h0

theorem run_srcsBelow (bound : Nat) (C : Codec) (ins : List (Int × Input)) (s : GcnService)
    (r : GcnService × List Event) (h : run C s ins = some r)
    (hself : s.mNodeId < bound)
    (hin : ∀ x ∈ ins, ∀ m rand, x.2 = Input.network m rand → m.src < bound)
    (h0 : srcsBelow bound s.mDistanceTable) :
    srcsBelow bound r.1.mDistanceTable :=
  (run_distance (fun o => o < bound) (srcsBelow bound) C ins s r hin
    (fun t g src hv d o n a hc ht =>
      srcsBelow_update bound s.mNodeId t g src hv d o n a
        (by
          rcases hc with ⟨h1, -⟩ | ⟨-, h1⟩
          · exact h1 ▸ hself
          · exact h1) ht) h h0).2

theorem distanceInv_length_lt (bound : Nat) (self : NodeId) (t : List (GIDKey × DistanceInfo))
    (hself : self < bound) (hb1 : 1 < bound) (h1 : distanceInv self t)
    (h2 : srcsBelow bound t) (k : GIDKey) (info : DistanceInfo) (hk : tfind k t = some info) :
    0 < info.packetSrcs.length ∧ info.packetSrcs.length < bound := by
  obtain ⟨i1, i2, -, i4, i5⟩ := h1 k info hk
  have hb := h2 k info hk
  refine ⟨List.length_pos.mpr i2, ?_⟩
  by_cases hs : k.gidSrc = self
  · rw [(i4 hs).1]
    omega
  · have hsub : info.packetSrcs.toFinset ⊆ (Finset.range bound).erase self := by
      intro x hx
      rw [List.mem_toFinset] at hx
      rw [Finset.mem_erase, Finset.mem_range]
      exact ⟨fun e => i5 hs (e ▸ hx), hb x hx⟩
    have hcard := Finset.card_le_card hsub
    rw [List.toFinset_card_of_nodup i1, Finset.card_erase_of_mem (Finset.mem_range.mpr hself),
      Finset.card_range] at hcard
    have hlen : 0 < info.packetSrcs.length := List.length_pos.mpr i2
    omega

theorem eraseFirst_perm (g : GroupId) (p : SessionId) (t : List (GroupId × SessionId))
    (h : (g, p) ∈ t) : List.Perm t ((g, p) :: eraseFirst g p t) := by
  induction t with
  | nil => simp at h
  | cons e t ih =>
    obtain ⟨g', p'⟩ := e
    by_cases hc : g' = g ∧ p' = p
    · obtain ⟨rfl, rfl⟩ := hc
      simp [eraseFirst]
    · have hmem : (g, p) ∈ t := by
        rcases List.mem_cons.mp h with h1 | h1
        · exact absurd ⟨(congrArg Prod.fst h1).symm, (congrArg Prod.snd h1).symm⟩ hc
        · exact h1
      simp only [eraseFirst, hc, if_false]
      exact ((ih hmem).cons (g', p')).trans (List.Perm.swap _ _ _)

theorem eraseFirst_not_mem (g : GroupId) (p : SessionId) (t : List (GroupId × SessionId))
    (h : (g, p) ∉ t) : eraseFirst g p t = t := by
  induction t with
  | nil => rfl
  | cons e t ih =>
    obtain ⟨g', p'⟩ := e
    have hc : ¬ (g' = g ∧ p' = p) := by
      rintro ⟨rfl, rfl⟩
      exact h (List.mem_cons_self _ _)
    simp only [eraseFirst, hc, if_false, ih (fun hm => h (List.mem_cons_of_mem _ hm))]

theorem eraseFirst_count (g : GroupId) (p : SessionId) (t : List (GroupId × SessionId))
    (e : GroupId × SessionId) :
    (eraseFirst g p t).count e = if e = (g, p) then t.count e - 1 else t.count e := by
  induction t with
  | nil => simp [eraseFirst]
  | cons x t ih =>
    obtain ⟨g', p'⟩ := x
    by_cases hc : g' = g ∧ p' = p
    · obtain ⟨rfl, rfl⟩ := hc
      simp only [eraseFirst, and_self, if_true, List.count_cons]
      by_cases he : e = (g', p')
      · subst he
        simp
      · have hne : ((g', p') == e) = false := by
          rw [beq_eq_false_iff_ne]
          exact fun h => he h.symm
        simp [he, hne]
    · simp only [eraseFirst, hc, if_false, List.count_cons, ih]
      by_cases he : e = (g, p)
      · subst he
        have hne : ((g', p') == (g, p)) = false := by
          rw [beq_eq_false_iff_ne]
          intro h
          exact hc ⟨congrArg Prod.fst h, congrArg Prod.snd h⟩
        simp [hne]
      · simp [he]

/-- C21. A PULL for group g from session p followed by an UNPULL for g from p, in two
client messages or in one, leaves the local pull table a permutation of what it was, that
is, equal as a multiset of (group, session) pairs. An UNPULL for g from p alone runs
without failure, pushes nothing, changes no other table, and removes one entry (g, p) when
there is one (the count of (g, p) drops by one, the count of every other pair stays) and
leaves the state as it is when there is none. -/
theorem pull_unpull_round_trip (C : Codec) (now later : Int) (s : GcnService) (p : SessionId)
    (g : GroupId) :
    (∃ r1 r2, OnClientReceive C now s p (pullMessage g) = some r1 ∧
      r1.1.mLocalPullTable = s.mLocalPullTable ++ [(g, p)] ∧
      OnClientReceive C later r1.1 p (unpullMessage g) = some r2 ∧
      List.Perm r2.1.mLocalPullTable s.mLocalPullTable ∧
      (∃ t, r2.1 = { s with mLocalPullTable := t }) ∧ r1.2 = [] ∧ r2.2 = []) ∧
    (∃ r, OnClientReceive C now s p { pull := [g], unpull := [g], data := [], advertise := [] }
        = some r ∧
      List.Perm r.1.mLocalPullTable s.mLocalPullTable ∧
      (∃ t, r.1 = { s with mLocalPullTable := t }) ∧ r.2 = []) ∧
    (∃ r, OnClientReceive C now s p (unpullMessage g) = some r ∧ r.2 = [] ∧
      (∃ t, r.1 = { s with mLocalPullTable := t }) ∧
      (∀ e, r.1.mLocalPullTable.count e =
        if e = (g, p) then s.mLocalPullTable.count e - 1 else s.mLocalPullTable.count e) ∧
      ((g, p) ∈ s.mLocalPullTable →
        List.Perm s.mLocalPullTable ((g, p) :: r.1.mLocalPullTable) ∧
        r.1.mLocalPullTable.length + 1 = s.mLocalPullTable.length) ∧
      ((g, p) ∉ s.mLocalPullTable → r.1 = s)) := by
  have hperm : List.Perm (eraseFirst g p (s.mLocalPullTable ++ [(g, p)])) s.mLocalPullTable := by
    have h1 : List.Perm (s.mLocalPullTable ++ [(g, p)]) ((g, p) :: s.mLocalPullTable) :=
      List.perm_append_comm
    have h2 := eraseFirst_perm g p (s.mLocalPullTable ++ [(g, p)]) (by simp)
    exact (List.Perm.cons_inv (h2.symm.trans h1))
  refine ⟨?_, ?_, ?_⟩
  · refine ⟨_, _, rfl, rfl, rfl, ?_, ⟨_, rfl⟩, rfl, rfl⟩
    simp only [OnClientReceive, pullMessage, unpullMessage, List.foldl_cons, List.foldl_nil,
      clientPull, clientUnpull]
    exact hperm
  · refine ⟨_, rfl, ?_, ⟨_, rfl⟩, rfl⟩
    simp only [OnClientReceive, List.foldl_cons, List.foldl_nil,
      clientPull, clientUnpull]
    exact hperm
  · refine ⟨_, rfl, rfl, ⟨_, rfl⟩, ?_, ?_, ?_⟩
    · intro e
      simp only [OnClientReceive, unpullMessage, List.foldl_cons, List.foldl_nil, clientUnpull]
      exact eraseFirst_count g p _ e
    · intro hmem
      simp only [OnClientReceive, unpullMessage, List.foldl_cons, List.foldl_nil, clientUnpull]
      have hp := eraseFirst_perm g p _ hmem
      refine ⟨hp, ?_⟩
      have := hp.length_eq
      simp only [List.length_cons] at this
      omega
    · intro hmem
      simp only [OnClientReceive, unpullMessage, List.foldl_cons, List.foldl_nil,
        clientUnpull, eraseFirst_not_mem g p _ hmem]

theorem preProcessData_hash_present (C : Codec) (now : Int) (s : GcnService) (d : Data)
    (ota : NodeId) (p : Option SessionId) :
    ∃ m, tfind (hashOfData C d) (preProcessData C now s d ota p).1.mHashTable = some m := by
  rcases h : tfind (hashOfData C d) s.mHashTable with _ | m
  · simp only [preProcessData, addToHashData_new C now s d h, updateDistanceTable]
    exact ⟨_, tfind_tset_self _ _ _⟩
  · rw [preProcessData_hashTable_seen C now s d ota p m h]
    exact ⟨m, h⟩

theorem clientData_stamp (C : Codec) (now : Int) (s : GcnService) (p : SessionId) (d : Data)
    (r : GcnService × List Event) (h : clientData C now s p d = some r) :
    r.1.mSeqNumByGID
      = tset d.gid ((dataCount s d.gid + 1) % 18446744073709551616) s.mSeqNumByGID ∧
    (∃ m, tfind (hashOfData C (stamped s d (dataCount s d.gid))) r.1.mHashTable = some m) ∧
    (transmissions r.2).length ≤ 1 ∧
    (∀ msg ∈ transmissions r.2, msg.src = s.mNodeId ∧ msg.advertise = [] ∧ msg.ack = [] ∧
      ∃ f, msg.data = [f] ∧ f.gid = d.gid ∧ f.srcnode = s.mNodeId ∧ f.distance = 0 ∧
        f.sequence = (dataCount s d.gid + 1) % 18446744073709551616 % 4294967296 ∧
        f.data = d.data) := by
  simp only [clientData] at h
  have hspec := preProcessData_spec C now
    { s with mSeqNumByGID := tset d.gid (((tfind d.gid s.mSeqNumByGID).getD 0 + 1) %
        18446744073709551616) s.mSeqNumByGID }
    { gid := d.gid, srcnode := s.mNodeId,
      sequence := ((tfind d.gid s.mSeqNumByGID).getD 0 + 1) % 18446744073709551616 % 4294967296,
      srcttl := d.srcttl, ttl := d.ttl, distance := 0, nottlregen := d.nottlregen,
      data := d.data, uheader := d.uheader } s.mNodeId (some p)
  obtain ⟨ht, htt, dt, hpre⟩ := preProcessData_frame C now
    { s with mSeqNumByGID := tset d.gid (((tfind d.gid s.mSeqNumByGID).getD 0 + 1) %
        18446744073709551616) s.mSeqNumByGID }
    { gid := d.gid, srcnode := s.mNodeId,
      sequence := ((tfind d.gid s.mSeqNumByGID).getD 0 + 1) % 18446744073709551616 % 4294967296,
      srcttl := d.srcttl, ttl := d.ttl, distance := 0, nottlregen := d.nottlregen,
      data := d.data, uheader := d.uheader } s.mNodeId (some p)
  obtain ⟨m, hm⟩ := preProcessData_hash_present C now
    { s with mSeqNumByGID := tset d.gid (((tfind d.gid s.mSeqNumByGID).getD 0 + 1) %
        18446744073709551616) s.mSeqNumByGID }
    { gid := d.gid, srcnode := s.mNodeId,
      sequence := ((tfind d.gid s.mSeqNumByGID).getD 0 + 1) % 18446744073709551616 % 4294967296,
      srcttl := d.srcttl, ttl := d.ttl, distance := 0, nottlregen := d.nottlregen,
      data := d.data, uheader := d.uheader } s.mNodeId (some p)
  have htr := hspec.2.2.2.2.2.2.2.2.2
  have hsq : (preProcessData C now
    { s with mSeqNumByGID := tset d.gid (((tfind d.gid s.mSeqNumByGID).getD 0 + 1) %
        18446744073709551616) s.mSeqNumByGID }
    { gid := d.gid, srcnode := s.mNodeId,
      sequence := ((tfind d.gid s.mSeqNumByGID).getD 0 + 1) % 18446744073709551616 % 4294967296,
      srcttl := d.srcttl, ttl := d.ttl, distance := 0, nottlregen := d.nottlregen,
      data := d.data, uheader := d.uheader } s.mNodeId (some p)).1.mSeqNumByGID
      = tset d.gid (((tfind d.gid s.mSeqNumByGID).getD 0 + 1) %
        18446744073709551616) s.mSeqNumByGID := by
    rw [hpre]
  repeat' split at h
  all_goals first
    | exact Option.noConfusion h
    | (cases Option.some.inj h
       refine ⟨hsq, ⟨m, hm⟩, ?_, ?_⟩
       · simp [transmissions_append, htr, transmissions, forwardToOTAData]
       · intro msg hmsg
         simp only [transmissions_append, htr, transmissions, forwardToOTAData, List.nil_append,
           List.mem_singleton, List.not_mem_nil] at hmsg
         try (subst hmsg
              exact ⟨hspec.2.2.1, rfl, rfl, _, rfl, rfl, rfl, rfl, rfl, rfl⟩))

theorem clientData_count (C : Codec) (now : Int) (s : GcnService) (p : SessionId) (d : Data)
    (r : GcnService × List Event) (h : clientData C now s p d = some r) (g : GroupId) :
    dataCount r.1 g =
      if d.gid = g then (dataCount s g + 1) % 18446744073709551616 else dataCount s g := by
  have h1 := (clientData_stamp C now s p d r h).1
  simp only [dataCount, h1]
  by_cases hg : d.gid = g
  · subst hg
    simp [tfind_tset_self]
  · simp [tfind_tset_ne _ _ _ _ hg, hg]

theorem dataFold_count (C : Codec) (now : Int) (p : SessionId) (g : GroupId) (l : List Data) :
    ∀ (s : GcnService) (evs : List Event) (r : GcnService × List Event) (n : Nat),
      l.foldl
          (fun acc d =>
            match acc with
            | none => none
            | some (s, evs) =>
              match clientData C now s p d with
              | none => none
              | some (s', evs') => some (s', evs ++ evs'))
          (some (s, evs)) = some r →
      dataCount s g = n % 18446744073709551616 →
      dataCount r.1 g
        = (n + (l.filter (fun d => decide (d.gid = g))).length) % 18446744073709551616 := by
  induction l with
  | nil =>
    intro s evs r n h hn
    simp only [List.foldl_nil] at h
    cases Option.some.inj h
    simpa using hn
  | cons d rest ih =>
    intro s evs r n h hn
    simp only [List.foldl_cons] at h
    rcases hc : clientData C now s p d with _ | ⟨s', evs'⟩
    · rw [hc] at h
      obtain ⟨a, ha, -⟩ := foldl_option_inv (fun _ _ => True) (fun _ => trivial)
        (fun _ _ _ _ _ => trivial) _ (fun x => rfl) (fun _ _ _ _ _ => trivial) _ _ _ h
      exact Option.noConfusion ha
    · rw [hc] at h
      have hstep := clientData_count C now s p d (s', evs') hc g
      simp only at hstep
      by_cases hg : d.gid = g
      · have hn' : dataCount s' g = (n + 1) % 18446744073709551616 := by
          rw [hstep, if_pos hg, hn]
          omega
        have := ih s' _ r (n + 1) h hn'
        rw [this]
        simp only [List.filter_cons, hg, decide_True, if_true, List.length_cons]
        congr 1
        omega
      · have hn' : dataCount s' g = n % 18446744073709551616 := by
          rw [hstep, if_neg hg, hn]
        have := ih s' _ r n h hn'
        rw [this]
        simp [List.filter_cons, hg]

theorem OnClientReceive_count (C : Codec) (now : Int) (s : GcnService) (p : SessionId)
    (m : AppMessage) (r : GcnService × List Event) (g : GroupId) (n : Nat)
    (h : OnClientReceive C now s p m = some r)
    (hn : dataCount s g = n % 18446744073709551616) :
    dataCount r.1 g
      = (n + (m.data.filter (fun d => decide (d.gid = g))).length) % 18446744073709551616 := by
  simp only [OnClientReceive] at h
  obtain ⟨a, ha, hR⟩ := foldl_option_inv (fun a b => a.mSeqNumByGID = b.mSeqNumByGID)
    (fun _ => rfl) (fun _ _ _ h1 h2 => h1.trans h2) _ (fun x => rfl)
    (fun s evs x r hr => by
      simp only at hr
      split at hr
      · exact Option.noConfusion hr
      · rename_i s' hp
        cases Option.some.inj hr
        obtain ⟨_, hf⟩ := clientAdvertise_frame _ _ _ _ hp
        rw [hf]) _ _ _ h
  have h1 : (m.pull.foldl (fun s gid => clientPull s p gid) s).mSeqNumByGID = s.mSeqNumByGID :=
    (foldl_total_inv (fun a b => a.mSeqNumByGID = b.mSeqNumByGID) (fun _ => rfl)
      (fun _ _ _ h1 h2 => h1.trans h2) (fun s gid => clientPull s p gid) (fun _ _ => rfl)
      m.pull s).symm
  have h2 : (m.unpull.foldl (fun s gid => clientUnpull s p gid)
      (m.pull.foldl (fun s gid => clientPull s p gid) s)).mSeqNumByGID = s.mSeqNumByGID :=
    ((foldl_total_inv (fun a b => a.mSeqNumByGID = b.mSeqNumByGID) (fun _ => rfl)
      (fun _ _ _ h1 h2 => h1.trans h2) (fun s gid => clientUnpull s p gid) (fun _ _ => rfl)
      m.unpull _).symm).trans h1
  have h3 := dataFold_count C now p g m.data _ [] a n ha (by simp only [dataCount, h2]; exact hn)
  simp only [dataCount] at h3 ⊢
  rw [← hR]
  exact h3

theorem handle_count (C : Codec) (now : Int) (s : GcnService) (i : Input)
    (r : GcnService × List Event) (g : GroupId) (n : Nat)
    (h : handle C now s i = some r) (hn : dataCount s g = n % 18446744073709551616) :
    dataCount r.1 g = (n + recordsFor g [(now, i)]) % 18446744073709551616 := by
  cases i with
  | network message rand =>
    have : r.1.mSeqNumByGID = s.mSeqNumByGID := by
      refine (OnNetworkReceive_inv (fun a b => a.mSeqNumByGID = b.mSeqNumByGID)
        (fun _ => rfl) (fun _ _ _ h1 h2 => h1.trans h2) C now rand ?_ ?_ ?_ s message r h).symm
      · intro s ack ota r hr
        obtain ⟨⟨_, _, _, _, _, hf⟩, -⟩ := processNetworkAck_frame now rand s ack ota r hr
        rw [hf]
      · intro s a ota r hr
        exact (processNetworkAdvertise_config C now s a ota r hr).1.symm
      · intro s d ota r hr
        obtain ⟨_, _, _, _, hf⟩ := processNetworkData_frame C now s d ota r hr
        rw [hf]
    simp only [dataCount, this, recordsFor, Nat.add_zero]
    exact hn
  | client pSession message =>
    simpa [recordsFor] using OnClientReceive_count C now s pSession message r g n h hn
  | close pSession =>
    cases Option.some.inj h
    simpa [recordsFor, dataCount, closeClientConnection] using hn
  | announce gid =>
    cases Option.some.inj h
    obtain ⟨_, _, _, _, hf⟩ := OnAnnounceTimeout_frame C now s gid
    simp only [dataCount, hf, recordsFor, Nat.add_zero]
    exact hn
  | advTimer key =>
    obtain ⟨_, hf⟩ := advTimerExpires_frame s key r h
    simp only [dataCount, hf, recordsFor, Nat.add_zero]
    exact hn
  | dataTimer hashVal =>
    obtain ⟨_, hf⟩ := dataTimerExpires_frame s hashVal r h
    simp only [dataCount, hf, recordsFor, Nat.add_zero]
    exact hn
  | ackTimer key =>
    obtain ⟨_, hf⟩ := ackTimerExpires_frame s key r h
    simp only [dataCount, hf, recordsFor, Nat.add_zero]
    exact hn
  | hashClean =>
    simp only [handle, Option.map_eq_some'] at h
    obtain ⟨s2, hs2, hr⟩ := h
    obtain ⟨_, _, hf⟩ := hashCleanup_frame now s s2 hs2
    subst hr
    simp only [dataCount, hf, recordsFor, Nat.add_zero]
    exact hn
  | pathClean =>
    cases Option.some.inj h
    simpa [recordsFor, dataCount, reversePathCleanup] using hn
  | pullClean =>
    cases Option.some.inj h
    simpa [recordsFor, dataCount, remotePullCleanup] using hn

theorem run_count (C : Codec) (g : GroupId) (ins : List (Int × Input)) :
    ∀ (s : GcnService) (r : GcnService × List Event) (n : Nat),
      run C s ins = some r → dataCount s g = n % 18446744073709551616 →
      dataCount r.1 g = (n + recordsFor g ins) % 18446744073709551616 := by
  induction ins with
  | nil =>
    intro s r n h hn
    cases Option.some.inj h
    simpa [recordsFor] using hn
  | cons x t ih =>
    intro s r n h hn
    obtain ⟨now, i⟩ := x
    simp only [run] at h
    split at h
    · exact Option.noConfusion h
    · rename_i s' evs hs
      split at h
      · exact Option.noConfusion h
      · rename_i s'' evs' hrest
        cases Option.some.inj h
        have h1 := handle_count C now s i (s', evs) g n hs hn
        have h2 := ih s' (s'', evs') (n + recordsFor g [(now, i)]) hrest h1
        rw [h2]
        congr 1
        cases i <;> simp [recordsFor, Nat.add_assoc]

/-- C22, counterexample. Node 1 has a distance entry for node 4 and none for node 9. Its
client sends three unicast records for group 7; the second, to node 9, is stamped and
counted but not transmitted. The DATA frames node 1 transmits for group 7 carry the
sequence numbers 1 and 3, and the counter of the group is 3. -/
theorem data_frames_skip_sequence :
    (run fieldCodec (freshNode 1) threeRecords).map
        (fun r => ((transmissions r.2).map
                    (fun m => m.data.map (fun d => (d.gid, d.srcnode, d.sequence))),
                   dataCount r.1 7))
      = some ([[(7, 1, 1)], [(7, 1, 3)]], 3) := by
  decide

/-- C22, amended. A DATA record of a client that `OnClientReceive` handles without fatal
log advances the 64-bit counter of its group by one, whether or not a frame is
transmitted for it, and leaves the counters of the other groups; the record is hashed
with source node this node, distance 0 and the new counter value modulo 2^32 as sequence
number, and a DATA frame transmitted for it (at most one) carries these values. When k
records of the group were handled before, the sequence number is k + 1 modulo 2^32. From
the initial state the counter of a group is the number of records handled for it, modulo
2^64, so the sequence numbers of the transmitted frames increase, by one only between
records that are both transmitted. -/
theorem client_data_stamping (C : Codec) (now : Int) (s : GcnService) (p : SessionId)
    (d : Data) (r : GcnService × List Event) (h : clientData C now s p d = some r) :
    dataCount r.1 d.gid = (dataCount s d.gid + 1) % 18446744073709551616 ∧
    (∀ g, g ≠ d.gid → dataCount r.1 g = dataCount s g) ∧
    (∃ m, tfind (hashOfData C (stamped s d (dataCount s d.gid))) r.1.mHashTable = some m) ∧
    (transmissions r.2).length ≤ 1 ∧
    (∀ msg ∈ transmissions r.2, msg.src = s.mNodeId ∧ msg.advertise = [] ∧ msg.ack = [] ∧
      ∃ f, msg.data = [f] ∧ f.gid = d.gid ∧ f.srcnode = s.mNodeId ∧ f.distance = 0 ∧
        f.sequence = (stamped s d (dataCount s d.gid)).sequence ∧ f.data = d.data) ∧
    (∀ k, dataCount s d.gid = k % 18446744073709551616 →
      (stamped s d (dataCount s d.gid)).sequence = (k + 1) % 4294967296) ∧
    (∀ (nodeId : NodeId) (rebroadcast : Bool) (hashExpire pathExpire pullExpire : Int)
        (ins : List (Int × Input)) (r0 : GcnService × List Event) (g : GroupId),
      run C (GcnService.init nodeId rebroadcast hashExpire pathExpire pullExpire) ins = some r0 →
      dataCount r0.1 g = recordsFor g ins % 18446744073709551616) := by
  obtain ⟨h1, h2, h3, h4⟩ := clientData_stamp C now s p d r h
  have hc := clientData_count C now s p d r h
  refine ⟨?_, ?_, h2, h3, h4, ?_, ?_⟩
  · rw [hc, if_pos rfl]
  · intro g hg
    rw [hc, if_neg (fun e => hg e.symm)]
  · intro k hk
    simp only [stamped, hk]
    omega
  · intro nodeId rebroadcast hashExpire pathExpire pullExpire ins r0 g hrun
    have := run_count C g ins _ r0 0 hrun (by simp [dataCount, GcnService.init, tfind])
    simpa using this

/-- C22, witness: the client of the source node 1 sends a flood-mode record for group 7;
it is the first record of the group, the counter becomes 1 and the transmitted frame
carries sequence number 1. -/
theorem client_data_stamping_witness :
    ∃ r, clientData fieldCodec 0 sourceNode 1 { helloFrame with srcttl := some 2 } = some r ∧
      dataCount r.1 7 = 1 ∧ (transmissions r.2).length = 1 ∧
      ∀ msg ∈ transmissions r.2, ∃ f, msg.data = [f] ∧ f.srcnode = 1 ∧ f.distance = 0 ∧
        f.sequence = 1 := by
  have hr : clientData fieldCodec 0 sourceNode 1 { helloFrame with srcttl := some 2 }
      = some ((clientData fieldCodec 0 sourceNode 1 { helloFrame with srcttl := some 2 }).get
          (by decide)) := (Option.some_get _).symm
  have h := client_data_stamping fieldCodec 0 sourceNode 1 { helloFrame with srcttl := some 2 }
    _ hr
  refine ⟨_, hr, h.1.trans (by decide), by decide, ?_⟩
  intro msg hmsg
  obtain ⟨-, -, -, f, hf, -, h3, h4, h5, -⟩ := h.2.2.2.2.1 msg hmsg
  exact ⟨f, hf, h3, h4, h5.trans (by decide)⟩

theorem advertisedSeqs_append (g : GroupId) (self : NodeId) (a b : List Event) :
    advertisedSeqs g self (a ++ b) = advertisedSeqs g self a ++ advertisedSeqs g self b := by
  simp [advertisedSeqs, transmissions_append]

theorem registerFold (g : GroupId) (p : SessionId) (advs : List Advertise)
    (hreg : ∀ a ∈ advs, a.type = AdvertiseType.REGISTER) :
    ∀ (s : GcnService) (evs : List Event) (r : GcnService × List Event),
      advs.foldl
          (fun acc a =>
            match acc with
            | none => none
            | some (s, evs) =>
              match clientAdvertise s p a with
              | none => none
              | some s' => some (s', evs))
          (some (s, evs)) = some r →
      r.2 = evs ∧ r.1.mNodeId = s.mNodeId ∧ announceSeq r.1 g = announceSeq s g := by
  induction advs with
  | nil =>
    intro s evs r h
    cases Option.some.inj h
    exact ⟨rfl, rfl, rfl⟩
  | cons a rest ih =>
    intro s evs r h
    simp only [List.foldl_cons] at h
    rcases hc : clientAdvertise s p a with _ | s'
    · rw [hc] at h
      obtain ⟨x, hx, -⟩ := foldl_option_inv (fun _ _ => True) (fun _ => trivial)
        (fun _ _ _ _ _ => trivial) _ (fun x => rfl) (fun _ _ _ _ _ => trivial) _ _ _ h
      exact Option.noConfusion hx
    · rw [hc] at h
      obtain ⟨h1, h2, h3⟩ := ih (fun a ha => hreg a (List.mem_cons_of_mem _ ha)) s' evs r h
      obtain ⟨an, hf⟩ := clientAdvertise_frame s s' p a hc
      refine ⟨h1, h2.trans (by rw [hf]), h3.trans ?_⟩
      have hty := hreg a (List.mem_cons_self _ _)
      simp only [clientAdvertise, hty] at hc
      by_cases hg : a.gid = g
      · subst hg
        rcases hA : tfind a.gid s.mAnnounceTable with _ | old
        · simp only [hA] at hc
          split_ifs at hc
          cases Option.some.inj hc
          simp [announceSeq, hA, tfind_tset_self]
        · simp only [hA] at hc
          cases Option.some.inj hc
          simp only [announceSeq, hA, tfind_tset_self]
          split_ifs <;> rfl
      · rcases hA : tfind a.gid s.mAnnounceTable with _ | old
        · simp only [hA] at hc
          split_ifs at hc
          cases Option.some.inj hc
          simp only [announceSeq, tfind_tset_ne _ _ _ _ hg]
        · simp only [hA] at hc
          cases Option.some.inj hc
          simp only [announceSeq, tfind_tset_ne _ _ _ _ hg]

theorem addToHash_announce (C : Codec) (now : Int) (s : GcnService) (data : Bytes) (ttl : Nat) :
    (addToHash C now s data ttl).1.mAnnounceTable = s.mAnnounceTable := by
  rw [addToHash_eq]
  split_ifs <;> rfl

theorem announce_tick (C : Codec) (now : Int) (s : GcnService) (gid g : GroupId) :
    (OnAnnounceTimeout C now s gid).1.mNodeId = s.mNodeId ∧
    ((gid = g ∧ ∃ annc, tfind g s.mAnnounceTable = some annc ∧ annc.pTimer = true) →
      advertisedSeqs g s.mNodeId (OnAnnounceTimeout C now s gid).2
        = [(announceSeq s g + 1) % 4294967296] ∧
      announceSeq (OnAnnounceTimeout C now s gid).1 g = (announceSeq s g + 1) % 4294967296) ∧
    (¬ (gid = g ∧ ∃ annc, tfind g s.mAnnounceTable = some annc ∧ annc.pTimer = true) →
      advertisedSeqs g s.mNodeId (OnAnnounceTimeout C now s gid).2 = [] ∧
      announceSeq (OnAnnounceTimeout C now s gid).1 g = announceSeq s g) := by
  obtain ⟨an, ht, htt, dt, hf⟩ := OnAnnounceTimeout_frame C now s gid
  refine ⟨by rw [hf], ?_, ?_⟩
  · rintro ⟨rfl, annc, hA, hp⟩
    have hp' : ¬ annc.pTimer = false := by simp [hp]
    simp only [OnAnnounceTimeout, hA, hp', if_false, announceSeq, updateDistanceTable,
      addToHashAdvertise]
    simp [advertisedSeqs, transmissions, forwardToOTAAdvertise, tfind_tset_self,
      addToHash_distance, addToHash_announce]
  · intro hne
    rcases hA : tfind gid s.mAnnounceTable with _ | annc
    · simp [OnAnnounceTimeout, hA, advertisedSeqs, transmissions]
    · by_cases hp : annc.pTimer = false
      · simp [OnAnnounceTimeout, hA, hp, advertisedSeqs, transmissions]
      · have hg : gid ≠ g := by
          rintro rfl
          exact hne ⟨rfl, annc, hA, by simpa using hp⟩
        simp only [OnAnnounceTimeout, hA, hp, if_false, announceSeq, updateDistanceTable,
          addToHashAdvertise]
        simp [advertisedSeqs, transmissions, forwardToOTAAdvertise, tfind_tset_ne _ _ _ _ hg, hg,
          addToHash_distance, addToHash_announce]

theorem consecutive_cons (n x : Nat) (l : List Nat)
    (hl : l = (List.range l.length).map (fun i => (n + 1 + i + 1) % 4294967296))
    (hx : x = (n + 1) % 4294967296) :
    x :: l = (List.range (x :: l).length).map (fun i => (n + i + 1) % 4294967296) := by
  rw [List.length_cons, List.range_succ_eq_map, List.map_cons, List.map_map]
  congr 1
  have : ((fun i => (n + i + 1) % 4294967296) ∘ Nat.succ)
      = (fun i => (n + 1 + i + 1) % 4294967296) := by
    funext i
    simp only [Function.comp, Nat.succ_eq_add_one]
    congr 1
    omega
  rw [this]
  exact hl

theorem run_register_ticks (C : Codec) (g : GroupId) (ins : List (Int × Input)) :
    ∀ (s : GcnService) (r : GcnService × List Event) (n : Nat),
      (∀ x ∈ ins, registerOrTick x.2) → run C s ins = some r →
      (announceSeq s g + 1) % 4294967296 = (n + 1) % 4294967296 →
      advertisedSeqs g s.mNodeId r.2 =
        (List.range (advertisedSeqs g s.mNodeId r.2).length).map
          (fun i => (n + i + 1) % 4294967296) := by
  induction ins with
  | nil =>
    intro s r n _ h _
    cases Option.some.inj h
    simp [advertisedSeqs, transmissions]
  | cons x t ih =>
    intro s r n hins h hn
    obtain ⟨now, i⟩ := x
    simp only [run] at h
    split at h
    · exact Option.noConfusion h
    · rename_i s' evs hs
      split at h
      · exact Option.noConfusion h
      · rename_i s'' evs' hrest
        cases Option.some.inj h
        have hins' : ∀ x ∈ t, registerOrTick x.2 := fun x hx => hins x (List.mem_cons_of_mem _ hx)
        simp only [advertisedSeqs_append]
        rcases hins (now, i) (List.mem_cons_self _ _) with ⟨gid, hi⟩ | ⟨p, advs, hi, hreg⟩
        · simp only at hi
          subst hi
          simp only [handle, Option.some.injEq] at hs
          obtain ⟨rfl, rfl⟩ : s' = (OnAnnounceTimeout C now s gid).1 ∧
              evs = (OnAnnounceTimeout C now s gid).2 := by
            rw [hs]
            exact ⟨rfl, rfl⟩
          obtain ⟨hid, harmed, hnot⟩ := announce_tick C now s gid g
          by_cases hc : gid = g ∧ ∃ annc, tfind g s.mAnnounceTable = some annc ∧ annc.pTimer = true
          · obtain ⟨hA, hB⟩ := harmed hc
            rw [hA]
            have hn' : (announceSeq (OnAnnounceTimeout C now s gid).1 g + 1) % 4294967296
                = (n + 1 + 1) % 4294967296 := by
              rw [hB]
              omega
            have := ih _ (s'', evs') (n + 1) hins' hrest hn'
            rw [hid] at this
            simp only [List.singleton_append]
            exact consecutive_cons n _ _ this (by omega)
          · obtain ⟨hA, hB⟩ := hnot hc
            rw [hA]
            have hn' : (announceSeq (OnAnnounceTimeout C now s gid).1 g + 1) % 4294967296
                = (n + 1) % 4294967296 := by
              rw [hB]
              exact hn
            have := ih _ (s'', evs') n hins' hrest hn'
            rw [hid] at this
            simpa using this
        · simp only at hi
          subst hi
          simp only [handle, OnClientReceive, List.foldl_nil] at hs
          obtain ⟨h1, h2, h3⟩ := registerFold g p advs hreg s [] (s', evs) hs
          simp only at h1 h2 h3
          subst h1
          have hn' : (announceSeq s' g + 1) % 4294967296 = (n + 1) % 4294967296 := by
            rw [h3]
            exact hn
          have := ih s' (s'', evs') n hins' hrest hn'
          rw [h2] at this
          simpa [advertisedSeqs, transmissions] using this

/-- C23, counterexample. At node 1 the client registers as source of group 7 and the
announce timer fires; after a DEREGISTER and a new REGISTER, or after the close of the
session and a new REGISTER, the timer fires again. Both ADVERTISE frames node 1 emits for
(1, 7) carry sequence number 1. -/
theorem advertise_seq_restarts :
    (run fieldCodec (freshNode 1) deregisterBetweenTicks).map (fun r => advertisedSeqs 7 1 r.2)
      = some [1, 1] ∧
    (run fieldCodec (freshNode 1) closeBetweenTicks).map (fun r => advertisedSeqs 7 1 r.2)
      = some [1, 1] := by
  decide

/-- C23, amended. Over announce-timer ticks and client messages that carry REGISTER
records only, the sequence numbers of the ADVERTISE frames a node emits for a group g and
itself are consecutive modulo 2^32: the i-th is n + i modulo 2^32, where n is the stored
sequence number of the announce entry of g at the start, 0 without entry. A REGISTER
that creates the entry stores sequence number 0, also after a DEREGISTER, which removes
the entry; so the numbering starts again at 1 then. -/
theorem advertise_seq_consecutive (C : Codec) (g : GroupId) (ins : List (Int × Input))
    (s : GcnService) (r : GcnService × List Event)
    (hins : ∀ x ∈ ins, registerOrTick x.2) (hrun : run C s ins = some r) :
    advertisedSeqs g s.mNodeId r.2 =
      (List.range (advertisedSeqs g s.mNodeId r.2).length).map
        (fun i => (announceSeq s g + i + 1) % 4294967296) ∧
    (∀ (s0 s' : GcnService) (p : SessionId) (a : Advertise),
      a.type = AdvertiseType.REGISTER → tfind a.gid s0.mAnnounceTable = none →
      clientAdvertise s0 p a = some s' →
      ∃ annc, tfind a.gid s'.mAnnounceTable = some annc ∧ annc.seqNum = 0) ∧
    (∀ (s0 s' : GcnService) (p : SessionId) (a : Advertise),
      a.type = AdvertiseType.DEREGISTER → clientAdvertise s0 p a = some s' →
      tfind a.gid s'.mAnnounceTable = none) := by
  refine ⟨run_register_ticks C g ins s r _ hins hrun rfl, ?_, ?_⟩
  · intro s0 s' p a hty hnone hc
    simp only [clientAdvertise, hty, hnone] at hc
    split_ifs at hc
    cases Option.some.inj hc
    exact ⟨_, tfind_tset_self _ _ _, rfl⟩
  · intro s0 s' p a hty hc
    simp only [clientAdvertise, hty] at hc
    split at hc
    · exact Option.noConfusion hc
    · cases Option.some.inj hc
      exact tfind_terase_self _ _

/-- C23, witness: the client of node 1 registers as source of group 7 and the announce
timer fires three times; the ADVERTISE frames carry the sequence numbers 1, 2, 3. -/
theorem advertise_seq_consecutive_witness :
    ∃ r, run fieldCodec (freshNode 1)
        [(0, Input.client 1 (announceMessage AdvertiseType.REGISTER)), (10, Input.announce 7),
         (11, Input.announce 7), (12, Input.announce 7)] = some r ∧
      advertisedSeqs 7 1 r.2 = [1, 2, 3] := by
  have hr : run fieldCodec (freshNode 1)
      [(0, Input.client 1 (announceMessage AdvertiseType.REGISTER)), (10, Input.announce 7),
       (11, Input.announce 7), (12, Input.announce 7)]
      = some ((run fieldCodec (freshNode 1)
          [(0, Input.client 1 (announceMessage AdvertiseType.REGISTER)), (10, Input.announce 7),
           (11, Input.announce 7), (12, Input.announce 7)]).get (by decide)) :=
    (Option.some_get _).symm
  have h := (advertise_seq_consecutive fieldCodec 7 _ (freshNode 1) _
    (by
      intro x hx
      simp only [List.mem_cons, List.mem_singleton, List.not_mem_nil, or_false] at hx
      rcases hx with rfl | rfl | rfl | rfl
      · refine Or.inr ⟨1, _, rfl, ?_⟩
        intro a ha
        simp only [List.mem_singleton] at ha
        subst ha
        rfl
      · exact Or.inl ⟨7, rfl⟩
      · exact Or.inl ⟨7, rfl⟩
      · exact Or.inl ⟨7, rfl⟩)
    hr).1
  exact ⟨_, hr, h.trans (by decide)⟩

/-- C24, counterexample. Node 1 after a client registered as source of group 7 and the
announce timer fired once: the entry of (7, 1) in its distance table lists node 1 itself
as the one neighbour the frame was heard from. -/
theorem source_records_itself :
    (run fieldCodec (freshNode 1) registerAndTick).map
        (fun r => (r.1.mNodeId,
          (tfind (GIDKey.mk 7 1) r.1.mDistanceTable).map (fun i => (i.packetCount, i.packetSrcs))))
      = some (1, some (1, [1])) := by
  decide

/-- C24, amended. In every state reached from the initial state, an entry of the distance
table for this node as group source has count 1 and one neighbour: the neighbour-counting
branch never adds to it. The one neighbour is this node itself when the announce timer
creates the entry, and also when a DATA record of a client creates it. -/
theorem own_entry_single_neighbour (C : Codec) (nodeId : NodeId) (rebroadcast : Bool)
    (hashExpire pathExpire pullExpire : Int) (ins : List (Int × Input))
    (r : GcnService × List Event)
    (hrun : run C (GcnService.init nodeId rebroadcast hashExpire pathExpire pullExpire) ins
      = some r)
    (g : GroupId) (info : DistanceInfo)
    (hentry : tfind (GIDKey.mk g nodeId) r.1.mDistanceTable = some info) :
    r.1.mNodeId = nodeId ∧ info.packetCount = 1 ∧ (∃ o, info.packetSrcs = [o]) ∧
    (∀ (now : Int) (s : GcnService) (gid : GroupId) (annc : AnnounceInfo),
      tfind gid s.mAnnounceTable = some annc → annc.pTimer = true →
      tfind (GIDKey.mk gid s.mNodeId) s.mDistanceTable = none →
      (tfind (GIDKey.mk gid s.mNodeId) (OnAnnounceTimeout C now s gid).1.mDistanceTable).map
          (fun i => i.packetSrcs) = some [s.mNodeId]) ∧
    (∀ (now : Int) (s : GcnService) (p : SessionId) (d : Data) (r' : GcnService × List Event),
      clientData C now s p d = some r' →
      tfind (GIDKey.mk d.gid s.mNodeId) s.mDistanceTable = none →
      (tfind (GIDKey.mk d.gid s.mNodeId) r'.1.mDistanceTable).map
          (fun i => i.packetSrcs) = some [s.mNodeId]) := by
  obtain ⟨hid, hinv⟩ := run_distanceInv C ins _ r hrun
    (by intro k info h; simp [GcnService.init, tfind] at h)
  simp only [GcnService.init] at hid hinv
  obtain ⟨-, -, -, h4, -⟩ := hinv _ _ hentry
  obtain ⟨hlen, hcount⟩ := h4 rfl
  refine ⟨hid, hcount, ?_, ?_, ?_⟩
  · rcases hs : info.packetSrcs with _ | ⟨o, rest⟩
    · rw [hs] at hlen
      simp at hlen
    · rw [hs] at hlen
      simp only [List.length_cons, Nat.add_eq_right, List.length_eq_zero] at hlen
      subst hlen
      exact ⟨o, rfl⟩
  · intro now s gid annc hA hp hnone
    obtain ⟨hv, hd⟩ := OnAnnounceTimeout_distance_armed C now s gid annc hA hp
    rw [hd, distanceUpdate_key, hnone]
    rfl
  · intro now s p d r' hr hnone
    obtain ⟨hv, n, hd⟩ := clientData_distance C now s p d r' hr
    rw [hd, distanceUpdate_key, hnone]
    rfl

/-- C24, witness: the run of the counterexample; the entry of node 1 for its own group 7
has count 1 and one neighbour. -/
theorem own_entry_single_neighbour_witness :
    ∃ r info, run fieldCodec (GcnService.init 1 false 30 3600 3600) registerAndTick = some r ∧
      tfind (GIDKey.mk 7 1) r.1.mDistanceTable = some info ∧
      info.packetCount = 1 ∧ ∃ o, info.packetSrcs = [o] := by
  have hinfo : (tfind (GIDKey.mk 7 1)
      ((run fieldCodec (GcnService.init 1 false 30 3600 3600) registerAndTick).get
        (by decide)).1.mDistanceTable).isSome = true := by decide
  have hr : run fieldCodec (GcnService.init 1 false 30 3600 3600) registerAndTick
      = some ((run fieldCodec (GcnService.init 1 false 30 3600 3600) registerAndTick).get
          (by decide)) := (Option.some_get _).symm
  have hi := (Option.some_get hinfo).symm
  have h := own_entry_single_neighbour fieldCodec 1 false 30 3600 3600 registerAndTick _ hr 7 _ hi
  exact ⟨_, _, hr, hi, h.2.1, h.2.2.1⟩

theorem timeInsert_perm (t : Int) (h : HashValue) (l : List (Int × HashValue)) :
    List.Perm (timeInsert t h l) ((t, h) :: l) := by
  induction l with
  | nil => exact List.Perm.refl _
  | cons e rest ih =>
    obtain ⟨t', h'⟩ := e
    by_cases hc : t' ≤ t
    · simp only [timeInsert, hc, if_true]
      exact (ih.cons (t', h')).trans (List.Perm.swap _ _ _)
    · simp only [timeInsert, hc, if_false]
      exact List.Perm.refl _

theorem timeInsert_sorted (t : Int) (h : HashValue) (l : List (Int × HashValue))
    (hl : l.Pairwise (fun a b => a.1 ≤ b.1)) :
    (timeInsert t h l).Pairwise (fun a b => a.1 ≤ b.1) := by
  induction l with
  | nil => simp [timeInsert]
  | cons e rest ih =>
    obtain ⟨t', h'⟩ := e
    rw [List.pairwise_cons] at hl
    by_cases hc : t' ≤ t
    · simp only [timeInsert, hc, if_true]
      rw [List.pairwise_cons]
      refine ⟨?_, ih hl.2⟩
      intro x hx
      rcases List.mem_cons.mp ((timeInsert_perm t h rest).mem_iff.mp hx) with hx | hx
      · rw [hx]
        exact hc
      · exact hl.1 x hx
    · simp only [timeInsert, hc, if_false]
      rw [List.pairwise_cons, List.pairwise_cons]
      refine ⟨?_, hl.1, hl.2⟩
      intro x hx
      rcases List.mem_cons.mp hx with hx | hx
      · rw [hx]
        simp only
        omega
      · have := hl.1 x hx
        simp only at this ⊢
        omega

theorem hashTwin_insert (t : Int) (h : HashValue) (ttl : Nat) (tt : List (Int × HashValue))
    (ht : List (HashValue × Nat)) (hnew : tfind h ht = none) (hp : hashTwin tt ht) :
    hashTwin (timeInsert t h tt) (tset h ttl ht) := by
  obtain ⟨h1, h2⟩ := hp
  have hperm := timeInsert_perm t h tt
  constructor
  · intro e he
    rcases List.mem_cons.mp (hperm.mem_iff.mp he) with he | he
    · rw [he]
      exact ⟨_, tfind_tset_self _ _ _⟩
    · by_cases hk : h = e.2
      · rw [← hk]
        exact ⟨_, tfind_tset_self _ _ _⟩
      · rw [tfind_tset_ne _ _ _ _ hk]
        exact h1 e he
  · intro k m hk
    have hlen := (hperm.filter (fun e => decide (e.2 = k))).length_eq
    rw [hlen]
    by_cases hkh : h = k
    · subst hkh
      have hnone : tt.filter (fun e => decide (e.2 = h)) = [] := by
        rw [List.filter_eq_nil_iff]
        intro e he
        simp only [decide_eq_true_eq]
        intro heq
        obtain ⟨m', hm'⟩ := h1 e he
        rw [heq, hnew] at hm'
        exact Option.noConfusion hm'
      simp [List.filter_cons, hnone]
    · rw [tfind_tset_ne _ _ _ _ hkh] at hk
      have := h2 k m hk
      simp [List.filter_cons, hkh, this]

theorem hashTwin_set (h : HashValue) (ttl old : Nat) (tt : List (Int × HashValue))
    (ht : List (HashValue × Nat)) (hold : tfind h ht = some old) (hp : hashTwin tt ht) :
    hashTwin tt (tset h ttl ht) := by
  obtain ⟨h1, h2⟩ := hp
  constructor
  · intro e he
    by_cases hk : h = e.2
    · rw [← hk]
      exact ⟨_, tfind_tset_self _ _ _⟩
    · rw [tfind_tset_ne _ _ _ _ hk]
      exact h1 e he
  · intro k m hk
    by_cases hkh : h = k
    · subst hkh
      exact h2 h old hold
    · rw [tfind_tset_ne _ _ _ _ hkh] at hk
      exact h2 k m hk

theorem hashSweep_spec (now expire : Int) (tt : List (Int × HashValue)) :
    ∀ (ht : List (HashValue × Nat)), hashTwin tt ht →
      ∃ tt' ht', hashSweep now expire tt ht = some (tt', ht') ∧ hashTwin tt' ht' ∧
        tt' = tt.dropWhile (fun e => decide (now - e.1 > expire)) ∧
        ∀ h, tfind h ht' =
          if h ∈ (tt.takeWhile (fun e => decide (now - e.1 > expire))).map Prod.snd then none
          else tfind h ht := by
  induction tt with
  | nil =>
    intro ht hp
    exact ⟨[], ht, rfl, hp, rfl, fun h => by simp⟩
  | cons e rest ih =>
    intro ht hp
    obtain ⟨t, hv⟩ := e
    obtain ⟨h1, h2⟩ := hp
    by_cases hc : now - t > expire
    · obtain ⟨m, hm⟩ := h1 (t, hv) (List.mem_cons_self _ _)
      simp only at hm
      have hcount := h2 hv m hm
      simp only [List.filter_cons, decide_True, if_true, List.length_cons, Nat.add_eq_right,
        List.length_eq_zero, List.filter_eq_nil_iff, decide_eq_true_eq] at hcount
      have hp' : hashTwin rest (terase hv ht) := by
        constructor
        · intro e he
          have hne : hv ≠ e.2 := fun heq => hcount e he heq.symm
          rw [tfind_terase_ne _ _ _ hne]
          exact h1 e (List.mem_cons_of_mem _ he)
        · intro k m' hk
          have hne : hv ≠ k := by
            intro heq
            rw [heq, tfind_terase_self] at hk
            exact Option.noConfusion hk
          rw [tfind_terase_ne _ _ _ hne] at hk
          have := h2 k m' hk
          have hne' : ¬ hv = k := hne
          simpa [List.filter_cons, hne'] using this
      obtain ⟨tt', ht', hs, hq, hd, hf⟩ := ih (terase hv ht) hp'
      refine ⟨tt', ht', ?_, hq, ?_, ?_⟩
      · simp only [hashSweep, hc, if_true, hm]
        exact hs
      · simp only [List.dropWhile_cons, hc, decide_True, if_true]
        exact hd
      · intro h
        rw [hf h]
        simp only [List.takeWhile_cons, hc, decide_True, if_true, List.map_cons, List.mem_cons]
        by_cases hk : hv = h
        · subst hk
          rw [if_pos (Or.inl rfl), tfind_terase_self]
          split_ifs <;> rfl
        · rw [tfind_terase_ne _ _ _ hk]
          have hk' : ¬ h = hv := fun e => hk e.symm
          simp only [hk', false_or]
    · refine ⟨(t, hv) :: rest, ht, ?_, ⟨h1, h2⟩, ?_, ?_⟩
      · simp only [hashSweep, hc, if_false]
      · simp only [List.dropWhile_cons, hc, decide_False, Bool.false_eq_true, if_false]
      · intro h
        simp [List.takeWhile_cons, hc]

theorem sorted_dropWhile (now expire : Int) (tt : List (Int × HashValue))
    (hs : tt.Pairwise (fun a b => a.1 ≤ b.1)) :
    tt.dropWhile (fun e => decide (now - e.1 > expire))
      = tt.filter (fun e => !decide (now - e.1 > expire)) ∧
    tt.takeWhile (fun e => decide (now - e.1 > expire))
      = tt.filter (fun e => decide (now - e.1 > expire)) := by
  induction tt with
  | nil => exact ⟨rfl, rfl⟩
  | cons e rest ih =>
    rw [List.pairwise_cons] at hs
    obtain ⟨i1, i2⟩ := ih hs.2
    by_cases hc : now - e.1 > expire
    · simp only [List.dropWhile_cons, List.takeWhile_cons, List.filter_cons, hc, decide_True,
        if_true, Bool.not_true, Bool.false_eq_true, if_false, i1, i2]
      trivial
    · have hall : ∀ x ∈ rest, ¬ now - x.1 > expire := by
        intro x hx
        have := hs.1 x hx
        omega
      have hf1 : rest.filter (fun e => !decide (now - e.1 > expire)) = rest := by
        rw [List.filter_eq_self]
        intro x hx
        simp [hall x hx]
      have hf2 : rest.filter (fun e => decide (now - e.1 > expire)) = [] := by
        rw [List.filter_eq_nil_iff]
        intro x hx
        simp [hall x hx]
      simp only [List.dropWhile_cons, List.takeWhile_cons, List.filter_cons, hc, decide_False,
        Bool.false_eq_true, if_false, Bool.not_false, if_true, hf1, hf2]
      trivial

/-- C25. The predicate `hashConsistent` (every entry of the hash time table has its hash
in the hash table, and every key of the hash table has exactly one entry in the time
table) holds in the initial state and is preserved by `addToHash`, by `changeMaxTTL` and
by `hashCleanup`. In a consistent state `hashCleanup` ends without fatal log, that is,
every lookup of the twin succeeds; it removes a time-table entry together with its hash,
leaves every other table as it is, and, the time table being ordered by time as the
multimap is, it removes exactly the entries with now - t > hashExpire: the time table
afterwards is the old one without these entries, and a hash is a key afterwards exactly
when it was one and has no such entry. The order by time holds initially and is kept by
`addToHash`, `changeMaxTTL` and `hashCleanup`. -/
theorem hash_time_consistency :
    (∀ (nodeId : NodeId) (rebroadcast : Bool) (hashExpire pathExpire pullExpire : Int),
      hashConsistent (GcnService.init nodeId rebroadcast hashExpire pathExpire pullExpire) ∧
      timeSorted (GcnService.init nodeId rebroadcast hashExpire pathExpire pullExpire)) ∧
    (∀ (C : Codec) (now : Int) (s : GcnService) (data : Bytes) (ttl : Nat),
      (hashConsistent s → hashConsistent (addToHash C now s data ttl).1) ∧
      (timeSorted s → timeSorted (addToHash C now s data ttl).1)) ∧
    (∀ (s s' : GcnService) (h : HashValue) (ttl : Nat), changeMaxTTL s h ttl = some s' →
      (hashConsistent s → hashConsistent s') ∧ (timeSorted s → timeSorted s')) ∧
    (∀ (now : Int) (s : GcnService), hashConsistent s →
      ∃ s', hashCleanup now s = some s' ∧ hashConsistent s' ∧
        (∃ tt ht, s' = { s with mHashTimeTable := tt, mHashTable := ht }) ∧
        (∀ h, tfind h s'.mHashTable ≠ none ↔ h ∈ s'.mHashTimeTable.map Prod.snd) ∧
        (timeSorted s →
          timeSorted s' ∧
          s'.mHashTimeTable
            = s.mHashTimeTable.filter (fun e => !decide (now - e.1 > s.mHashExpireTime)) ∧
          ∀ h, tfind h s'.mHashTable =
            if h ∈ (s.mHashTimeTable.filter
                      (fun e => decide (now - e.1 > s.mHashExpireTime))).map Prod.snd
            then none else tfind h s.mHashTable)) := by
  refine ⟨?_, ?_, ?_, ?_⟩
  · intro nodeId rebroadcast hashExpire pathExpire pullExpire
    refine ⟨⟨?_, ?_⟩, ?_⟩
    · intro e he
      simp [GcnService.init] at he
    · intro h m hm
      simp [GcnService.init, tfind] at hm
    · simp [timeSorted, GcnService.init]
  · intro C now s data ttl
    rw [addToHash_eq]
    constructor
    · intro hp
      split_ifs with hnew
      · exact hashTwin_insert now _ ttl _ _ hnew hp
      · exact hp
    · intro hs
      split_ifs with hnew
      · exact timeInsert_sorted now _ _ hs
      · exact hs
  · intro s s' h ttl hc
    simp only [changeMaxTTL] at hc
    split at hc
    · rename_i old hold
      cases Option.some.inj hc
      exact ⟨fun hp => hashTwin_set h ttl old _ _ hold hp, fun hs => hs⟩
    · exact Option.noConfusion hc
  · intro now s hp
    obtain ⟨tt', ht', hs, hq, hd, hf⟩ := hashSweep_spec now s.mHashExpireTime s.mHashTimeTable
      s.mHashTable hp
    refine ⟨{ s with mHashTimeTable := tt', mHashTable := ht' }, ?_, hq, ⟨_, _, rfl⟩, ?_, ?_⟩
    · simp only [hashCleanup, hs]
    · intro h
      simp only
      constructor
      · intro hne
        rcases hm : tfind h ht' with _ | m
        · exact absurd hm hne
        · have hlen := hq.2 h m hm
          have hpos : 0 < (tt'.filter (fun e => decide (e.2 = h))).length := by omega
          obtain ⟨e, he⟩ := List.exists_mem_of_length_pos hpos
          rw [List.mem_filter, decide_eq_true_eq] at he
          exact List.mem_map.mpr ⟨e, he.1, he.2⟩
      · intro hmem
        obtain ⟨e, he, heq⟩ := List.mem_map.mp hmem
        obtain ⟨m, hm⟩ := hq.1 e he
        rw [heq] at hm
        rw [hm]
        exact fun hx => Option.noConfusion hx
    · intro hsorted
      obtain ⟨d1, d2⟩ := sorted_dropWhile now s.mHashExpireTime s.mHashTimeTable hsorted
      refine ⟨?_, ?_, ?_⟩
      · simp only [timeSorted, hd, d1]
        exact List.Pairwise.filter _ hsorted
      · simp only [hd, d1]
      · intro h
        simp only
        rw [hf h, d2]

/-- C26, counterexample. At node 3 the hash of the ADVERTISE is evicted by the sweep at
time 100 (it is absent from the hash table afterwards), so the copy from neighbour 4 is
new to the hash and `updateDistanceTable` is called with `newToHash = true` for an
ADVERTISE. The entry of (7, 1) still has that hash as latest hash, so it is not reset to
distance 6, count 1, neighbours 4: the neighbour is counted and the distance stays 1. -/
theorem new_advertise_counts_neighbour :
    (run fieldCodec (freshNode 3) (evictedThenRepeated.take 2)).map
        (fun r => (tfind (hashOfAdvertise fieldCodec (advertiseOf 1).hop) r.1.mHashTable,
                   tfind (GIDKey.mk 7 1) r.1.mDistanceTable))
      = some (none, some { distance := 1,
                           latestPacketHash := hashOfAdvertise fieldCodec (advertiseOf 1).hop,
                           packetCount := 1, packetSrcs := [2] }) ∧
    hashOfAdvertise fieldCodec (Advertise.hop { advertiseOf 1 with distance := 5 })
      = hashOfAdvertise fieldCodec (advertiseOf 1).hop ∧
    (run fieldCodec (freshNode 3) evictedThenRepeated).map
        (fun r => tfind (GIDKey.mk 7 1) r.1.mDistanceTable)
      = some (some { distance := 1,
                     latestPacketHash := hashOfAdvertise fieldCodec (advertiseOf 1).hop,
                     packetCount := 2, packetSrcs := [2, 4] }) := by
  decide

/-- C26, amended. After `updateDistanceTable(g, src, hash, distance, ota_src, true, true)`
the entry of (g, src) is the reset entry (distance, hash, count 1, neighbours ota_src)
when there was no entry or its latest hash differs from the hash; when the entry has the
hash as latest hash, the neighbour-counting rule applies instead and distance and hash
are kept. Every other key is unchanged. -/
theorem distance_reset_on_new_advertise (s : GcnService) (g : GroupId) (src : NodeId)
    (hash : HashValue) (distance : Nat) (otaSrc : NodeId) :
    tfind (GIDKey.mk g src)
        (updateDistanceTable s g src hash distance otaSrc true true).mDistanceTable =
      some
        (match tfind (GIDKey.mk g src) s.mDistanceTable with
         | some info =>
           if info.latestPacketHash = hash then
             if otaSrc ∉ info.packetSrcs ∧ src ≠ s.mNodeId then
               { info with packetCount := (info.packetCount + 1) % 65536,
                           packetSrcs := info.packetSrcs ++ [otaSrc] }
             else info
           else
             { distance := distance, latestPacketHash := hash, packetCount := 1,
               packetSrcs := [otaSrc] }
         | none =>
           { distance := distance, latestPacketHash := hash, packetCount := 1,
             packetSrcs := [otaSrc] }) ∧
    (∀ k, k ≠ GIDKey.mk g src →
      tfind k (updateDistanceTable s g src hash distance otaSrc true true).mDistanceTable
        = tfind k s.mDistanceTable) ∧
    (∃ t, updateDistanceTable s g src hash distance otaSrc true true
        = { s with mDistanceTable := t }) := by
  refine ⟨?_, ?_, ⟨_, rfl⟩⟩
  · simp only [updateDistanceTable]
    rw [distanceUpdate_key]
    rcases tfind (GIDKey.mk g src) s.mDistanceTable with _ | info
    · rfl
    · simp only [if_true]
  · intro k hk
    simp only [updateDistanceTable]
    exact distanceUpdate_other _ _ _ _ _ _ _ _ _ _ (fun e => hk e.symm)

/-- C27. For an entry of (g, src) whose latest hash is the hash of the frame,
`updateDistanceTable` appends ota_src to the neighbours and increments the count (a
`uint16_t`) exactly when ota_src is no neighbour yet and src is not this node, and leaves
the whole table as it is otherwise; distance and latest hash of the entry are kept, every
other key is unchanged, and the count stays the number of neighbours modulo 2^16. In every
state reached from the initial state, each entry has a count equal to the number of its
neighbours modulo 2^16, and no neighbour is listed twice. -/
theorem neighbor_counting (s : GcnService) (g : GroupId) (src : NodeId) (hash : HashValue)
    (distance : Nat) (otaSrc : NodeId) (newToHash AdvMsg : Bool) (info : DistanceInfo)
    (hentry : tfind (GIDKey.mk g src) s.mDistanceTable = some info)
    (hhash : info.latestPacketHash = hash) :
    (otaSrc ∉ info.packetSrcs ∧ src ≠ s.mNodeId →
      tfind (GIDKey.mk g src)
          (updateDistanceTable s g src hash distance otaSrc newToHash AdvMsg).mDistanceTable
        = some { info with packetCount := (info.packetCount + 1) % 65536,
                           packetSrcs := info.packetSrcs ++ [otaSrc] }) ∧
    (¬ (otaSrc ∉ info.packetSrcs ∧ src ≠ s.mNodeId) →
      updateDistanceTable s g src hash distance otaSrc newToHash AdvMsg = s) ∧
    (∀ info', tfind (GIDKey.mk g src)
          (updateDistanceTable s g src hash distance otaSrc newToHash AdvMsg).mDistanceTable
        = some info' →
      info'.distance = info.distance ∧ info'.latestPacketHash = info.latestPacketHash ∧
      (info.packetCount = info.packetSrcs.length % 65536 →
        info'.packetCount = info'.packetSrcs.length % 65536)) ∧
    (∀ k, k ≠ GIDKey.mk g src →
      tfind k (updateDistanceTable s g src hash distance otaSrc newToHash AdvMsg).mDistanceTable
        = tfind k s.mDistanceTable) ∧
    (∀ (C : Codec) (nodeId : NodeId) (rebroadcast : Bool) (hashExpire pathExpire pullExpire : Int)
        (ins : List (Int × Input)) (r : GcnService × List Event),
      run C (GcnService.init nodeId rebroadcast hashExpire pathExpire pullExpire) ins = some r →
      ∀ k i, tfind k r.1.mDistanceTable = some i →
        i.packetCount = i.packetSrcs.length % 65536 ∧ i.packetSrcs.Nodup) := by
  subst hhash
  have hkey := distanceUpdate_key s.mNodeId s.mDistanceTable g src info.latestPacketHash
    distance otaSrc newToHash AdvMsg
  rw [hentry] at hkey
  simp only [if_true] at hkey
  refine ⟨?_, ?_, ?_, ?_, ?_⟩
  · intro hc
    simp only [updateDistanceTable]
    rw [hkey, if_pos hc]
  · intro hc
    simp only [updateDistanceTable, distanceUpdate, hentry, if_true, if_neg hc]
  · intro info' h'
    simp only [updateDistanceTable] at h'
    rw [hkey] at h'
    have h' := Option.some.inj h'
    split_ifs at h' with hc
    · subst h'
      refine ⟨rfl, rfl, ?_⟩
      intro hcount
      simp only [hcount, List.length_append, List.length_singleton]
      omega
    · subst h'
      exact ⟨rfl, rfl, fun hcount => hcount⟩
  · intro k hk
    simp only [updateDistanceTable]
    exact distanceUpdate_other _ _ _ _ _ _ _ _ _ _ (fun e => hk e.symm)
  · intro C nodeId rebroadcast hashExpire pathExpire pullExpire ins r hrun k i hk
    have hinv := (run_distanceInv C ins _ r hrun
      (by intro k info h; simp [GcnService.init, tfind] at h)).2
    obtain ⟨h1, -, h3, -⟩ := hinv k i hk
    exact ⟨h3, h1⟩

/-- C27, witness: at `countingNode` the frame with hash 5 heard from neighbour 4 makes the
entry of (7, 1) count two neighbours, 2 and 4. -/
theorem neighbor_counting_witness :
    tfind (GIDKey.mk 7 1) countingNode.mDistanceTable
      = some { distance := 2, latestPacketHash := 5, packetCount := 1, packetSrcs := [2] } ∧
    tfind (GIDKey.mk 7 1) (updateDistanceTable countingNode 7 1 5 9 4 true true).mDistanceTable
      = some { distance := 2, latestPacketHash := 5, packetCount := 2, packetSrcs := [2, 4] } :=
  ⟨by decide,
   (neighbor_counting countingNode 7 1 5 9 4 true true
      { distance := 2, latestPacketHash := 5, packetCount := 1, packetSrcs := [2] }
      (by decide) rfl).1 (by decide)⟩

/-- C28. In a state reached from the initial state by inputs whose node ids are 32-bit
numbers, every entry of the distance table lists at least one neighbour and fewer than
2^32, without repetition. When the ACK timer of a key fires there with a reverse path
entry and a distance entry present, the handler does not fail and transmits the ACK with
probability of relay p if p is at most 100 and the quotient of p by the number of
neighbours of the distance entry otherwise, p being the stored probability of the reverse
path entry; the timer entry is erased. -/
theorem ack_timer_probability (C : Codec) (nodeId : NodeId) (rebroadcast : Bool)
    (hashExpire pathExpire pullExpire : Int) (ins : List (Int × Input))
    (r : GcnService × List Event)
    (hnode : nodeId < 4294967296)
    (hins : ∀ x ∈ ins, ∀ m rand, x.2 = Input.network m rand → m.src < 4294967296)
    (hrun : run C (GcnService.init nodeId rebroadcast hashExpire pathExpire pullExpire) ins
      = some r)
    (ack pending : Ack) (rev : RevPathInfo) (info : DistanceInfo)
    (htimer : tfind (GIDKey.mk ack.gid ack.srcnode) r.1.mAckTimerTable = some pending)
    (hrev : tfind (GIDKey.mk ack.gid ack.srcnode) r.1.mReversePathTable = some rev)
    (hdist : tfind (GIDKey.mk ack.gid ack.srcnode) r.1.mDistanceTable = some info) :
    (∀ k i, tfind k r.1.mDistanceTable = some i →
      1 ≤ i.packetSrcs.length ∧ i.packetSrcs.length < 4294967296 ∧ i.packetSrcs.Nodup) ∧
    OnAckTimeout r.1 ack =
      some ({ r.1 with
              mAckTimerTable := terase (GIDKey.mk ack.gid ack.srcnode) r.1.mAckTimerTable },
            [forwardToOTAAck r.1
              { ack with
                probabilityofrelay :=
                  if rev.probRelay ≤ 100 then rev.probRelay
                  else rev.probRelay / info.packetSrcs.length }]) := by
  have h0 : distanceInv nodeId
      (GcnService.init nodeId rebroadcast hashExpire pathExpire pullExpire).mDistanceTable := by
    intro k info h
    simp [GcnService.init, tfind] at h
  have h1 : srcsBelow 4294967296
      (GcnService.init nodeId rebroadcast hashExpire pathExpire pullExpire).mDistanceTable := by
    intro k info h
    simp [GcnService.init, tfind] at h
  have hinv := (run_distanceInv C ins _ r hrun h0).2
  have hbelow := run_srcsBelow 4294967296 C ins _ r hrun hnode hins h1
  simp only [GcnService.init] at hinv
  have hall : ∀ k i, tfind k r.1.mDistanceTable = some i →
      1 ≤ i.packetSrcs.length ∧ i.packetSrcs.length < 4294967296 ∧ i.packetSrcs.Nodup := by
    intro k i hk
    obtain ⟨ha, hb⟩ := distanceInv_length_lt 4294967296 nodeId _ hnode (by decide) hinv hbelow
      k i hk
    exact ⟨ha, hb, (hinv k i hk).1⟩
  refine ⟨hall, ?_⟩
  obtain ⟨ha, hb, -⟩ := hall _ _ hdist
  simp only [OnAckTimeout, htimer, hrev, hdist]
  by_cases hp : rev.probRelay > 100
  · have hp' : ¬ rev.probRelay ≤ 100 := by omega
    have hmod : info.packetSrcs.length % 4294967296 = info.packetSrcs.length :=
      Nat.mod_eq_of_lt hb
    have hne : ¬ info.packetSrcs.length = 0 := by omega
    simp only [hp, if_true, hmod, hne, if_false, hp']
  · have hp' : rev.probRelay ≤ 100 := by omega
    simp only [hp, if_false, hp', if_true]

/-- C28, witness: at node 5, with a subscriber of group 7, the ADVERTISE with probability
of relay 200 was heard from the two neighbours 2 and 3; the pending ACK is transmitted
with probability of relay 100. -/
theorem ack_timer_probability_witness :
    ∃ r, run fieldCodec (GcnService.init 5 false 30 3600 3600) twoNeighbourRun = some r ∧
      tfind (GIDKey.mk 7 1) r.1.mAckTimerTable = some (ackFor perNeighbourAdvertise 2) ∧
      (OnAckTimeout r.1 (ackFor perNeighbourAdvertise 2)).map (fun x => transmissions x.2)
        = some [ackFrame 5 { ackFor perNeighbourAdvertise 2 with probabilityofrelay := 100 }] := by
  have hr : run fieldCodec (GcnService.init 5 false 30 3600 3600) twoNeighbourRun
      = some ((run fieldCodec (GcnService.init 5 false 30 3600 3600) twoNeighbourRun).get
          (by decide)) := (Option.some_get _).symm
  have h := ack_timer_probability fieldCodec 5 false 30 3600 3600 twoNeighbourRun _
    (by decide)
    (by
      intro x hx m rand hm
      simp only [twoNeighbourRun, List.mem_cons, List.mem_singleton, List.not_mem_nil,
        or_false] at hx
      rcases hx with rfl | rfl | rfl
      · exact Input.noConfusion hm
      · cases hm
        decide
      · cases hm
        decide)
    hr (ackFor perNeighbourAdvertise 2) (ackFor perNeighbourAdvertise 2)
    { srcNode := 2, seqNum := 1, timestamp := 1, probRelay := 200 }
    { distance := 1,
      latestPacketHash := hashOfAdvertise fieldCodec perNeighbourAdvertise.hop,
      packetCount := 2, packetSrcs := [2, 3] }
    (by decide) (by decide) (by decide)
  refine ⟨_, hr, by decide, ?_⟩
  rw [h.2]
  decide

theorem processNetworkAdvertise_ttl (C : Codec) (now : Int) (s : GcnService)
    (a : Advertise) (ota : NodeId) (r : GcnService × List Event)
    (h : processNetworkAdvertise C now s a ota = some r) :
    ∀ p ∈ advSchedules r.2, p.2 = a.srcttl ∨ (p.2 = a.ttl ∧ a.ttl ≠ 0) := by
  have hov : ∀ x : GcnService, advSchedules (overridePull x a.gid).2 = [] := by
    intro x
    simp only [overridePull]
    split
    · split_ifs <;> rfl
    · rfl
  rcases hh : tfind (hashOfAdvertise C a.hop) s.mHashTable with _ | m
  · have e := addToHashAdvertise_new C now s a.hop hh
    simp only [Advertise.hop] at e
    simp only [processNetworkAdvertise, e] at h
    simp only [if_true] at h
    split_ifs at h with c1 c2 c3 c4 c5 <;> cases Option.some.inj h <;>
      simp [hov, advSchedules_append, advSchedules, setAckTimer, setAdvTimer] <;>
      (right; assumption)
  · have e := addToHashAdvertise_seen C now s a.hop m hh
    simp only [Advertise.hop] at e
    simp only [processNetworkAdvertise, e] at h
    simp only [Bool.false_eq_true, if_false] at h
    split_ifs at h
    all_goals try (cases Option.some.inj h; simp [advSchedules])
    all_goals
      split at h
      · exact Option.noConfusion h
      · split_ifs at h
        · split at h
          · exact Option.noConfusion h
          · split at h
            · exact Option.noConfusion h
            · cases Option.some.inj h
              simp [setAdvTimer, advSchedules]
              right
              assumption
        · cases Option.some.inj h
          simp [advSchedules]

theorem forwardBroadcast_ttl (s : GcnService) (d : Data) (h : HashValue)
    (new grp ack : Bool) (fwd : GcnService × List Event)
    (hf : forwardBroadcast s d h new grp ack = some fwd) :
    ∀ p ∈ dataSchedules fwd.2,
      (ack = true ∧ p.2 = 1) ∨
      (ack = false ∧ (p.2 = d.srcttl.getD 0 ∨ (p.2 = d.ttl ∧ d.ttl ≠ 0))) := by
  simp only [forwardBroadcast] at hf
  split_ifs at hf
  all_goals try (cases Option.some.inj hf; simp_all [setDataTimer, dataSchedules])
  all_goals
    split at hf
    · exact Option.noConfusion hf
    · split_ifs at hf
      · split at hf
        · exact Option.noConfusion hf
        · split at hf
          · exact Option.noConfusion hf
          · cases Option.some.inj hf
            simp_all [setDataTimer, dataSchedules]
      · cases Option.some.inj hf
        simp [dataSchedules]

theorem processNetworkData_ttl (C : Codec) (now : Int) (s : GcnService) (d : Data)
    (ota : NodeId) (r : GcnService × List Event)
    (h : processNetworkData C now s d ota = some r) :
    ∀ p ∈ dataSchedules r.2, p.2 = 1 ∨ (p.2 = d.ttl ∧ d.ttl ≠ 0) ∨ d.srcttl = some p.2 := by
  have hpre := (preProcessData_spec C now s d.hop ota none).2.2.2.2.2.2.2.2.1
  have hget : ∀ t, d.srcttl.isNone = false → t = d.srcttl.getD 0 → d.srcttl = some t := by
    intro t h1 h2
    rcases hs : d.srcttl with _ | x
    · simp [hs] at h1
    · simp [hs] at h2
      rw [h2]
  rcases hu : d.uheader with _ | uh
  · by_cases hsrc : d.srcnode = s.mNodeId
    · rw [processNetworkData_own C now s d ota hu hsrc] at h
      cases Option.some.inj h
      simp [hpre]
    · rw [processNetworkData_broadcast C now s d ota hu hsrc] at h
      split at h
      · exact Option.noConfusion h
      · rename_i fwd hfw
        cases Option.some.inj h
        intro p hp
        simp only [dataSchedules_append, hpre, List.nil_append] at hp
        rcases forwardBroadcast_ttl _ _ _ _ _ _ _ hfw p hp with ⟨-, h1⟩ | ⟨h0, h1 | h1⟩
        · exact Or.inl h1
        · exact Or.inr (Or.inr (hget _ h0 (by simpa [Data.hop] using h1)))
        · exact Or.inr (Or.inl (by simpa [Data.hop] using h1))
  · rw [processNetworkData_unicast C now s d ota uh hu] at h
    cases Option.some.inj h
    intro p hp
    simp only [dataSchedules_append, hpre, List.nil_append, forwardUnicast_schedules] at hp
    split_ifs at hp with hc h1 h2
    · rw [List.mem_singleton] at hp
      rw [hp]
      exact Or.inl rfl
    · rw [List.mem_singleton] at hp
      rw [hp]
      exact Or.inr (Or.inl ⟨rfl, h2.1⟩)
    · rw [List.mem_singleton] at hp
      rw [hp]
      exact Or.inr (Or.inr (hget _ (Bool.eq_false_iff.mpr h1) rfl))
    · simp at hp

theorem clientData_ttl (C : Codec) (now : Int) (s : GcnService) (p : SessionId) (d : Data)
    (r : GcnService × List Event) (h : clientData C now s p d = some r) :
    ∀ t ∈ sentTtls r.2, t = (d.srcttl.getD 1 + 4294967295) % 4294967296 := by
  simp only [clientData] at h
  have htr := (preProcessData_spec C now
    { s with mSeqNumByGID := tset d.gid (((tfind d.gid s.mSeqNumByGID).getD 0 + 1) %
        18446744073709551616) s.mSeqNumByGID }
    { gid := d.gid, srcnode := s.mNodeId,
      sequence := ((tfind d.gid s.mSeqNumByGID).getD 0 + 1) % 18446744073709551616 % 4294967296,
      srcttl := d.srcttl, ttl := d.ttl, distance := 0, nottlregen := d.nottlregen,
      data := d.data, uheader := d.uheader } s.mNodeId (some p)).2.2.2.2.2.2.2.2.2
  repeat' split at h
  all_goals first
    | exact Option.noConfusion h
    | (cases Option.some.inj h
       simp_all [sentTtls, transmissions_append, transmissions, forwardToOTAData])

/-- C29. The ttl underflows on transmit. A client of node 1 registers as source of group 7
with source ttl 0; at the tick of the announce timer `forwardToOTA` is called with ttl 0
and the ADVERTISE goes out with ttl 2^32 - 1. Node 3, a group node, receives an ADVERTISE
with source ttl 0 and ttl 5; it arms the advertise timer with ttl 0, and at its expiry
the frame goes out with ttl 2^32 - 1. -/
theorem zero_source_ttl_wraps :
    (run fieldCodec (freshNode 1) zeroTtlSource).map (fun r => sentTtls r.2)
      = some [4294967295] ∧
    (run fieldCodec (freshNode 3) (zeroTtlRelay.take 2)).map
        (fun r => (advSchedules r.2).map (fun p => p.2)) = some [0] ∧
    (run fieldCodec (freshNode 3) zeroTtlRelay).map (fun r => sentTtls r.2)
      = some [4294967295] := by
  decide

/-- The ttl `forwardToOTA` is called with is: the source ttl of the announce
entry at a tick of the announce timer; the source ttl of the record, or 1 without one, for
a DATA record of a client; for a timer armed by `processNetworkAdvertise` the source ttl
of the frame or its received ttl, the latter only when it is not 0; for a timer armed by
`processNetworkData` 1, the received ttl when it is not 0, or the source ttl of the
frame. The expiry of a timer passes the stored ttl on. So the ttl is at least 1 whenever
the source ttl of the entry, record or frame is at least 1, and the transmitted ttl field
is then ttl - 1; with ttl 0 the transmitted field is 2^32 - 1. -/
theorem forward_ttl_from_source (C : Codec) (now : Int) (s : GcnService) :
    (∀ gid annc, tfind gid s.mAnnounceTable = some annc → annc.pTimer = true →
      sentTtls (OnAnnounceTimeout C now s gid).2 = [(annc.srcTtl + 4294967295) % 4294967296]) ∧
    (∀ p d r, clientData C now s p d = some r →
      ∀ t ∈ sentTtls r.2, t = (d.srcttl.getD 1 + 4294967295) % 4294967296) ∧
    (∀ a ota r, processNetworkAdvertise C now s a ota = some r →
      ∀ p ∈ advSchedules r.2, p.2 = a.srcttl ∨ (p.2 = a.ttl ∧ a.ttl ≠ 0)) ∧
    (∀ d ota r, processNetworkData C now s d ota = some r →
      ∀ p ∈ dataSchedules r.2, p.2 = 1 ∨ (p.2 = d.ttl ∧ d.ttl ≠ 0) ∨ d.srcttl = some p.2) ∧
    (∀ a ttl r, OnAdvTimeout s a ttl = some r →
      sentTtls r.2 = [(ttl + 4294967295) % 4294967296]) ∧
    (∀ d ttl h r, OnDataTimeout s d ttl h = some r →
      sentTtls r.2 = [(ttl + 4294967295) % 4294967296]) ∧
    (∀ ttl, 1 ≤ ttl → ttl < 4294967296 →
      (∀ a, sentTtls [forwardToOTAAdvertise s a ttl] = [ttl - 1]) ∧
      (∀ d, sentTtls [forwardToOTAData s d ttl] = [ttl - 1])) ∧
    (∀ a, sentTtls [forwardToOTAAdvertise s a 0] = [4294967295]) ∧
    (∀ d, sentTtls [forwardToOTAData s d 0] = [4294967295]) := by
  refine ⟨?_, ?_, ?_, ?_, ?_, ?_, ?_, ?_, ?_⟩
  · intro gid annc hA hp
    have hp' : ¬ annc.pTimer = false := by simp [hp]
    simp only [OnAnnounceTimeout, hA, hp', if_false]
    simp [sentTtls, transmissions, forwardToOTAAdvertise]
  · intro p d r h
    exact clientData_ttl C now s p d r h
  · intro a ota r h
    exact processNetworkAdvertise_ttl C now s a ota r h
  · intro d ota r h
    exact processNetworkData_ttl C now s d ota r h
  · intro a ttl r h
    simp only [OnAdvTimeout] at h
    split at h
    · exact Option.noConfusion h
    · cases Option.some.inj h
      simp [sentTtls, transmissions, forwardToOTAAdvertise]
  · intro d ttl hv r h
    simp only [OnDataTimeout] at h
    split at h
    · exact Option.noConfusion h
    · cases Option.some.inj h
      simp [sentTtls, transmissions, forwardToOTAData]
  · intro ttl h1 h2
    have : (ttl + 4294967295) % 4294967296 = ttl - 1 := by omega
    constructor
    · intro a
      simp [sentTtls, transmissions, forwardToOTAAdvertise, this]
    · intro d
      simp [sentTtls, transmissions, forwardToOTAData, this]
  · intro a
    simp [sentTtls, transmissions, forwardToOTAAdvertise]
  · intro d
    simp [sentTtls, transmissions, forwardToOTAData]

theorem setAckTimer_table (s : GcnService) (ack : Ack) (k : GIDKey) (a : Ack)
    (h : tfind k (setAckTimer s ack).1.mAckTimerTable = some a) :
    tfind k s.mAckTimerTable = some a ∨ (k = GIDKey.mk ack.gid ack.srcnode ∧ a = ack) := by
  simp only [setAckTimer] at h
  split at h
  · by_cases hk : GIDKey.mk ack.gid ack.srcnode = k
    · subst hk
      rw [tfind_tset_self] at h
      exact Or.inr ⟨rfl, (Option.some.inj h).symm⟩
    · rw [tfind_tset_ne _ _ _ _ hk] at h
      exact Or.inl h
  · exact Or.inl h

theorem distanceUpdate_keeps (self : NodeId) (t : List (GIDKey × DistanceInfo)) (g : GroupId)
    (src : NodeId) (h : HashValue) (d : Nat) (o : NodeId) (n a : Bool) (k : GIDKey)
    (hk : ∃ info, tfind k t = some info) :
    ∃ info, tfind k (distanceUpdate self t g src h d o n a) = some info := by
  by_cases hkey : GIDKey.mk g src = k
  · subst hkey
    exact distanceUpdate_find _ _ _ _ _ _ _ _ _
  · rw [distanceUpdate_other _ _ _ _ _ _ _ _ _ _ hkey]
    exact hk

theorem reversePathUpdate_keeps (now : Int) (t : List (GIDKey × RevPathInfo)) (g : GroupId)
    (src : NodeId) (seq : Nat) (o : NodeId) (p : Nat) (k : GIDKey) :
    ((∃ rev, tfind k t = some rev) ∨ k = GIDKey.mk g src ↔
      ∃ rev, tfind k (reversePathUpdate now t g src seq o p) = some rev) := by
  simp only [reversePathUpdate]
  by_cases hkey : GIDKey.mk g src = k
  · subst hkey
    constructor
    · intro _
      split
      · rename_i info hi
        split_ifs
        · exact ⟨_, tfind_tset_self _ _ _⟩
        · exact ⟨_, hi⟩
      · exact ⟨_, tfind_tset_self _ _ _⟩
    · intro _
      exact Or.inr rfl
  · have hk' : ¬ k = GIDKey.mk g src := fun e => hkey e.symm
    simp only [hk', or_false]
    split
    · split_ifs
      · rw [tfind_tset_ne _ _ _ _ hkey]
      · rfl
    · rw [tfind_tset_ne _ _ _ _ hkey]

theorem processNetworkAck_timer (now : Int) (rand : Nat) (s : GcnService) (ack : Ack)
    (ota : NodeId) (r : GcnService × List Event)
    (h : processNetworkAck now rand s ack ota = some r) :
    r.1.mReversePathTable = s.mReversePathTable ∧ r.1.mDistanceTable = s.mDistanceTable ∧
    (r.1.mAckTimerTable = s.mAckTimerTable ∨
      ∃ rev, tfind (GIDKey.mk ack.gid ack.srcnode) s.mReversePathTable = some rev ∧
        r.1.mAckTimerTable
          = (setAckTimer s { ack with obligatoryrelay := rev.srcNode }).1.mAckTimerTable) := by
  obtain ⟨⟨an, rp, cf, sent, tm, hf⟩, -⟩ := processNetworkAck_frame now rand s ack ota r h
  refine ⟨by rw [hf], by rw [hf], ?_⟩
  have hrelay : ∀ (rev : RevPathInfo) (grp snt : Bool),
      tfind (GIDKey.mk ack.gid ack.srcnode) s.mReversePathTable = some rev →
      (relayAck s ack rev grp snt).1.mAckTimerTable = s.mAckTimerTable ∨
      ∃ rev', tfind (GIDKey.mk ack.gid ack.srcnode) s.mReversePathTable = some rev' ∧
        (relayAck s ack rev grp snt).1.mAckTimerTable
          = (setAckTimer s { ack with obligatoryrelay := rev'.srcNode }).1.mAckTimerTable := by
    intro rev grp snt hrev
    rw [relayAck_spec]
    split_ifs
    · exact Or.inr ⟨rev, hrev, rfl⟩
    · exact Or.inl rfl
  have hadd : ∀ (x : GcnService),
      (addRemotePullEntry x ack.gid ota now).mAckTimerTable = x.mAckTimerTable := by
    intro x
    obtain ⟨t, ht⟩ := addRemotePullEntry_frame x ack.gid ota now
    rw [ht]
  rw [processNetworkAck_eq] at h
  split_ifs at h
  · split at h
    · split_ifs at h <;> cases Option.some.inj h <;> exact Or.inl (hadd _)
    · cases Option.some.inj h
      exact Or.inl rfl
  · split at h
    · exact Option.noConfusion h
    · rename_i rev hrev
      cases Option.some.inj h
      simp only [hadd]
      exact hrelay rev _ _ hrev
  · split at h
    · exact Option.noConfusion h
    · rename_i rev hrev
      cases Option.some.inj h
      simp only [hadd]
      exact hrelay rev _ _ hrev
  · cases Option.some.inj h
    exact Or.inl rfl
  · cases Option.some.inj h
    exact Or.inl rfl
  · cases Option.some.inj h
    exact Or.inl rfl

theorem ackTimerBacked_advertise (C : Codec) (now : Int) (s : GcnService) (a : Advertise)
    (ota : NodeId) (r : GcnService × List Event)
    (h : processNetworkAdvertise C now s a ota = some r) (hs : ackTimerBacked s) :
    ackTimerBacked r.1 := by
  obtain ⟨n, hd⟩ := processNetworkAdvertise_distance C now s a ota r h
  obtain ⟨s', evs, hp, -, -, -, -, -, hrp, htm, -⟩ := processNetworkAdvertise_shape C now s a ota
  rw [hp] at h
  cases Option.some.inj h
  simp only at hd
  obtain ⟨h1, h2⟩ := hs
  have hD : ∀ k, (∃ info, tfind k s.mDistanceTable = some info) →
      ∃ info, tfind k s'.mDistanceTable = some info := by
    intro k hk
    rw [hd]
    exact distanceUpdate_keeps _ _ _ _ _ _ _ _ _ k hk
  have hDkey : ∃ info, tfind (GIDKey.mk a.gid a.srcnode) s'.mDistanceTable = some info := by
    rw [hd]
    exact distanceUpdate_find _ _ _ _ _ _ _ _ _
  have hR : ∀ k, (∃ rev, tfind k s.mReversePathTable = some rev) →
      ∃ rev, tfind k s'.mReversePathTable = some rev := by
    intro k hk
    rw [hrp]
    split_ifs
    · exact (reversePathUpdate_keeps now _ _ _ _ _ _ k).mp (Or.inl hk)
    · exact hk
  constructor
  · intro k ack hk
    rw [htm] at hk
    split_ifs at hk with hc
    · rcases setAckTimer_table s (ackFor a ota) k ack hk with hold | ⟨rfl, rfl⟩
      · obtain ⟨e1, e2, e3⟩ := h1 k ack hold
        exact ⟨e1, hR k e2, hD k e3⟩
      · refine ⟨rfl, ?_, hDkey⟩
        rw [hrp, if_pos hc.2]
        exact (reversePathUpdate_keeps now _ _ _ _ _ _ _).mp (Or.inr rfl)
    · obtain ⟨e1, e2, e3⟩ := h1 k ack hk
      exact ⟨e1, hR k e2, hD k e3⟩
  · intro k rev hk
    rw [hrp] at hk
    split_ifs at hk
    · rcases (reversePathUpdate_keeps now _ _ _ _ _ _ k).mpr ⟨rev, hk⟩ with ⟨rev0, h0⟩ | rfl
      · exact hD k (h2 k rev0 h0)
      · exact hDkey
    · exact hD k (h2 k rev hk)

theorem ackTimerBacked_ack (now : Int) (rand : Nat) (s : GcnService) (ack : Ack)
    (ota : NodeId) (r : GcnService × List Event)
    (h : processNetworkAck now rand s ack ota = some r) (hs : ackTimerBacked s) :
    ackTimerBacked r.1 := by
  obtain ⟨hrp, hdt, htm⟩ := processNetworkAck_timer now rand s ack ota r h
  obtain ⟨h1, h2⟩ := hs
  constructor
  · intro k a hk
    rw [hrp, hdt]
    rcases htm with htm | ⟨rev, hrev, htm⟩
    · rw [htm] at hk
      exact h1 k a hk
    · rw [htm] at hk
      rcases setAckTimer_table s _ k a hk with hold | ⟨rfl, rfl⟩
      · exact h1 k a hold
      · exact ⟨rfl, ⟨rev, hrev⟩, h2 _ rev hrev⟩
  · intro k rev hk
    rw [hrp] at hk
    rw [hdt]
    exact h2 k rev hk

theorem ackTimerBacked_expiry (s : GcnService) (key : GIDKey) (r : GcnService × List Event)
    (h : ackTimerExpires s key = some r) (hs : ackTimerBacked s) :
    ackTimerBacked r.1 := by
  obtain ⟨h1, h2⟩ := hs
  have hsub : ∀ k a, tfind k r.1.mAckTimerTable = some a → tfind k s.mAckTimerTable = some a := by
    intro k a hk
    simp only [ackTimerExpires] at h
    split at h
    · cases Option.some.inj h
      exact hk
    · rename_i ackMsg hm
      simp only [OnAckTimeout] at h
      repeat' split at h
      all_goals first
        | exact Option.noConfusion h
        | (cases Option.some.inj h
           simp only at hk
           by_cases hkey : GIDKey.mk ackMsg.gid ackMsg.srcnode = k
           · subst hkey
             rw [tfind_terase_self] at hk
             exact Option.noConfusion hk
           · rw [tfind_terase_ne _ _ _ hkey] at hk
             exact hk)
  obtain ⟨t, hf⟩ := ackTimerExpires_frame s key r h
  constructor
  · intro k a hk
    have := h1 k a (hsub k a hk)
    rw [hf]
    exact this
  · intro k rev hk
    rw [hf] at hk ⊢
    exact h2 k rev hk

/-- C30. The ACK timer can expire without reverse path entry. At node 3 of
`staleReversePath` the reverse path entry of (7, 1) has time stamp 1 and sequence number 5
when the ADVERTISE with sequence number 1 arms the ACK timer at second 3601; the clean-up
at second 3602 erases the entry while the timer is pending, and the expiry of the timer
ends in the fatal log of `OnAckTimeout`. Without `reversePathCleanup` the look-ups
cannot fail: `ackTimerBacked` holds in the initial state, is kept by
`processNetworkAdvertise`, by `processNetworkAck` and by the expiry of an ACK timer, and
gives the timer entry, the reverse path entry and the distance entry `OnAckTimeout`
looks up for a pending timer. -/
theorem ack_timer_without_reverse_path :
    ((run fieldCodec (freshNode 3) (staleReversePath.take 4)).map
        (fun r => (tfind (GIDKey.mk 7 1) r.1.mAckTimerTable,
                   tfind (GIDKey.mk 7 1) r.1.mReversePathTable))
      = some (some (ackFor (advertiseOf 1) 2),
              some { srcNode := 2, seqNum := 5, timestamp := 1, probRelay := 0 })) ∧
    ((run fieldCodec (freshNode 3) (staleReversePath.take 5)).map
        (fun r => (tfind (GIDKey.mk 7 1) r.1.mAckTimerTable,
                   tfind (GIDKey.mk 7 1) r.1.mReversePathTable))
      = some (some (ackFor (advertiseOf 1) 2), none)) ∧
    (run fieldCodec (freshNode 3) staleReversePath).isNone = true ∧
    (∀ (nodeId : NodeId) (rebroadcast : Bool) (hashExpire pathExpire pullExpire : Int),
      ackTimerBacked (GcnService.init nodeId rebroadcast hashExpire pathExpire pullExpire)) ∧
    (∀ (C : Codec) (now : Int) (s : GcnService) (a : Advertise) (ota : NodeId)
        (r : GcnService × List Event),
      ackTimerBacked s → processNetworkAdvertise C now s a ota = some r → ackTimerBacked r.1) ∧
    (∀ (now : Int) (rand : Nat) (s : GcnService) (ack : Ack) (ota : NodeId)
        (r : GcnService × List Event),
      ackTimerBacked s → processNetworkAck now rand s ack ota = some r → ackTimerBacked r.1) ∧
    (∀ (s : GcnService) (key : GIDKey) (r : GcnService × List Event),
      ackTimerBacked s → ackTimerExpires s key = some r → ackTimerBacked r.1) ∧
    (∀ (s : GcnService) (key : GIDKey) (ack : Ack),
      ackTimerBacked s → tfind key s.mAckTimerTable = some ack →
      ∃ rev info, tfind (GIDKey.mk ack.gid ack.srcnode) s.mAckTimerTable = some ack ∧
        tfind (GIDKey.mk ack.gid ack.srcnode) s.mReversePathTable = some rev ∧
        tfind (GIDKey.mk ack.gid ack.srcnode) s.mDistanceTable = some info) := by
  refine ⟨by decide, by decide, by decide, ?_, ?_, ?_, ?_, ?_⟩
  · intro nodeId rebroadcast hashExpire pathExpire pullExpire
    constructor
    · intro k ack h
      simp [GcnService.init, tfind] at h
    · intro k rev h
      simp [GcnService.init, tfind] at h
  · intro C now s a ota r hs h
    exact ackTimerBacked_advertise C now s a ota r h hs
  · intro now rand s ack ota r hs h
    exact ackTimerBacked_ack now rand s ack ota r h hs
  · intro s key r hs h
    exact ackTimerBacked_expiry s key r h hs
  · intro s key ack hs h
    obtain ⟨e1, ⟨rev, e2⟩, ⟨info, e3⟩⟩ := hs.1 key ack h
    subst e1
    exact ⟨rev, info, h, e2, e3⟩

theorem processNetworkAdvertise_advTimer (C : Codec) (now : Int) (s : GcnService)
    (a : Advertise) (ota : NodeId) (r : GcnService × List Event)
    (h : processNetworkAdvertise C now s a ota = some r) :
    (∀ p ∈ advSchedules r.2,
      p.1.gid = a.gid ∧ p.1.srcnode = a.srcnode ∧
      r.1.mAdvTimerTable
        = tset (GIDKey.mk a.gid a.srcnode) p (terase (GIDKey.mk a.gid a.srcnode) s.mAdvTimerTable)) ∧
    (advSchedules r.2 = [] → r.1.mAdvTimerTable = s.mAdvTimerTable) := by
  have hov : ∀ x : GcnService, advSchedules (overridePull x a.gid).2 = [] ∧
      (overridePull x a.gid).1.mAdvTimerTable = x.mAdvTimerTable := by
    intro x
    simp only [overridePull]
    split
    · split_ifs <;> exact ⟨rfl, rfl⟩
    · exact ⟨rfl, rfl⟩
  rcases hh : tfind (hashOfAdvertise C a.hop) s.mHashTable with _ | m
  · have e := addToHashAdvertise_new C now s a.hop hh
    simp only [Advertise.hop] at e
    simp only [processNetworkAdvertise, e] at h
    simp only [if_true] at h
    split_ifs at h <;> cases Option.some.inj h <;>
      simp [hov, advSchedules_append, advSchedules, setAckTimer, setAdvTimer,
        updateDistanceTable, updateReversePath]
  · have e := addToHashAdvertise_seen C now s a.hop m hh
    simp only [Advertise.hop] at e
    simp only [processNetworkAdvertise, e] at h
    simp only [Bool.false_eq_true, if_false] at h
    split_ifs at h
    all_goals try (cases Option.some.inj h; simp [advSchedules, updateDistanceTable])
    all_goals
      split at h
      · exact Option.noConfusion h
      · split_ifs at h
        · split at h
          · exact Option.noConfusion h
          · rename_i s2 hc
            obtain ⟨ht, hf⟩ := changeMaxTTL_frame _ _ _ _ hc
            split at h
            · exact Option.noConfusion h
            · cases Option.some.inj h
              simp [hf, setAdvTimer, advSchedules, updateDistanceTable]
        · cases Option.some.inj h
          simp [advSchedules, updateDistanceTable]

theorem forwardUnicast_dataTimer (s : GcnService) (d : Data) (uh : UnicastHeader)
    (h : HashValue) (new grp ack : Bool) :
    (∀ p ∈ dataSchedules (forwardUnicast s d uh h new grp ack).2,
      (forwardUnicast s d uh h new grp ack).1.mDataTimerTable
        = tset h p (terase h s.mDataTimerTable)) ∧
    (dataSchedules (forwardUnicast s d uh h new grp ack).2 = [] →
      (forwardUnicast s d uh h new grp ack).1.mDataTimerTable = s.mDataTimerTable) := by
  simp only [forwardUnicast]
  split_ifs <;> simp [setDataTimer, dataSchedules]

theorem forwardBroadcast_dataTimer (s : GcnService) (d : Data) (h : HashValue)
    (new grp ack : Bool) (fwd : GcnService × List Event)
    (hf : forwardBroadcast s d h new grp ack = some fwd) :
    (∀ p ∈ dataSchedules fwd.2, fwd.1.mDataTimerTable = tset h p (terase h s.mDataTimerTable)) ∧
    (dataSchedules fwd.2 = [] → fwd.1.mDataTimerTable = s.mDataTimerTable) := by
  simp only [forwardBroadcast] at hf
  split_ifs at hf
  all_goals try (cases Option.some.inj hf; simp [setDataTimer, dataSchedules])
  all_goals
    split at hf
    · exact Option.noConfusion hf
    · split_ifs at hf
      · split at hf
        · exact Option.noConfusion hf
        · rename_i s2 hc
          obtain ⟨ht, hs2⟩ := changeMaxTTL_frame _ _ _ _ hc
          split at hf
          · exact Option.noConfusion hf
          · cases Option.some.inj hf
            simp [hs2, setDataTimer, dataSchedules]
      · cases Option.some.inj hf
        simp [dataSchedules]

theorem processNetworkData_dataTimer (C : Codec) (now : Int) (s : GcnService) (d : Data)
    (ota : NodeId) (r : GcnService × List Event)
    (h : processNetworkData C now s d ota = some r) :
    (∀ p ∈ dataSchedules r.2,
      r.1.mDataTimerTable
        = tset (hashOfData C d.hop) p (terase (hashOfData C d.hop) s.mDataTimerTable)) ∧
    (dataSchedules r.2 = [] → r.1.mDataTimerTable = s.mDataTimerTable) := by
  have hspec := preProcessData_spec C now s d.hop ota none
  have hpre := hspec.2.2.2.2.2.2.2.2.1
  have hhash := hspec.1
  have htab : (preProcessData C now s d.hop ota none).1.mDataTimerTable = s.mDataTimerTable := by
    obtain ⟨_, _, _, hf⟩ := preProcessData_frame C now s d.hop ota none
    rw [hf]
  rcases hu : d.uheader with _ | uh
  · by_cases hsrc : d.srcnode = s.mNodeId
    · rw [processNetworkData_own C now s d ota hu hsrc] at h
      cases Option.some.inj h
      simp [hpre, htab]
    · rw [processNetworkData_broadcast C now s d ota hu hsrc] at h
      split at h
      · exact Option.noConfusion h
      · rename_i fwd hfw
        cases Option.some.inj h
        have := forwardBroadcast_dataTimer _ _ _ _ _ _ _ hfw
        simp only [dataSchedules_append, hpre, List.nil_append, hhash, htab] at this ⊢
        exact this
  · rw [processNetworkData_unicast C now s d ota uh hu] at h
    cases Option.some.inj h
    have := forwardUnicast_dataTimer (preProcessData C now s d.hop ota none).1 d.hop uh
      (preProcessData C now s d.hop ota none).2.1 (preProcessData C now s d.hop ota none).2.2.1
      (groupNode (preProcessData C now s d.hop ota none).1 d.gid) d.srcttl.isNone
    simp only [dataSchedules_append, hpre, List.nil_append, hhash, htab] at this ⊢
    exact this

theorem advTimerExpires_pending (s : GcnService) (key : GIDKey) (p : Advertise × Nat)
    (hp : tfind key s.mAdvTimerTable = some p) (hg : p.1.gid = key.gid)
    (hs : p.1.srcnode = key.gidSrc) :
    advTimerExpires s key =
      some ({ s with mAdvTimerTable := terase key s.mAdvTimerTable },
            [forwardToOTAAdvertise s p.1 p.2]) := by
  obtain ⟨adv, ttl⟩ := p
  obtain ⟨g, src⟩ := key
  simp only at hg hs
  subst hg hs
  simp only [advTimerExpires, hp, OnAdvTimeout]

theorem dataTimerExpires_pending (s : GcnService) (hashVal : HashValue) (p : Data × Nat)
    (hp : tfind hashVal s.mDataTimerTable = some p) :
    dataTimerExpires s hashVal =
      some ({ s with mDataTimerTable := terase hashVal s.mDataTimerTable },
            [forwardToOTAData s p.1 p.2]) := by
  obtain ⟨d, ttl⟩ := p
  simp only [dataTimerExpires, hp, OnDataTimeout]

/-- C8. ADVERTISE forwarding decision of `processNetworkAdvertise`: the handler always
returns, and with `new` = "the hash of the frame is not in Hash" it schedules a forward
(a call of `setAdvTimer`) exactly as follows: (a) group participant, new, no `nottlregen`
field: once, with ttl argument `srcttl`; (b) group participant, new, `nottlregen` present,
ttl > 0: once, with the received ttl; (c) non-group, new, ttl > 0: once, with the received
ttl; in (a)-(c) the outgoing frame is the received one with distance plus one (32-bit);
(d) non-group, hash present with stored maximum `m < ttl`: once, with the received ttl,
the outgoing distance being the distance stored for `(gid, srcnode)` and the stored
maximum being `ttl` afterwards; and whenever a forward is scheduled, one of (a)-(d) is the
case. A scheduled forward `(frame, ttl)` is armed in the advertise timer table: the table
afterwards is the one before with the entry of `(gid, srcnode)` replaced by
`(frame, ttl)`, that entry is pending, and the expiry of this timer removes it and
transmits `forwardToOTAAdvertise frame ttl` and nothing else. When nothing is scheduled,
the advertise timer table is left as it was. -/
theorem advertise_forwarding_decision (C : Codec) (now : Int) (s : GcnService) (a : Advertise)
    (ota : NodeId) :
    ∃ s' evs, processNetworkAdvertise C now s a ota = some (s', evs) ∧
      (groupNode s a.gid = true → tfind (hashOfAdvertise C a.hop) s.mHashTable = none →
        a.nottlregen = none → advSchedules evs = [(a.hop, a.srcttl)]) ∧
      (groupNode s a.gid = true → tfind (hashOfAdvertise C a.hop) s.mHashTable = none →
        a.nottlregen ≠ none → 0 < a.ttl → advSchedules evs = [(a.hop, a.ttl)]) ∧
      (groupNode s a.gid = false → tfind (hashOfAdvertise C a.hop) s.mHashTable = none →
        0 < a.ttl → advSchedules evs = [(a.hop, a.ttl)]) ∧
      (groupNode s a.gid = false → ∀ m, tfind (hashOfAdvertise C a.hop) s.mHashTable = some m →
        m < a.ttl →
        ∃ info, tfind (GIDKey.mk a.gid a.srcnode) s'.mDistanceTable = some info ∧
          advSchedules evs = [({ a.hop with distance := info.distance }, a.ttl)] ∧
          tfind (hashOfAdvertise C a.hop) s'.mHashTable = some a.ttl) ∧
      (advSchedules evs ≠ [] →
        (groupNode s a.gid = true ∧ tfind (hashOfAdvertise C a.hop) s.mHashTable = none ∧
          (a.nottlregen = none ∨ 0 < a.ttl)) ∨
        (groupNode s a.gid = false ∧ tfind (hashOfAdvertise C a.hop) s.mHashTable = none ∧
          0 < a.ttl) ∨
        (groupNode s a.gid = false ∧
          ∃ m, tfind (hashOfAdvertise C a.hop) s.mHashTable = some m ∧ m < a.ttl)) ∧
      (∀ p ∈ advSchedules evs,
        s'.mAdvTimerTable =
          tset (GIDKey.mk a.gid a.srcnode) p
            (terase (GIDKey.mk a.gid a.srcnode) s.mAdvTimerTable) ∧
        tfind (GIDKey.mk a.gid a.srcnode) s'.mAdvTimerTable = some p ∧
        advTimerExpires s' (GIDKey.mk a.gid a.srcnode) =
          some ({ s' with mAdvTimerTable :=
                    terase (GIDKey.mk a.gid a.srcnode) s'.mAdvTimerTable },
                [forwardToOTAAdvertise s' p.1 p.2])) ∧
      (advSchedules evs = [] → s'.mAdvTimerTable = s.mAdvTimerTable) := by
  obtain ⟨s', evs, hp, c1, c2, c3, c4, c5⟩ := advertise_forwarding_events C now s a ota
  obtain ⟨t1, t2⟩ := processNetworkAdvertise_advTimer C now s a ota (s', evs) hp
  refine ⟨s', evs, hp, c1, c2, c3, c4, c5, ?_, t2⟩
  intro p hmem
  obtain ⟨hg, hs, ht⟩ := t1 p hmem
  have hf : tfind (GIDKey.mk a.gid a.srcnode) s'.mAdvTimerTable = some p := by
    have ht' : s'.mAdvTimerTable = _ := ht
    rw [ht']
    exact tfind_tset_self _ _ _
  exact ⟨ht, hf, advTimerExpires_pending s' (GIDKey.mk a.gid a.srcnode) p hf hg hs⟩

/-- C9. Broadcast DATA forwarding decision of `processNetworkData`, for a frame without
unicast header whose source node is not this node: the handler always returns, and with
`new` = "the hash of the frame is not in Hash" it schedules a forward (a call of
`setDataTimer`) exactly as follows: ACK mode (no `srcttl`), new, and (group participant
with always-rebroadcast, or a remote pull entry for the group): once, ttl argument 1;
flood mode, group participant, new, no `nottlregen` field: once, ttl argument `srcttl`;
flood mode, group participant, new, `nottlregen` present, ttl > 0: once, the received ttl;
flood mode, non-group, new, ttl > 0: once, the received ttl; in these cases the outgoing
frame is the received one with distance plus one (32-bit); flood mode, non-group, hash
present with stored maximum `m < ttl`: once, the received ttl, the outgoing distance being
the distance stored for `(gid, srcnode)` and the stored maximum being `ttl` afterwards;
and whenever a forward is scheduled, one of these is the case. A scheduled forward
`(frame, ttl)` is armed in the data timer table: the table afterwards is the one before
with the entry of the hash of the frame replaced by `(frame, ttl)`, that entry is
pending, and the expiry of this timer removes it and transmits
`forwardToOTAData frame ttl` and nothing else. When nothing is scheduled, the data timer
table is left as it was. -/
theorem broadcast_data_forwarding_decision (C : Codec) (now : Int) (s : GcnService) (d : Data)
    (ota : NodeId) (hu : d.uheader = none) (hsrc : d.srcnode ≠ s.mNodeId) :
    ∃ s' evs, processNetworkData C now s d ota = some (s', evs) ∧
      (d.srcttl = none → tfind (hashOfData C d.hop) s.mHashTable = none →
        ((groupNode s d.gid = true ∧ s.mAlwaysRebroadcast = true) ∨
          mcount d.gid s.mRemotePullTable ≠ 0) →
        dataSchedules evs = [(d.hop, 1)]) ∧
      (∀ st, d.srcttl = some st → groupNode s d.gid = true →
        tfind (hashOfData C d.hop) s.mHashTable = none → d.nottlregen = none →
        dataSchedules evs = [(d.hop, st)]) ∧
      (d.srcttl ≠ none → groupNode s d.gid = true →
        tfind (hashOfData C d.hop) s.mHashTable = none → d.nottlregen ≠ none → 0 < d.ttl →
        dataSchedules evs = [(d.hop, d.ttl)]) ∧
      (d.srcttl ≠ none → groupNode s d.gid = false →
        tfind (hashOfData C d.hop) s.mHashTable = none → 0 < d.ttl →
        dataSchedules evs = [(d.hop, d.ttl)]) ∧
      (d.srcttl ≠ none → groupNode s d.gid = false →
        ∀ m, tfind (hashOfData C d.hop) s.mHashTable = some m → m < d.ttl →
        ∃ info, tfind (GIDKey.mk d.gid d.srcnode) s'.mDistanceTable = some info ∧
          dataSchedules evs = [({ d.hop with distance := info.distance }, d.ttl)] ∧
          tfind (hashOfData C d.hop) s'.mHashTable = some d.ttl) ∧
      (dataSchedules evs ≠ [] →
        (d.srcttl = none ∧ tfind (hashOfData C d.hop) s.mHashTable = none ∧
          ((groupNode s d.gid = true ∧ s.mAlwaysRebroadcast = true) ∨
            mcount d.gid s.mRemotePullTable ≠ 0)) ∨
        (d.srcttl ≠ none ∧ groupNode s d.gid = true ∧
          tfind (hashOfData C d.hop) s.mHashTable = none ∧
          (d.nottlregen = none ∨ 0 < d.ttl)) ∨
        (d.srcttl ≠ none ∧ groupNode s d.gid = false ∧
          tfind (hashOfData C d.hop) s.mHashTable = none ∧ 0 < d.ttl) ∨
        (d.srcttl ≠ none ∧ groupNode s d.gid = false ∧
          ∃ m, tfind (hashOfData C d.hop) s.mHashTable = some m ∧ m < d.ttl)) ∧
      (∀ p ∈ dataSchedules evs,
        s'.mDataTimerTable =
          tset (hashOfData C d.hop) p (terase (hashOfData C d.hop) s.mDataTimerTable) ∧
        tfind (hashOfData C d.hop) s'.mDataTimerTable = some p ∧
        dataTimerExpires s' (hashOfData C d.hop) =
          some ({ s' with mDataTimerTable := terase (hashOfData C d.hop) s'.mDataTimerTable },
                [forwardToOTAData s' p.1 p.2])) ∧
      (dataSchedules evs = [] → s'.mDataTimerTable = s.mDataTimerTable) := by
  obtain ⟨s', evs, hp, c1, c2, c3, c4, c5, c6⟩ :=
    broadcast_data_forwarding_events C now s d ota hu hsrc
  obtain ⟨t1, t2⟩ := processNetworkData_dataTimer C now s d ota (s', evs) hp
  refine ⟨s', evs, hp, c1, c2, c3, c4, c5, c6, ?_, t2⟩
  intro p hmem
  have ht : s'.mDataTimerTable = _ := t1 p hmem
  have hf : tfind (hashOfData C d.hop) s'.mDataTimerTable = some p := by
    rw [ht]
    exact tfind_tset_self _ _ _
  exact ⟨ht, hf, dataTimerExpires_pending s' (hashOfData C d.hop) p hf⟩

/-- C9, witness: the relay with a remote pull entry schedules the ACK-mode frame
`helloFrame` of node 1 once, with ttl argument 1; the forward is pending in the data
timer table under the hash of the frame, and the expiry of the timer transmits it. -/
theorem broadcast_data_forwarding_decision_witness :
    helloFrame.uheader = none ∧ helloFrame.srcnode ≠ relayNode.mNodeId ∧
    ∃ s' evs, processNetworkData fieldCodec 11 relayNode helloFrame 1 = some (s', evs) ∧
      dataSchedules evs = [(helloFrame.hop, 1)] ∧
      tfind (hashOfData fieldCodec helloFrame.hop) s'.mDataTimerTable
        = some (helloFrame.hop, 1) ∧
      dataTimerExpires s' (hashOfData fieldCodec helloFrame.hop) =
        some ({ s' with mDataTimerTable :=
                  terase (hashOfData fieldCodec helloFrame.hop) s'.mDataTimerTable },
              [forwardToOTAData s' helloFrame.hop 1]) := by
  refine ⟨by decide, by decide, ?_⟩
  obtain ⟨s', evs, h, h1, -, -, -, -, -, t1, -⟩ :=
    broadcast_data_forwarding_decision fieldCodec 11 relayNode helloFrame 1 (by decide) (by decide)
  have hs := h1 (by decide) (by decide) (Or.inr (by decide))
  have ht := t1 (helloFrame.hop, 1) (by rw [hs]; exact List.mem_singleton.mpr rfl)
  exact ⟨s', evs, h, hs, ht.2.1, ht.2.2⟩

/-- C10. Unicast DATA forwarding decision of `processNetworkData`, for a frame with a
unicast header: the handler always returns. With `myDistance` the distance stored for
`(gid, unicastdest)` at the time of the decision (0 when absent; the entry is the one
the node had before the call whenever `srcnode ≠ unicastdest`): when the frame is new
to the hash and the destination is not this node, a forward is scheduled (a call of
`setDataTimer`) iff `0 < myDistance ≤ relaydistance` and one of: ACK mode and (group
participant with always-rebroadcast, or a remote pull entry for the group); flood mode
with ttl > 0 and (non-group or `nottlregen` present); flood mode and group participant.
A forward is scheduled once, with outgoing relay distance `myDistance - 1` and ttl
argument 1 (ACK mode), the received ttl (second case) or `srcttl` (third case). When the
frame is not new or the destination is this node, nothing is scheduled. A scheduled
forward `(frame, ttl)` is armed in the data timer table: the table afterwards is the one
before with the entry of the hash of the frame replaced by `(frame, ttl)`, that entry is
pending, and the expiry of this timer removes it and transmits
`forwardToOTAData frame ttl` and nothing else. When nothing is scheduled, the data timer
table is left as it was. -/
theorem unicast_data_forwarding_decision (C : Codec) (now : Int) (s : GcnService) (d : Data)
    (ota : NodeId) (uh : UnicastHeader) (hu : d.uheader = some uh) :
    ∃ s' evs, processNetworkData C now s d ota = some (s', evs) ∧
      (tfind (hashOfData C d.hop) s.mHashTable = none → uh.unicastdest ≠ s.mNodeId →
        (dataSchedules evs ≠ [] ↔
          0 < storedDistance s'.mDistanceTable (GIDKey.mk d.gid uh.unicastdest) ∧
          storedDistance s'.mDistanceTable (GIDKey.mk d.gid uh.unicastdest) ≤ uh.relaydistance ∧
          ((d.srcttl = none ∧ ((groupNode s d.gid = true ∧ s.mAlwaysRebroadcast = true) ∨
              mcount d.gid s.mRemotePullTable ≠ 0)) ∨
           (d.srcttl ≠ none ∧ 0 < d.ttl ∧ (groupNode s d.gid = false ∨ d.nottlregen ≠ none)) ∨
           (d.srcttl ≠ none ∧ groupNode s d.gid = true))) ∧
        (dataSchedules evs ≠ [] →
          dataSchedules evs =
            [(d.hop.withRelayDistance uh
                (storedDistance s'.mDistanceTable (GIDKey.mk d.gid uh.unicastdest) - 1),
              if d.srcttl = none then 1
              else if 0 < d.ttl ∧ (groupNode s d.gid = false ∨ d.nottlregen ≠ none) then d.ttl
              else d.srcttl.getD 0)])) ∧
      (tfind (hashOfData C d.hop) s.mHashTable ≠ none ∨ uh.unicastdest = s.mNodeId →
        dataSchedules evs = []) ∧
      (d.srcnode ≠ uh.unicastdest →
        storedDistance s'.mDistanceTable (GIDKey.mk d.gid uh.unicastdest) =
          storedDistance s.mDistanceTable (GIDKey.mk d.gid uh.unicastdest)) ∧
      (∀ p ∈ dataSchedules evs,
        s'.mDataTimerTable =
          tset (hashOfData C d.hop) p (terase (hashOfData C d.hop) s.mDataTimerTable) ∧
        tfind (hashOfData C d.hop) s'.mDataTimerTable = some p ∧
        dataTimerExpires s' (hashOfData C d.hop) =
          some ({ s' with mDataTimerTable := terase (hashOfData C d.hop) s'.mDataTimerTable },
                [forwardToOTAData s' p.1 p.2])) ∧
      (dataSchedules evs = [] → s'.mDataTimerTable = s.mDataTimerTable) := by
  obtain ⟨s', evs, hp, c1, c2, c3⟩ := unicast_data_forwarding_events C now s d ota uh hu
  obtain ⟨t1, t2⟩ := processNetworkData_dataTimer C now s d ota (s', evs) hp
  refine ⟨s', evs, hp, c1, c2, c3, ?_, t2⟩
  intro p hmem
  have ht : s'.mDataTimerTable = _ := t1 p hmem
  have hf : tfind (hashOfData C d.hop) s'.mDataTimerTable = some p := by
    rw [ht]
    exact tfind_tset_self _ _ _
  exact ⟨ht, hf, dataTimerExpires_pending s' (hashOfData C d.hop) p hf⟩

/-- C10, witness: the relay at distance 1 from the destination schedules the unicast
frame `replyWire` (relay distance 1) once, with outgoing relay distance 0 and ttl
argument 1; the forward is pending in the data timer table under the hash of the frame,
and the expiry of the timer transmits it. -/
theorem unicast_data_forwarding_decision_witness :
    replyWire.uheader = some { unicastdest := 1, relaydistance := 1, resilience := none } ∧
    ∃ s' evs, processNetworkData fieldCodec 11 relayNode replyWire 3 = some (s', evs) ∧
      dataSchedules evs =
        [(replyWire.hop.withRelayDistance
            { unicastdest := 1, relaydistance := 1, resilience := none } 0, 1)] ∧
      tfind (hashOfData fieldCodec replyWire.hop) s'.mDataTimerTable =
        some (replyWire.hop.withRelayDistance
            { unicastdest := 1, relaydistance := 1, resilience := none } 0, 1) ∧
      dataTimerExpires s' (hashOfData fieldCodec replyWire.hop) =
        some ({ s' with mDataTimerTable :=
                  terase (hashOfData fieldCodec replyWire.hop) s'.mDataTimerTable },
              [forwardToOTAData s'
                (replyWire.hop.withRelayDistance
                  { unicastdest := 1, relaydistance := 1, resilience := none } 0) 1]) := by
  refine ⟨by decide, ?_⟩
  obtain ⟨s', evs, h, h1, -, h3, t1, -⟩ :=
    unicast_data_forwarding_decision fieldCodec 11 relayNode replyWire 3
      { unicastdest := 1, relaydistance := 1, resilience := none } (by decide)
  have hd := h3 (by decide)
  have h2 := h1 (by decide) (by decide)
  rw [hd] at h2
  have hne : dataSchedules evs ≠ [] :=
    h2.1.2 ⟨by decide, by decide, Or.inl ⟨by decide, Or.inr (by decide)⟩⟩
  have hs : dataSchedules evs =
      [(replyWire.hop.withRelayDistance
          { unicastdest := 1, relaydistance := 1, resilience := none } 0, 1)] := by
    rw [h2.2 hne]
    decide
  have ht := t1 _ (by rw [hs]; exact List.mem_singleton.mpr rfl)
  exact ⟨s', evs, h, hs, ht.2.1, ht.2.2⟩

end GCN
